import Mathlib

/-! Host-key verification of the ssh client (`sshconnect.c`).

A shallow embedding of `confirm`, `show_key_from_file`, `show_other_keys`,
`warn_changed_key` and `check_host_key` from `sshconnect.c`, with explicit
state passing.

* The global `options` record, the static `matching_host_key_dns`, the answers
  still to be typed on the controlling terminal and the log of externally
  visible actions form the state `St`.
* Functions that live in other translation units (`hostfile.c`, `key.c`,
  `misc.c`, libc) are fields of the environment `Env`; every theorem
  quantifies over all environments.  The lookups and the insertion are given
  the log so far, so their answers may depend on earlier insertions.
* `fatal` never returns in C; here it is the outcome `Outcome.fatal`.
* `check_host_key` calls itself once (line 765).  The embedding recurses on a
  depth bound; `check_host_key_fuel_stable` shows that depth two always gives
  a result and that a larger bound gives the same one.
* Strings are sequences of characters; `snprintf` and `%.Ns` cut by
  characters.  Messages are logged in full as events `logit`, `error`, `debug`.
-/

namespace SshConnect

/-! ## Data model -/

/-- Result of a known-hosts lookup (`HostStatus` of `hostfile.h`). -/
inductive HostStatus where
  | HOST_OK
  | HOST_NEW
  | HOST_CHANGED
  | HOST_FOUND
deriving DecidableEq, Repr

/-- A public key: its type tag and its key material. -/
structure Key where
  type : Int
  blob : List Nat
deriving DecidableEq, Repr

/-- The part of `struct sockaddr` read by `check_host_key`: the address family
and, per family, the address (`inet a`: `a` is `ntohl(sin_addr.s_addr)`;
`inet6`: the four 32-bit words of `sin6_addr` in host order). -/
inductive SockAddr where
  | inet (addr : Nat)
  | inet6 (w0 w1 w2 w3 : Nat)
  | other
deriving DecidableEq, Repr

/-- The fields of the global `Options` record that host-key verification
reads or writes.  C `int` flags are `Int` (non-zero is true); the two forward
counters count array entries and are `Nat`; optional strings are `Option`. -/
structure Options where
  port : Nat
  protocol : Nat
  batch_mode : Int
  check_host_ip : Int
  strict_host_key_checking : Int
  verify_host_key_dns : Int
  hash_known_hosts : Int
  visual_host_key : Int
  no_host_authentication_for_localhost : Int
  host_key_alias : Option String
  proxy_command : Option String
  password_authentication : Int
  kbd_interactive_authentication : Int
  challenge_response_authentication : Int
  forward_agent : Int
  forward_x11 : Int
  num_local_forwards : Nat
  num_remote_forwards : Nat
  tun_open : Int
  exit_on_forward_failure : Int
  user_hostfile : String
  system_hostfile : String
  user_hostfile2 : String
  system_hostfile2 : String
deriving DecidableEq, Repr

/-- Externally visible actions, in the order the code performs them. -/
inductive Event where
  /-- A call `check_host_in_hostfile(file, host, ...)`. -/
  | probe (file host : String)
  /-- A call `lookup_key_in_hostfile_by_type(file, host, keytype, ...)`. -/
  | lookup_type (file host : String) (keytype : Int)
  /-- A call `add_host_to_hostfile(file, host, key, hash)`. -/
  | add (file host : String) (key : Key) (hash : Int)
  /-- A call `read_passphrase(msg, RP_ECHO)`: the user is asked `msg`. -/
  | prompt (msg : String)
  | logit (msg : String)
  | error (msg : String)
  | debug (msg : String)
deriving DecidableEq, Repr

/-- Program state threaded through the verifier. `tty` holds the answers the
terminal will deliver to the successive `read_passphrase` calls (`none` is a
`NULL` result); once it is exhausted every further read fails. -/
structure St where
  options : Options
  matching_host_key_dns : Int
  tty : List (Option String)
  trace : List Event
deriving DecidableEq, Repr

/-- How a call ends: `return r`, or `fatal(msg)` which exits the process. -/
inductive Outcome where
  | ret (r : Int)
  | fatal (msg : String)
deriving DecidableEq, Repr

/-- The functions `check_host_key` calls that are defined outside
`sshconnect.c`.  The lookups and the insertion receive the log so far, so
their answers may depend on everything written to the files earlier. -/
structure Env where
  /-- The `put_host_port(host, port)` of `misc.c`. -/
  put_host_port : String → Nat → String
  /-- The `getnameinfo(..., NI_NUMERICHOST)` of libc: the printed address, `none` on failure. -/
  getnameinfo : SockAddr → Option String
  /-- The `check_host_in_hostfile(file, host, key, found, &line)` of `hostfile.c`:
  status, new contents of `found`, new contents of `line`. -/
  check_host_in_hostfile :
    List Event → String → String → Key → Key → Int → HostStatus × Key × Int
  /-- The `lookup_key_in_hostfile_by_type(file, host, keytype, found, &line)`:
  result, new contents of `found`, new contents of `line`. -/
  lookup_key_in_hostfile_by_type :
    List Event → String → String → Int → Key → Int → Int × Key × Int
  /-- The `add_host_to_hostfile(file, host, key, hash)`: non-zero on success. -/
  add_host_to_hostfile : List Event → String → String → Key → Int → Int
  key_equal : Key → Key → Int
  key_type : Key → String
  /-- The `key_fingerprint(key, SSH_FP_MD5, rep)`; `rep = false` is `SSH_FP_HEX`,
  `rep = true` is `SSH_FP_RANDOMART`. -/
  key_fingerprint : Key → Bool → String
  KEY_RSA1 : Int
  KEY_RSA : Int
  KEY_DSA : Int

def RDRW : Int := 0
def RDONLY : Int := 1
def ROQUIET : Int := 2

/-- Default port of the protocol (`ssh.h`). -/
def SSH_DEFAULT_PORT : Nat := 22

/-- Tunnel mode "off" (`misc.h`). -/
def SSH_TUNMODE_NO : Int := 0

/-- Class-A loopback network number (`netinet/in.h`). -/
def IN_LOOPBACKNET : Nat := 127

/-- Modelled from the spec: `put_host_port` of `misc.c` is not among the
sources; the name is `hostname` for the default port (and for port 0, which
`check_host_key` passes to obtain the bare name), `[hostname]:port` otherwise. -/
def put_host_port (host : String) (port : Nat) : String :=
  if port = 0 ∨ port = SSH_DEFAULT_PORT then host
  else "[" ++ host ++ "]:" ++ toString port

/-- The `key_new(type)`: a key of the given type without material. -/
def key_new (type : Int) : Key := { type := type, blob := [] }

/-! ## Logging and the wrapped external calls -/

def St.emit (s : St) (e : Event) : St := { s with trace := s.trace ++ [e] }

def logit (s : St) (msg : String) : St := s.emit (.logit msg)

def error (s : St) (msg : String) : St := s.emit (.error msg)

def debug (s : St) (msg : String) : St := s.emit (.debug msg)

def check_host_in_hostfile (E : Env) (s : St) (file host : String) (key found : Key)
    (line : Int) : (HostStatus × Key × Int) × St :=
  (E.check_host_in_hostfile s.trace file host key found line, s.emit (.probe file host))

def lookup_key_in_hostfile_by_type (E : Env) (s : St) (file host : String)
    (keytype : Int) (found : Key) (line : Int) : (Int × Key × Int) × St :=
  (E.lookup_key_in_hostfile_by_type s.trace file host keytype found line,
    s.emit (.lookup_type file host keytype))

def add_host_to_hostfile (E : Env) (s : St) (file host : String) (key : Key)
    (hash : Int) : Int × St :=
  (E.add_host_to_hostfile s.trace file host key hash, s.emit (.add file host key hash))

/-! ## `confirm` -/

/-- The test `strncasecmp(p, w, n) == 0` on NUL-free strings: the first `n`
characters of both agree up to ASCII case. -/
def strncasecmp_eq0 (p w : String) (n : Nat) : Bool :=
  (p.toList.take n).map Char.toLower == (w.toList.take n).map Char.toLower

/-- One pass of the body of the `for` loop of `confirm` on the answer `p`:
the value of `ret` after the two `if`s, starting from `ret = -1`. -/
def confirm_answer (p : Option String) : Int :=
  let ret : Int :=
    match p with
    | none => 0
    | some a =>
      if a.toList.head? = none ∨ a.toList.head? = some '\n' ∨ strncasecmp_eq0 a "no" 2 = true
      then 0 else -1
  match p with
  | some a => if strncasecmp_eq0 a "yes" 3 = true then 1 else ret
  | none => ret

/-- The `for (msg = prompt;; msg = again)` loop of `confirm`, by recursion on
the pending terminal answers.  Each pass is one `read_passphrase(msg, RP_ECHO)`:
it shows `msg` and takes the next answer; on an exhausted terminal the read
returns `NULL`. -/
def confirm_loop (msg again : String) : List (Option String) → List Event →
    Int × List (Option String) × List Event
  | [], tr => (confirm_answer none, [], tr ++ [.prompt msg])
  | p :: rest, tr =>
    if confirm_answer p ≠ -1 then (confirm_answer p, rest, tr ++ [.prompt msg])
    else confirm_loop again again rest (tr ++ [.prompt msg])

/-- The `confirm(prompt)`: defaults to no. -/
def confirm (s : St) (prompt : String) : Int × St :=
  if s.options.batch_mode ≠ 0 then (0, s)
  else
    let r := confirm_loop prompt "Please type 'yes' or 'no': " s.tty s.trace
    (r.1, { s with tty := r.2.1, trace := r.2.2 })

/-! ## Helpers of `check_host_key` -/

/-- Effect of a `%.Ns` conversion: at most `n` characters of `s`. -/
def prec (n : Nat) (s : String) : String := String.mk (s.toList.take n)

/-- Effect of `snprintf(buf, size, ...)` on the formatted text `s`: at most
`size - 1` characters are stored. -/
def snprintf (size : Nat) (s : String) : String := String.mk (s.toList.take (size - 1))

/-- The `show_key_from_file(file, host, keytype)`. -/
def show_key_from_file (E : Env) (s : St) (file host : String) (keytype : Int) : Int × St :=
  let r := lookup_key_in_hostfile_by_type E s file host keytype (key_new keytype) 0
  let found := r.1.2.1
  if r.1.1 ≠ 0 then
    (r.1.1, logit r.2 ("WARNING: " ++ E.key_type found ++ " key found for host " ++ host ++
      "\nin " ++ file ++ ":" ++ toString r.1.2.2 ++ "\n" ++ E.key_type found ++
      " key fingerprint " ++ E.key_fingerprint found false ++ ".\n" ++
      E.key_fingerprint found true ++ "\n"))
  else (r.1.1, r.2)

/-- One pass of the body of the `for` loop of `show_other_keys` for the key
type `t` (after the `continue` for the type of the presented key): look in
the four files in order and stop at the first that has a key.  Returns
whether `found = 1` was executed. -/
def show_other_keys_type (E : Env) (host : String) (t : Int) (s : St) : Int × St :=
  let a := if t ≠ E.KEY_RSA1 then show_key_from_file E s s.options.user_hostfile2 host t
    else (0, s)
  if a.1 ≠ 0 then (1, a.2)
  else
    let b := if t ≠ E.KEY_RSA1 then
        show_key_from_file E a.2 a.2.options.system_hostfile2 host t
      else (0, a.2)
    if b.1 ≠ 0 then (1, b.2)
    else
      let c := show_key_from_file E b.2 b.2.options.user_hostfile host t
      if c.1 ≠ 0 then (1, c.2)
      else
        let d := show_key_from_file E c.2 c.2.options.system_hostfile host t
        if d.1 ≠ 0 then (1, d.2)
        else (0, debug d.2 ("no key of type " ++ toString t ++ " for host " ++ host))

/-- The `for (i = 0; type[i] != -1; i++)` loop of `show_other_keys` over the
remaining entries of `type[]`; `found` is the flag accumulated so far. -/
def show_other_keys_loop (E : Env) (host : String) (key : Key) :
    List Int → Int → St → Int × St
  | [], found, s => (found, s)
  | t :: ts, found, s =>
    if t = -1 then (found, s)
    else if t = key.type then show_other_keys_loop E host key ts found s
    else
      let r := show_other_keys_type E host t s
      show_other_keys_loop E host key ts (if r.1 ≠ 0 then 1 else found) r.2

/-- The `show_other_keys(host, key)`: print all known host keys for a given
host, but skip keys of given type. -/
def show_other_keys (E : Env) (s : St) (host : String) (key : Key) : Int × St :=
  show_other_keys_loop E host key [E.KEY_RSA1, E.KEY_RSA, E.KEY_DSA, -1] 0 s

/-- The `warn_changed_key(host_key)`. -/
def warn_changed_key (E : Env) (s : St) (host_key : Key) : St :=
  let type := E.key_type host_key
  let fp := E.key_fingerprint host_key false
  let s := error s "@@@@@@@@@@@@@@@@@@@@@@@@@@@@@@@@@@@@@@@@@@@@@@@@@@@@@@@@@@@"
  let s := error s "@    WARNING: REMOTE HOST IDENTIFICATION HAS CHANGED!     @"
  let s := error s "@@@@@@@@@@@@@@@@@@@@@@@@@@@@@@@@@@@@@@@@@@@@@@@@@@@@@@@@@@@"
  let s := error s "IT IS POSSIBLE THAT SOMEONE IS DOING SOMETHING NASTY!"
  let s := error s
    "Someone could be eavesdropping on you right now (man-in-the-middle attack)!"
  let s := error s
    ("It is also possible that the " ++ type ++ " host key has just been changed.")
  let s := error s
    ("The fingerprint for the " ++ type ++ " key sent by the remote host is\n" ++ fp ++ ".")
  error s "Please contact your system administrator."

/-- The local variables of `check_host_key` that are live at the `switch`. -/
structure Locals where
  type : String
  ip : String
  host : String
  host_status : HostStatus
  ip_status : HostStatus
  host_ip_differ : Int
  host_line : Int
  ip_line : Int
  host_file : String
  ip_file : Option String
deriving DecidableEq, Repr

/-- Text printed for a `const char *` under `%s`. -/
def showp : Option String → String
  | some f => f
  | none => "(null)"

/-- How a `case` of the `switch` is left: `break`, `goto fail`, or `fatal`. -/
inductive Ctl where
  | brk (s : St)
  | fail (s : St)
  | fatal (msg : String) (s : St)
deriving DecidableEq, Repr

/-- The state in which a `case` is left. -/
def Ctl.st : Ctl → St
  | .brk s => s
  | .fail s => s
  | .fatal _ s => s

/-- The `local` flag: is the address a loopback address (lines 632-647). -/
def is_local : SockAddr → Bool
  | .inet a => decide ((a % 2 ^ 32) / 2 ^ 24 = IN_LOOPBACKNET)
  | .inet6 w0 w1 w2 w3 => decide (w0 = 0 ∧ w1 = 0 ∧ w2 = 0 ∧ w3 = 1)
  | .other => false

/-- The pattern of lines 699-706 and 714-721: look the name up in the user
file and, only if that answers `HOST_NEW`, in the system file.  Returns the
file consulted last, the status, the key found and the line. -/
def lookup_user_then_system (E : Env) (s : St) (user_hostfile system_hostfile name : String)
    (host_key found : Key) (line : Int) : (String × HostStatus × Key × Int) × St :=
  let u := check_host_in_hostfile E s user_hostfile name host_key found line
  if u.1.1 = .HOST_NEW then
    let y := check_host_in_hostfile E u.2 system_hostfile name host_key u.1.2.1 u.1.2.2
    ((system_hostfile, y.1.1, y.1.2.1, y.1.2.2), y.2)
  else ((user_hostfile, u.1.1, u.1.2.1, u.1.2.2), u.2)

/-- Lines 695-730: the lookups for the host name and, when `check_host_ip` is
on, for the address; produces the locals used by the `switch`. -/
def probe_stores (E : Env) (s : St) (host ip : String) (host_key : Key)
    (user_hostfile system_hostfile : String) : Locals × St :=
  let h := lookup_user_then_system E s user_hostfile system_hostfile host host_key
    (key_new host_key.type) 0
  let host_status := h.1.2.1
  let file_key := h.1.2.2.1
  if h.2.options.check_host_ip ≠ 0 then
    let i := lookup_user_then_system E h.2 user_hostfile system_hostfile ip host_key
      (key_new host_key.type) 0
    let ip_status := i.1.2.1
    let ip_key := i.1.2.2.1
    ({ type := E.key_type host_key, ip := ip, host := host,
       host_status := host_status, ip_status := ip_status,
       host_ip_differ :=
         if host_status = .HOST_CHANGED ∧
            (ip_status ≠ .HOST_CHANGED ∨ E.key_equal ip_key file_key = 0) then 1 else 0,
       host_line := h.1.2.2.2, ip_line := i.1.2.2.2,
       host_file := h.1.1, ip_file := some i.1.1 }, i.2)
  else
    ({ type := E.key_type host_key, ip := ip, host := host,
       host_status := host_status, ip_status := host_status,
       host_ip_differ := 0,
       host_line := h.1.2.2.2, ip_line := 0,
       host_file := h.1.1, ip_file := none }, h.2)

/-- Lines 733-760, `case HOST_OK`. -/
def case_HOST_OK (E : Env) (L : Locals) (host_key : Key) (readonly : Int)
    (user_hostfile : String) (s : St) : St :=
  let s := debug s ("Host '" ++ prec 200 L.host ++ "' is known and matches the " ++
    L.type ++ " host key.")
  let s := debug s ("Found key in " ++ L.host_file ++ ":" ++ toString L.host_line)
  if s.options.check_host_ip ≠ 0 ∧ L.ip_status = .HOST_NEW then
    if readonly ≠ 0 then
      logit s (L.type ++ " host key for IP address '" ++ prec 128 L.ip ++
        "' not in list of known hosts.")
    else
      let r := add_host_to_hostfile E s user_hostfile L.ip host_key s.options.hash_known_hosts
      if r.1 = 0 then
        logit r.2 ("Failed to add the " ++ L.type ++ " host key for IP address '" ++
          prec 128 L.ip ++ "' to the list of known hosts (" ++ prec 30 user_hostfile ++ ").")
      else
        logit r.2 ("Warning: Permanently added the " ++ L.type ++
          " host key for IP address '" ++ prec 128 L.ip ++ "' to the list of known hosts.")
  else if s.options.visual_host_key ≠ 0 then
    logit s ("Host key fingerprint is " ++ E.key_fingerprint host_key false ++ "\n" ++
      E.key_fingerprint host_key true ++ "\n")
  else s

/-- Lines 784-819: the question asked for a new host in ask mode; returns the
answer of `confirm`. -/
def new_host_prompt (E : Env) (L : Locals) (host_key : Key) (s : St) : Int × St :=
  let o := show_other_keys E s L.host host_key
  let msg1 := if o.1 ≠ 0 then
      snprintf 1024 "\nbut keys of different type are already known for this host."
    else snprintf 1024 "."
  let fp := E.key_fingerprint host_key false
  let ra := E.key_fingerprint host_key true
  let msg2 := if o.2.options.verify_host_key_dns ≠ 0 then
      (if o.2.matching_host_key_dns ≠ 0 then
        snprintf 1024 "Matching host key fingerprint found in DNS.\n"
      else snprintf 1024 "No matching host key fingerprint found in DNS.\n")
    else ""
  let msg := snprintf 1024 ("The authenticity of host '" ++ prec 200 L.host ++ " (" ++ L.ip ++
    ")' can't be established" ++ msg1 ++ "\n" ++ L.type ++ " key fingerprint is " ++ fp ++ "." ++
    (if o.2.options.visual_host_key ≠ 0 then "\n" else "") ++
    (if o.2.options.visual_host_key ≠ 0 then ra else "") ++ "\n" ++ msg2 ++
    "Are you sure you want to continue connecting (yes/no)? ")
  confirm o.2 msg

/-- Lines 848-853: report the result `r` of the insertion. -/
def new_host_report (L : Locals) (user_hostfile hostp : String) (r : Int) (s : St) : St :=
  if r = 0 then
    logit s ("Failed to add the host to the list of known hosts (" ++
      prec 500 user_hostfile ++ ").")
  else
    logit s ("Warning: Permanently added '" ++ prec 200 hostp ++ "' (" ++ L.type ++
      ") to the list of known hosts.")

/-- Lines 822-853: add the key to the user's known-hosts file. -/
def new_host_insert (E : Env) (L : Locals) (host_key : Key) (user_hostfile : String)
    (s : St) : St :=
  if s.options.check_host_ip ≠ 0 ∧ L.ip_status = .HOST_NEW then
    let hostline := snprintf 1000 (L.host ++ "," ++ L.ip)
    if s.options.hash_known_hosts ≠ 0 then
      let a := add_host_to_hostfile E s user_hostfile L.host host_key s.options.hash_known_hosts
      if a.1 ≠ 0 then
        let b := add_host_to_hostfile E a.2 user_hostfile L.ip host_key
          a.2.options.hash_known_hosts
        new_host_report L user_hostfile hostline (if b.1 ≠ 0 then 1 else 0) b.2
      else new_host_report L user_hostfile hostline 0 a.2
    else
      let a := add_host_to_hostfile E s user_hostfile hostline host_key
        s.options.hash_known_hosts
      new_host_report L user_hostfile hostline a.1 a.2
  else
    let a := add_host_to_hostfile E s user_hostfile L.host host_key s.options.hash_known_hosts
    new_host_report L user_hostfile L.host a.1 a.2

/-- Lines 771-854, `case HOST_NEW` after the retry without port. -/
def case_HOST_NEW (E : Env) (L : Locals) (host_key : Key) (readonly : Int)
    (user_hostfile : String) (s : St) : Ctl :=
  if readonly ≠ 0 then .fail s
  else if s.options.strict_host_key_checking = 1 then
    .fail (error s ("No " ++ L.type ++ " host key is known for " ++ prec 200 L.host ++
      " and you have requested strict checking."))
  else if s.options.strict_host_key_checking = 2 then
    let c := new_host_prompt E L host_key s
    if c.1 = 0 then .fail c.2
    else .brk (new_host_insert E L host_key user_hostfile c.2)
  else .brk (new_host_insert E L host_key user_hostfile s)

/-- Lines 858-876: the DNS-spoofing banner. -/
def warn_dns_spoofing (L : Locals) (s : St) : St :=
  if s.options.check_host_ip ≠ 0 ∧ L.host_ip_differ ≠ 0 then
    let key_msg := if L.ip_status = .HOST_NEW then "is unknown"
      else if L.ip_status = .HOST_OK then "is unchanged"
      else "has a different value"
    let s := error s "@@@@@@@@@@@@@@@@@@@@@@@@@@@@@@@@@@@@@@@@@@@@@@@@@@@@@@@@@@@"
    let s := error s "@       WARNING: POSSIBLE DNS SPOOFING DETECTED!          @"
    let s := error s "@@@@@@@@@@@@@@@@@@@@@@@@@@@@@@@@@@@@@@@@@@@@@@@@@@@@@@@@@@@"
    let s := error s ("The " ++ L.type ++ " host key for " ++ L.host ++ " has changed,")
    let s := error s ("and the key for the corresponding IP address " ++ L.ip)
    let s := error s (key_msg ++ ". This could either mean that")
    let s := error s "DNS SPOOFING is happening or the IP address for the host"
    let s := error s "and its host key have changed at the same time."
    if L.ip_status ≠ .HOST_NEW then
      error s ("Offending key for IP in " ++ showp L.ip_file ++ ":" ++ toString L.ip_line)
    else s
  else s

/-- Lines 898-903; the first component is `cancelled_forwarding`. -/
def disable_password (r : Int × St) : Int × St :=
  if r.2.options.password_authentication ≠ 0 then
    (1, { error r.2 "Password authentication is disabled to avoid man-in-the-middle attacks."
          with options := { r.2.options with password_authentication := 0 } })
  else r

/-- Lines 904-910. -/
def disable_kbd_interactive (r : Int × St) : Int × St :=
  if r.2.options.kbd_interactive_authentication ≠ 0 then
    (1, { error r.2
            "Keyboard-interactive authentication is disabled to avoid man-in-the-middle attacks."
          with options := { r.2.options with kbd_interactive_authentication := 0,
                                             challenge_response_authentication := 0 } })
  else r

/-- Lines 911-916. -/
def disable_challenge_response (r : Int × St) : Int × St :=
  if r.2.options.challenge_response_authentication ≠ 0 then
    (1, { error r.2
            "Challenge/response authentication is disabled to avoid man-in-the-middle attacks."
          with options := { r.2.options with challenge_response_authentication := 0 } })
  else r

/-- Lines 917-922. -/
def disable_forward_agent (r : Int × St) : Int × St :=
  if r.2.options.forward_agent ≠ 0 then
    (1, { error r.2 "Agent forwarding is disabled to avoid man-in-the-middle attacks."
          with options := { r.2.options with forward_agent := 0 } })
  else r

/-- Lines 923-928. -/
def disable_forward_x11 (r : Int × St) : Int × St :=
  if r.2.options.forward_x11 ≠ 0 then
    (1, { error r.2 "X11 forwarding is disabled to avoid man-in-the-middle attacks."
          with options := { r.2.options with forward_x11 := 0 } })
  else r

/-- Lines 929-936. -/
def disable_port_forwards (r : Int × St) : Int × St :=
  if r.2.options.num_local_forwards > 0 ∨ r.2.options.num_remote_forwards > 0 then
    (1, { error r.2 "Port forwarding is disabled to avoid man-in-the-middle attacks."
          with options := { r.2.options with num_local_forwards := 0,
                                             num_remote_forwards := 0 } })
  else r

/-- Lines 937-942. -/
def disable_tun (r : Int × St) : Int × St :=
  if r.2.options.tun_open ≠ SSH_TUNMODE_NO then
    (1, { error r.2 "Tunnel forwarding is disabled to avoid man-in-the-middle attacks."
          with options := { r.2.options with tun_open := SSH_TUNMODE_NO } })
  else r

/-- Lines 898-942: switch off every authentication method and forwarding that
a man in the middle could abuse, in the order of the source.  Returns
`cancelled_forwarding` (initially 0) and the state. -/
def disable_mitm_features (s : St) : Int × St :=
  disable_tun (disable_port_forwards (disable_forward_x11 (disable_forward_agent
    (disable_challenge_response (disable_kbd_interactive (disable_password (0, s)))))))

/-- Lines 855-954, `case HOST_CHANGED`. -/
def case_HOST_CHANGED (E : Env) (L : Locals) (host_key : Key) (readonly : Int)
    (user_hostfile : String) (s : St) : Ctl :=
  if readonly = ROQUIET then .fail s
  else
    let s := warn_dns_spoofing L s
    let s := warn_changed_key E s host_key
    let s := error s ("Add correct host key in " ++ prec 100 user_hostfile ++
      " to get rid of this message.")
    let s := error s ("Offending key in " ++ L.host_file ++ ":" ++ toString L.host_line)
    if s.options.strict_host_key_checking ≠ 0 then
      .fail (error s (L.type ++ " host key for " ++ prec 200 L.host ++
        " has changed and you have requested strict checking."))
    else
      let d := disable_mitm_features s
      if d.2.options.exit_on_forward_failure ≠ 0 ∧ d.1 ≠ 0 then
        .fatal "Error: forwarding disabled due to host key check failure" d.2
      else .brk d.2

/-- Lines 962-972: the text of the host/IP mismatch warning. -/
def ip_mismatch_msg (L : Locals) : String :=
  let msg := snprintf 1024 ("Warning: the " ++ L.type ++ " host key for '" ++
    prec 200 L.host ++ "' differs from the key for the IP address '" ++ prec 128 L.ip ++
    "'\nOffending key for IP in " ++ showp L.ip_file ++ ":" ++ toString L.ip_line)
  if L.host_status = .HOST_OK then
    snprintf 1024 (msg ++ "\nMatching host key in " ++ L.host_file ++ ":" ++
      toString L.host_line)
  else msg

/-- Lines 960-995: the host/IP mismatch check after the `switch`, and the two
exits of the function. -/
def post_check (L : Locals) (s : St) : Outcome × St :=
  if s.options.check_host_ip ≠ 0 ∧ L.host_status ≠ .HOST_CHANGED ∧
      L.ip_status = .HOST_CHANGED then
    if s.options.strict_host_key_checking = 1 then
      (.ret (-1), error (logit s (ip_mismatch_msg L))
        "Exiting, you have requested strict checking.")
    else if s.options.strict_host_key_checking = 2 then
      let c := confirm s (snprintf 1024 (ip_mismatch_msg L ++
        "\nAre you sure you want to continue connecting (yes/no)? "))
      if c.1 = 0 then (.ret (-1), c.2) else (.ret 0, c.2)
    else (.ret 0, logit s (ip_mismatch_msg L))
  else (.ret 0, s)

/-- Leave the `switch`: on `break` run the post-check, on `goto fail` return
-1, on `fatal` exit. -/
def leave_switch (L : Locals) : Ctl → Outcome × St
  | .brk s => post_check L s
  | .fail s => (.ret (-1), s)
  | .fatal msg s => (.fatal msg, s)

/-- Lines 655-666: the printed address of the peer, `none` when `getnameinfo`
fails. -/
def host_ip (E : Env) (s : St) (hostaddr : SockAddr) (port : Nat) : Option String :=
  if s.options.proxy_command = none then
    match E.getnameinfo hostaddr with
    | some ntop => some (E.put_host_port ntop port)
    | none => none
  else some "<no hostip for proxy command>"

/-- Lines 672-674: turn off `check_host_ip` for localhost, for a host name that
is the address itself and under a proxy command. -/
def adjust_check_host_ip (s : St) (is_loopback : Bool) (hostname ip : String) : St :=
  if s.options.check_host_ip ≠ 0 ∧
      (is_loopback = true ∨ hostname = ip ∨ s.options.proxy_command ≠ none) then
    { s with options := { s.options with check_host_ip := 0 } }
  else s

/-- Lines 682-687: the name under which the key is stored. -/
def host_name (E : Env) (s : St) (hostname : String) (port : Nat) : String × St :=
  match s.options.host_key_alias with
  | some a => (a, debug s ("using hostkeyalias: " ++ a))
  | none => (E.put_host_port hostname port, s)

/-- The test of line 648: host authentication is forced to succeed for
loopback addresses. -/
def localhost_bypass (s : St) (hostaddr : SockAddr) : Prop :=
  s.options.no_host_authentication_for_localhost = 1 ∧ is_local hostaddr = true ∧
    s.options.host_key_alias = none

instance (s : St) (hostaddr : SockAddr) : Decidable (localhost_bypass s hostaddr) := by
  unfold localhost_bypass; infer_instance

/-- Lines 655-730: everything between the loopback test and the `switch`;
`none` when `getnameinfo` fails. -/
def switch_entry (E : Env) (hostname : String) (hostaddr : SockAddr) (port : Nat)
    (host_key : Key) (user_hostfile system_hostfile : String) (s : St) :
    Option (Locals × St) :=
  match host_ip E s hostaddr port with
  | none => none
  | some ip =>
    let s := adjust_check_host_ip s (is_local hostaddr) hostname ip
    let hn := host_name E s hostname port
    some (probe_stores E hn.2 hn.1 ip host_key user_hostfile system_hostfile)

/-- The test of lines 762-763: the key may be stored under the name without
port. -/
def retry_applies (s : St) (port : Nat) : Prop :=
  s.options.host_key_alias = none ∧ port ≠ 0 ∧ port ≠ SSH_DEFAULT_PORT

instance (s : St) (port : Nat) : Decidable (retry_applies s port) := by
  unfold retry_applies; infer_instance

/-- The `check_host_key(hostname, hostaddr, port, host_key, readonly,
user_hostfile, system_hostfile)`: check whether the supplied host key is
valid, return -1 if the key is not valid.  The first argument bounds the
depth of the recursion (the call at line 765); `none` means the bound was hit. -/
def check_host_key_fuel (E : Env) : Nat → String → SockAddr → Nat → Key → Int →
    String → String → St → Option (Outcome × St)
  | 0, _, _, _, _, _, _, _, _ => none
  | fuel + 1, hostname, hostaddr, port, host_key, readonly, user_hostfile,
      system_hostfile, s =>
    if localhost_bypass s hostaddr then
      some (.ret 0, debug s "Forcing accepting of host key for loopback/localhost.")
    else
      match switch_entry E hostname hostaddr port host_key user_hostfile system_hostfile s with
      | none => some (.fatal "check_host_key: getnameinfo failed", s)
      | some (L, s) =>
        match L.host_status with
        | .HOST_OK =>
          some (post_check L (case_HOST_OK E L host_key readonly user_hostfile s))
        | .HOST_NEW =>
          if retry_applies s port then
            match check_host_key_fuel E fuel hostname hostaddr 0 host_key ROQUIET
                user_hostfile system_hostfile (debug s "checking without port identifier") with
            | none => none
            | some (.fatal msg, s1) => some (.fatal msg, s1)
            | some (.ret r, s1) =>
              if r = 0 then some (post_check L (debug s1 "found matching key w/out port"))
              else some (leave_switch L (case_HOST_NEW E L host_key readonly user_hostfile s1))
          else some (leave_switch L (case_HOST_NEW E L host_key readonly user_hostfile s))
        | .HOST_CHANGED =>
          some (leave_switch L (case_HOST_CHANGED E L host_key readonly user_hostfile s))
        | .HOST_FOUND => some (.fatal "internal error", s)

/-- The `check_host_key` of the source: depth two covers the outer call and
the single retry without port, which cannot recurse because its port is 0. -/
def check_host_key (E : Env) (hostname : String) (hostaddr : SockAddr) (port : Nat)
    (host_key : Key) (readonly : Int) (user_hostfile system_hostfile : String)
    (s : St) : Option (Outcome × St) :=
  check_host_key_fuel E 2 hostname hostaddr port host_key readonly user_hostfile
    system_hostfile s

/-! ## `verify_host_key` -/

/-- The calls of `verify_host_key` that leave the program: the DNS lookup of
`dns.c` (`verify_host_key_dns(host, hostaddr, host_key, &flags)`: return value
and flags) and `stat` (`true` when `stat(path, &st) == 0`). -/
structure DnsEnv where
  verify_host_key_dns : String → SockAddr → Key → Int × Nat
  stat_ok : String → Bool

/-- Flag bit of `dns.h`: a fingerprint record was found. -/
def DNS_VERIFY_FOUND : Nat := 1

/-- Flag bit of `dns.h`: a record matches the key. -/
def DNS_VERIFY_MATCH : Nat := 2

/-- Flag bit of `dns.h`: the answer was validated. -/
def DNS_VERIFY_SECURE : Nat := 4

/-- The test of lines 1004-1011 under which `verify_host_key` returns 0 at
line 1012: the option is on, the DNS call returns 0, a record was found, the
option has value 1 and the record matches and is secure. -/
def dns_short_circuit (D : DnsEnv) (host : String) (hostaddr : SockAddr) (host_key : Key)
    (s : St) : Prop :=
  (s.options.verify_host_key_dns ≠ 0 ∧ (D.verify_host_key_dns host hostaddr host_key).1 = 0) ∧
  (D.verify_host_key_dns host hostaddr host_key).2 &&& DNS_VERIFY_FOUND ≠ 0 ∧
  s.options.verify_host_key_dns = 1 ∧
  (D.verify_host_key_dns host hostaddr host_key).2 &&& DNS_VERIFY_MATCH ≠ 0 ∧
  (D.verify_host_key_dns host hostaddr host_key).2 &&& DNS_VERIFY_SECURE ≠ 0

instance (D : DnsEnv) (host : String) (hostaddr : SockAddr) (host_key : Key) (s : St) :
    Decidable (dns_short_circuit D host hostaddr host_key s) := by
  unfold dns_short_circuit; infer_instance

/-- Lines 1004-1022 when they do not return: the state in which the checks of
the known-hosts files start. -/
def dns_stage (E : Env) (D : DnsEnv) (host : String) (hostaddr : SockAddr) (host_key : Key)
    (s : St) : St :=
  if s.options.verify_host_key_dns ≠ 0 ∧
      (D.verify_host_key_dns host hostaddr host_key).1 = 0 then
    if (D.verify_host_key_dns host hostaddr host_key).2 &&& DNS_VERIFY_FOUND ≠ 0 then
      if (D.verify_host_key_dns host hostaddr host_key).2 &&& DNS_VERIFY_MATCH ≠ 0 then
        { s with matching_host_key_dns := 1 }
      else
        error (warn_changed_key E s host_key)
          "Update the SSHFP RR in DNS with the new host key to get rid of this message."
    else s
  else s

/-- Lines 1024-1033: return ok if the key can be found in an old keyfile, else
check the primary files read-write. -/
def trust_store_checks (E : Env) (D : DnsEnv) (host : String) (hostaddr : SockAddr)
    (host_key : Key) (s : St) : Option (Outcome × St) :=
  if D.stat_ok s.options.system_hostfile2 = true ∨ D.stat_ok s.options.user_hostfile2 = true then
    match check_host_key E host hostaddr s.options.port host_key RDONLY
        s.options.user_hostfile2 s.options.system_hostfile2 s with
    | none => none
    | some (.fatal msg, s1) => some (.fatal msg, s1)
    | some (.ret r, s1) =>
      if r = 0 then some (.ret 0, s1)
      else check_host_key E host hostaddr s1.options.port host_key RDRW
        s1.options.user_hostfile s1.options.system_hostfile s1
  else
    check_host_key E host hostaddr s.options.port host_key RDRW
      s.options.user_hostfile s.options.system_hostfile s

/-- The `verify_host_key(host, hostaddr, host_key)`: returns 0 if key verifies
or -1 if key does NOT verify. -/
def verify_host_key (E : Env) (D : DnsEnv) (host : String) (hostaddr : SockAddr)
    (host_key : Key) (s : St) : Option (Outcome × St) :=
  if dns_short_circuit D host hostaddr host_key s then some (.ret 0, s)
  else trust_store_checks E D host hostaddr host_key (dns_stage E D host hostaddr host_key s)

/-! ## Concrete environments used to run the code -/

/-- A known-hosts database given as a table from (file, name) to the lookup
status; insertions succeed iff `addok` is non-zero. -/
def tableEnv (tbl : String → String → HostStatus) (addok : Int) : Env where
  put_host_port := put_host_port
  getnameinfo := fun a =>
    match a with
    | .inet 16909060 => some "1.2.3.4"
    | .inet 2130706433 => some "127.0.0.1"
    | _ => none
  check_host_in_hostfile := fun _ file host _ found line => (tbl file host, found, line)
  lookup_key_in_hostfile_by_type := fun _ _ _ _ found line => (0, found, line)
  add_host_to_hostfile := fun _ _ _ _ _ => addok
  key_equal := fun a b => if a = b then 1 else 0
  key_type := fun _ => "RSA"
  key_fingerprint := fun _ _ => "fp"
  KEY_RSA1 := 0
  KEY_RSA := 1
  KEY_DSA := 2

/-- Default client options: ask mode, IP checking on, no forwarding. -/
def opts0 : Options where
  port := 22
  protocol := 5
  batch_mode := 0
  check_host_ip := 1
  strict_host_key_checking := 2
  verify_host_key_dns := 0
  hash_known_hosts := 0
  visual_host_key := 0
  no_host_authentication_for_localhost := 0
  host_key_alias := none
  proxy_command := none
  password_authentication := 1
  kbd_interactive_authentication := 1
  challenge_response_authentication := 1
  forward_agent := 0
  forward_x11 := 0
  num_local_forwards := 0
  num_remote_forwards := 0
  tun_open := SSH_TUNMODE_NO
  exit_on_forward_failure := 0
  user_hostfile := "u"
  system_hostfile := "g"
  user_hostfile2 := "u2"
  system_hostfile2 := "g2"

def st0 (o : Options) (tty : List (Option String)) : St :=
  { options := o, matching_host_key_dns := 0, tty := tty, trace := [] }

def key0 : Key := { type := 1, blob := [7] }

/-- The peer 1.2.3.4. -/
def addr0 : SockAddr := .inet 16909060

/-- Every lookup answers `HOST_NEW`: empty known-hosts files. -/
def tblEmpty : String → String → HostStatus := fun _ _ => .HOST_NEW

/-- The user file `u` has another key for the host `h`; nothing else is known. -/
def tblChanged : String → String → HostStatus :=
  fun file host => if file = "u" ∧ host = "h" then .HOST_CHANGED else .HOST_NEW

/-- The options `opts0` with strict host key checking off. -/
def opts_off : Options := { opts0 with strict_host_key_checking := 0 }

/-- The options `opts0` with strict host key checking on. -/
def opts_strict : Options := { opts0 with strict_host_key_checking := 1 }

/-- The options `opts_off` with hashing of known-hosts names. -/
def opts_hash : Options := { opts_off with hash_known_hosts := 1 }

/-- The options `opts0` with host authentication for localhost disabled. -/
def opts_nolocal : Options := { opts0 with no_host_authentication_for_localhost := 1 }

/-- The loopback peer 127.0.0.1. -/
def addr_loop : SockAddr := .inet 2130706433

/-- The user file `u` has the presented key under the bare name `h` and
another key under the address with port `[1.2.3.4]:2222`; nothing is stored
under `[h]:2222`. -/
def tblBare : String → String → HostStatus :=
  fun file host =>
    if file = "u" ∧ host = "h" then .HOST_OK
    else if file = "u" ∧ host = "[1.2.3.4]:2222" then .HOST_CHANGED
    else .HOST_NEW

/-- The user file `u` has the presented key under the bare name `h`; nothing
else is known. -/
def tblBareOnly : String → String → HostStatus :=
  fun file host => if file = "u" ∧ host = "h" then .HOST_OK else .HOST_NEW

/-- The user file `u` has the presented key under the name `h` and another key
under the address `1.2.3.4`. -/
def tblIpChanged : String → String → HostStatus :=
  fun file host =>
    if file = "u" ∧ host = "h" then .HOST_OK
    else if file = "u" ∧ host = "1.2.3.4" then .HOST_CHANGED
    else .HOST_NEW

/-- A DNS without fingerprint records and a file system without legacy
known-hosts files. -/
def dns_none : DnsEnv where
  verify_host_key_dns := fun _ _ _ => (-1, 0)
  stat_ok := fun _ => false

/-- A DNS with a found, matching and secure fingerprint record. -/
def dns_secure : DnsEnv where
  verify_host_key_dns := fun _ _ _ => (0, 7)
  stat_ok := fun _ => false

/-- The options `opts0` with `verify_host_key_dns` set to 1. -/
def opts_dns : Options := { opts0 with verify_host_key_dns := 1 }

/-- The options `opts0` with a proxy command. -/
def opts_proxy : Options := { opts0 with proxy_command := some "nc" }

/-- The options `opts0` in batch mode. -/
def opts_batch : Options := { opts0 with batch_mode := 1 }

/-! ## Observations on the log -/

/-- The kinds of externally visible actions. -/
inductive Kind where
  | probe
  | lookup
  | add
  | prompt
  | log
deriving DecidableEq, Repr

def Event.kind : Event → Kind
  | .probe _ _ => .probe
  | .lookup_type _ _ _ => .lookup
  | .add _ _ _ _ => .add
  | .prompt _ => .prompt
  | .logit _ => .log
  | .error _ => .log
  | .debug _ => .log

/-- The insertions into known-hosts files recorded in a log. -/
def adds (tr : List Event) : List Event := tr.filter (fun e => decide (e.kind = .add))

/-- The questions put to the user recorded in a log. -/
def prompts (tr : List Event) : List Event := tr.filter (fun e => decide (e.kind = .prompt))

/-- The known-hosts lookups recorded in a log. -/
def probes (tr : List Event) : List Event := tr.filter (fun e => decide (e.kind = .probe))

/-- From `s` to `t` the log only grew, by events whose kind satisfies `P`. -/
def Trace (P : Kind → Prop) (s t : St) : Prop :=
  ∃ evs, t.trace = s.trace ++ evs ∧ ∀ e ∈ evs, P e.kind

/-- The options after the man-in-the-middle downgrade of lines 898-942: every
password-like authentication and every forwarding is off. -/
def mitm_downgrade (o : Options) : Options :=
  { o with password_authentication := 0, kbd_interactive_authentication := 0,
           challenge_response_authentication := 0, forward_agent := 0, forward_x11 := 0,
           num_local_forwards := 0, num_remote_forwards := 0, tun_open := SSH_TUNMODE_NO }

/-- At least one of the features removed by the downgrade is enabled. -/
def any_mitm_feature (o : Options) : Prop :=
  o.password_authentication ≠ 0 ∨ o.kbd_interactive_authentication ≠ 0 ∨
  o.challenge_response_authentication ≠ 0 ∨ o.forward_agent ≠ 0 ∨ o.forward_x11 ≠ 0 ∨
  o.num_local_forwards > 0 ∨ o.num_remote_forwards > 0 ∨ o.tun_open ≠ SSH_TUNMODE_NO

instance (o : Options) : Decidable (any_mitm_feature o) := by
  unfold any_mitm_feature; infer_instance

/-- What one step of the downgrade does: the options become `f` of the old
ones, the log grows by error messages, the flag is raised iff `c` held. -/
def DowngradeStep (f : Options → Options) (c : Options → Prop) (r r' : Int × St) : Prop :=
  r'.2.options = f r.2.options ∧ r'.2.tty = r.2.tty ∧
  r'.2.matching_host_key_dns = r.2.matching_host_key_dns ∧
  (∀ P : Kind → Prop, P .log → Trace P r.2 r'.2) ∧
  (r'.1 ≠ 0 ↔ (r.1 ≠ 0 ∨ c r.2.options))

/-- The insertions the spec describes for a new host accepted in state `s`
(section 4.5, "insert into user file"): with IP checking on and the IP
variant new, host and IP separately when hashing (the IP only after the host
insertion succeeded), one combined `host,ip` line otherwise; else the host
alone. -/
def spec_new_host_entries (E : Env) (L : Locals) (host_key : Key) (user_hostfile : String)
    (s : St) : List Event :=
  let hash := s.options.hash_known_hosts
  if s.options.check_host_ip ≠ 0 ∧ L.ip_status = .HOST_NEW then
    if hash ≠ 0 then
      if E.add_host_to_hostfile s.trace user_hostfile L.host host_key hash ≠ 0 then
        [.add user_hostfile L.host host_key hash, .add user_hostfile L.ip host_key hash]
      else [.add user_hostfile L.host host_key hash]
    else [.add user_hostfile (snprintf 1000 (L.host ++ "," ++ L.ip)) host_key hash]
  else [.add user_hostfile L.host host_key hash]

/-- The three outcomes the spec distinguishes for the verifier. -/
inductive Verdict where
  | accept
  | prompt
  | reject
deriving DecidableEq, Repr

/-- The outcome observed for a call that started in state `s` and ended with
`r`: the user was prompted if the log gained a question; otherwise the key was
accepted if the call returned 0 and rejected if it returned something else or
ended in `fatal`. -/
def verdict_of (s : St) (r : Outcome × St) : Verdict :=
  if (prompts s.trace).length < (prompts r.2.trace).length then .prompt
  else if r.1 = .ret 0 then .accept else .reject

/-- Decision of the host/IP mismatch check after the `switch`, as a table. -/
def spec_post_table (hs is : HostStatus) (strict batch : Int) : Verdict :=
  if hs ≠ .HOST_CHANGED ∧ is = .HOST_CHANGED then
    if strict = 1 then .reject
    else if strict = 2 then (if batch ≠ 0 then .reject else .prompt)
    else .accept
  else .accept

/-- The decision table of the verifier for calls without bare-name retry, as a
function of the two lookup statuses, the strictness and read-only modes,
whether the peer is loopback, whether an alias is set, the option
`no_host_authentication_for_localhost`, batch mode, and whether the downgrade
is fatal (`exit_on_forward_failure` with a downgraded feature enabled). -/
def spec_decision_table (hs is : HostStatus) (strict readonly : Int) (is_loc alias_set : Bool)
    (nhal batch : Int) (fwd_fatal : Bool) : Verdict :=
  if nhal = 1 ∧ is_loc = true ∧ alias_set = false then .accept
  else
    match hs with
    | .HOST_OK => spec_post_table hs is strict batch
    | .HOST_NEW =>
      if readonly ≠ 0 then .reject
      else if strict = 1 then .reject
      else if strict = 2 then (if batch ≠ 0 then .reject else .prompt)
      else .accept
    | .HOST_CHANGED =>
      if readonly = ROQUIET ∨ strict ≠ 0 then .reject
      else if fwd_fatal = true then .reject
      else .accept
    | .HOST_FOUND => .reject

/-- The options `opts_off` with `exit_on_forward_failure` set. -/
def opts_off_exit : Options := { opts_off with exit_on_forward_failure := 1 }

/-- The record `o'` is `o`, or `o` with `check_host_ip` set to 0. -/
def IpKeptOrOff (o o' : Options) : Prop := o' = o ∨ o' = { o with check_host_ip := 0 }

/-- The record `o'` is `o` except possibly for `check_host_ip`. -/
def SameButIp (o o' : Options) : Prop := o' = { o with check_host_ip := o'.check_host_ip }

/-- As `Trace`, and `options` and `matching_host_key_dns` are untouched. -/
def Emits (P : Kind → Prop) (s t : St) : Prop :=
  t.options = s.options ∧ t.matching_host_key_dns = s.matching_host_key_dns ∧ Trace P s t

/-- As `Emits`, and nothing was read from the terminal. -/
def Quiet (P : Kind → Prop) (s t : St) : Prop :=
  t.tty = s.tty ∧ Emits P s t

end SshConnect

namespace SshConnect

/-! ## Banner exchange: `ssh_exchange_identification`

The server's bytes are read one at a time until a line starting with `SSH-`
arrives, the line is parsed, the protocol version is chosen and the client's
own identification is sent.  Bytes are modelled as characters.  The input
holds the bytes as `buf[i]` holds them after `obfuscate_input`, the output the
bytes handed to `obfuscate_output` and the write.  A `select` interrupted by a
signal (`EINTR`) is not part of the model. -/

/-- Result of the `select` call of one pass; looked at only when
`timeout_ms > 0`.  `timed_out` stands for `rc == 0 || remaining <= 0`,
`failed` for `rc == -1` with the text of `strerror(errno)`. -/
inductive SelectResult where
  | ready
  | timed_out
  | failed (err : String)
deriving DecidableEq, Repr

/-- Result of `roaming_atomicio(read, connection_in, &buf[i], 1)`: one byte,
or `len != 1` with `errno == EPIPE` (`closed`), or `len != 1` with another
error. -/
inductive ReadResult where
  | byte (c : Char)
  | closed
  | failed (err : String)
deriving DecidableEq, Repr

/-- What one pass of the inner `for` loop meets on the connection. -/
structure ReadEv where
  sel : SelectResult
  rd : ReadResult
deriving DecidableEq, Repr

/-- A byte that arrives without trouble. -/
def ReadEv.ok (c : Char) : ReadEv := ⟨.ready, .byte c⟩

/-- The bytes of a text, each arriving without trouble. -/
def bytes (l : List Char) : List ReadEv := l.map ReadEv.ok

/-- Program state threaded through the exchange.  `input` is what the
connection will deliver, `output` what has been written to it. -/
structure XSt where
  options : Options
  compat20 : Int
  compat13 : Int
  datafellows : Nat
  input : List ReadEv
  output : List Char
  server_version_string : Option String
  client_version_string : Option String
  trace : List Event
deriving DecidableEq, Repr

/-- How the exchange ends: the function returns, or `fatal(msg)` exits. -/
inductive Exit where
  | returned
  | fatal (msg : String)
deriving DecidableEq, Repr

/-- Constants and functions used by `ssh_exchange_identification` that are
declared outside `sshconnect.c` (`ssh.h`, `version.h`, `compat.c`, `misc.c`,
the write on the connection).  `vwrite` answers `none` when all bytes were
written and the text of `strerror(errno)` otherwise. -/
structure XEnv where
  SSH_PROTO_1 : Nat
  SSH_PROTO_1_PREFERRED : Nat
  SSH_PROTO_2 : Nat
  PROTOCOL_MAJOR_1 : Int
  PROTOCOL_MINOR_1 : Int
  PROTOCOL_MAJOR_2 : Int
  PROTOCOL_MINOR_2 : Int
  SSH_VERSION : String
  compat_datafellows : String → Nat
  vwrite : List Char → Option String
  chop : String → String

def XSt.emit (s : XSt) (e : Event) : XSt := { s with trace := s.trace ++ [e] }

/-- Modelled from the spec: `enable_compat20` of `compat.c`, which is not
among the sources; protocol v2 is selected, recorded in the flag `compat20`. -/
def enable_compat20 (s : XSt) : XSt := { s with compat20 := 1 }

/-- Modelled from the spec: `enable_compat13` of `compat.c`, which is not
among the sources; legacy-1.3 compatibility is enabled, recorded in the flag
`compat13`. -/
def enable_compat13 (s : XSt) : XSt := { s with compat13 := 1 }

/-- The NUL byte. -/
def NUL : Char := Char.ofNat 0

/-- The C string held by a buffer whose stored bytes are `buf` and which is
terminated right after them: the bytes before the first NUL. -/
def cstr (buf : List Char) : List Char := buf.takeWhile (fun c => c ≠ NUL)

/-- The test `strncmp(a, b, n) == 0` on the C strings held by `a` and `b`. -/
def strncmp_eq0 (a b : List Char) (n : Nat) : Bool :=
  (cstr a).take n == (cstr b).take n

/-- What the read loop leaves: the accepted buffer or the fatal error, the
counter `n`, the input not yet read and the log. -/
inductive ReadEnd where
  | line (buf : List Char)
  | fatal (msg : String)
deriving DecidableEq, Repr

structure ReadOut where
  res : ReadEnd
  n : Nat
  rest : List ReadEv
  trace : List Event
deriving DecidableEq, Repr

/-- The two nested `for` loops of lines 450-498, by recursion on the input.
`buf` holds the bytes stored so far in the current pass of the outer loop
(`i` is its length, always below 255 here), `n` is the counter of the cap.
After a byte is stored and `i` incremented, the test `i < sizeof(buf) - 1` is
made at once: when it fails the inner loop is left, as when LF is read.  Then
`strncmp(buf, "SSH-", 4)` decides between leaving the outer loop and starting
over with `i = 0` after the `debug` line.  An input that is used up reads as
a closed connection. -/
def read_loop (timeout_ms : Int) : List ReadEv → List Char → Nat → List Event → ReadOut
  | [], _, n, tr =>
    ⟨.fatal "ssh_exchange_identification: Connection closed by remote host", n, [], tr⟩
  | e :: rest, buf, n, tr =>
    if timeout_ms > 0 ∧ e.sel = .timed_out then
      ⟨.fatal "Connection timed out during banner exchange", n, rest, tr⟩
    else
    match (if timeout_ms > 0 then e.sel else .ready), e.rd with
    | .failed err, _ => ⟨.fatal ("ssh_exchange_identification: select: " ++ err), n, rest, tr⟩
    | _, .closed =>
      ⟨.fatal "ssh_exchange_identification: Connection closed by remote host", n, rest, tr⟩
    | _, .failed err =>
      ⟨.fatal ("ssh_exchange_identification: read: " ++ prec 100 err), n, rest, tr⟩
    | _, .byte c =>
      if c = '\r' then
        if (buf ++ ['\n']).length < 255 then read_loop timeout_ms rest (buf ++ ['\n']) n tr
        else if strncmp_eq0 (buf ++ ['\n']) "SSH-".toList 4 = true then
          ⟨.line (buf ++ ['\n']), n, rest, tr⟩
        else
          read_loop timeout_ms rest [] n
            (tr ++ [.debug ("ssh_exchange_identification: " ++ String.mk (cstr (buf ++ ['\n'])))])
      else if c = '\n' then
        if strncmp_eq0 (buf ++ ['\n']) "SSH-".toList 4 = true then
          ⟨.line (buf ++ ['\n']), n, rest, tr⟩
        else
          read_loop timeout_ms rest [] n
            (tr ++ [.debug ("ssh_exchange_identification: " ++ String.mk (cstr (buf ++ ['\n'])))])
      else if n + 1 > 65536 then
        ⟨.fatal "ssh_exchange_identification: No banner received", n + 1, rest, tr⟩
      else if (buf ++ [c]).length < 255 then read_loop timeout_ms rest (buf ++ [c]) (n + 1) tr
      else if strncmp_eq0 (buf ++ [c]) "SSH-".toList 4 = true then
        ⟨.line (buf ++ [c]), n + 1, rest, tr⟩
      else
        read_loop timeout_ms rest [] (n + 1)
          (tr ++ [.debug ("ssh_exchange_identification: " ++ String.mk (cstr (buf ++ [c])))])

/-! ### The conversions of `sscanf(s, "SSH-%d.%d-%[^\n]\n", ...)`

These follow the C library: a literal must match as it stands, `%d` skips
white space, takes an optional sign and at least one decimal digit, `%[^\n]`
takes at least one byte other than LF, and the closing `\n` of the format
matches any white space, none included.  A `%d` converts its numeral as
`strtol` does and stores the result into the `int` it is given
(`int remote_major, remote_minor`, line 434). -/

/-- The `isspace` of the C locale. -/
def isspace (c : Char) : Bool :=
  c = ' ' ∨ c = '\t' ∨ c = '\n' ∨ c = '\r' ∨ c = Char.ofNat 11 ∨ c = Char.ofNat 12

/-- Value of a run of decimal digits. -/
def dec (ds : List Char) : Nat := ds.foldl (fun a c => 10 * a + (c.toNat - 48)) 0

/-- A literal of the format: the input must start with it. -/
def scan_lit : List Char → List Char → Option (List Char)
  | [], s => some s
  | _ :: _, [] => none
  | c :: lit, d :: s => if c = d then scan_lit lit s else none

/-- Largest value of a `long` of 64 bits. -/
def LONG_MAX : Int := 9223372036854775807

/-- Smallest value of a `long` of 64 bits. -/
def LONG_MIN : Int := -9223372036854775808

/-- The value `strtol` gives for a numeral of value `v`: `v` itself inside the
range of `long`, the nearer end of the range outside of it. -/
def strtol_value (v : Int) : Int :=
  if v > LONG_MAX then LONG_MAX else if v < LONG_MIN then LONG_MIN else v

/-- A `long` stored into an `int` of 32 bits: the low 32 bits, read in two's
complement. -/
def int_of_long (v : Int) : Int := (v + 2147483648) % 4294967296 - 2147483648

/-- What a `%d` stores into its `int` for a numeral of value `v`. -/
def scanned_int (v : Int) : Int := int_of_long (strtol_value v)

/-- The digits of a `%d` once white space and sign are passed. -/
def scan_digits (neg : Bool) (s : List Char) : Option (Int × List Char) :=
  if s.takeWhile Char.isDigit = [] then none
  else some (scanned_int (if neg then - (dec (s.takeWhile Char.isDigit) : Int)
              else (dec (s.takeWhile Char.isDigit) : Int)), s.dropWhile Char.isDigit)

/-- The conversion `%d`. -/
def scan_int (s : List Char) : Option (Int × List Char) :=
  match s.dropWhile isspace with
  | [] => none
  | c :: t =>
    if c = '-' then scan_digits true t
    else if c = '+' then scan_digits false t
    else scan_digits false (c :: t)

/-- The conversion `%[^\n]`. -/
def scan_not_lf (s : List Char) : Option (List Char × List Char) :=
  if s.takeWhile (fun c => c ≠ '\n') = [] then none
  else some (s.takeWhile (fun c => c ≠ '\n'), s.dropWhile (fun c => c ≠ '\n'))

/-- The call `sscanf(s, "SSH-%d.%d-%[^\n]\n", &remote_major, &remote_minor,
remote_version)`: the three values when it returns 3, `none` otherwise. -/
def sscanf_version (s : List Char) : Option (Int × Int × List Char) :=
  match scan_lit "SSH-".toList s with
  | none => none
  | some s1 =>
    match scan_int s1 with
    | none => none
    | some (remote_major, s2) =>
      match scan_lit ['.'] s2 with
      | none => none
      | some s3 =>
        match scan_int s3 with
        | none => none
        | some (remote_minor, s4) =>
          match scan_lit ['-'] s4 with
          | none => none
          | some s5 =>
            match scan_not_lf s5 with
            | none => none
            | some (remote_version, _) => some (remote_major, remote_minor, remote_version)

/-- Result of the reading part: the fatal error, or the parsed version. -/
inductive Parsed where
  | fatal (msg : String)
  | version (remote_major remote_minor : Int) (remote_version : String)
deriving DecidableEq, Repr

/-- Lines 448-510 of `ssh_exchange_identification`: read the server's
identification, keep it in `server_version_string` and parse it. -/
def exchange_read (timeout_ms : Int) (s : XSt) : Parsed × XSt :=
  let r := read_loop timeout_ms s.input [] 0 s.trace
  match r.res with
  | .fatal msg => (.fatal msg, { s with input := r.rest, trace := r.trace })
  | .line buf =>
    let s1 : XSt := { s with input := r.rest, trace := r.trace,
                             server_version_string := some (String.mk (cstr buf)) }
    match sscanf_version (cstr buf) with
    | none =>
      (.fatal ("Bad remote protocol version identification: '" ++
          prec 100 (String.mk (cstr buf)) ++ "'"), s1)
    | some (remote_major, remote_minor, remote_version) =>
      (.version remote_major remote_minor (String.mk remote_version),
        s1.emit (.debug ("Remote protocol version " ++ toString remote_major ++ "." ++
          toString remote_minor ++ ", remote software version " ++
          prec 100 (String.mk remote_version))))

/-- The test `(options.protocol & bit)` of a mask bit. -/
def proto_has (s : XSt) (bit : Nat) : Bool := s.options.protocol &&& bit ≠ 0

/-- What the `switch (remote_major)` leaves: a fatal error if one was raised
inside, the flag `mismatch`, the variable `minor1` and the state. -/
structure SwitchOut where
  fatal : Option String
  mismatch : Int
  minor1 : Int
  st : XSt
deriving DecidableEq, Repr

/-- The `switch (remote_major)` of lines 514-547, entered with `mismatch = 0`
and `minor1 = PROTOCOL_MINOR_1`. -/
def version_switch (X : XEnv) (remote_major remote_minor : Int) (s : XSt) : SwitchOut :=
  if remote_major = 1 then
    if remote_minor = 99 ∧ proto_has s X.SSH_PROTO_2 = true ∧
        ¬ proto_has s X.SSH_PROTO_1_PREFERRED = true then
      ⟨none, 0, X.PROTOCOL_MINOR_1, enable_compat20 s⟩
    else if ¬ proto_has s X.SSH_PROTO_1 = true then
      ⟨none, 1, X.PROTOCOL_MINOR_1, s⟩
    else if remote_minor < 3 then
      ⟨some "Remote machine has too old SSH software version.", 0, X.PROTOCOL_MINOR_1, s⟩
    else if remote_minor = 3 ∨ remote_minor = 4 then
      let s1 := enable_compat13 s
      if s1.options.forward_agent ≠ 0 then
        let s2 := s1.emit (.logit "Agent forwarding disabled for protocol 1.3")
        ⟨none, 0, 3, { s2 with options := { s2.options with forward_agent := 0 } }⟩
      else ⟨none, 0, 3, s1⟩
    else ⟨none, 0, X.PROTOCOL_MINOR_1, s⟩
  else if remote_major = 2 then
    if proto_has s X.SSH_PROTO_2 = true then ⟨none, 0, X.PROTOCOL_MINOR_1, enable_compat20 s⟩
    else ⟨none, 1, X.PROTOCOL_MINOR_1, s⟩
  else ⟨none, 1, X.PROTOCOL_MINOR_1, s⟩

/-- The text of `fatal("Protocol major versions differ: %d vs. %d", ...)`. -/
def mismatch_msg (X : XEnv) (remote_major : Int) (s : XSt) : String :=
  "Protocol major versions differ: " ++
    toString (if proto_has s X.SSH_PROTO_2 = true then X.PROTOCOL_MAJOR_2
              else X.PROTOCOL_MAJOR_1) ++
    " vs. " ++ toString remote_major

/-- The client's identification as `snprintf(buf, sizeof buf,
"SSH-%d.%d-%.100s%s", ...)` of lines 553-556 writes it. -/
def client_banner (X : XEnv) (minor1 : Int) (s : XSt) : String :=
  snprintf 256
    ("SSH-" ++ toString (if s.compat20 ≠ 0 then X.PROTOCOL_MAJOR_2 else X.PROTOCOL_MAJOR_1) ++
      "." ++ toString (if s.compat20 ≠ 0 then X.PROTOCOL_MINOR_2 else minor1) ++
      "-" ++ prec 100 X.SSH_VERSION ++ (if s.compat20 ≠ 0 then "\r\n" else "\n"))

/-- The identification of a protocol 1 client that announces minor version
`minor`, ended by LF. -/
def banner_v1 (X : XEnv) (minor : Int) : String :=
  snprintf 256 ("SSH-" ++ toString X.PROTOCOL_MAJOR_1 ++ "." ++ toString minor ++ "-" ++
    prec 100 X.SSH_VERSION ++ "\n")

/-- The identification of a protocol 2 client, ended by CR LF. -/
def banner_v2 (X : XEnv) : String :=
  snprintf 256 ("SSH-" ++ toString X.PROTOCOL_MAJOR_2 ++ "." ++ toString X.PROTOCOL_MINOR_2 ++
    "-" ++ prec 100 X.SSH_VERSION ++ "\r\n")

/-- Lines 552-570: send the client's identification and chop both version
strings.  A write that fails leaves nothing on the output. -/
def exchange_send (X : XEnv) (minor1 : Int) (s : XSt) : Exit × XSt :=
  let buf := client_banner X minor1 s
  let s1 : XSt := { s with client_version_string := some buf }
  match X.vwrite buf.toList with
  | some err => (.fatal ("write: " ++ prec 100 err), s1)
  | none =>
    let s2 : XSt := { s1 with output := s1.output ++ buf.toList }
    let s3 : XSt := { s2 with client_version_string := some (X.chop buf),
                              server_version_string := s2.server_version_string.map X.chop }
    (.returned, s3.emit (.debug ("Local version string " ++ prec 100 (X.chop buf))))

/-- Lines 511-570: with the parsed version of the server, set the
compatibility flags, choose the protocol and answer. -/
def exchange_versions (X : XEnv) (remote_major remote_minor : Int) (remote_version : String)
    (s : XSt) : Exit × XSt :=
  let s1 : XSt := { s with datafellows := X.compat_datafellows remote_version }
  let w := version_switch X remote_major remote_minor s1
  match w.fatal with
  | some msg => (.fatal msg, w.st)
  | none =>
    if w.mismatch ≠ 0 then (.fatal (mismatch_msg X remote_major w.st), w.st)
    else exchange_send X w.minor1 w.st

/-- The `ssh_exchange_identification(timeout_ms)`. -/
def ssh_exchange_identification (X : XEnv) (timeout_ms : Int) (s : XSt) : Exit × XSt :=
  match exchange_read timeout_ms s with
  | (.fatal msg, s1) => (.fatal msg, s1)
  | (.version remote_major remote_minor remote_version, s1) =>
    exchange_versions X remote_major remote_minor remote_version s1

/-- The state in which the `switch` is left for a protocol 1.3 or 1.4 server
when the mask includes v1: the bug flags are set, `compat13` is on and agent
forwarding, if it was asked for, is switched off with a notice. -/
def compat13_state (X : XEnv) (ver : String) (s : XSt) : XSt :=
  if s.options.forward_agent ≠ 0 then
    { s with datafellows := X.compat_datafellows ver, compat13 := 1,
             trace := s.trace ++ [.logit "Agent forwarding disabled for protocol 1.3"],
             options := { s.options with forward_agent := 0 } }
  else { s with datafellows := X.compat_datafellows ver, compat13 := 1 }

/-! ### Lines on the wire -/

/-- The `debug` line of a discarded buffer. -/
def discarded (buf : List Char) : Event :=
  .debug ("ssh_exchange_identification: " ++ String.mk (cstr buf))

/-! ### A concrete peer -/

/-- The values of the release: mask bits 1, 2 and 4, protocol 1.5 and 2.0;
no bug flags, writes succeed, `chop` cuts at the first CR or LF. -/
def xenv0 : XEnv where
  SSH_PROTO_1 := 1
  SSH_PROTO_1_PREFERRED := 2
  SSH_PROTO_2 := 4
  PROTOCOL_MAJOR_1 := 1
  PROTOCOL_MINOR_1 := 5
  PROTOCOL_MAJOR_2 := 2
  PROTOCOL_MINOR_2 := 0
  SSH_VERSION := "OpenSSH_5.3"
  compat_datafellows := fun _ => 0
  vwrite := fun _ => none
  chop := fun t => String.mk (t.toList.takeWhile (fun c => c ≠ '\n' ∧ c ≠ '\r'))

/-- A client before the exchange: nothing negotiated, nothing written, the
connection about to deliver the bytes of `input`. -/
def xst0 (o : Options) (input : String) : XSt where
  options := o
  compat20 := 0
  compat13 := 0
  datafellows := 0
  input := bytes input.toList
  output := []
  server_version_string := none
  client_version_string := none
  trace := []

/-- Only protocol 1 is accepted (`-1`). -/
def opts_v1 : Options := { opts0 with protocol := 1 }

/-- Only protocol 2 is accepted (`-2`). -/
def opts_v2 : Options := { opts0 with protocol := 4 }

/-- Both protocols are accepted, 1 preferred (`Protocol 1,2`). -/
def opts_v1_preferred : Options := { opts0 with protocol := 7 }

/-- Agent forwarding is requested. -/
def opts_agent : Options := { opts0 with forward_agent := 1 }

end SshConnect

namespace SshConnect

/-! ## Sending a password: `ssh_put_password` -/

/-- The `roundup(x, y)` of `<sys/param.h>`: `x` rounded up to a multiple of `y`. -/
def roundup (x y : Nat) : Nat := ((x + (y - 1)) / y) * y

/-- The `strlen(s)`. -/
def strlen (s : List Char) : Nat := (cstr s).length

/-- The `xcalloc(1, size)`: `size` bytes, all zero. -/
def xcalloc (size : Nat) : List Char := List.replicate size NUL

/-- The `strlcpy(dst, src, size)`: the content of `dst` afterwards.  At most
`size - 1` bytes of the C string `src` are copied and a NUL is put after
them; with `size = 0` nothing is written. -/
def strlcpy (dst src : List Char) (size : Nat) : List Char :=
  if size = 0 then dst
  else (cstr src).take (size - 1) ++ [NUL] ++ dst.drop (min (strlen src) (size - 1) + 1)

/-- The `ssh_put_password(password)`: the string put into the packet, by
`packet_put_cstring(password)` when the peer has the flag
`SSH_BUG_PASSWORDPAD` (a constant of `compat.h`, taken as a parameter) and by
`packet_put_string(padded, size)` otherwise. -/
def ssh_put_password (datafellows SSH_BUG_PASSWORDPAD : Nat) (password : List Char) :
    List Char :=
  if datafellows &&& SSH_BUG_PASSWORDPAD ≠ 0 then cstr password
  else
    let size := roundup (strlen password + 1) 32
    let padded := xcalloc size
    let padded := strlcpy padded password size
    padded.take size

/-! ## Connecting with a timeout: `timeout_connect` -/

/-- What the system answers during one call of `timeout_connect`: the return
value and `errno` of `connect`, the successive returns of `select` with their
`errno`, the answer of `getsockopt` with its `errno` and the `SO_ERROR` value,
and the milliseconds that `ms_subtract_diff` finds elapsed since `t_start`.
`EINPROGRESS`, `EINTR` and `ETIMEDOUT` are the constants of `<errno.h>`,
`strerror` the texts of the error numbers. -/
structure ConnEnv where
  connect_rc : Int
  connect_errno : Int
  selects : List (Int × Int)
  getsockopt_rc : Int
  getsockopt_errno : Int
  optval : Int
  elapsed : Int
  EINPROGRESS : Int
  EINTR : Int
  ETIMEDOUT : Int
  strerror : Int → String

/-- How a call of `timeout_connect` ends: `return (result)` with the value
left in `*timeoutp`, `errno` and the log, or `fatal`. -/
inductive ConnOut where
  | ret (result : Int) (timeout : Int) (errno : Int) (log : List Event)
  | fatal (msg : String)
deriving DecidableEq, Repr

/-- Modelled from the spec: `ms_subtract_diff(&t_start, timeoutp)` of
`misc.c`, which is not among the sources; the time elapsed since `t_start`
is taken off the timeout. -/
def ms_subtract_diff (elapsed timeout : Int) : Int := timeout - elapsed

/-- The loop `for (;;) { rc = select(...); if (rc != -1 || errno != EINTR)
break; }`: the first return that is not an interruption, `none` when every
return is one (the loop does not end). -/
def select_loop (C : ConnEnv) : List (Int × Int) → Option (Int × Int)
  | [] => none
  | (rc, e) :: rest => if rc ≠ -1 ∨ e ≠ C.EINTR then some (rc, e) else select_loop C rest

/-- The code at the label `done` of `timeout_connect`. -/
def timeout_done (C : ConnEnv) (result timeout errno : Int) (log : List Event) : ConnOut :=
  if result = 0 ∧ timeout > 0 then
    if ms_subtract_diff C.elapsed timeout ≤ 0 then
      .ret (-1) (ms_subtract_diff C.elapsed timeout) C.ETIMEDOUT log
    else .ret 0 (ms_subtract_diff C.elapsed timeout) errno log
  else .ret result timeout errno log

/-- The `timeout_connect(sockfd, serv_addr, addrlen, timeoutp)` with `*timeoutp`
equal to `timeout` and `errno` equal to `errno` at the call; `none` when the
loop around `select` does not end. -/
def timeout_connect (C : ConnEnv) (timeout errno : Int) : Option ConnOut :=
  if timeout ≤ 0 then
    some (timeout_done C C.connect_rc timeout
      (if C.connect_rc = 0 then errno else C.connect_errno) [])
  else if C.connect_rc = 0 then some (timeout_done C 0 timeout errno [])
  else if C.connect_errno ≠ C.EINPROGRESS then
    some (timeout_done C (-1) timeout C.connect_errno [])
  else
    match select_loop C C.selects with
    | none => none
    | some (rc, e) =>
      if rc = 0 then some (timeout_done C (-1) timeout C.ETIMEDOUT [])
      else if rc = -1 then
        some (timeout_done C (-1) timeout e [.debug ("select: " ++ C.strerror e)])
      else if rc = 1 then
        if C.getsockopt_rc = -1 then
          some (timeout_done C (-1) timeout C.getsockopt_errno
            [.debug ("getsockopt: " ++ C.strerror C.getsockopt_errno)])
        else if C.optval ≠ 0 then some (timeout_done C (-1) timeout C.optval [])
        else some (timeout_done C 0 timeout e [])
      else some (.fatal ("Bogus return (" ++ toString rc ++ ") from select()"))

/-- The attempt reaches `result = 0` before the label `done` (with a positive
timeout): `connect` returns 0, or it is in progress, `select` reports the
socket and `SO_ERROR` is read as 0. -/
def connected (C : ConnEnv) : Prop :=
  C.connect_rc = 0 ∨
  (C.connect_errno = C.EINPROGRESS ∧
    ∃ e, select_loop C C.selects = some (1, e) ∧ C.getsockopt_rc ≠ -1 ∧ C.optval = 0)

/-- One connect refused at once, five seconds after the start. -/
def conn_refused : ConnEnv where
  connect_rc := -1
  connect_errno := 111
  selects := []
  getsockopt_rc := 0
  getsockopt_errno := 0
  optval := 0
  elapsed := 5000
  EINPROGRESS := 115
  EINTR := 4
  ETIMEDOUT := 110
  strerror := fun e => "error " ++ toString e

/-- A connect that completes after one interrupted `select`, three seconds
after the start. -/
def conn_slow : ConnEnv where
  connect_rc := -1
  connect_errno := 115
  selects := [(-1, 4), (1, 115)]
  getsockopt_rc := 0
  getsockopt_errno := 0
  optval := 0
  elapsed := 3000
  EINPROGRESS := 115
  EINTR := 4
  ETIMEDOUT := 110
  strerror := fun e => "error " ++ toString e

/-- A connect on which `select` times out after the ten seconds allowed. -/
def conn_timeout : ConnEnv where
  connect_rc := -1
  connect_errno := 115
  selects := [(0, 115)]
  getsockopt_rc := 0
  getsockopt_errno := 0
  optval := 0
  elapsed := 10000
  EINPROGRESS := 115
  EINTR := 4
  ETIMEDOUT := 110
  strerror := fun e => "error " ++ toString e

end SshConnect

namespace SshMain

/-! ## The client's main program (`ssh.c`): command line

C strings are given by their bytes before the terminating NUL. -/

/-- The byte `s[i]` of the C string `s` as it lies in memory: its own bytes,
the NUL that ends it, and past that whatever follows it there (`beyond`). -/
def char_at (s : List Char) (beyond : Nat → Char) (i : Nat) : Char :=
  if h : i < s.length then s.get ⟨i, h⟩
  else if i = s.length then SshConnect.NUL
  else beyond i

/-- The cast `(u_char) c`. -/
def u_char (c : Char) : Nat := c.toNat % 256

/-- How the `case 'e'` of the option switch ends: `options.escape_char` is
set, or the program writes to `stderr` and exits. -/
inductive EscOut where
  | set (escape_char : Int)
  | exit (stderr : String) (status : Nat)
deriving DecidableEq, Repr

/-- The `case 'e'` of lines 395-409 on the argument `optarg`.
`SSH_ESCAPECHAR_NONE` is a constant of `clientloop.h`, taken as a parameter. -/
def parse_escape (SSH_ESCAPECHAR_NONE : Int) (optarg : List Char) (beyond : Nat → Char) :
    EscOut :=
  if char_at optarg beyond 0 = '^' ∧ char_at optarg beyond 2 = SshConnect.NUL ∧
      u_char (char_at optarg beyond 1) ≥ 64 ∧ u_char (char_at optarg beyond 1) < 128 then
    .set ((u_char (char_at optarg beyond 1) &&& 31 : Nat) : Int)
  else if optarg.length = 1 then .set (u_char (char_at optarg beyond 0) : Int)
  else if optarg = "none".toList then .set SSH_ESCAPECHAR_NONE
  else .exit ("Bad escape character '" ++ String.mk optarg ++ "'.\n") 255

/-- The `strrchr(s, c)` for a byte `c` other than NUL: the index of the last
`c` in `s`, `none` for `NULL`. -/
def strrchr : List Char → Char → Option Nat
  | [], _ => none
  | x :: xs, c =>
    match strrchr xs c with
    | some i => some (i + 1)
    | none => if x = c then some 0 else none

/-- How lines 535-558 end: `usage()` exits, or the program goes on with the
user and host it has, the arguments left, and, for `again`, back to the option
loop (`goto again`). -/
inductive HostOut where
  | usage
  | go (user host : Option (List Char)) (av : List (List Char)) (again : Bool)
deriving DecidableEq, Repr

/-- Lines 535-558 of `main`: the first argument after the options, when no
host is known yet and it does not start with `-`, is `[user@]host`. -/
def host_argument (av : List (List Char)) (host user : Option (List Char)) : HostOut :=
  match av with
  | [] => .go user host [] false
  | a :: rest =>
    if host = none ∧ char_at a (fun _ => SshConnect.NUL) 0 ≠ '-' then
      match strrchr a '@' with
      | some cp =>
        if cp = 0 then .usage
        else if rest.length + 1 > 1 then .go (some (a.take cp)) (some (a.drop (cp + 1))) (a :: rest) true
        else .go (some (a.take cp)) (some (a.drop (cp + 1))) rest false
      | none =>
        if rest.length + 1 > 1 then .go user (some a) (a :: rest) true
        else .go user (some a) rest false
    else .go user host (a :: rest) false

/-- The flags of lines 115-165 that the claims are about; all start at 0. -/
structure Flags where
  tty_flag : Int
  no_tty_flag : Int
  force_tty_flag : Int
  no_shell_flag : Int
  stdin_null_flag : Int
  fork_after_authentication_flag : Int
  subsystem_flag : Int
deriving DecidableEq, Repr

def flags0 : Flags := ⟨0, 0, 0, 0, 0, 0, 0⟩

/-- The cases of the option switch that set one of the flags (`-n`, `-f`,
`-t`, `-N`, `-T`, `-s`); the other options leave them alone. -/
def option_case (opt : Char) (f : Flags) : Flags :=
  if opt = 'n' then { f with stdin_null_flag := 1 }
  else if opt = 'f' then { f with fork_after_authentication_flag := 1, stdin_null_flag := 1 }
  else if opt = 't' then
    if f.tty_flag ≠ 0 then { f with force_tty_flag := 1, tty_flag := 1 }
    else { f with tty_flag := 1 }
  else if opt = 'N' then { f with no_shell_flag := 1, no_tty_flag := 1 }
  else if opt = 'T' then { f with no_tty_flag := 1 }
  else if opt = 's' then { f with subsystem_flag := 1 }
  else f

/-- The option loop on the letters `getopt` returns, in order (both rounds
of it when the host is followed by more options). -/
def option_loop (opts : List Char) (f : Flags) : Flags :=
  opts.foldl (fun f opt => option_case opt f) f

/-- The loop of lines 581-585 that stores the command: `i` counts the
arguments done, `buf` is the buffer `command`. -/
def command_loop : List (List Char) → Nat → List Char → List Char
  | [], _, buf => buf
  | a :: av, i, buf => command_loop av (i + 1) ((if i ≠ 0 then buf ++ [' '] else buf) ++ a)

/-- How lines 559-607 end: `usage()`, `fatal`, or the program goes on with
the flags, the command buffer and what was logged. -/
inductive TtyOut where
  | usage (stderr : String)
  | fatal (msg : String)
  | go (f : Flags) (command : List Char) (log : List String)
deriving DecidableEq, Repr

/-- Lines 594-607: the decision on the pseudo-terminal once the command is
stored. -/
def tty_decision (f : Flags) (command : List Char) (isatty_stdin : Bool) : TtyOut :=
  if f.fork_after_authentication_flag ≠ 0 ∧ command.length = 0 ∧ f.no_shell_flag = 0 then
    .fatal "Cannot fork into background without a command to execute."
  else
    let f1 : Flags := if command.length = 0 then { f with tty_flag := 1 } else f
    let f2 : Flags := if f1.no_tty_flag ≠ 0 then { f1 with tty_flag := 0 } else f1
    if (isatty_stdin = false ∨ f2.stdin_null_flag ≠ 0) ∧ f2.force_tty_flag = 0 then
      .go { f2 with tty_flag := 0 } command
        (if f2.tty_flag ≠ 0 then
          ["Pseudo-terminal will not be allocated because stdin is not a terminal."]
         else [])
    else .go f2 command []

/-- Lines 559-607 of `main`: the host must be known, the arguments left are
the command, then the pseudo-terminal is decided. -/
def command_and_tty (f : Flags) (host : Option (List Char)) (av : List (List Char))
    (isatty_stdin : Bool) : TtyOut :=
  if host = none then .usage ""
  else if av.length = 0 then
    if f.subsystem_flag ≠ 0 then .usage "You must specify a subsystem to invoke.\n"
    else tty_decision { f with tty_flag := 1 } [] isatty_stdin
  else tty_decision f (command_loop av 0 []) isatty_stdin

end SshMain

namespace SshMain

open SshConnect (prec)

/-! ## The client's main program (`ssh.c`): the session of protocol 2 -/

/-- A port forwarding of the options (`Forward`). -/
structure Forward where
  listen_host : Option String
  listen_port : Int
  connect_host : String
  connect_port : Int
deriving DecidableEq, Repr

/-- What the session code does to the outside, in the order it does it. -/
inductive Act where
  | debug (msg : String)
  | logit (msg : String)
  | error (msg : String)
  /-- A call `channel_setup_local_fwd_listener(...)`. -/
  | local_fwd_listener (f : Forward)
  /-- A call `channel_request_remote_forwarding(...)`. -/
  | remote_fwd_request (f : Forward)
  /-- A call `client_register_global_confirm(ssh_confirm_remote_forward, &f)`. -/
  | register_global_confirm (f : Forward)
  /-- A call `client_request_tun_fwd(...)`. -/
  | tun_fwd_request
  /-- The `channel_new("session", ...)` and `channel_send_open` of the session. -/
  | channel_new (id : Int) (window packetmax : Nat)
  /-- A call `channel_register_open_confirm(id, ssh_session2_setup, NULL)`. -/
  | register_open_confirm (id : Int)
  /-- The global request `no-more-sessions@openssh.com`. -/
  | no_more_sessions
  | local_cmd (cmd : String)
  | muxserver_listen
  /-- A call `daemon(1, 1)`. -/
  | daemon
  /-- A call `client_x11_get_proto(display, ...)`. -/
  | x11_get_proto (display : String)
  /-- A call `x11_request_forwarding_with_spoofing(id, display, proto, data)`:
  the X11 request of the channel. -/
  | x11_request (id : Int) (display proto data : String)
  /-- A `channel_request_start(id, name, 0)` followed by `packet_send()`. -/
  | channel_request (id : Int) (name : String)
  /-- A call `packet_set_interactive(v)`. -/
  | set_interactive (v : Int)
  /-- The call `client_loop(have_pty, escape_char, id)`. -/
  | client_loop (have_pty escape_char id : Int)
deriving DecidableEq, Repr

/-- The options the session code reads. -/
structure MOptions where
  forward_x11 : Int
  forward_x11_trusted : Int
  xauth_location : String
  forward_agent : Int
  exit_on_forward_failure : Int
  gateway_ports : Int
  local_forwards : List Forward
  remote_forwards : List Forward
  tun_open : Int
  control_master : Int
  local_command : Option String
  permit_local_command : Int
  escape_char : Int
deriving DecidableEq, Repr

/-- The `options.num_remote_forwards`. -/
def MOptions.num_remote_forwards (o : MOptions) : Int := o.remote_forwards.length

/-- The `options.num_local_forwards`. -/
def MOptions.num_local_forwards (o : MOptions) : Int := o.local_forwards.length

/-- Program state threaded through the session code. -/
structure MSt where
  options : MOptions
  flags : Flags
  command : List Char
  datafellows : Nat
  remote_forward_confirms_received : Int
  trace : List Act
deriving DecidableEq, Repr

/-- How a function of the session code ends: it returns (or, for
`ssh_session2`, has entered `client_loop`), or `fatal(msg)` exits. -/
inductive MOut where
  | returned
  | fatal (msg : String)
deriving DecidableEq, Repr

/-- Constants and functions the session code uses that are defined outside
`ssh.c`.  `client_session2_setup` gives what that function of `clientloop.c`
does on the channel; `dup_failed` tells whether one of the three descriptors
of the session could not be had. -/
structure MEnv where
  DISPLAY : Option String
  TERM : Option String
  environ : List String
  ssh_agent_present : Bool
  client_x11_get_proto : String → String → Int → String × String
  client_session2_setup : Int → Int → Int → Option String → List Char → List String → List Act
  channel_setup_local_fwd_listener : Forward → Int → Int
  channel_request_remote_forwarding : Forward → Int
  client_request_tun_fwd : Int
  daemon : Int
  strerror_errno : String
  dup_failed : Bool
  channel_new : Int
  packet_get_int : Nat
  CHAN_SES_WINDOW_DEFAULT : Nat
  CHAN_SES_PACKET_DEFAULT : Nat
  SSH_BUG_DUMMYCHAN : Nat
  SSH_NEW_OPENSSH : Nat
  SSHCTL_MASTER_NO : Int
  SSH_TUNMODE_NO : Int
  SSH2_MSG_REQUEST_SUCCESS : Int
  SSH2_MSG_REQUEST_FAILURE : Int
  SSH_ESCAPECHAR_NONE : Int

def MSt.emit (s : MSt) (a : Act) : MSt := { s with trace := s.trace ++ [a] }

/-- The `ssh_confirm_remote_forward(type, seq, ctxt)`, the callback for the
reply to a remote forwarding request; `rfwd` is the forward of `ctxt`. -/
def ssh_confirm_remote_forward (E : MEnv) (type : Int) (rfwd : Forward) (s : MSt) :
    MOut × MSt :=
  let s1 := s.emit (.debug ("remote forward " ++
    (if type = E.SSH2_MSG_REQUEST_SUCCESS then "success" else "failure") ++
    " for: listen " ++ toString rfwd.listen_port ++ ", connect " ++ rfwd.connect_host ++ ":" ++
    toString rfwd.connect_port))
  let s2 :=
    if type = E.SSH2_MSG_REQUEST_SUCCESS ∧ rfwd.listen_port = 0 then
      s1.emit (.logit ("Allocated port " ++ toString E.packet_get_int ++
        " for remote forward to " ++ rfwd.connect_host ++ ":" ++ toString rfwd.connect_port))
    else s1
  if type = E.SSH2_MSG_REQUEST_FAILURE ∧ s2.options.exit_on_forward_failure ≠ 0 then
    (.fatal ("Error: remote port forwarding failed for listen port " ++
      toString rfwd.listen_port), s2)
  else
    let s3 :=
      if type = E.SSH2_MSG_REQUEST_FAILURE then
        s2.emit (.logit ("Warning: remote port forwarding failed for listen port " ++
          toString rfwd.listen_port))
      else s2
    let s4 : MSt :=
      { s3 with remote_forward_confirms_received := s3.remote_forward_confirms_received + 1 }
    if s4.remote_forward_confirms_received = s4.options.num_remote_forwards then
      let s5 := s4.emit (.debug "All remote forwarding requests processed")
      if s5.flags.fork_after_authentication_flag ≠ 0 then
        let s6 : MSt :=
          { s5 with flags := { s5.flags with fork_after_authentication_flag := 0 } }
        let s7 := s6.emit .daemon
        if E.daemon < 0 then
          (.fatal ("daemon() failed: " ++ prec 200 E.strerror_errno), s7)
        else (.returned, s7)
      else (.returned, s5)
    else (.returned, s4)

/-- The first loop of `ssh_init_forwarding`: the local forwardings, with the
count `success`. -/
def local_fwd_loop (E : MEnv) (o : MOptions) : List Forward → Int → List Act → Int × List Act
  | [], success, tr => (success, tr)
  | f :: fs, success, tr =>
    local_fwd_loop E o fs (success + E.channel_setup_local_fwd_listener f o.gateway_ports)
      (tr ++ [.debug ("Local connections to " ++
          prec 200 (match f.listen_host with
            | none => if o.gateway_ports ≠ 0 then "*" else "LOCALHOST"
            | some h => h) ++ ":" ++ toString f.listen_port ++
          " forwarded to remote address " ++ prec 200 f.connect_host ++ ":" ++
          toString f.connect_port),
        .local_fwd_listener f])

/-- The second loop of `ssh_init_forwarding`: the remote forwardings, each
request followed by the registration of its confirm callback; the fatal
error, if one is raised, and the log. -/
def remote_fwd_loop (E : MEnv) (o : MOptions) : List Forward → List Act →
    Option String × List Act
  | [], tr => (none, tr)
  | f :: fs, tr =>
    let tr1 := tr ++ [.debug ("Remote connections from " ++
        prec 200 (match f.listen_host with
          | none => "LOCALHOST"
          | some h => h) ++ ":" ++ toString f.listen_port ++
        " forwarded to local address " ++ prec 200 f.connect_host ++ ":" ++
        toString f.connect_port),
      .remote_fwd_request f]
    if E.channel_request_remote_forwarding f < 0 then
      if o.exit_on_forward_failure ≠ 0 then
        (some "Could not request remote forwarding.", tr1)
      else
        remote_fwd_loop E o fs
          (tr1 ++ [.logit "Warning: Could not request remote forwarding.",
            .register_global_confirm f])
    else remote_fwd_loop E o fs (tr1 ++ [.register_global_confirm f])

/-- The `ssh_init_forwarding()`. -/
def ssh_init_forwarding (E : MEnv) (s : MSt) : MOut × MSt :=
  let l := local_fwd_loop E s.options s.options.local_forwards 0 s.trace
  if s.options.num_local_forwards > 0 ∧ l.1 ≠ s.options.num_local_forwards ∧
      s.options.exit_on_forward_failure ≠ 0 then
    (.fatal "Could not request local forwarding.", { s with trace := l.2 })
  else
    let tr1 :=
      if s.options.num_local_forwards > 0 ∧ l.1 = 0 then
        l.2 ++ [.error "Could not request local forwarding."]
      else l.2
    let r := remote_fwd_loop E s.options s.options.remote_forwards tr1
    match r.1 with
    | some msg => (.fatal msg, { s with trace := r.2 })
    | none =>
      if s.options.tun_open ≠ E.SSH_TUNMODE_NO then
        if E.client_request_tun_fwd = -1 then
          if s.options.exit_on_forward_failure ≠ 0 then
            (.fatal "Could not request tunnel forwarding.",
              { s with trace := r.2 ++ [.tun_fwd_request] })
          else
            (.returned, { s with trace := r.2 ++
              [.tun_fwd_request, .error "Could not request tunnel forwarding."] })
        else (.returned, { s with trace := r.2 ++ [.tun_fwd_request] })
      else (.returned, { s with trace := r.2 })

/-- The `check_agent_present()`. -/
def check_agent_present (E : MEnv) (s : MSt) : MSt :=
  if s.options.forward_agent ≠ 0 ∧ E.ssh_agent_present = false then
    { s with options := { s.options with forward_agent := 0 } }
  else s

/-- The `ssh_session2_setup(id, arg)`, the callback that requests
pty/x11/agent/shell for the channel once it is open. -/
def ssh_session2_setup (E : MEnv) (id : Int) (s : MSt) : MSt :=
  let interactive : Int := s.flags.tty_flag
  let r : Int × MSt :=
    match E.DISPLAY with
    | some display =>
      if s.options.forward_x11 ≠ 0 then
        let pd := E.client_x11_get_proto display s.options.xauth_location
          s.options.forward_x11_trusted
        (1, ((s.emit (.x11_get_proto display)).emit
          (.debug "Requesting X11 forwarding with authentication spoofing.")).emit
          (.x11_request id display pd.1 pd.2))
      else (interactive, s)
    | none => (interactive, s)
  let s1 := check_agent_present E r.2
  let s2 :=
    if s1.options.forward_agent ≠ 0 then
      (s1.emit (.debug "Requesting authentication agent forwarding.")).emit
        (.channel_request id "auth-agent-req@openssh.com")
    else s1
  let reqs := E.client_session2_setup id s2.flags.tty_flag s2.flags.subsystem_flag E.TERM
    s2.command E.environ
  let s3 : MSt := { s2 with trace := s2.trace ++ reqs }
  s3.emit (.set_interactive r.1)

/-- The `ssh_session2_open()`: the channel of the session, its id. -/
def ssh_session2_open (E : MEnv) (s : MSt) : MOut × Int × MSt :=
  if E.dup_failed = true then (.fatal "dup() in/out/err failed", -1, s)
  else
    let window := if s.flags.tty_flag ≠ 0 then E.CHAN_SES_WINDOW_DEFAULT / 2
      else E.CHAN_SES_WINDOW_DEFAULT
    let packetmax := if s.flags.tty_flag ≠ 0 then E.CHAN_SES_PACKET_DEFAULT / 2
      else E.CHAN_SES_PACKET_DEFAULT
    let s1 := s.emit (.channel_new E.channel_new window packetmax)
    let s2 := s1.emit (.debug ("ssh_session2_open: channel_new: " ++ toString E.channel_new))
    let s3 := if s2.flags.no_shell_flag = 0 then s2.emit (.register_open_confirm E.channel_new)
      else s2
    (.returned, E.channel_new, s3)

/-- Lines 1207-1224 of `ssh_session2()`: the `no-more-sessions` request,
the local command and `muxserver_listen()`. -/
def ssh_session2_mid (E : MEnv) (s : MSt) : MSt :=
  let s1 :=
    if s.options.control_master = E.SSHCTL_MASTER_NO ∧ s.datafellows &&& E.SSH_NEW_OPENSSH ≠ 0
    then (s.emit (.debug "Requesting no-more-sessions@openssh.com")).emit .no_more_sessions
    else s
  let s2 :=
    match s1.options.local_command with
    | some cmd => if s1.options.permit_local_command ≠ 0 then s1.emit (.local_cmd cmd) else s1
    | none => s1
  s2.emit .muxserver_listen

/-- Lines 1226-1234 of `ssh_session2()`: "If requested, let ssh continue in
the background", then `client_loop`. -/
def ssh_session2_fork (E : MEnv) (id : Int) (s3 : MSt) : MOut × MSt :=
  if s3.flags.fork_after_authentication_flag ≠ 0 then
    let s4 : MSt := { s3 with flags := { s3.flags with fork_after_authentication_flag := 0 } }
    let s5 := s4.emit .daemon
    if E.daemon < 0 then (.fatal ("daemon() failed: " ++ prec 200 E.strerror_errno), s5)
    else
      (.returned, s5.emit (.client_loop s5.flags.tty_flag
        (if s5.flags.tty_flag ≠ 0 then s5.options.escape_char else E.SSH_ESCAPECHAR_NONE) id))
  else
    (.returned, s3.emit (.client_loop s3.flags.tty_flag
      (if s3.flags.tty_flag ≠ 0 then s3.options.escape_char else E.SSH_ESCAPECHAR_NONE) id))

/-- Lines 1207-1234 of `ssh_session2()`, after the forwardings are set up
and the session channel, if any, is opened with the id `id`. -/
def ssh_session2_rest (E : MEnv) (id : Int) (s : MSt) : MOut × MSt :=
  ssh_session2_fork E id (ssh_session2_mid E s)

/-- The `ssh_session2()` up to and including its call of `client_loop`. -/
def ssh_session2 (E : MEnv) (s : MSt) : MOut × MSt :=
  match ssh_init_forwarding E s with
  | (.fatal msg, s1) => (.fatal msg, s1)
  | (.returned, s1) =>
    if s1.flags.no_shell_flag = 0 ∨ s1.datafellows &&& E.SSH_BUG_DUMMYCHAN ≠ 0 then
      match ssh_session2_open E s1 with
      | (.fatal msg, _, s2) => (.fatal msg, s2)
      | (.returned, id, s2) => ssh_session2_rest E id s2
    else ssh_session2_rest E (-1) s1

/-! ### A concrete run -/

/-- Modelled from the spec: `client_session2_setup` of `clientloop.c`, which
is not among the sources; on the channel it emits the pty request when a tty
is wanted, the environment items, then one of `subsystem`, `exec` and
`shell`. -/
def client_session2_setup (id want_tty want_subsystem : Int) (_term : Option String)
    (cmd : List Char) (env : List String) : List Act :=
  (if want_tty ≠ 0 then [.channel_request id "pty-req"] else []) ++
  env.map (fun _ => .channel_request id "env") ++
  [.channel_request id
    (if cmd.length > 0 then (if want_subsystem ≠ 0 then "subsystem" else "exec") else "shell")]

/-- An environment in which every call succeeds, with a display and an agent. -/
def menv0 : MEnv where
  DISPLAY := some ":0"
  TERM := some "xterm"
  environ := []
  ssh_agent_present := true
  client_x11_get_proto := fun _ _ _ => ("MIT-MAGIC-COOKIE-1", "00")
  client_session2_setup := client_session2_setup
  channel_setup_local_fwd_listener := fun _ _ => 1
  channel_request_remote_forwarding := fun _ => 0
  client_request_tun_fwd := 0
  daemon := 0
  strerror_errno := ""
  dup_failed := false
  channel_new := 0
  packet_get_int := 40022
  CHAN_SES_WINDOW_DEFAULT := 2097152
  CHAN_SES_PACKET_DEFAULT := 32768
  SSH_BUG_DUMMYCHAN := 1048576
  SSH_NEW_OPENSSH := 67108864
  SSHCTL_MASTER_NO := 0
  SSH_TUNMODE_NO := 0
  SSH2_MSG_REQUEST_SUCCESS := 81
  SSH2_MSG_REQUEST_FAILURE := 82
  SSH_ESCAPECHAR_NONE := -2

/-- The remote forward of `-R 0:localhost:22`. -/
def fwd0 : Forward := ⟨none, 0, "localhost", 22⟩

/-- The options of `-f -R 0:localhost:22 -o ExitOnForwardFailure=yes`. -/
def mopts_fR : MOptions where
  forward_x11 := 0
  forward_x11_trusted := 0
  xauth_location := "xauth"
  forward_agent := 0
  exit_on_forward_failure := 1
  gateway_ports := 0
  local_forwards := []
  remote_forwards := [fwd0]
  tun_open := 0
  control_master := 0
  local_command := none
  permit_local_command := 0
  escape_char := 126

/-- The state in which `ssh_session2` is entered for
`ssh -f -R 0:localhost:22 -o ExitOnForwardFailure=yes host sleep 60` with
stdin on a terminal. -/
def mst_fR : MSt where
  options := mopts_fR
  flags := { flags0 with fork_after_authentication_flag := 1, stdin_null_flag := 1 }
  command := "sleep 60".toList
  datafellows := 0
  remote_forward_confirms_received := 0
  trace := []

/-- A session with a tty, X11 and agent forwarding (`ssh -t -X -A host`). -/
def mst_tXA : MSt where
  options :=
    { mopts_fR with
      forward_x11 := 1
      forward_agent := 1
      exit_on_forward_failure := 0
      remote_forwards := [] }
  flags := { flags0 with tty_flag := 1 }
  command := []
  datafellows := 0
  remote_forward_confirms_received := 0
  trace := []

end SshMain

namespace SshConnect

/-! ### Segments of the input -/

/-- A byte as the buffer of the read loop holds it: CR is stored as LF. -/
def store (c : Char) : Char := if c = '\r' then '\n' else c

/-- The bytes of a text that the counter `n` of the read loop counts: those
other than CR and LF. -/
def counted (l : List Char) : Nat := (l.filter (fun c => decide (c ≠ '\r' ∧ c ≠ '\n'))).length

/-- A run of input bytes is a segment when it ends at its first LF, which is
among its first 255 bytes, or is 255 bytes long and holds no LF. -/
def IsSegment (p : List Char) : Prop :=
  (p.getLast? = some '\n' ∧ '\n' ∉ p.dropLast ∧ p.length ≤ 255) ∨ (p.length = 255 ∧ '\n' ∉ p)

instance (p : List Char) : Decidable (IsSegment p) := by
  unfold IsSegment
  infer_instance

/-- The byte that a pass of the read loop gets from the connection, `none`
when the pass ends in a fatal error (time-out, `select` or read failure,
closed connection). -/
def delivered (timeout_ms : Int) (e : ReadEv) : Option Char :=
  if timeout_ms > 0 ∧ e.sel ≠ .ready then none
  else
    match e.rd with
    | .byte c => some c
    | _ => none

/-- An over-long line: 255 bytes `a` and, on the same line, `SSH-2.0-Srv`. -/
def long_line : List Char := List.replicate 255 'a' ++ "SSH-2.0-Srv\n".toList

/-- The user file `u` has another key under the address `1.2.3.4`; the host
`h` is not known. -/
def tblNewIpChanged : String → String → HostStatus :=
  fun file host => if file = "u" ∧ host = "1.2.3.4" then .HOST_CHANGED else .HOST_NEW

/-- The rule of the spec for one name looked up when the log is `tr`: the
status answered by the user file `u`, unless that status is `HOST_NEW`; then
the status answered by the system file `g`. -/
def spec_status (E : Env) (tr : List Event) (u g name : String) (k : Key) : HostStatus :=
  if (E.check_host_in_hostfile tr u name k (key_new k.type) 0).1 = .HOST_NEW then
    (E.check_host_in_hostfile (tr ++ [.probe u name]) g name k
      (E.check_host_in_hostfile tr u name k (key_new k.type) 0).2.1
      (E.check_host_in_hostfile tr u name k (key_new k.type) 0).2.2).1
  else (E.check_host_in_hostfile tr u name k (key_new k.type) 0).1

/-- The lookups of the rule of the spec for one name when the log is `tr`:
the user file `u`, and after it the system file `g` only when the user file
answers `HOST_NEW`. -/
def spec_probes (E : Env) (tr : List Event) (u g name : String) (k : Key) : List Event :=
  if (E.check_host_in_hostfile tr u name k (key_new k.type) 0).1 = .HOST_NEW then
    [.probe u name, .probe g name]
  else [.probe u name]

end SshConnect

/-! ## General lemmas on logs -/

namespace SshConnect

theorem Trace.tr_refl (P : Kind → Prop) (s : St) : Trace P s s := ⟨[], by simp, by simp⟩

theorem Trace.tr_trans {P : Kind → Prop} {s t u : St} (h1 : Trace P s t) (h2 : Trace P t u) :
    Trace P s u := by
  obtain ⟨e1, h1, p1⟩ := h1
  obtain ⟨e2, h2, p2⟩ := h2
  refine ⟨e1 ++ e2, by rw [h2, h1, List.append_assoc], ?_⟩
  intro e he
  rcases List.mem_append.mp he with h | h
  · exact p1 e h
  · exact p2 e h

theorem Trace.tr_mono {P Q : Kind → Prop} {s t : St} (hPQ : ∀ k, P k → Q k) (h : Trace P s t) :
    Trace Q s t := by
  obtain ⟨e1, h1, p1⟩ := h
  exact ⟨e1, h1, fun e he => hPQ _ (p1 e he)⟩

theorem Trace.of_trace_eq {P : Kind → Prop} {s t : St} (h : t.trace = s.trace) :
    Trace P s t := ⟨[], by simp [h], by simp⟩

theorem Trace.adds_eq {P : Kind → Prop} {s t : St} (h : Trace P s t)
    (hP : ∀ k, P k → k ≠ .add) : adds t.trace = adds s.trace := by
  obtain ⟨evs, h1, p1⟩ := h
  have : adds evs = [] := by
    simp only [adds, List.filter_eq_nil_iff]
    intro e he
    simpa using hP _ (p1 e he)
  simp only [h1, adds, List.filter_append] at this ⊢
  simp [this]

theorem Trace.prompts_eq {P : Kind → Prop} {s t : St} (h : Trace P s t)
    (hP : ∀ k, P k → k ≠ .prompt) : prompts t.trace = prompts s.trace := by
  obtain ⟨evs, h1, p1⟩ := h
  have : prompts evs = [] := by
    simp only [prompts, List.filter_eq_nil_iff]
    intro e he
    simpa using hP _ (p1 e he)
  simp only [h1, prompts, List.filter_append] at this ⊢
  simp [this]

theorem Trace.probes_eq {P : Kind → Prop} {s t : St} (h : Trace P s t)
    (hP : ∀ k, P k → k ≠ .probe) : probes t.trace = probes s.trace := by
  obtain ⟨evs, h1, p1⟩ := h
  have : probes evs = [] := by
    simp only [probes, List.filter_eq_nil_iff]
    intro e he
    simpa using hP _ (p1 e he)
  simp only [h1, probes, List.filter_append] at this ⊢
  simp [this]

theorem Trace.prompts_le {P : Kind → Prop} {s t : St} (h : Trace P s t) :
    (prompts s.trace).length ≤ (prompts t.trace).length := by
  obtain ⟨evs, h1, _⟩ := h
  simp [h1, prompts, List.filter_append]

theorem Emits.em_refl (P : Kind → Prop) (s : St) : Emits P s s := ⟨rfl, rfl, Trace.tr_refl P s⟩

theorem Emits.em_trans {P : Kind → Prop} {s t u : St} (h1 : Emits P s t) (h2 : Emits P t u) :
    Emits P s u :=
  ⟨h2.1.trans h1.1, h2.2.1.trans h1.2.1, h1.2.2.tr_trans h2.2.2⟩

theorem Emits.em_mono {P Q : Kind → Prop} {s t : St} (hPQ : ∀ k, P k → Q k) (h : Emits P s t) :
    Emits Q s t := ⟨h.1, h.2.1, h.2.2.tr_mono hPQ⟩

theorem Quiet.q_refl (P : Kind → Prop) (s : St) : Quiet P s s := ⟨rfl, Emits.em_refl P s⟩

theorem Quiet.q_trans {P : Kind → Prop} {s t u : St} (h1 : Quiet P s t) (h2 : Quiet P t u) :
    Quiet P s u := ⟨h2.1.trans h1.1, h1.2.em_trans h2.2⟩

theorem Quiet.q_mono {P Q : Kind → Prop} {s t : St} (hPQ : ∀ k, P k → Q k) (h : Quiet P s t) :
    Quiet Q s t := ⟨h.1, h.2.em_mono hPQ⟩

theorem Quiet.emit (P : Kind → Prop) (s : St) (e : Event) (he : P e.kind) :
    Quiet P s (s.emit e) := by
  refine ⟨rfl, rfl, rfl, [e], rfl, ?_⟩
  intro x hx
  simp at hx
  subst hx
  exact he

theorem Quiet.logit (P : Kind → Prop) (s : St) (msg : String) (h : P .log) :
    Quiet P s (logit s msg) := Quiet.emit P s _ h

theorem Quiet.error (P : Kind → Prop) (s : St) (msg : String) (h : P .log) :
    Quiet P s (error s msg) := Quiet.emit P s _ h

theorem Quiet.debug (P : Kind → Prop) (s : St) (msg : String) (h : P .log) :
    Quiet P s (debug s msg) := Quiet.emit P s _ h

/-! ## The helpers only log -/

theorem confirm_loop_trace (tty : List (Option String)) :
    ∀ (msg again : String) (tr : List Event),
      ∃ evs, (confirm_loop msg again tty tr).2.2 = tr ++ evs ∧ evs ≠ [] ∧
        ∀ e ∈ evs, e.kind = .prompt := by
  induction tty with
  | nil =>
    intro msg again tr
    exact ⟨[.prompt msg], by simp [confirm_loop], by simp, by simp [Event.kind]⟩
  | cons p rest ih =>
    intro msg again tr
    unfold confirm_loop
    split_ifs with h
    · exact ⟨[.prompt msg], by simp, by simp, by simp [Event.kind]⟩
    · obtain ⟨evs, h1, _, h3⟩ := ih again again (tr ++ [.prompt msg])
      refine ⟨.prompt msg :: evs, by simp [h1], by simp, ?_⟩
      intro e he
      rcases List.mem_cons.mp he with h | h
      · subst h; rfl
      · exact h3 e h

theorem confirm_loop_answer (tty : List (Option String)) :
    ∀ (msg again msg' again' : String) (tr tr' : List Event),
      (confirm_loop msg again tty tr).1 = (confirm_loop msg' again' tty tr').1 ∧
      (confirm_loop msg again tty tr).2.1 = (confirm_loop msg' again' tty tr').2.1 := by
  induction tty with
  | nil => intros; simp [confirm_loop]
  | cons p rest ih =>
    intro msg again msg' again' tr tr'
    unfold confirm_loop
    split_ifs with h
    · simp
    · exact ih _ _ _ _ _ _

theorem confirm_emits (P : Kind → Prop) (hP : P .prompt) (s : St) (msg : String) :
    Emits P s (confirm s msg).2 := by
  unfold confirm
  split_ifs with h
  · exact Emits.em_refl P s
  · obtain ⟨evs, h1, _, h3⟩ := confirm_loop_trace s.tty msg "Please type 'yes' or 'no': " s.trace
    refine ⟨rfl, rfl, evs, h1, ?_⟩
    intro e he
    rw [h3 e he]
    exact hP

/-- Outside batch mode `confirm` asks at least once. -/
theorem confirm_prompts (s : St) (msg : String) (hb : s.options.batch_mode = 0) :
    (prompts s.trace).length < (prompts (confirm s msg).2.trace).length := by
  unfold confirm
  rw [if_neg (by simpa using hb)]
  obtain ⟨evs, h1, h2, h3⟩ := confirm_loop_trace s.tty msg "Please type 'yes' or 'no': " s.trace
  simp only [h1, prompts, List.filter_append, List.length_append]
  have : List.filter (fun e => decide (e.kind = .prompt)) evs = evs := by
    rw [List.filter_eq_self]
    intro e he
    simp [h3 e he]
  rw [this]
  have : 0 < evs.length := List.length_pos.mpr h2
  omega

/-- In batch mode `confirm` answers no and does nothing. -/
theorem confirm_batch (s : St) (msg : String) (hb : s.options.batch_mode ≠ 0) :
    confirm s msg = (0, s) := by
  unfold confirm
  rw [if_pos hb]

/-- The answer of `confirm` depends only on batch mode and the terminal. -/
theorem confirm_answer_indep (s t : St) (msg msg' : String) (htty : t.tty = s.tty)
    (hb : t.options.batch_mode = s.options.batch_mode) :
    (confirm t msg').1 = (confirm s msg).1 ∧ (confirm t msg').2.tty = (confirm s msg).2.tty := by
  unfold confirm
  rw [hb, htty]
  split_ifs with h
  · simp [htty]
  · exact confirm_loop_answer s.tty _ _ _ _ _ _

theorem show_key_from_file_quiet (P : Kind → Prop) (h1 : P .lookup) (h2 : P .log) (E : Env)
    (s : St) (file host : String) (keytype : Int) :
    Quiet P s (show_key_from_file E s file host keytype).2 := by
  unfold show_key_from_file
  dsimp only
  split_ifs <;>
    simp [lookup_key_in_hostfile_by_type, logit, St.emit, Quiet, Emits, Trace, Event.kind, h1, h2]

theorem show_other_keys_type_quiet (P : Kind → Prop) (h1 : P .lookup) (h2 : P .log) (E : Env)
    (host : String) (t : Int) (s : St) : Quiet P s (show_other_keys_type E host t s).2 := by
  have hk := show_key_from_file_quiet P h1 h2 E
  unfold show_other_keys_type
  dsimp only
  have ha : Quiet P s (if t ≠ E.KEY_RSA1 then
      show_key_from_file E s s.options.user_hostfile2 host t else (0, s)).2 := by
    split_ifs
    · exact hk _ _ _ _
    · exact Quiet.q_refl P s
  generalize (if t ≠ E.KEY_RSA1 then
      show_key_from_file E s s.options.user_hostfile2 host t else (0, s)) = a at ha ⊢
  by_cases hA : a.1 ≠ 0
  · rw [if_pos hA]; exact ha
  rw [if_neg hA]
  have hb : Quiet P s (if t ≠ E.KEY_RSA1 then
      show_key_from_file E a.2 a.2.options.system_hostfile2 host t else (0, a.2)).2 := by
    split_ifs
    · exact ha.q_trans (hk _ _ _ _)
    · exact ha
  generalize (if t ≠ E.KEY_RSA1 then
      show_key_from_file E a.2 a.2.options.system_hostfile2 host t else (0, a.2)) = b at hb ⊢
  by_cases hB : b.1 ≠ 0
  · rw [if_pos hB]; exact hb
  rw [if_neg hB]
  have hc : Quiet P s (show_key_from_file E b.2 b.2.options.user_hostfile host t).2 :=
    hb.q_trans (hk _ _ _ _)
  generalize show_key_from_file E b.2 b.2.options.user_hostfile host t = c at hc ⊢
  by_cases hC : c.1 ≠ 0
  · rw [if_pos hC]; exact hc
  rw [if_neg hC]
  have hd : Quiet P s (show_key_from_file E c.2 c.2.options.system_hostfile host t).2 :=
    hc.q_trans (hk _ _ _ _)
  generalize show_key_from_file E c.2 c.2.options.system_hostfile host t = d at hd ⊢
  by_cases hD : d.1 ≠ 0
  · rw [if_pos hD]; exact hd
  rw [if_neg hD]
  exact hd.q_trans (Quiet.emit P _ _ h2)

theorem show_other_keys_loop_quiet (P : Kind → Prop) (h1 : P .lookup) (h2 : P .log) (E : Env)
    (host : String) (key : Key) (ts : List Int) :
    ∀ (found : Int) (s : St), Quiet P s (show_other_keys_loop E host key ts found s).2 := by
  induction ts with
  | nil => intro found s; exact Quiet.q_refl P s
  | cons t ts ih =>
    intro found s
    unfold show_other_keys_loop
    dsimp only
    by_cases ht : t = -1
    · rw [if_pos ht]; exact Quiet.q_refl P s
    rw [if_neg ht]
    by_cases hty : t = key.type
    · rw [if_pos hty]; exact ih _ _
    rw [if_neg hty]
    exact (show_other_keys_type_quiet P h1 h2 E host t s).q_trans (ih _ _)

theorem show_other_keys_quiet (P : Kind → Prop) (h1 : P .lookup) (h2 : P .log) (E : Env)
    (s : St) (host : String) (key : Key) : Quiet P s (show_other_keys E s host key).2 :=
  show_other_keys_loop_quiet P h1 h2 E host key _ 0 s

theorem warn_changed_key_quiet (P : Kind → Prop) (hP : P .log) (E : Env) (s : St) (k : Key) :
    Quiet P s (warn_changed_key E s k) := by
  simp [warn_changed_key, error, St.emit, Quiet, Emits, Trace, Event.kind, hP]

theorem warn_dns_spoofing_quiet (P : Kind → Prop) (hP : P .log) (L : Locals) (s : St) :
    Quiet P s (warn_dns_spoofing L s) := by
  unfold warn_dns_spoofing
  dsimp only
  split_ifs <;> simp [error, St.emit, Quiet, Emits, Trace, Event.kind, hP]

end SshConnect

namespace SshConnect

theorem SameButIp.sb_refl (o : Options) : SameButIp o o := rfl

theorem SameButIp.sb_trans {a b c : Options} (h1 : SameButIp a b) (h2 : SameButIp b c) :
    SameButIp a c := by
  unfold SameButIp at *
  rw [h2, h1]

theorem SameButIp.of_eq {a b : Options} (h : b = a) : SameButIp a b := by
  subst h; rfl

theorem lookup_user_then_system_quiet (P : Kind → Prop) (hP : P .probe) (E : Env) (s : St)
    (u g name : String) (k found : Key) (line : Int) :
    Quiet P s (lookup_user_then_system E s u g name k found line).2 := by
  unfold lookup_user_then_system
  dsimp only
  split_ifs <;>
    simp [check_host_in_hostfile, St.emit, Quiet, Emits, Trace, Event.kind, hP]

theorem probe_stores_quiet (P : Kind → Prop) (hP : P .probe) (E : Env) (s : St)
    (host ip : String) (k : Key) (u g : String) :
    Quiet P s (probe_stores E s host ip k u g).2 := by
  unfold probe_stores
  dsimp only
  by_cases hc : (lookup_user_then_system E s u g host k (key_new k.type)
      0).2.options.check_host_ip ≠ 0
  · rw [if_pos hc]
    exact (lookup_user_then_system_quiet P hP E _ _ _ _ _ _ _).q_trans
      (lookup_user_then_system_quiet P hP E _ _ _ _ _ _ _)
  · rw [if_neg hc]
    exact lookup_user_then_system_quiet P hP E _ _ _ _ _ _ _

theorem case_HOST_OK_quiet (P : Kind → Prop) (h1 : P .log) (readonly : Int)
    (h2 : readonly = 0 → P .add) (E : Env) (L : Locals) (k : Key) (u : String) (s : St) :
    Quiet P s (case_HOST_OK E L k readonly u s) := by
  unfold case_HOST_OK
  dsimp only
  split_ifs with a b c d
  · simp [logit, debug, St.emit, Quiet, Emits, Trace, Event.kind, h1]
  · have hr : readonly = 0 := by simpa using b
    simp [add_host_to_hostfile, logit, debug, St.emit, Quiet, Emits, Trace, Event.kind, h1,
      h2 hr]
  · have hr : readonly = 0 := by simpa using b
    simp [add_host_to_hostfile, logit, debug, St.emit, Quiet, Emits, Trace, Event.kind, h1,
      h2 hr]
  · simp [logit, debug, St.emit, Quiet, Emits, Trace, Event.kind, h1]
  · simp [logit, debug, St.emit, Quiet, Emits, Trace, Event.kind, h1]

theorem new_host_prompt_emits (P : Kind → Prop) (h1 : P .lookup) (h2 : P .log) (h3 : P .prompt)
    (E : Env) (L : Locals) (k : Key) (s : St) : Emits P s (new_host_prompt E L k s).2 := by
  unfold new_host_prompt
  dsimp only
  exact (show_other_keys_quiet P h1 h2 E s L.host k).2.em_trans (confirm_emits P h3 _ _)

theorem new_host_report_quiet (P : Kind → Prop) (h1 : P .log) (L : Locals) (u hostp : String)
    (r : Int) (s : St) : Quiet P s (new_host_report L u hostp r s) := by
  unfold new_host_report
  split_ifs <;> exact Quiet.logit P _ _ h1

theorem add_host_to_hostfile_quiet (P : Kind → Prop) (h1 : P .add) (E : Env) (s : St)
    (file host : String) (k : Key) (hash : Int) :
    Quiet P s (add_host_to_hostfile E s file host k hash).2 :=
  Quiet.emit P _ _ h1

theorem new_host_insert_quiet (P : Kind → Prop) (h1 : P .log) (h2 : P .add) (E : Env)
    (L : Locals) (k : Key) (u : String) (s : St) : Quiet P s (new_host_insert E L k u s) := by
  have ha := add_host_to_hostfile_quiet P h2 E
  have hr := new_host_report_quiet P h1 L u
  unfold new_host_insert
  dsimp only
  by_cases c1 : s.options.check_host_ip ≠ 0 ∧ L.ip_status = .HOST_NEW
  · rw [if_pos c1]
    by_cases c2 : s.options.hash_known_hosts ≠ 0
    · rw [if_pos c2]
      by_cases c3 : (add_host_to_hostfile E s u L.host k s.options.hash_known_hosts).1 ≠ 0
      · rw [if_pos c3]
        exact ((ha _ _ _ _ _).q_trans (ha _ _ _ _ _)).q_trans (hr _ _ _)
      · rw [if_neg c3]
        exact (ha _ _ _ _ _).q_trans (hr _ _ _)
    · rw [if_neg c2]
      exact (ha _ _ _ _ _).q_trans (hr _ _ _)
  · rw [if_neg c1]
    exact (ha _ _ _ _ _).q_trans (hr _ _ _)

theorem case_HOST_NEW_emits (P : Kind → Prop) (h1 : P .log) (h2 : P .lookup) (h3 : P .prompt)
    (readonly : Int) (h4 : readonly = 0 → P .add) (E : Env) (L : Locals) (k : Key) (u : String)
    (s : St) : Emits P s (case_HOST_NEW E L k readonly u s).st := by
  unfold case_HOST_NEW
  dsimp only
  split_ifs with a b c d
  · exact Emits.em_refl P s
  · exact (Quiet.error P _ _ h1).2
  · exact new_host_prompt_emits P h2 h1 h3 E L k s
  · have hr : readonly = 0 := by simpa using a
    exact (new_host_prompt_emits P h2 h1 h3 E L k s).em_trans
      (new_host_insert_quiet P h1 (h4 hr) E L k u _).2
  · have hr : readonly = 0 := by simpa using a
    exact (new_host_insert_quiet P h1 (h4 hr) E L k u _).2

theorem post_check_emits (P : Kind → Prop) (h1 : P .log) (h3 : P .prompt) (L : Locals)
    (s : St) : Emits P s (post_check L s).2 := by
  unfold post_check
  dsimp only
  split_ifs
  · exact ((Quiet.logit P _ _ h1).q_trans (Quiet.error P _ _ h1)).2
  · exact confirm_emits P h3 _ _
  · exact confirm_emits P h3 _ _
  · exact (Quiet.logit P _ _ h1).2
  · exact Emits.em_refl P s

end SshConnect

namespace SshConnect

/-! ## The man-in-the-middle downgrade -/

theorem trace_error_with (P : Kind → Prop) (hP : P .log) (s : St) (msg : String)
    (o : Options) : Trace P s { error s msg with options := o } :=
  ⟨[.error msg], rfl, by simp [Event.kind, hP]⟩

theorem disable_password_step (r : Int × St) :
    DowngradeStep (fun o => { o with password_authentication := 0 })
      (fun o => o.password_authentication ≠ 0) r (disable_password r) := by
  unfold disable_password DowngradeStep
  by_cases h : r.2.options.password_authentication ≠ 0
  · rw [if_pos h]
    exact ⟨rfl, rfl, rfl, fun P hP => trace_error_with P hP _ _ _, by simp [h]⟩
  · rw [if_neg h]
    refine ⟨?_, rfl, rfl, fun P _ => Trace.tr_refl P _, by simp [h]⟩
    have h' : r.2.options.password_authentication = 0 := by simpa using h
    rw [← h']

theorem disable_kbd_interactive_step (r : Int × St) :
    DowngradeStep (fun o => if o.kbd_interactive_authentication ≠ 0 then
        { o with kbd_interactive_authentication := 0, challenge_response_authentication := 0 }
        else o)
      (fun o => o.kbd_interactive_authentication ≠ 0) r (disable_kbd_interactive r) := by
  unfold disable_kbd_interactive DowngradeStep
  by_cases h : r.2.options.kbd_interactive_authentication ≠ 0
  · refine ⟨by simp [h], by simp [h, error, St.emit], by simp [h, error, St.emit], ?_,
      by simp [h]⟩
    intro P hP
    rw [if_pos h]
    exact trace_error_with P hP _ _ _
  · refine ⟨by simp [h], by simp [h], by simp [h], ?_, by simp [h]⟩
    intro P _
    rw [if_neg h]
    exact Trace.tr_refl P _

theorem disable_challenge_response_step (r : Int × St) :
    DowngradeStep (fun o => { o with challenge_response_authentication := 0 })
      (fun o => o.challenge_response_authentication ≠ 0) r (disable_challenge_response r) := by
  unfold disable_challenge_response DowngradeStep
  by_cases h : r.2.options.challenge_response_authentication ≠ 0
  · rw [if_pos h]
    exact ⟨rfl, rfl, rfl, fun P hP => trace_error_with P hP _ _ _, by simp [h]⟩
  · rw [if_neg h]
    refine ⟨?_, rfl, rfl, fun P _ => Trace.tr_refl P _, by simp [h]⟩
    have h' : r.2.options.challenge_response_authentication = 0 := by simpa using h
    rw [← h']

theorem disable_forward_agent_step (r : Int × St) :
    DowngradeStep (fun o => { o with forward_agent := 0 })
      (fun o => o.forward_agent ≠ 0) r (disable_forward_agent r) := by
  unfold disable_forward_agent DowngradeStep
  by_cases h : r.2.options.forward_agent ≠ 0
  · rw [if_pos h]
    exact ⟨rfl, rfl, rfl, fun P hP => trace_error_with P hP _ _ _, by simp [h]⟩
  · rw [if_neg h]
    refine ⟨?_, rfl, rfl, fun P _ => Trace.tr_refl P _, by simp [h]⟩
    have h' : r.2.options.forward_agent = 0 := by simpa using h
    rw [← h']

theorem disable_forward_x11_step (r : Int × St) :
    DowngradeStep (fun o => { o with forward_x11 := 0 })
      (fun o => o.forward_x11 ≠ 0) r (disable_forward_x11 r) := by
  unfold disable_forward_x11 DowngradeStep
  by_cases h : r.2.options.forward_x11 ≠ 0
  · rw [if_pos h]
    exact ⟨rfl, rfl, rfl, fun P hP => trace_error_with P hP _ _ _, by simp [h]⟩
  · rw [if_neg h]
    refine ⟨?_, rfl, rfl, fun P _ => Trace.tr_refl P _, by simp [h]⟩
    have h' : r.2.options.forward_x11 = 0 := by simpa using h
    rw [← h']

theorem disable_port_forwards_step (r : Int × St) :
    DowngradeStep (fun o => { o with num_local_forwards := 0, num_remote_forwards := 0 })
      (fun o => o.num_local_forwards > 0 ∨ o.num_remote_forwards > 0) r
      (disable_port_forwards r) := by
  unfold disable_port_forwards DowngradeStep
  by_cases h : r.2.options.num_local_forwards > 0 ∨ r.2.options.num_remote_forwards > 0
  · rw [if_pos h]
    exact ⟨rfl, rfl, rfl, fun P hP => trace_error_with P hP _ _ _, by simp [h]⟩
  · rw [if_neg h]
    refine ⟨?_, rfl, rfl, fun P _ => Trace.tr_refl P _, by simp [h]⟩
    have h1 : r.2.options.num_local_forwards = 0 := by omega
    have h2 : r.2.options.num_remote_forwards = 0 := by omega
    obtain ⟨c, ⟨o, d, t, tr⟩⟩ := r
    cases o
    simp_all

theorem disable_tun_step (r : Int × St) :
    DowngradeStep (fun o => { o with tun_open := SSH_TUNMODE_NO })
      (fun o => o.tun_open ≠ SSH_TUNMODE_NO) r (disable_tun r) := by
  unfold disable_tun DowngradeStep
  by_cases h : r.2.options.tun_open ≠ SSH_TUNMODE_NO
  · rw [if_pos h]
    exact ⟨rfl, rfl, rfl, fun P hP => trace_error_with P hP _ _ _, by simp [h]⟩
  · rw [if_neg h]
    refine ⟨?_, rfl, rfl, fun P _ => Trace.tr_refl P _, by simp [h]⟩
    have h' : r.2.options.tun_open = SSH_TUNMODE_NO := by simpa using h
    rw [← h']

end SshConnect

namespace SshConnect

theorem disable_mitm_features_spec (s : St) :
    (disable_mitm_features s).2.options = mitm_downgrade s.options ∧
    (disable_mitm_features s).2.tty = s.tty ∧
    (disable_mitm_features s).2.matching_host_key_dns = s.matching_host_key_dns ∧
    (∀ P : Kind → Prop, P .log → Trace P s (disable_mitm_features s).2) ∧
    ((disable_mitm_features s).1 ≠ 0 ↔ any_mitm_feature s.options) := by
  unfold disable_mitm_features
  have h1 := disable_password_step (0, s)
  generalize disable_password (0, s) = r1 at h1 ⊢
  have h2 := disable_kbd_interactive_step r1
  generalize disable_kbd_interactive r1 = r2 at h2 ⊢
  have h3 := disable_challenge_response_step r2
  generalize disable_challenge_response r2 = r3 at h3 ⊢
  have h4 := disable_forward_agent_step r3
  generalize disable_forward_agent r3 = r4 at h4 ⊢
  have h5 := disable_forward_x11_step r4
  generalize disable_forward_x11 r4 = r5 at h5 ⊢
  have h6 := disable_port_forwards_step r5
  generalize disable_port_forwards r5 = r6 at h6 ⊢
  have h7 := disable_tun_step r6
  generalize disable_tun r6 = r7 at h7 ⊢
  obtain ⟨o1, t1, d1, tr1, f1⟩ := h1
  obtain ⟨o2, t2, d2, tr2, f2⟩ := h2
  obtain ⟨o3, t3, d3, tr3, f3⟩ := h3
  obtain ⟨o4, t4, d4, tr4, f4⟩ := h4
  obtain ⟨o5, t5, d5, tr5, f5⟩ := h5
  obtain ⟨o6, t6, d6, tr6, f6⟩ := h6
  obtain ⟨o7, t7, d7, tr7, f7⟩ := h7
  dsimp only at o1 t1 d1 f1
  refine ⟨?_, ?_, ?_, ?_, ?_⟩
  · rw [o7, o6, o5, o4, o3, o2, o1]
    unfold mitm_downgrade
    by_cases hk : s.options.kbd_interactive_authentication ≠ 0
    · simp [hk]
    · have hk' : s.options.kbd_interactive_authentication = 0 := by simpa using hk
      simp [hk']
  · rw [t7, t6, t5, t4, t3, t2, t1]
  · rw [d7, d6, d5, d4, d3, d2, d1]
  · intro P hP
    exact ((((((tr1 P hP).tr_trans (tr2 P hP)).tr_trans (tr3 P hP)).tr_trans (tr4 P hP)).tr_trans
      (tr5 P hP)).tr_trans (tr6 P hP)).tr_trans (tr7 P hP)
  · rw [f7, f6, f5, f4, f3, f2, f1, o6, o5, o4, o3, o2, o1]
    unfold any_mitm_feature
    by_cases hk : s.options.kbd_interactive_authentication ≠ 0
    · simp [hk]
    · have hk' : s.options.kbd_interactive_authentication = 0 := by simpa using hk
      simp [hk']
      simp only [or_assoc]

end SshConnect

namespace SshConnect

/-! ## Unfolding `check_host_key` along its branches -/

section Unfold

variable (E : Env) (n : Nat) (hostname : String) (hostaddr : SockAddr) (port : Nat)
  (host_key : Key) (readonly : Int) (u g : String) (s : St)

theorem chk_bypass (hb : localhost_bypass s hostaddr) :
    check_host_key_fuel E (n + 1) hostname hostaddr port host_key readonly u g s =
      some (.ret 0, debug s "Forcing accepting of host key for loopback/localhost.") := by
  simp [check_host_key_fuel, hb]

theorem chk_fatal (hb : ¬ localhost_bypass s hostaddr)
    (hs : switch_entry E hostname hostaddr port host_key u g s = none) :
    check_host_key_fuel E (n + 1) hostname hostaddr port host_key readonly u g s =
      some (.fatal "check_host_key: getnameinfo failed", s) := by
  simp [check_host_key_fuel, hb, hs]

theorem chk_ok (hb : ¬ localhost_bypass s hostaddr) (L : Locals) (s1 : St)
    (hs : switch_entry E hostname hostaddr port host_key u g s = some (L, s1))
    (hst : L.host_status = .HOST_OK) :
    check_host_key_fuel E (n + 1) hostname hostaddr port host_key readonly u g s =
      some (post_check L (case_HOST_OK E L host_key readonly u s1)) := by
  simp [check_host_key_fuel, hb, hs, hst]

theorem chk_changed (hb : ¬ localhost_bypass s hostaddr) (L : Locals) (s1 : St)
    (hs : switch_entry E hostname hostaddr port host_key u g s = some (L, s1))
    (hst : L.host_status = .HOST_CHANGED) :
    check_host_key_fuel E (n + 1) hostname hostaddr port host_key readonly u g s =
      some (leave_switch L (case_HOST_CHANGED E L host_key readonly u s1)) := by
  simp [check_host_key_fuel, hb, hs, hst]

theorem chk_found (hb : ¬ localhost_bypass s hostaddr) (L : Locals) (s1 : St)
    (hs : switch_entry E hostname hostaddr port host_key u g s = some (L, s1))
    (hst : L.host_status = .HOST_FOUND) :
    check_host_key_fuel E (n + 1) hostname hostaddr port host_key readonly u g s =
      some (.fatal "internal error", s1) := by
  simp [check_host_key_fuel, hb, hs, hst]

theorem chk_new_noretry (hb : ¬ localhost_bypass s hostaddr) (L : Locals) (s1 : St)
    (hs : switch_entry E hostname hostaddr port host_key u g s = some (L, s1))
    (hst : L.host_status = .HOST_NEW) (hr : ¬ retry_applies s1 port) :
    check_host_key_fuel E (n + 1) hostname hostaddr port host_key readonly u g s =
      some (leave_switch L (case_HOST_NEW E L host_key readonly u s1)) := by
  simp [check_host_key_fuel, hb, hs, hst, hr]

theorem chk_new_retry_none (hb : ¬ localhost_bypass s hostaddr) (L : Locals) (s1 : St)
    (hs : switch_entry E hostname hostaddr port host_key u g s = some (L, s1))
    (hst : L.host_status = .HOST_NEW) (hr : retry_applies s1 port)
    (hn : check_host_key_fuel E n hostname hostaddr 0 host_key ROQUIET u g
      (debug s1 "checking without port identifier") = none) :
    check_host_key_fuel E (n + 1) hostname hostaddr port host_key readonly u g s = none := by
  simp [check_host_key_fuel, hb, hs, hst, hr, hn]

theorem chk_new_retry_fatal (hb : ¬ localhost_bypass s hostaddr) (L : Locals) (s1 : St)
    (hs : switch_entry E hostname hostaddr port host_key u g s = some (L, s1))
    (hst : L.host_status = .HOST_NEW) (hr : retry_applies s1 port) (msg : String) (s2 : St)
    (hn : check_host_key_fuel E n hostname hostaddr 0 host_key ROQUIET u g
      (debug s1 "checking without port identifier") = some (.fatal msg, s2)) :
    check_host_key_fuel E (n + 1) hostname hostaddr port host_key readonly u g s =
      some (.fatal msg, s2) := by
  simp [check_host_key_fuel, hb, hs, hst, hr, hn]

theorem chk_new_retry_accept (hb : ¬ localhost_bypass s hostaddr) (L : Locals) (s1 : St)
    (hs : switch_entry E hostname hostaddr port host_key u g s = some (L, s1))
    (hst : L.host_status = .HOST_NEW) (hr : retry_applies s1 port) (s2 : St)
    (hn : check_host_key_fuel E n hostname hostaddr 0 host_key ROQUIET u g
      (debug s1 "checking without port identifier") = some (.ret 0, s2)) :
    check_host_key_fuel E (n + 1) hostname hostaddr port host_key readonly u g s =
      some (post_check L (debug s2 "found matching key w/out port")) := by
  simp [check_host_key_fuel, hb, hs, hst, hr, hn]

theorem chk_new_retry_reject (hb : ¬ localhost_bypass s hostaddr) (L : Locals) (s1 : St)
    (hs : switch_entry E hostname hostaddr port host_key u g s = some (L, s1))
    (hst : L.host_status = .HOST_NEW) (hr : retry_applies s1 port) (r : Int) (s2 : St)
    (hr0 : r ≠ 0)
    (hn : check_host_key_fuel E n hostname hostaddr 0 host_key ROQUIET u g
      (debug s1 "checking without port identifier") = some (.ret r, s2)) :
    check_host_key_fuel E (n + 1) hostname hostaddr port host_key readonly u g s =
      some (leave_switch L (case_HOST_NEW E L host_key readonly u s2)) := by
  simp [check_host_key_fuel, hb, hs, hst, hr, hn, hr0]

end Unfold

end SshConnect

namespace SshConnect

/-! ## From the entry of the function to the `switch` -/

theorem adjust_check_host_ip_spec (s : St) (b : Bool) (hostname ip : String) :
    (adjust_check_host_ip s b hostname ip).tty = s.tty ∧
    (adjust_check_host_ip s b hostname ip).matching_host_key_dns = s.matching_host_key_dns ∧
    (adjust_check_host_ip s b hostname ip).trace = s.trace ∧
    SameButIp s.options (adjust_check_host_ip s b hostname ip).options := by
  unfold adjust_check_host_ip
  split_ifs
  · exact ⟨rfl, rfl, rfl, rfl⟩
  · exact ⟨rfl, rfl, rfl, SameButIp.sb_refl _⟩

theorem host_name_quiet (P : Kind → Prop) (hP : P .log) (E : Env) (s : St) (hostname : String)
    (port : Nat) : Quiet P s (host_name E s hostname port).2 := by
  unfold host_name
  split
  · exact Quiet.debug P _ _ hP
  · exact Quiet.q_refl P s

theorem probe_stores_ip_off (E : Env) (s : St) (host ip : String) (k : Key) (u g : String)
    (h : s.options.check_host_ip = 0) :
    (probe_stores E s host ip k u g).1.ip_status = (probe_stores E s host ip k u g).1.host_status := by
  have hq := lookup_user_then_system_quiet (fun _ => True) trivial E s u g host k
    (key_new k.type) 0
  have ho : (lookup_user_then_system E s u g host k (key_new k.type) 0).2.options.check_host_ip
      = 0 := by rw [hq.2.1]; exact h
  unfold probe_stores
  dsimp only
  rw [if_neg (by simp [ho])]

theorem switch_entry_spec (P : Kind → Prop) (h1 : P .probe) (h2 : P .log) (E : Env)
    (hostname : String) (hostaddr : SockAddr) (port : Nat) (host_key : Key) (u g : String)
    (s : St) (L : Locals) (s1 : St)
    (hs : switch_entry E hostname hostaddr port host_key u g s = some (L, s1)) :
    s1.tty = s.tty ∧ s1.matching_host_key_dns = s.matching_host_key_dns ∧ Trace P s s1 ∧
    SameButIp s.options s1.options ∧
    (s1.options.check_host_ip = 0 → L.ip_status = L.host_status) := by
  unfold switch_entry at hs
  cases hip : host_ip E s hostaddr port with
  | none => simp [hip] at hs
  | some ip =>
    simp only [hip, Option.some.injEq] at hs
    obtain ⟨a1, a2, a3, a4⟩ := adjust_check_host_ip_spec s (is_local hostaddr) hostname ip
    generalize adjust_check_host_ip s (is_local hostaddr) hostname ip = sa at hs a1 a2 a3 a4
    have hh := host_name_quiet P h2 E sa hostname port
    generalize host_name E sa hostname port = hn at hs hh
    have hp := probe_stores_quiet P h1 E hn.2 hn.1 ip host_key u g
    have hoff := probe_stores_ip_off E hn.2 hn.1 ip host_key u g
    rw [hs] at hp hoff
    dsimp only at hp hoff
    have hq := hh.q_trans hp
    refine ⟨hq.1.trans a1, hq.2.2.1.trans a2, ?_, ?_, ?_⟩
    · exact (Trace.of_trace_eq a3).tr_trans hq.2.2.2
    · exact a4.sb_trans (SameButIp.of_eq hq.2.1)
    · intro h0
      apply hoff
      rw [← hp.2.1]
      exact h0

/-! ## The `case HOST_CHANGED` -/

theorem case_HOST_CHANGED_spec (E : Env) (L : Locals) (k : Key) (readonly : Int) (u : String)
    (s : St) :
    ∃ s', (case_HOST_CHANGED E L k readonly u s).st = s' ∧ s'.tty = s.tty ∧
      s'.matching_host_key_dns = s.matching_host_key_dns ∧
      (∀ P : Kind → Prop, P .log → Trace P s s') ∧
      ((readonly = ROQUIET ∨ s.options.strict_host_key_checking ≠ 0) →
        case_HOST_CHANGED E L k readonly u s = .fail s' ∧ s'.options = s.options) ∧
      (readonly ≠ ROQUIET → s.options.strict_host_key_checking = 0 →
        s'.options = mitm_downgrade s.options ∧
        case_HOST_CHANGED E L k readonly u s =
          if s.options.exit_on_forward_failure ≠ 0 ∧ any_mitm_feature s.options then
            .fatal "Error: forwarding disabled due to host key check failure" s'
          else .brk s') := by
  refine ⟨_, rfl, ?_⟩
  unfold case_HOST_CHANGED
  by_cases hr : readonly = ROQUIET
  · rw [if_pos hr]
    exact ⟨rfl, rfl, fun P _ => Trace.tr_refl P s, fun _ => ⟨rfl, rfl⟩, fun h => absurd hr h⟩
  rw [if_neg hr]
  dsimp only
  have hq : ∀ P : Kind → Prop, P .log → Quiet P s
      (error (error (warn_changed_key E (warn_dns_spoofing L s) k)
        ("Add correct host key in " ++ prec 100 u ++ " to get rid of this message."))
        ("Offending key in " ++ L.host_file ++ ":" ++ toString L.host_line)) := by
    intro P hP
    exact (((warn_dns_spoofing_quiet P hP L s).q_trans (warn_changed_key_quiet P hP E _ k)).q_trans
      (Quiet.error P _ _ hP)).q_trans (Quiet.error P _ _ hP)
  generalize (error (error (warn_changed_key E (warn_dns_spoofing L s) k)
        ("Add correct host key in " ++ prec 100 u ++ " to get rid of this message."))
        ("Offending key in " ++ L.host_file ++ ":" ++ toString L.host_line)) = t at hq ⊢
  have hT := hq (fun _ => True) trivial
  by_cases hstrict : t.options.strict_host_key_checking ≠ 0
  · rw [if_pos hstrict]
    refine ⟨hT.1, hT.2.2.1, ?_, ?_, ?_⟩
    · intro P hP
      exact ((hq P hP).q_trans (Quiet.error P _ _ hP)).2.2.2
    · intro _
      exact ⟨rfl, hT.2.1⟩
    · intro _ h0
      rw [hT.2.1] at hstrict
      exact absurd h0 hstrict
  · rw [if_neg hstrict]
    obtain ⟨d1, d2, d3, d4, d5⟩ := disable_mitm_features_spec t
    generalize disable_mitm_features t = d at d1 d2 d3 d4 d5 ⊢
    have hd : d.2.options.exit_on_forward_failure = s.options.exit_on_forward_failure := by
      rw [d1, hT.2.1]; rfl
    have key : (d.2.options.exit_on_forward_failure ≠ 0 ∧ d.1 ≠ 0) ↔
        (s.options.exit_on_forward_failure ≠ 0 ∧ any_mitm_feature s.options) := by
      rw [hd, d5, hT.2.1]
    by_cases hf : d.2.options.exit_on_forward_failure ≠ 0 ∧ d.1 ≠ 0
    · rw [if_pos hf]
      refine ⟨d2.trans hT.1, d3.trans hT.2.2.1, fun P hP => (hq P hP).2.2.2.tr_trans (d4 P hP), ?_, ?_⟩
      · intro h
        rcases h with h | h
        · exact absurd h hr
        · rw [hT.2.1] at hstrict; exact absurd h hstrict
      · intro _ _
        refine ⟨by show d.2.options = _; rw [d1, hT.2.1], ?_⟩
        rw [if_pos (key.mp hf)]
        rfl
    · rw [if_neg hf]
      refine ⟨d2.trans hT.1, d3.trans hT.2.2.1, fun P hP => (hq P hP).2.2.2.tr_trans (d4 P hP), ?_, ?_⟩
      · intro h
        rcases h with h | h
        · exact absurd h hr
        · rw [hT.2.1] at hstrict; exact absurd h hstrict
      · intro _ _
        refine ⟨by show d.2.options = _; rw [d1, hT.2.1], ?_⟩
        rw [if_neg (fun h => hf (key.mpr h))]
        rfl

theorem leave_switch_emits (P : Kind → Prop) (h1 : P .log) (h3 : P .prompt) (L : Locals)
    (c : Ctl) : Emits P c.st (leave_switch L c).2 := by
  cases c with
  | brk s => exact post_check_emits P h1 h3 L s
  | fail s => exact Emits.em_refl P s
  | fatal msg s => exact Emits.em_refl P s

end SshConnect

namespace SshConnect

/-! ## Termination: the recursion has depth at most two -/

theorem retry_applies_zero (s : St) : ¬ retry_applies s 0 := by
  simp [retry_applies]

/-- A call with port 0 never recurses: any positive bound gives the same
result, and there is one. -/
theorem check_host_key_fuel_port0 (E : Env) (n : Nat) (hostname : String)
    (hostaddr : SockAddr) (host_key : Key) (readonly : Int) (u g : String) (s : St) :
    check_host_key_fuel E (n + 1) hostname hostaddr 0 host_key readonly u g s =
      check_host_key_fuel E 1 hostname hostaddr 0 host_key readonly u g s ∧
    ∃ r, check_host_key_fuel E 1 hostname hostaddr 0 host_key readonly u g s = some r := by
  by_cases hb : localhost_bypass s hostaddr
  · rw [chk_bypass E n _ _ _ _ _ _ _ _ hb, chk_bypass E 0 _ _ _ _ _ _ _ _ hb]
    exact ⟨rfl, _, rfl⟩
  cases hs : switch_entry E hostname hostaddr 0 host_key u g s with
  | none =>
    rw [chk_fatal E n _ _ _ _ _ _ _ _ hb hs, chk_fatal E 0 _ _ _ _ _ _ _ _ hb hs]
    exact ⟨rfl, _, rfl⟩
  | some p =>
    obtain ⟨L, s1⟩ := p
    cases hst : L.host_status with
    | HOST_OK =>
      rw [chk_ok E n _ _ _ _ _ _ _ _ hb L s1 hs hst, chk_ok E 0 _ _ _ _ _ _ _ _ hb L s1 hs hst]
      exact ⟨rfl, _, rfl⟩
    | HOST_NEW =>
      rw [chk_new_noretry E n _ _ _ _ _ _ _ _ hb L s1 hs hst (retry_applies_zero s1),
        chk_new_noretry E 0 _ _ _ _ _ _ _ _ hb L s1 hs hst (retry_applies_zero s1)]
      exact ⟨rfl, _, rfl⟩
    | HOST_CHANGED =>
      rw [chk_changed E n _ _ _ _ _ _ _ _ hb L s1 hs hst,
        chk_changed E 0 _ _ _ _ _ _ _ _ hb L s1 hs hst]
      exact ⟨rfl, _, rfl⟩
    | HOST_FOUND =>
      rw [chk_found E n _ _ _ _ _ _ _ _ hb L s1 hs hst,
        chk_found E 0 _ _ _ _ _ _ _ _ hb L s1 hs hst]
      exact ⟨rfl, _, rfl⟩

/-- Depth two is enough for every call: a larger bound gives the same result,
and there is one. -/
theorem check_host_key_fuel_stable (E : Env) (n : Nat) (hostname : String)
    (hostaddr : SockAddr) (port : Nat) (host_key : Key) (readonly : Int) (u g : String)
    (s : St) :
    check_host_key_fuel E (n + 2) hostname hostaddr port host_key readonly u g s =
      check_host_key E hostname hostaddr port host_key readonly u g s ∧
    ∃ r, check_host_key E hostname hostaddr port host_key readonly u g s = some r := by
  unfold check_host_key
  by_cases hb : localhost_bypass s hostaddr
  · rw [chk_bypass E (n + 1) _ _ _ _ _ _ _ _ hb, chk_bypass E 1 _ _ _ _ _ _ _ _ hb]
    exact ⟨rfl, _, rfl⟩
  cases hs : switch_entry E hostname hostaddr port host_key u g s with
  | none =>
    rw [chk_fatal E (n + 1) _ _ _ _ _ _ _ _ hb hs, chk_fatal E 1 _ _ _ _ _ _ _ _ hb hs]
    exact ⟨rfl, _, rfl⟩
  | some p =>
    obtain ⟨L, s1⟩ := p
    cases hst : L.host_status with
    | HOST_OK =>
      rw [chk_ok E (n + 1) _ _ _ _ _ _ _ _ hb L s1 hs hst,
        chk_ok E 1 _ _ _ _ _ _ _ _ hb L s1 hs hst]
      exact ⟨rfl, _, rfl⟩
    | HOST_CHANGED =>
      rw [chk_changed E (n + 1) _ _ _ _ _ _ _ _ hb L s1 hs hst,
        chk_changed E 1 _ _ _ _ _ _ _ _ hb L s1 hs hst]
      exact ⟨rfl, _, rfl⟩
    | HOST_FOUND =>
      rw [chk_found E (n + 1) _ _ _ _ _ _ _ _ hb L s1 hs hst,
        chk_found E 1 _ _ _ _ _ _ _ _ hb L s1 hs hst]
      exact ⟨rfl, _, rfl⟩
    | HOST_NEW =>
      by_cases hr : retry_applies s1 port
      · obtain ⟨e1, r, e2⟩ := check_host_key_fuel_port0 E n hostname hostaddr host_key ROQUIET
          u g (debug s1 "checking without port identifier")
        rw [← e1] at e2
        obtain ⟨o, s2⟩ := r
        cases o with
        | fatal msg =>
          rw [chk_new_retry_fatal E (n + 1) _ _ _ _ _ _ _ _ hb L s1 hs hst hr msg s2 e2,
            chk_new_retry_fatal E 1 _ _ _ _ _ _ _ _ hb L s1 hs hst hr msg s2 (e1 ▸ e2)]
          exact ⟨rfl, _, rfl⟩
        | ret r =>
          by_cases hr0 : r = 0
          · subst hr0
            rw [chk_new_retry_accept E (n + 1) _ _ _ _ _ _ _ _ hb L s1 hs hst hr s2 e2,
              chk_new_retry_accept E 1 _ _ _ _ _ _ _ _ hb L s1 hs hst hr s2 (e1 ▸ e2)]
            exact ⟨rfl, _, rfl⟩
          · rw [chk_new_retry_reject E (n + 1) _ _ _ _ _ _ _ _ hb L s1 hs hst hr r s2 hr0 e2,
              chk_new_retry_reject E 1 _ _ _ _ _ _ _ _ hb L s1 hs hst hr r s2 hr0 (e1 ▸ e2)]
            exact ⟨rfl, _, rfl⟩
      · rw [chk_new_noretry E (n + 1) _ _ _ _ _ _ _ _ hb L s1 hs hst hr,
          chk_new_noretry E 1 _ _ _ _ _ _ _ _ hb L s1 hs hst hr]
        exact ⟨rfl, _, rfl⟩

/-! ## What a call may log -/

/-- Every call only extends the log; it inserts into a known-hosts file only
when `readonly` is 0 (`P` need not allow insertions otherwise). -/
theorem check_host_key_fuel_trace (P : Kind → Prop) (h1 : P .probe) (h2 : P .lookup)
    (h3 : P .prompt) (h4 : P .log) (E : Env) (hostname : String) (hostaddr : SockAddr)
    (host_key : Key) (u g : String) :
    ∀ (n : Nat) (port : Nat) (readonly : Int) (s : St) (o : Outcome) (s' : St),
      (readonly = 0 → P .add) →
      check_host_key_fuel E n hostname hostaddr port host_key readonly u g s = some (o, s') →
      Trace P s s' ∧ s'.matching_host_key_dns = s.matching_host_key_dns := by
  intro n
  induction n with
  | zero => intro port readonly s o s' _ h; simp [check_host_key_fuel] at h
  | succ n ih =>
    intro port readonly s o s' hadd h
    by_cases hb : localhost_bypass s hostaddr
    · rw [chk_bypass E n _ _ _ _ _ _ _ _ hb] at h
      simp only [Option.some.injEq, Prod.mk.injEq] at h
      rw [← h.2]
      exact ⟨(Quiet.debug P _ _ h4).2.2.2, rfl⟩
    cases hs : switch_entry E hostname hostaddr port host_key u g s with
    | none =>
      rw [chk_fatal E n _ _ _ _ _ _ _ _ hb hs] at h
      simp only [Option.some.injEq, Prod.mk.injEq] at h
      rw [← h.2]
      exact ⟨Trace.tr_refl P s, rfl⟩
    | some p =>
      obtain ⟨L, s1⟩ := p
      obtain ⟨_, e2, e3, _, _⟩ := switch_entry_spec P h1 h4 E hostname hostaddr port host_key u g
        s L s1 hs
      cases hst : L.host_status with
      | HOST_OK =>
        rw [chk_ok E n _ _ _ _ _ _ _ _ hb L s1 hs hst] at h
        simp only [Option.some.injEq] at h
        have a := (case_HOST_OK_quiet P h4 readonly hadd E L host_key u s1).2
        have b := post_check_emits P h4 h3 L (case_HOST_OK E L host_key readonly u s1)
        rw [h] at b
        have c := a.em_trans b
        exact ⟨e3.tr_trans c.2.2, c.2.1.trans e2⟩
      | HOST_CHANGED =>
        rw [chk_changed E n _ _ _ _ _ _ _ _ hb L s1 hs hst] at h
        simp only [Option.some.injEq] at h
        obtain ⟨t, c1, _, c3, c4, _, _⟩ := case_HOST_CHANGED_spec E L host_key readonly u s1
        have b := leave_switch_emits P h4 h3 L (case_HOST_CHANGED E L host_key readonly u s1)
        rw [h, c1] at b
        exact ⟨(e3.tr_trans (c4 P h4)).tr_trans b.2.2, (b.2.1.trans c3).trans e2⟩
      | HOST_FOUND =>
        rw [chk_found E n _ _ _ _ _ _ _ _ hb L s1 hs hst] at h
        simp only [Option.some.injEq, Prod.mk.injEq] at h
        rw [← h.2]
        exact ⟨e3, e2⟩
      | HOST_NEW =>
        have hnew : ∀ t : St, Trace P s t → t.matching_host_key_dns = s.matching_host_key_dns →
            leave_switch L (case_HOST_NEW E L host_key readonly u t) = (o, s') →
            Trace P s s' ∧ s'.matching_host_key_dns = s.matching_host_key_dns := by
          intro t ht hd hl
          have a := case_HOST_NEW_emits P h4 h2 h3 readonly hadd E L host_key u t
          have b := leave_switch_emits P h4 h3 L (case_HOST_NEW E L host_key readonly u t)
          rw [hl] at b
          have c := a.em_trans b
          exact ⟨ht.tr_trans c.2.2, c.2.1.trans hd⟩
        by_cases hr : retry_applies s1 port
        · cases hn : check_host_key_fuel E n hostname hostaddr 0 host_key ROQUIET u g
            (debug s1 "checking without port identifier") with
          | none =>
            rw [chk_new_retry_none E n _ _ _ _ _ _ _ _ hb L s1 hs hst hr hn] at h
            exact absurd h (by simp)
          | some q =>
            obtain ⟨o2, s2⟩ := q
            obtain ⟨n1, n2⟩ := ih 0 ROQUIET _ o2 s2 (by simp [ROQUIET]) hn
            have ht : Trace P s s2 := (e3.tr_trans (Quiet.debug P _ _ h4).2.2.2).tr_trans n1
            have hd : s2.matching_host_key_dns = s.matching_host_key_dns := n2.trans e2
            cases o2 with
            | fatal msg =>
              rw [chk_new_retry_fatal E n _ _ _ _ _ _ _ _ hb L s1 hs hst hr msg s2 hn] at h
              simp only [Option.some.injEq, Prod.mk.injEq] at h
              rw [← h.2]
              exact ⟨ht, hd⟩
            | ret r =>
              by_cases hr0 : r = 0
              · subst hr0
                rw [chk_new_retry_accept E n _ _ _ _ _ _ _ _ hb L s1 hs hst hr s2 hn] at h
                simp only [Option.some.injEq] at h
                have b := post_check_emits P h4 h3 L (debug s2 "found matching key w/out port")
                rw [h] at b
                exact ⟨(ht.tr_trans (Quiet.debug P _ _ h4).2.2.2).tr_trans b.2.2, b.2.1.trans hd⟩
              · rw [chk_new_retry_reject E n _ _ _ _ _ _ _ _ hb L s1 hs hst hr r s2 hr0 hn] at h
                simp only [Option.some.injEq] at h
                exact hnew s2 ht hd h
        · rw [chk_new_noretry E n _ _ _ _ _ _ _ _ hb L s1 hs hst hr] at h
          simp only [Option.some.injEq] at h
          exact hnew s1 e3 e2 h

end SshConnect

namespace SshConnect

/-! ## Options along a call -/

theorem SameButIp.port {a b : Options} (h : SameButIp a b) :
    b.port = a.port := by
  unfold SameButIp at h
  rw [h]

theorem SameButIp.batch_mode {a b : Options} (h : SameButIp a b) :
    b.batch_mode = a.batch_mode := by
  unfold SameButIp at h
  rw [h]

theorem SameButIp.strict_host_key_checking {a b : Options} (h : SameButIp a b) :
    b.strict_host_key_checking = a.strict_host_key_checking := by
  unfold SameButIp at h
  rw [h]

theorem SameButIp.verify_host_key_dns {a b : Options} (h : SameButIp a b) :
    b.verify_host_key_dns = a.verify_host_key_dns := by
  unfold SameButIp at h
  rw [h]

theorem SameButIp.hash_known_hosts {a b : Options} (h : SameButIp a b) :
    b.hash_known_hosts = a.hash_known_hosts := by
  unfold SameButIp at h
  rw [h]

theorem SameButIp.visual_host_key {a b : Options} (h : SameButIp a b) :
    b.visual_host_key = a.visual_host_key := by
  unfold SameButIp at h
  rw [h]

theorem SameButIp.no_host_authentication_for_localhost {a b : Options} (h : SameButIp a b) :
    b.no_host_authentication_for_localhost = a.no_host_authentication_for_localhost := by
  unfold SameButIp at h
  rw [h]

theorem SameButIp.host_key_alias {a b : Options} (h : SameButIp a b) :
    b.host_key_alias = a.host_key_alias := by
  unfold SameButIp at h
  rw [h]

theorem SameButIp.proxy_command {a b : Options} (h : SameButIp a b) :
    b.proxy_command = a.proxy_command := by
  unfold SameButIp at h
  rw [h]

theorem SameButIp.password_authentication {a b : Options} (h : SameButIp a b) :
    b.password_authentication = a.password_authentication := by
  unfold SameButIp at h
  rw [h]

theorem SameButIp.kbd_interactive_authentication {a b : Options} (h : SameButIp a b) :
    b.kbd_interactive_authentication = a.kbd_interactive_authentication := by
  unfold SameButIp at h
  rw [h]

theorem SameButIp.challenge_response_authentication {a b : Options} (h : SameButIp a b) :
    b.challenge_response_authentication = a.challenge_response_authentication := by
  unfold SameButIp at h
  rw [h]

theorem SameButIp.forward_agent {a b : Options} (h : SameButIp a b) :
    b.forward_agent = a.forward_agent := by
  unfold SameButIp at h
  rw [h]

theorem SameButIp.forward_x11 {a b : Options} (h : SameButIp a b) :
    b.forward_x11 = a.forward_x11 := by
  unfold SameButIp at h
  rw [h]

theorem SameButIp.num_local_forwards {a b : Options} (h : SameButIp a b) :
    b.num_local_forwards = a.num_local_forwards := by
  unfold SameButIp at h
  rw [h]

theorem SameButIp.num_remote_forwards {a b : Options} (h : SameButIp a b) :
    b.num_remote_forwards = a.num_remote_forwards := by
  unfold SameButIp at h
  rw [h]

theorem SameButIp.tun_open {a b : Options} (h : SameButIp a b) :
    b.tun_open = a.tun_open := by
  unfold SameButIp at h
  rw [h]

theorem SameButIp.exit_on_forward_failure {a b : Options} (h : SameButIp a b) :
    b.exit_on_forward_failure = a.exit_on_forward_failure := by
  unfold SameButIp at h
  rw [h]

theorem SameButIp.user_hostfile {a b : Options} (h : SameButIp a b) :
    b.user_hostfile = a.user_hostfile := by
  unfold SameButIp at h
  rw [h]

theorem SameButIp.system_hostfile {a b : Options} (h : SameButIp a b) :
    b.system_hostfile = a.system_hostfile := by
  unfold SameButIp at h
  rw [h]

theorem SameButIp.user_hostfile2 {a b : Options} (h : SameButIp a b) :
    b.user_hostfile2 = a.user_hostfile2 := by
  unfold SameButIp at h
  rw [h]

theorem SameButIp.system_hostfile2 {a b : Options} (h : SameButIp a b) :
    b.system_hostfile2 = a.system_hostfile2 := by
  unfold SameButIp at h
  rw [h]

theorem case_HOST_NEW_options (E : Env) (L : Locals) (k : Key) (readonly : Int) (u : String)
    (s : St) : (case_HOST_NEW E L k readonly u s).st.options = s.options :=
  (case_HOST_NEW_emits (fun _ => True) trivial trivial trivial readonly (fun _ => trivial)
    E L k u s).1

theorem leave_switch_options (L : Locals) (c : Ctl) :
    (leave_switch L c).2.options = c.st.options :=
  (leave_switch_emits (fun _ => True) trivial trivial L c).1

/-- A call leaves `options` alone, except for `check_host_ip`, unless it runs
the downgrade for a changed key (host status `HOST_CHANGED`, not the quiet
retry, strict checking off). -/
theorem check_host_key_fuel_options (E : Env) (hostname : String) (hostaddr : SockAddr)
    (host_key : Key) (u g : String) :
    ∀ (n : Nat) (port : Nat) (readonly : Int) (s : St) (o : Outcome) (s' : St),
      (∀ L s1, switch_entry E hostname hostaddr port host_key u g s = some (L, s1) →
        L.host_status = .HOST_CHANGED →
        readonly = ROQUIET ∨ s.options.strict_host_key_checking ≠ 0) →
      check_host_key_fuel E n hostname hostaddr port host_key readonly u g s = some (o, s') →
      SameButIp s.options s'.options := by
  intro n
  induction n with
  | zero => intro port readonly s o s' _ h; simp [check_host_key_fuel] at h
  | succ n ih =>
    intro port readonly s o s' hch h
    by_cases hb : localhost_bypass s hostaddr
    · rw [chk_bypass E n _ _ _ _ _ _ _ _ hb] at h
      simp only [Option.some.injEq, Prod.mk.injEq] at h
      rw [← h.2]
      exact SameButIp.sb_refl _
    cases hs : switch_entry E hostname hostaddr port host_key u g s with
    | none =>
      rw [chk_fatal E n _ _ _ _ _ _ _ _ hb hs] at h
      simp only [Option.some.injEq, Prod.mk.injEq] at h
      rw [← h.2]
      exact SameButIp.sb_refl _
    | some p =>
      obtain ⟨L, s1⟩ := p
      obtain ⟨_, _, _, e4, _⟩ := switch_entry_spec (fun _ => True) trivial trivial E hostname
        hostaddr port host_key u g s L s1 hs
      cases hst : L.host_status with
      | HOST_OK =>
        rw [chk_ok E n _ _ _ _ _ _ _ _ hb L s1 hs hst] at h
        simp only [Option.some.injEq] at h
        have a := (case_HOST_OK_quiet (fun _ => True) trivial readonly (fun _ => trivial) E L
          host_key u s1).2
        have b := post_check_emits (fun _ => True) trivial trivial L
          (case_HOST_OK E L host_key readonly u s1)
        rw [h] at b
        exact e4.sb_trans (SameButIp.of_eq (a.em_trans b).1)
      | HOST_CHANGED =>
        rw [chk_changed E n _ _ _ _ _ _ _ _ hb L s1 hs hst] at h
        simp only [Option.some.injEq] at h
        obtain ⟨t, c1, _, _, _, c5, _⟩ := case_HOST_CHANGED_spec E L host_key readonly u s1
        have hc : readonly = ROQUIET ∨ s1.options.strict_host_key_checking ≠ 0 := by
          rw [e4.strict_host_key_checking]
          exact hch L s1 hs hst
        obtain ⟨c6, c7⟩ := c5 hc
        rw [c6] at h
        simp only [leave_switch, Prod.mk.injEq] at h
        rw [← h.2]
        exact e4.sb_trans (SameButIp.of_eq c7)
      | HOST_FOUND =>
        rw [chk_found E n _ _ _ _ _ _ _ _ hb L s1 hs hst] at h
        simp only [Option.some.injEq, Prod.mk.injEq] at h
        rw [← h.2]
        exact e4
      | HOST_NEW =>
        have hnew : ∀ t : St, SameButIp s.options t.options →
            leave_switch L (case_HOST_NEW E L host_key readonly u t) = (o, s') →
            SameButIp s.options s'.options := by
          intro t ht hl
          have a := case_HOST_NEW_options E L host_key readonly u t
          have b := leave_switch_options L (case_HOST_NEW E L host_key readonly u t)
          rw [hl] at b
          exact ht.sb_trans (SameButIp.of_eq (b.trans a))
        by_cases hr : retry_applies s1 port
        · cases hn : check_host_key_fuel E n hostname hostaddr 0 host_key ROQUIET u g
            (debug s1 "checking without port identifier") with
          | none =>
            rw [chk_new_retry_none E n _ _ _ _ _ _ _ _ hb L s1 hs hst hr hn] at h
            exact absurd h (by simp)
          | some q =>
            obtain ⟨o2, s2⟩ := q
            have n1 := ih 0 ROQUIET _ o2 s2 (fun _ _ _ _ => Or.inl rfl) hn
            have ht : SameButIp s.options s2.options := e4.sb_trans n1
            cases o2 with
            | fatal msg =>
              rw [chk_new_retry_fatal E n _ _ _ _ _ _ _ _ hb L s1 hs hst hr msg s2 hn] at h
              simp only [Option.some.injEq, Prod.mk.injEq] at h
              rw [← h.2]
              exact ht
            | ret r =>
              by_cases hr0 : r = 0
              · subst hr0
                rw [chk_new_retry_accept E n _ _ _ _ _ _ _ _ hb L s1 hs hst hr s2 hn] at h
                simp only [Option.some.injEq] at h
                have b := post_check_emits (fun _ => True) trivial trivial L
                  (debug s2 "found matching key w/out port")
                rw [h] at b
                exact ht.sb_trans (SameButIp.of_eq b.1)
              · rw [chk_new_retry_reject E n _ _ _ _ _ _ _ _ hb L s1 hs hst hr r s2 hr0 hn] at h
                simp only [Option.some.injEq] at h
                exact hnew s2 ht h
        · rw [chk_new_noretry E n _ _ _ _ _ _ _ _ hb L s1 hs hst hr] at h
          simp only [Option.some.injEq] at h
          exact hnew s1 e4 h

end SshConnect

namespace SshConnect

/-! ## The `case HOST_NEW` and the check after the `switch` -/

theorem adds_append (a b : List Event) : adds (a ++ b) = adds a ++ adds b := by
  simp [adds, List.filter_append]

theorem prompts_append (a b : List Event) : prompts (a ++ b) = prompts a ++ prompts b := by
  simp [prompts, List.filter_append]

theorem new_host_report_trace (L : Locals) (u hostp : String) (r : Int) (s : St) :
    adds (new_host_report L u hostp r s).trace = adds s.trace := by
  unfold new_host_report
  split_ifs <;> simp [logit, St.emit, adds, List.filter_append, Event.kind]

/-- The insertions performed by lines 822-846 are those of the spec. -/
theorem new_host_insert_adds (E : Env) (L : Locals) (k : Key) (u : String) (s : St) :
    adds (new_host_insert E L k u s).trace = adds s.trace ++ spec_new_host_entries E L k u s := by
  unfold new_host_insert spec_new_host_entries
  dsimp only
  by_cases c1 : s.options.check_host_ip ≠ 0 ∧ L.ip_status = .HOST_NEW
  · rw [if_pos c1, if_pos c1]
    by_cases c2 : s.options.hash_known_hosts ≠ 0
    · rw [if_pos c2, if_pos c2]
      by_cases c3 : E.add_host_to_hostfile s.trace u L.host k s.options.hash_known_hosts ≠ 0
      · rw [if_pos (by simpa [add_host_to_hostfile] using c3), if_pos c3, new_host_report_trace]
        simp [add_host_to_hostfile, St.emit, adds, List.filter_append, Event.kind]
      · rw [if_neg (by simpa [add_host_to_hostfile] using c3), if_neg c3, new_host_report_trace]
        simp [add_host_to_hostfile, St.emit, adds, List.filter_append, Event.kind]
    · rw [if_neg c2, if_neg c2, new_host_report_trace]
      simp [add_host_to_hostfile, St.emit, adds, List.filter_append, Event.kind]
  · rw [if_neg c1, if_neg c1, new_host_report_trace]
    simp [add_host_to_hostfile, St.emit, adds, List.filter_append, Event.kind]

/-- Whatever the flags, the first insertion for a new host is the host name or
the combined `host,ip` line, into the user file. -/
theorem spec_new_host_entries_head (E : Env) (L : Locals) (k : Key) (u : String) (s : St) :
    ∃ name rest, (name = L.host ∨ name = snprintf 1000 (L.host ++ "," ++ L.ip)) ∧
      spec_new_host_entries E L k u s = .add u name k s.options.hash_known_hosts :: rest := by
  unfold spec_new_host_entries
  dsimp only
  split_ifs
  · exact ⟨_, _, Or.inl rfl, rfl⟩
  · exact ⟨_, _, Or.inl rfl, rfl⟩
  · exact ⟨_, _, Or.inr rfl, rfl⟩
  · exact ⟨_, _, Or.inl rfl, rfl⟩

theorem new_host_prompt_answer (E : Env) (L : Locals) (k : Key) (s : St) :
    (new_host_prompt E L k s).1 = (confirm s "").1 := by
  have q := show_other_keys_quiet (fun _ => True) trivial trivial E s L.host k
  unfold new_host_prompt
  dsimp only
  exact (confirm_answer_indep s _ "" _ q.1 (by rw [q.2.1])).1

theorem new_host_prompt_prompts (E : Env) (L : Locals) (k : Key) (s : St)
    (hb : s.options.batch_mode = 0) :
    (prompts s.trace).length < (prompts (new_host_prompt E L k s).2.trace).length := by
  have q := show_other_keys_quiet (fun x => x ≠ .prompt) (by simp) (by simp) E s L.host k
  have e := q.2.2.2.prompts_eq (fun _ h => h)
  unfold new_host_prompt
  dsimp only
  rw [← e]
  exact confirm_prompts _ _ (by rw [q.2.1]; exact hb)

theorem new_host_prompt_adds (E : Env) (L : Locals) (k : Key) (s : St) :
    adds (new_host_prompt E L k s).2.trace = adds s.trace :=
  (new_host_prompt_emits (fun x => x ≠ .add) (by simp) (by simp) (by simp) E L k s).2.2.adds_eq
    (fun _ h => h)

/-- The post-check does nothing unless IP checking is on, the host status is
not `HOST_CHANGED` and the address status is `HOST_CHANGED`. -/
theorem post_check_skip (L : Locals) (s : St)
    (h : ¬ (s.options.check_host_ip ≠ 0 ∧ L.host_status ≠ .HOST_CHANGED ∧
      L.ip_status = .HOST_CHANGED)) : post_check L s = (.ret 0, s) := by
  unfold post_check
  rw [if_neg h]

/-- With strict checking off the post-check accepts and at most logs. -/
theorem post_check_off (L : Locals) (s : St) (h : s.options.strict_host_key_checking = 0) :
    (post_check L s).1 = .ret 0 ∧ Quiet (fun k => k = .log) s (post_check L s).2 := by
  unfold post_check
  split_ifs with a b c
  · rw [h] at b; exact absurd b (by decide)
  · rw [h] at c; exact absurd c (by decide)
  · exact ⟨rfl, Quiet.logit _ _ _ rfl⟩
  · exact ⟨rfl, Quiet.q_refl _ _⟩

end SshConnect

namespace SshConnect

/-! ## Banner exchange: the negotiation -/

/-- The state in which the `switch` is entered. -/
theorem proto_has_datafellows (s : XSt) (d bit : Nat) :
    proto_has { s with datafellows := d } bit = proto_has s bit := rfl

/-- Either v2 rule selects protocol 2 and goes on to send the banner. -/
theorem exchange_versions_v2 (X : XEnv) (ma mi : Int) (ver : String) (s : XSt)
    (h : (ma = 2 ∧ proto_has s X.SSH_PROTO_2 = true) ∨
         (ma = 1 ∧ mi = 99 ∧ proto_has s X.SSH_PROTO_2 = true ∧
            proto_has s X.SSH_PROTO_1_PREFERRED = false)) :
    exchange_versions X ma mi ver s =
      exchange_send X X.PROTOCOL_MINOR_1
        (enable_compat20 { s with datafellows := X.compat_datafellows ver }) := by
  unfold exchange_versions version_switch
  simp only [proto_has_datafellows]
  rcases h with ⟨rfl, h2⟩ | ⟨rfl, rfl, h2, hp⟩
  · simp [h2]
  · simp [h2, hp]

/-- The three ways into `mismatch = 1`. -/
theorem exchange_versions_mismatch (X : XEnv) (ma mi : Int) (ver : String) (s : XSt)
    (h : (ma = 1 ∧ ¬ (mi = 99 ∧ proto_has s X.SSH_PROTO_2 = true ∧
            proto_has s X.SSH_PROTO_1_PREFERRED = false) ∧
            proto_has s X.SSH_PROTO_1 = false) ∨
         (ma = 2 ∧ proto_has s X.SSH_PROTO_2 = false) ∨ (ma ≠ 1 ∧ ma ≠ 2)) :
    exchange_versions X ma mi ver s =
      (.fatal (mismatch_msg X ma s), { s with datafellows := X.compat_datafellows ver }) := by
  unfold exchange_versions version_switch
  simp only [proto_has_datafellows]
  rcases h with ⟨rfl, hr, h1⟩ | ⟨rfl, h2⟩ | ⟨h1, h2⟩
  · rw [if_pos rfl, if_neg (by simpa using hr), if_pos (by simp [h1])]
    simp [mismatch_msg, proto_has]
  · rw [if_neg (by decide), if_pos rfl, if_neg (by simp [h2])]
    rfl
  · rw [if_neg h1, if_neg h2]
    rfl

/-- A protocol 1 server older than 1.3 is refused. -/
theorem exchange_versions_too_old (X : XEnv) (mi : Int) (ver : String) (s : XSt)
    (hr : ¬ (mi = 99 ∧ proto_has s X.SSH_PROTO_2 = true ∧
            proto_has s X.SSH_PROTO_1_PREFERRED = false))
    (h1 : proto_has s X.SSH_PROTO_1 = true) (hmi : mi < 3) :
    exchange_versions X 1 mi ver s =
      (.fatal "Remote machine has too old SSH software version.",
        { s with datafellows := X.compat_datafellows ver }) := by
  unfold exchange_versions version_switch
  simp only [proto_has_datafellows]
  rw [if_pos trivial, if_neg (by simpa using hr), if_neg (by simp [h1]), if_pos hmi]

theorem exchange_versions_13 (X : XEnv) (mi : Int) (ver : String) (s : XSt)
    (h1 : proto_has s X.SSH_PROTO_1 = true) (hmi : mi = 3 ∨ mi = 4) :
    exchange_versions X 1 mi ver s = exchange_send X 3 (compat13_state X ver s) := by
  have h99 : ¬ (mi = 99 ∧ proto_has s X.SSH_PROTO_2 = true ∧
      ¬ proto_has s X.SSH_PROTO_1_PREFERRED = true) := by
    rintro ⟨h, -⟩; omega
  have h3 : ¬ mi < 3 := by omega
  unfold exchange_versions version_switch
  simp only [proto_has_datafellows]
  rw [if_pos trivial, if_neg h99, if_neg (by simp [h1]), if_neg h3, if_pos hmi]
  unfold compat13_state
  by_cases hf : s.options.forward_agent ≠ 0
  · simp [enable_compat13, XSt.emit, hf]
  · simp [enable_compat13, XSt.emit, hf]

/-- A protocol 1 server from 1.5 on is answered with the default minor. -/
theorem exchange_versions_v1 (X : XEnv) (mi : Int) (ver : String) (s : XSt)
    (hr : ¬ (mi = 99 ∧ proto_has s X.SSH_PROTO_2 = true ∧
            proto_has s X.SSH_PROTO_1_PREFERRED = false))
    (h1 : proto_has s X.SSH_PROTO_1 = true) (hmi : 3 ≤ mi) (h34 : ¬ (mi = 3 ∨ mi = 4)) :
    exchange_versions X 1 mi ver s =
      exchange_send X X.PROTOCOL_MINOR_1 { s with datafellows := X.compat_datafellows ver } := by
  unfold exchange_versions version_switch
  simp only [proto_has_datafellows]
  rw [if_pos trivial, if_neg (by simpa using hr), if_neg (by simp [h1]), if_neg (by omega),
    if_neg h34]
  simp

/-- What `exchange_send` does, by the answer of the write. -/
theorem exchange_send_spec (X : XEnv) (minor1 : Int) (s : XSt) :
    (exchange_send X minor1 s).2.options = s.options ∧
    (exchange_send X minor1 s).2.compat20 = s.compat20 ∧
    (exchange_send X minor1 s).2.compat13 = s.compat13 ∧
    (exchange_send X minor1 s).2.datafellows = s.datafellows ∧
    (∀ err, X.vwrite (client_banner X minor1 s).toList = some err →
      (exchange_send X minor1 s).1 = .fatal ("write: " ++ prec 100 err) ∧
      (exchange_send X minor1 s).2.output = s.output ∧
      (exchange_send X minor1 s).2.client_version_string = some (client_banner X minor1 s)) ∧
    (X.vwrite (client_banner X minor1 s).toList = none →
      (exchange_send X minor1 s).1 = .returned ∧
      (exchange_send X minor1 s).2.output = s.output ++ (client_banner X minor1 s).toList ∧
      (exchange_send X minor1 s).2.client_version_string =
        some (X.chop (client_banner X minor1 s))) := by
  unfold exchange_send
  simp only [String.toList]
  cases hw : X.vwrite (client_banner X minor1 s).data with
  | none => simp [XSt.emit]
  | some err => simp

/-- Reading leaves the options, the flags and the output alone. -/
theorem exchange_read_frame (timeout_ms : Int) (s : XSt) :
    (exchange_read timeout_ms s).2.options = s.options ∧
    (exchange_read timeout_ms s).2.compat20 = s.compat20 ∧
    (exchange_read timeout_ms s).2.compat13 = s.compat13 ∧
    (exchange_read timeout_ms s).2.datafellows = s.datafellows ∧
    (exchange_read timeout_ms s).2.output = s.output ∧
    (exchange_read timeout_ms s).2.client_version_string = s.client_version_string := by
  unfold exchange_read
  dsimp only
  cases (read_loop timeout_ms s.input [] 0 s.trace).res with
  | fatal msg => simp
  | line buf =>
    dsimp only
    cases sscanf_version (cstr buf) with
    | none => simp
    | some v => simp [XSt.emit]

/-- The exchange once the server's version is parsed. -/
theorem exchange_of_read (X : XEnv) (timeout_ms : Int) (s s1 : XSt) (ma mi : Int)
    (ver : String) (hread : exchange_read timeout_ms s = (.version ma mi ver, s1)) :
    ssh_exchange_identification X timeout_ms s = exchange_versions X ma mi ver s1 ∧
    s1.options = s.options ∧ s1.compat20 = s.compat20 ∧ s1.compat13 = s.compat13 ∧
    s1.output = s.output ∧ s1.client_version_string = s.client_version_string ∧
    (∀ bit, proto_has s1 bit = proto_has s bit) := by
  have hf := exchange_read_frame timeout_ms s
  rw [hread] at hf
  obtain ⟨ho, h20, h13, -, hout, hc⟩ := hf
  refine ⟨?_, ho, h20, h13, hout, hc, ?_⟩
  · unfold ssh_exchange_identification
    rw [hread]
  · intro bit
    unfold proto_has
    rw [show s1.options = s.options from ho]

theorem client_banner_v1 (X : XEnv) (minor1 : Int) (s : XSt) (h : s.compat20 = 0) :
    client_banner X minor1 s = banner_v1 X minor1 := by
  unfold client_banner banner_v1
  simp [h]

theorem client_banner_v2 (X : XEnv) (minor1 : Int) (s : XSt) (h : s.compat20 ≠ 0) :
    client_banner X minor1 s = banner_v2 X := by
  unfold client_banner banner_v2
  simp [h]

/-- The five ways through lines 511-570. -/
theorem exchange_versions_cases (X : XEnv) (ma mi : Int) (ver : String) (s : XSt) :
    (((ma = 2 ∧ proto_has s X.SSH_PROTO_2 = true) ∨
        (ma = 1 ∧ mi = 99 ∧ proto_has s X.SSH_PROTO_2 = true ∧
          proto_has s X.SSH_PROTO_1_PREFERRED = false)) ∧
      exchange_versions X ma mi ver s =
        exchange_send X X.PROTOCOL_MINOR_1
          (enable_compat20 { s with datafellows := X.compat_datafellows ver })) ∨
    (((ma = 1 ∧ ¬ (mi = 99 ∧ proto_has s X.SSH_PROTO_2 = true ∧
            proto_has s X.SSH_PROTO_1_PREFERRED = false) ∧
            proto_has s X.SSH_PROTO_1 = false) ∨
        (ma = 2 ∧ proto_has s X.SSH_PROTO_2 = false) ∨ (ma ≠ 1 ∧ ma ≠ 2)) ∧
      exchange_versions X ma mi ver s =
        (.fatal (mismatch_msg X ma s), { s with datafellows := X.compat_datafellows ver })) ∨
    ((ma = 1 ∧ ¬ (mi = 99 ∧ proto_has s X.SSH_PROTO_2 = true ∧
            proto_has s X.SSH_PROTO_1_PREFERRED = false) ∧
          proto_has s X.SSH_PROTO_1 = true ∧ mi < 3) ∧
      exchange_versions X ma mi ver s =
        (.fatal "Remote machine has too old SSH software version.",
          { s with datafellows := X.compat_datafellows ver })) ∨
    ((ma = 1 ∧ proto_has s X.SSH_PROTO_1 = true ∧ (mi = 3 ∨ mi = 4)) ∧
      exchange_versions X ma mi ver s = exchange_send X 3 (compat13_state X ver s)) ∨
    ((ma = 1 ∧ ¬ (mi = 99 ∧ proto_has s X.SSH_PROTO_2 = true ∧
            proto_has s X.SSH_PROTO_1_PREFERRED = false) ∧
          proto_has s X.SSH_PROTO_1 = true ∧ 3 ≤ mi ∧ ¬ (mi = 3 ∨ mi = 4)) ∧
      exchange_versions X ma mi ver s =
        exchange_send X X.PROTOCOL_MINOR_1
          { s with datafellows := X.compat_datafellows ver }) := by
  by_cases hv2 : (ma = 2 ∧ proto_has s X.SSH_PROTO_2 = true) ∨
        (ma = 1 ∧ mi = 99 ∧ proto_has s X.SSH_PROTO_2 = true ∧
          proto_has s X.SSH_PROTO_1_PREFERRED = false)
  · exact Or.inl ⟨hv2, exchange_versions_v2 X ma mi ver s hv2⟩
  · have hr : ma = 1 → ¬ (mi = 99 ∧ proto_has s X.SSH_PROTO_2 = true ∧
          proto_has s X.SSH_PROTO_1_PREFERRED = false) := fun h1 h => hv2 (Or.inr ⟨h1, h⟩)
    have h2 : ma = 2 → proto_has s X.SSH_PROTO_2 = false := by
      intro hm
      by_cases hp : proto_has s X.SSH_PROTO_2 = true
      · exact absurd (Or.inl ⟨hm, hp⟩) hv2
      · simpa using hp
    by_cases hm1 : ma = 1
    · subst hm1
      by_cases hp1 : proto_has s X.SSH_PROTO_1 = true
      · by_cases hlt : mi < 3
        · exact Or.inr (Or.inr (Or.inl ⟨⟨rfl, hr rfl, hp1, hlt⟩,
            exchange_versions_too_old X mi ver s (hr rfl) hp1 hlt⟩))
        · by_cases h34 : mi = 3 ∨ mi = 4
          · exact Or.inr (Or.inr (Or.inr (Or.inl ⟨⟨rfl, hp1, h34⟩,
              exchange_versions_13 X mi ver s hp1 h34⟩)))
          · exact Or.inr (Or.inr (Or.inr (Or.inr ⟨⟨rfl, hr rfl, hp1, by omega, h34⟩,
              exchange_versions_v1 X mi ver s (hr rfl) hp1 (by omega) h34⟩)))
      · have hp1f : proto_has s X.SSH_PROTO_1 = false := by simpa using hp1
        exact Or.inr (Or.inl ⟨Or.inl ⟨rfl, hr rfl, hp1f⟩,
          exchange_versions_mismatch X 1 mi ver s (Or.inl ⟨rfl, hr rfl, hp1f⟩)⟩)
    · by_cases hm2 : ma = 2
      · exact Or.inr (Or.inl ⟨Or.inr (Or.inl ⟨hm2, h2 hm2⟩),
          exchange_versions_mismatch X ma mi ver s (Or.inr (Or.inl ⟨hm2, h2 hm2⟩))⟩)
      · exact Or.inr (Or.inl ⟨Or.inr (Or.inr ⟨hm1, hm2⟩),
          exchange_versions_mismatch X ma mi ver s (Or.inr (Or.inr ⟨hm1, hm2⟩))⟩)

/-- The flag `compat20` after lines 511-570. -/
theorem exchange_versions_compat20 (X : XEnv) (ma mi : Int) (ver : String) (s : XSt) :
    (exchange_versions X ma mi ver s).2.compat20 =
      if (ma = 2 ∧ proto_has s X.SSH_PROTO_2 = true) ∨
          (ma = 1 ∧ mi = 99 ∧ proto_has s X.SSH_PROTO_2 = true ∧
            proto_has s X.SSH_PROTO_1_PREFERRED = false)
      then 1 else s.compat20 := by
  rcases exchange_versions_cases X ma mi ver s with
    ⟨h, e⟩ | ⟨h, e⟩ | ⟨h, e⟩ | ⟨h, e⟩ | ⟨h, e⟩
  · rw [e, if_pos h, (exchange_send_spec X _ _).2.1]
    rfl
  · have hn : ¬ ((ma = 2 ∧ proto_has s X.SSH_PROTO_2 = true) ∨
          (ma = 1 ∧ mi = 99 ∧ proto_has s X.SSH_PROTO_2 = true ∧
            proto_has s X.SSH_PROTO_1_PREFERRED = false)) := by
      rcases h with ⟨rfl, hr, -⟩ | ⟨rfl, h2⟩ | ⟨h1, h2⟩
      · rintro (⟨h, -⟩ | ⟨-, h⟩)
        · omega
        · exact hr h
      · rintro (⟨-, h⟩ | ⟨h, -⟩)
        · rw [h2] at h; exact Bool.noConfusion h
        · omega
      · rintro (⟨h, -⟩ | ⟨h, -⟩)
        · exact h2 h
        · exact h1 h
    rw [e, if_neg hn]
  · obtain ⟨rfl, hr, -, -⟩ := h
    rw [e, if_neg (by
      rintro (⟨h, -⟩ | ⟨-, h⟩)
      · omega
      · exact hr h)]
  · obtain ⟨rfl, -, h34⟩ := h
    rw [e, (exchange_send_spec X _ _).2.1, if_neg (by
      rintro (⟨h, -⟩ | ⟨-, h, -⟩)
      · omega
      · omega)]
    unfold compat13_state
    by_cases hf : s.options.forward_agent ≠ 0
    · rw [if_pos hf]
    · rw [if_neg hf]
  · obtain ⟨rfl, hr, -, -, -⟩ := h
    rw [e, (exchange_send_spec X _ _).2.1, if_neg (by
      rintro (⟨h, -⟩ | ⟨-, h⟩)
      · omega
      · exact hr h)]

/-- The text of the mismatch error starts with `P`. -/
theorem mismatch_msg_head (X : XEnv) (ma : Int) (s : XSt) :
    (mismatch_msg X ma s).data.head? = some 'P' := rfl

/-- Two texts that start with different characters differ. -/
theorem ne_of_head_ne (a b : String) (h : a.data.head? ≠ b.data.head?) : a ≠ b := by
  rintro rfl
  exact h rfl

end SshConnect

namespace SshConnect

/-! ## Banner exchange: the read loop -/

/-- One pass of the loop on a byte that arrives without trouble. -/
theorem read_loop_ok (t : Int) (c : Char) (rest : List ReadEv) (buf : List Char) (n : Nat)
    (tr : List Event) :
    read_loop t (ReadEv.ok c :: rest) buf n tr =
      if c = '\r' then
        if (buf ++ ['\n']).length < 255 then read_loop t rest (buf ++ ['\n']) n tr
        else if strncmp_eq0 (buf ++ ['\n']) "SSH-".toList 4 = true then
          ⟨.line (buf ++ ['\n']), n, rest, tr⟩
        else
          read_loop t rest [] n
            (tr ++ [.debug ("ssh_exchange_identification: " ++ String.mk (cstr (buf ++ ['\n'])))])
      else if c = '\n' then
        if strncmp_eq0 (buf ++ ['\n']) "SSH-".toList 4 = true then
          ⟨.line (buf ++ ['\n']), n, rest, tr⟩
        else
          read_loop t rest [] n
            (tr ++ [.debug ("ssh_exchange_identification: " ++ String.mk (cstr (buf ++ ['\n'])))])
      else if n + 1 > 65536 then
        ⟨.fatal "ssh_exchange_identification: No banner received", n + 1, rest, tr⟩
      else if (buf ++ [c]).length < 255 then read_loop t rest (buf ++ [c]) (n + 1) tr
      else if strncmp_eq0 (buf ++ [c]) "SSH-".toList 4 = true then
        ⟨.line (buf ++ [c]), n + 1, rest, tr⟩
      else
        read_loop t rest [] (n + 1)
          (tr ++ [.debug ("ssh_exchange_identification: " ++ String.mk (cstr (buf ++ [c])))]) := by
  rw [read_loop]
  simp only [ReadEv.ok, ite_self]
  rw [if_neg (by simp)]

theorem strncmp_ssh (buf : List Char) :
    strncmp_eq0 buf "SSH-".toList 4 = true ↔ buf.take 4 = ['S', 'S', 'H', '-'] := by
  unfold strncmp_eq0
  have h : (cstr "SSH-".toList).take 4 = ['S', 'S', 'H', '-'] := by decide
  rw [h]
  unfold cstr
  have hS : ('S' ≠ NUL) := by decide
  have hH : ('H' ≠ NUL) := by decide
  have hm : ('-' ≠ NUL) := by decide
  rcases buf with _ | ⟨a, _ | ⟨b, _ | ⟨c, _ | ⟨d, r⟩⟩⟩⟩
  · simp
  · simp [List.takeWhile]
    split <;> simp
  · simp [List.takeWhile]
    split <;> (try split) <;> simp
  · simp [List.takeWhile]
    split <;> (try split) <;> (try split) <;> simp
  · simp only [List.take_succ_cons, List.take_zero, beq_iff_eq]
    constructor
    · intro h
      by_cases ha : a ≠ NUL
      · rw [List.takeWhile_cons_of_pos (by simpa using ha)] at h
        by_cases hb : b ≠ NUL
        · rw [List.takeWhile_cons_of_pos (by simpa using hb)] at h
          by_cases hc : c ≠ NUL
          · rw [List.takeWhile_cons_of_pos (by simpa using hc)] at h
            by_cases hd : d ≠ NUL
            · rw [List.takeWhile_cons_of_pos (by simpa using hd)] at h
              simpa using h
            · rw [List.takeWhile_cons_of_neg (by simpa using hd)] at h
              simp at h
          · rw [List.takeWhile_cons_of_neg (by simpa using hc)] at h
            simp at h
        · rw [List.takeWhile_cons_of_neg (by simpa using hb)] at h
          simp at h
      · rw [List.takeWhile_cons_of_neg (by simpa using ha)] at h
        simp at h
    · intro h
      simp only [List.cons.injEq, and_true] at h
      obtain ⟨rfl, rfl, rfl, rfl⟩ := h
      rw [List.takeWhile_cons_of_pos (by simpa using hS),
        List.takeWhile_cons_of_pos (by simpa using hS),
        List.takeWhile_cons_of_pos (by simpa using hH),
        List.takeWhile_cons_of_pos (by simpa using hm)]
      simp

theorem cstr_of_no_nul (l : List Char) (h : ∀ c ∈ l, c ≠ NUL) : cstr l = l := by
  unfold cstr
  induction l with
  | nil => rfl
  | cons x l ih =>
    have hx : x ≠ NUL := h x (List.mem_cons_self _ _)
    rw [List.takeWhile_cons_of_pos (by simpa using hx),
      ih (fun y hy => h y (List.mem_cons_of_mem _ hy))]

/-- A numeral beyond the range of `int` is cut to its low 32 bits: the line
`SSH-4294967298.0-x` is parsed with major 2. -/
theorem sscanf_version_wraps :
    sscanf_version "SSH-4294967298.0-x\n".toList = some (2, 0, ['x']) := by
  decide

end SshConnect

namespace SshConnect

/-! ## The claims on `check_host_key` -/

/-- How a call with host status `HOST_NEW` reaches the code after the retry
(line 771): the state there is `s2`, and the options are those of the entry
except possibly for `check_host_ip`. -/
theorem check_host_key_new_reaches (E : Env) (hostname : String) (hostaddr : SockAddr)
    (port : Nat) (host_key : Key) (readonly : Int) (u g : String) (s : St) (L : Locals)
    (s1 s2 : St) (hb : ¬ localhost_bypass s hostaddr)
    (hs : switch_entry E hostname hostaddr port host_key u g s = some (L, s1))
    (hst : L.host_status = .HOST_NEW)
    (hretry : (¬ retry_applies s1 port ∧ s2 = s1) ∨
      (retry_applies s1 port ∧ ∃ r, r ≠ 0 ∧
        check_host_key_fuel E 1 hostname hostaddr 0 host_key ROQUIET u g
          (debug s1 "checking without port identifier") = some (.ret r, s2))) :
    check_host_key E hostname hostaddr port host_key readonly u g s =
      some (leave_switch L (case_HOST_NEW E L host_key readonly u s2)) ∧
    SameButIp s.options s2.options := by
  obtain ⟨_, _, _, e4, _⟩ := switch_entry_spec (fun _ => True) trivial trivial E hostname
    hostaddr port host_key u g s L s1 hs
  unfold check_host_key
  rcases hretry with ⟨hr, rfl⟩ | ⟨hr, r, hr0, hn⟩
  · exact ⟨chk_new_noretry E 1 _ _ _ _ _ _ _ _ hb L s2 hs hst hr, e4⟩
  · refine ⟨chk_new_retry_reject E 1 _ _ _ _ _ _ _ _ hb L s1 hs hst hr r s2 hr0 hn, ?_⟩
    exact e4.sb_trans (check_host_key_fuel_options E hostname hostaddr host_key u g 1 0 ROQUIET
      (debug s1 "checking without port identifier") _ s2 (fun _ _ _ _ => Or.inl rfl) hn)

/-- **C1.** For a call whose host lookup status is `HOST_NEW` and whose retry
under the bare name does not apply (`s2 = s1`) or returns a non-zero value
(leaving the state `s2`): the call returns -1 when it is read-only or
`strict_host_key_checking` is 1; in ask mode (2) the question is put through
`confirm` (outside batch mode at least one prompt is shown) and an answer "no"
makes the call return -1; in off mode (0) nothing is asked, the key is
inserted into the user known-hosts file (under the host name or the combined
`host,ip` name) and the call returns 0. -/
theorem C1_new_host_decision (E : Env) (hostname : String) (hostaddr : SockAddr) (port : Nat)
    (host_key : Key) (readonly : Int) (u g : String) (s : St) (L : Locals) (s1 s2 : St)
    (hb : ¬ localhost_bypass s hostaddr)
    (hs : switch_entry E hostname hostaddr port host_key u g s = some (L, s1))
    (hst : L.host_status = .HOST_NEW)
    (hretry : (¬ retry_applies s1 port ∧ s2 = s1) ∨
      (retry_applies s1 port ∧ ∃ r, r ≠ 0 ∧
        check_host_key_fuel E 1 hostname hostaddr 0 host_key ROQUIET u g
          (debug s1 "checking without port identifier") = some (.ret r, s2))) :
    ∃ o s', check_host_key E hostname hostaddr port host_key readonly u g s = some (o, s') ∧
      ((readonly ≠ 0 ∨ s.options.strict_host_key_checking = 1) → o = .ret (-1)) ∧
      (readonly = 0 → s.options.strict_host_key_checking = 2 →
        (s.options.batch_mode = 0 → (prompts s2.trace).length < (prompts s'.trace).length) ∧
        ((confirm s2 "").1 = 0 → o = .ret (-1))) ∧
      (readonly = 0 → s.options.strict_host_key_checking = 0 →
        o = .ret 0 ∧ prompts s'.trace = prompts s2.trace ∧
        ∃ name rest, (name = L.host ∨ name = snprintf 1000 (L.host ++ "," ++ L.ip)) ∧
          adds s'.trace =
            adds s2.trace ++ .add u name host_key s.options.hash_known_hosts :: rest) := by
  obtain ⟨hres, hopt⟩ := check_host_key_new_reaches E hostname hostaddr port host_key readonly
    u g s L s1 s2 hb hs hst hretry
  have hstrict := hopt.strict_host_key_checking
  have hbatch := hopt.batch_mode
  have hhash := hopt.hash_known_hosts
  refine ⟨_, _, hres, ?_, ?_, ?_⟩
  · intro h
    unfold case_HOST_NEW
    by_cases hro : readonly ≠ 0
    · rw [if_pos hro]
    · rw [if_neg hro]
      have h1 : s2.options.strict_host_key_checking = 1 := by
        rw [hstrict]; exact h.resolve_left hro
      rw [if_pos h1]
  · intro hro h2
    have h2' : s2.options.strict_host_key_checking = 2 := by rw [hstrict]; exact h2
    have hc : case_HOST_NEW E L host_key readonly u s2 =
        if (new_host_prompt E L host_key s2).1 = 0 then .fail (new_host_prompt E L host_key s2).2
        else .brk (new_host_insert E L host_key u (new_host_prompt E L host_key s2).2) := by
      unfold case_HOST_NEW
      rw [if_neg (by simpa using hro), if_neg (by rw [h2']; decide), if_pos h2']
    rw [hc]
    constructor
    · intro hb0
      have hp := new_host_prompt_prompts E L host_key s2 (by rw [hbatch]; exact hb0)
      by_cases ha : (new_host_prompt E L host_key s2).1 = 0
      · rw [if_pos ha]; exact hp
      · rw [if_neg ha]
        have hi := (new_host_insert_quiet (fun k => k ≠ .prompt) (by simp) (by simp) E L
          host_key u (new_host_prompt E L host_key s2).2).2.2.2.prompts_eq (fun _ h => h)
        have hpc := (post_check_emits (fun _ => True) trivial trivial L
          (new_host_insert E L host_key u (new_host_prompt E L host_key s2).2)).2.2.prompts_le
        show _ < (prompts (post_check L _).2.trace).length
        rw [hi] at hpc
        omega
    · intro hno
      rw [if_pos (by rw [new_host_prompt_answer]; exact hno)]
  · intro hro h0
    have h0' : s2.options.strict_host_key_checking = 0 := by rw [hstrict]; exact h0
    have hc : case_HOST_NEW E L host_key readonly u s2 =
        .brk (new_host_insert E L host_key u s2) := by
      unfold case_HOST_NEW
      rw [if_neg (by simpa using hro), if_neg (by rw [h0']; decide),
        if_neg (by rw [h0']; decide)]
    rw [hc]
    have hi := new_host_insert_quiet (fun _ => True) trivial trivial E L host_key u s2
    obtain ⟨p1, p2⟩ := post_check_off L (new_host_insert E L host_key u s2)
      (by rw [hi.2.1]; exact h0')
    refine ⟨p1, ?_, ?_⟩
    · show prompts (post_check L _).2.trace = _
      rw [p2.2.2.2.prompts_eq (by intro k hk; rw [hk]; decide)]
      exact (new_host_insert_quiet (fun k => k ≠ .prompt) (by simp) (by simp) E L
        host_key u s2).2.2.2.prompts_eq (fun _ h => h)
    · obtain ⟨name, rest, hname, hent⟩ := spec_new_host_entries_head E L host_key u s2
      refine ⟨name, rest, hname, ?_⟩
      show adds (post_check L _).2.trace = _
      rw [p2.2.2.2.adds_eq (by intro k hk; rw [hk]; decide), new_host_insert_adds, hent, hhash]

end SshConnect

namespace SshConnect

/-- Witness for C1: empty known-hosts files, default port, ask mode, the user
answers "no": the call returns -1. -/
theorem C1_new_host_decision_witness :
    Option.map Prod.fst (check_host_key (tableEnv tblEmpty 1) "h" addr0 22 key0 0 "u" "g"
      (st0 opts0 [some "no"])) = some (.ret (-1)) := by
  obtain ⟨o, s', h, _, hask, _⟩ := C1_new_host_decision (tableEnv tblEmpty 1) "h" addr0 22 key0
    0 "u" "g" (st0 opts0 [some "no"]) _ _ _ (by decide) rfl rfl (Or.inl ⟨by decide, rfl⟩)
  rw [h, (hask rfl rfl).2 (by decide)]
  rfl

theorem mitm_downgrade_same_but_ip {a b : Options} (h : SameButIp a b) :
    SameButIp (mitm_downgrade a) (mitm_downgrade b) := by
  unfold SameButIp at h
  unfold SameButIp mitm_downgrade
  rw [h]

theorem any_mitm_feature_same_but_ip {a b : Options} (h : SameButIp a b) :
    any_mitm_feature b ↔ any_mitm_feature a := by
  unfold any_mitm_feature
  rw [h.password_authentication, h.kbd_interactive_authentication,
    h.challenge_response_authentication, h.forward_agent, h.forward_x11,
    h.num_local_forwards, h.num_remote_forwards, h.tun_open]

/-- What a call with host status `HOST_CHANGED` that is not the quiet retry
does, in terms of the entry state. -/
theorem check_host_key_changed (E : Env) (hostname : String) (hostaddr : SockAddr)
    (port : Nat) (host_key : Key) (readonly : Int) (u g : String) (s : St) (L : Locals)
    (s1 : St) (hb : ¬ localhost_bypass s hostaddr)
    (hs : switch_entry E hostname hostaddr port host_key u g s = some (L, s1))
    (hst : L.host_status = .HOST_CHANGED) (hq : readonly ≠ ROQUIET) :
    ∃ s', (s.options.strict_host_key_checking ≠ 0 →
        check_host_key E hostname hostaddr port host_key readonly u g s =
          some (.ret (-1), s') ∧ SameButIp s.options s'.options) ∧
      (s.options.strict_host_key_checking = 0 →
        SameButIp (mitm_downgrade s.options) s'.options ∧
        check_host_key E hostname hostaddr port host_key readonly u g s =
          if s.options.exit_on_forward_failure ≠ 0 ∧ any_mitm_feature s.options then
            some (.fatal "Error: forwarding disabled due to host key check failure", s')
          else some (.ret 0, s')) := by
  obtain ⟨_, _, _, e4, _⟩ := switch_entry_spec (fun _ => True) trivial trivial E hostname
    hostaddr port host_key u g s L s1 hs
  obtain ⟨t, c1, _, _, _, c5, c6⟩ := case_HOST_CHANGED_spec E L host_key readonly u s1
  have hres : check_host_key E hostname hostaddr port host_key readonly u g s =
      some (leave_switch L (case_HOST_CHANGED E L host_key readonly u s1)) :=
    chk_changed E 1 _ _ _ _ _ _ _ _ hb L s1 hs hst
  refine ⟨t, ?_, ?_⟩
  · intro hne
    obtain ⟨c7, c8⟩ := c5 (Or.inr (by rw [e4.strict_host_key_checking]; exact hne))
    rw [hres, c7]
    exact ⟨rfl, e4.sb_trans (SameButIp.of_eq c8)⟩
  · intro h0
    obtain ⟨c7, c8⟩ := c6 hq (by rw [e4.strict_host_key_checking]; exact h0)
    refine ⟨?_, ?_⟩
    · rw [c7]; exact mitm_downgrade_same_but_ip e4
    · rw [hres, c8, e4.exit_on_forward_failure]
      by_cases hf : s.options.exit_on_forward_failure ≠ 0 ∧ any_mitm_feature s.options
      · rw [if_pos hf, if_pos ⟨hf.1, (any_mitm_feature_same_but_ip e4).mpr hf.2⟩]
        rfl
      · rw [if_neg hf, if_neg (fun h => hf ⟨h.1, (any_mitm_feature_same_but_ip e4).mp h.2⟩)]
        show some (post_check L t) = _
        rw [post_check_skip L t (by simp [hst])]

/-- Counterexample to C2 as stated: in ask mode (`strict_host_key_checking = 2`),
without `exit_on_forward_failure`, a changed host key is not accepted after a
downgrade: the call returns -1. -/
theorem C2_counterexample :
    opts0.strict_host_key_checking = 2 ∧ opts0.exit_on_forward_failure = 0 ∧
    Option.map (fun p => p.1.host_status)
      (switch_entry (tableEnv tblChanged 1) "h" addr0 22 key0 "u" "g" (st0 opts0 [])) =
        some .HOST_CHANGED ∧
    Option.map Prod.fst (check_host_key (tableEnv tblChanged 1) "h" addr0 22 key0 RDRW "u" "g"
      (st0 opts0 [])) = some (.ret (-1)) := by
  refine ⟨rfl, rfl, ?_, ?_⟩ <;> decide

/-- **C2 (amended).** When the host lookup status is `HOST_CHANGED` and the call
is not the quiet retry, `check_host_key` returns -1 if and only if
`strict_host_key_checking` is not off (strict or ask), and then leaves the
options alone; in off mode it applies the feature downgrade and then ends in
the fatal error "forwarding disabled" if and only if `exit_on_forward_failure`
is set and at least one downgraded feature was enabled, and otherwise
returns 0. -/
theorem C2_changed_host_decision (E : Env) (hostname : String) (hostaddr : SockAddr)
    (port : Nat) (host_key : Key) (readonly : Int) (u g : String) (s : St) (L : Locals)
    (s1 : St) (hb : ¬ localhost_bypass s hostaddr)
    (hs : switch_entry E hostname hostaddr port host_key u g s = some (L, s1))
    (hst : L.host_status = .HOST_CHANGED) (hq : readonly ≠ ROQUIET) :
    ∃ o s', check_host_key E hostname hostaddr port host_key readonly u g s = some (o, s') ∧
      (o = .ret (-1) ↔ s.options.strict_host_key_checking ≠ 0) ∧
      (s.options.strict_host_key_checking ≠ 0 → SameButIp s.options s'.options) ∧
      (s.options.strict_host_key_checking = 0 →
        SameButIp (mitm_downgrade s.options) s'.options ∧
        (o = .fatal "Error: forwarding disabled due to host key check failure" ↔
          (s.options.exit_on_forward_failure ≠ 0 ∧ any_mitm_feature s.options)) ∧
        (o = .ret 0 ↔
          ¬ (s.options.exit_on_forward_failure ≠ 0 ∧ any_mitm_feature s.options))) := by
  obtain ⟨s', h1, h2⟩ := check_host_key_changed E hostname hostaddr port host_key readonly u g
    s L s1 hb hs hst hq
  by_cases hne : s.options.strict_host_key_checking ≠ 0
  · obtain ⟨a, b⟩ := h1 hne
    exact ⟨_, _, a, by simp [hne], fun _ => b, fun h0 => absurd h0 hne⟩
  · have h0 : s.options.strict_host_key_checking = 0 := by simpa using hne
    obtain ⟨a, b⟩ := h2 h0
    by_cases hf : s.options.exit_on_forward_failure ≠ 0 ∧ any_mitm_feature s.options
    · rw [if_pos hf] at b
      exact ⟨_, _, b, by simp [h0], fun h => absurd h hne, fun _ => ⟨a, by simp [hf], by simp [hf]⟩⟩
    · rw [if_neg hf] at b
      exact ⟨_, _, b, by simp [h0], fun h => absurd h hne, fun _ => ⟨a, by simp [hf], by simp [hf]⟩⟩

/-- Witness for C2: the changed key of `tblChanged` with strict checking off is
accepted. -/
theorem C2_changed_host_decision_witness :
    Option.map Prod.fst (check_host_key (tableEnv tblChanged 1) "h" addr0 22 key0 RDRW "u" "g"
      (st0 opts_off [])) = some (.ret 0) := by
  obtain ⟨o, s', h, _, _, hoff⟩ := C2_changed_host_decision (tableEnv tblChanged 1) "h" addr0 22
    key0 RDRW "u" "g" (st0 opts_off []) _ _ (by decide) rfl rfl (by decide)
  rw [h, (hoff rfl).2.2.mpr (by decide)]
  rfl

/-- **C3.** When `check_host_key` handles a `HOST_CHANGED` host key with strict
checking off and returns 0, then in the resulting options password,
keyboard-interactive and challenge-response authentication, agent and X11
forwarding are 0, there are no local or remote forwards, and `tun_open` is
`SSH_TUNMODE_NO`. -/
theorem C3_changed_accept_downgrades (E : Env) (hostname : String) (hostaddr : SockAddr)
    (port : Nat) (host_key : Key) (readonly : Int) (u g : String) (s : St) (L : Locals)
    (s1 s' : St) (hb : ¬ localhost_bypass s hostaddr)
    (hs : switch_entry E hostname hostaddr port host_key u g s = some (L, s1))
    (hst : L.host_status = .HOST_CHANGED)
    (h0 : s.options.strict_host_key_checking = 0)
    (hacc : check_host_key E hostname hostaddr port host_key readonly u g s =
      some (.ret 0, s')) :
    s'.options.password_authentication = 0 ∧
    s'.options.kbd_interactive_authentication = 0 ∧
    s'.options.challenge_response_authentication = 0 ∧
    s'.options.forward_agent = 0 ∧ s'.options.forward_x11 = 0 ∧
    s'.options.num_local_forwards = 0 ∧ s'.options.num_remote_forwards = 0 ∧
    s'.options.tun_open = SSH_TUNMODE_NO := by
  by_cases hq : readonly = ROQUIET
  · exfalso
    obtain ⟨t, c1, _, _, _, c5, _⟩ := case_HOST_CHANGED_spec E L host_key readonly u s1
    have hres : check_host_key E hostname hostaddr port host_key readonly u g s =
        some (leave_switch L (case_HOST_CHANGED E L host_key readonly u s1)) :=
      chk_changed E 1 _ _ _ _ _ _ _ _ hb L s1 hs hst
    rw [hres, (c5 (Or.inl hq)).1] at hacc
    simp [leave_switch] at hacc
  · obtain ⟨t, _, h2⟩ := check_host_key_changed E hostname hostaddr port host_key readonly u g
      s L s1 hb hs hst hq
    obtain ⟨a, b⟩ := h2 h0
    have ht : s' = t := by
      rw [hacc] at b
      split_ifs at b
      · simp at b
      · simpa using b
    subst ht
    have := a
    exact ⟨a.password_authentication, a.kbd_interactive_authentication,
      a.challenge_response_authentication, a.forward_agent, a.forward_x11,
      a.num_local_forwards, a.num_remote_forwards, a.tun_open⟩

/-- Witness for C3: the accepted changed key of `tblChanged`; `opts_off` has
password authentication on before the call. -/
theorem C3_changed_accept_downgrades_witness :
    opts_off.password_authentication = 1 ∧
    Option.map (fun r => r.2.options.password_authentication)
      (check_host_key (tableEnv tblChanged 1) "h" addr0 22 key0 RDRW "u" "g"
        (st0 opts_off [])) = some 0 := by
  have hacc : check_host_key (tableEnv tblChanged 1) "h" addr0 22 key0 RDRW "u" "g"
      (st0 opts_off []) = some (.ret 0, (Option.getD (check_host_key (tableEnv tblChanged 1)
        "h" addr0 22 key0 RDRW "u" "g" (st0 opts_off [])) (.ret 0, st0 opts_off [])).2) := by
    decide
  have h := C3_changed_accept_downgrades (tableEnv tblChanged 1) "h" addr0 22 key0 RDRW "u" "g"
    (st0 opts_off []) _ _ _ (by decide) rfl rfl rfl hacc
  refine ⟨rfl, ?_⟩
  rw [hacc]
  exact congrArg some h.1

end SshConnect

namespace SshConnect

/-- **C4.** Every call of `check_host_key` with `readonly` non-zero (`RDONLY`
or `ROQUIET`) returns, and the insertions recorded in the log after the call
are exactly those recorded before it: `add_host_to_hostfile` is never invoked,
the nested retry under the bare name included, whatever the lookups answer,
the options are and the user types. -/
theorem C4_readonly_never_inserts (E : Env) (hostname : String) (hostaddr : SockAddr)
    (port : Nat) (host_key : Key) (readonly : Int) (u g : String) (s : St)
    (hro : readonly ≠ 0) :
    ∃ o s', check_host_key E hostname hostaddr port host_key readonly u g s = some (o, s') ∧
      adds s'.trace = adds s.trace := by
  obtain ⟨_, ⟨o, s'⟩, h⟩ := check_host_key_fuel_stable E 0 hostname hostaddr port host_key
    readonly u g s
  refine ⟨o, s', h, ?_⟩
  have ht := (check_host_key_fuel_trace (fun k => k ≠ .add) (by simp) (by simp) (by simp)
    (by simp) E hostname hostaddr host_key u g 2 port readonly s o s'
    (fun h0 => absurd h0 hro) h).1
  exact ht.adds_eq (fun _ hk => hk)

/-- Witness for C4: a read-only call on empty known-hosts files in off mode
inserts nothing (a read-write call would insert the key). -/
theorem C4_readonly_never_inserts_witness :
    Option.map (fun r => adds r.2.trace) (check_host_key (tableEnv tblEmpty 1) "h" addr0 22 key0
      RDONLY "u" "g" (st0 opts_off [])) = some [] := by
  obtain ⟨o, s', h, ha⟩ := C4_readonly_never_inserts (tableEnv tblEmpty 1) "h" addr0 22 key0
    RDONLY "u" "g" (st0 opts_off []) (by decide)
  rw [h]
  exact congrArg some ha

/-- The lookup pattern of lines 699-706: the status is the user file's unless
that is `HOST_NEW`, then the system file's; the system file is consulted only
in that case. -/
theorem lookup_user_then_system_spec (E : Env) (s : St) (u g name : String) (k found : Key)
    (line : Int) :
    (E.check_host_in_hostfile s.trace u name k found line).1 ≠ .HOST_NEW ∧
      (lookup_user_then_system E s u g name k found line).1.2.1 =
        (E.check_host_in_hostfile s.trace u name k found line).1 ∧
      (lookup_user_then_system E s u g name k found line).1.1 = u ∧
      (lookup_user_then_system E s u g name k found line).2.trace = s.trace ++ [.probe u name]
    ∨
    (E.check_host_in_hostfile s.trace u name k found line).1 = .HOST_NEW ∧
      (lookup_user_then_system E s u g name k found line).1.2.1 =
        (E.check_host_in_hostfile (s.trace ++ [.probe u name]) g name k
          (E.check_host_in_hostfile s.trace u name k found line).2.1
          (E.check_host_in_hostfile s.trace u name k found line).2.2).1 ∧
      (lookup_user_then_system E s u g name k found line).1.1 = g ∧
      (lookup_user_then_system E s u g name k found line).2.trace =
        s.trace ++ [.probe u name, .probe g name] := by
  unfold lookup_user_then_system
  dsimp only
  by_cases h : (check_host_in_hostfile E s u name k found line).1.1 = .HOST_NEW
  · rw [if_pos h]
    right
    refine ⟨h, rfl, rfl, ?_⟩
    simp [check_host_in_hostfile, St.emit]
  · rw [if_neg h]
    left
    exact ⟨h, rfl, rfl, rfl⟩

theorem probes_append (a b : List Event) : probes (a ++ b) = probes a ++ probes b := by
  simp [probes, List.filter_append]

theorem Trace.probes_ext {P : Kind → Prop} {s t : St} (h : Trace P s t) :
    ∃ more, probes t.trace = probes s.trace ++ more := by
  obtain ⟨evs, h1, _⟩ := h
  exact ⟨probes evs, by rw [h1, probes_append]⟩

/-- The first lookup after the entry of `check_host_key` is in the user file,
for the name under which the key is stored. -/
theorem switch_entry_first_probe (E : Env) (hostname : String) (hostaddr : SockAddr)
    (port : Nat) (host_key : Key) (u g : String) (s : St) (L : Locals) (s1 : St)
    (hs : switch_entry E hostname hostaddr port host_key u g s = some (L, s1)) :
    ∃ more, probes s1.trace = probes s.trace ++ .probe u L.host :: more := by
  unfold switch_entry at hs
  cases hip : host_ip E s hostaddr port with
  | none => simp [hip] at hs
  | some ip =>
    simp only [hip, Option.some.injEq] at hs
    obtain ⟨_, _, a3, _⟩ := adjust_check_host_ip_spec s (is_local hostaddr) hostname ip
    generalize adjust_check_host_ip s (is_local hostaddr) hostname ip = sa at hs a3
    have hh := (host_name_quiet (fun k => k ≠ .probe) (by simp) E sa hostname
      port).2.2.2.probes_eq (fun _ h => h)
    generalize host_name E sa hostname port = hn at hs hh
    rw [a3] at hh
    have hL : L = (probe_stores E hn.2 hn.1 ip host_key u g).1 := by rw [hs]
    have hS : s1 = (probe_stores E hn.2 hn.1 ip host_key u g).2 := by rw [hs]
    have hl : L.host = hn.1 := by
      rw [hL]; unfold probe_stores; dsimp only; split_ifs <;> rfl
    have h1 : ∃ more, probes (lookup_user_then_system E hn.2 u g hn.1 host_key
        (key_new host_key.type) 0).2.trace = probes s.trace ++ .probe u hn.1 :: more := by
      rcases lookup_user_then_system_spec E hn.2 u g hn.1 host_key (key_new host_key.type) 0
        with ⟨_, _, _, ht⟩ | ⟨_, _, _, ht⟩
      · exact ⟨[], by rw [ht, probes_append, hh]; simp [probes, Event.kind]⟩
      · exact ⟨[.probe g hn.1], by rw [ht, probes_append, hh]; simp [probes, Event.kind]⟩
    obtain ⟨more, h1⟩ := h1
    have h2 : ∃ more2, probes s1.trace = probes (lookup_user_then_system E hn.2 u g hn.1
        host_key (key_new host_key.type) 0).2.trace ++ more2 := by
      rw [hS]
      unfold probe_stores
      dsimp only
      by_cases hc : (lookup_user_then_system E hn.2 u g hn.1 host_key (key_new host_key.type)
          0).2.options.check_host_ip ≠ 0
      · rw [if_pos hc]
        exact (lookup_user_then_system_quiet (fun _ => True) trivial E _ _ _ _ _ _
          _).2.2.2.probes_ext
      · rw [if_neg hc]
        exact ⟨[], by simp⟩
    obtain ⟨more2, h2⟩ := h2
    exact ⟨more ++ more2, by rw [h2, h1, hl]; simp⟩

/-- After the `switch` is reached in state `s1`, the call only extends the
log of `s1`. -/
theorem check_host_key_fuel_after (P : Kind → Prop) (h1 : P .probe) (h2 : P .lookup)
    (h3 : P .prompt) (h4 : P .log) (E : Env) (hostname : String) (hostaddr : SockAddr)
    (host_key : Key) (u g : String) (n : Nat) (port : Nat) (readonly : Int) (s : St)
    (o : Outcome) (s' : St) (hadd : readonly = 0 → P .add) (L : Locals) (s1 : St)
    (hb : ¬ localhost_bypass s hostaddr)
    (hs : switch_entry E hostname hostaddr port host_key u g s = some (L, s1))
    (h : check_host_key_fuel E (n + 1) hostname hostaddr port host_key readonly u g s =
      some (o, s')) : Trace P s1 s' := by
  cases hst : L.host_status with
  | HOST_OK =>
    rw [chk_ok E n _ _ _ _ _ _ _ _ hb L s1 hs hst] at h
    simp only [Option.some.injEq] at h
    have a := (case_HOST_OK_quiet P h4 readonly hadd E L host_key u s1).2
    have b := post_check_emits P h4 h3 L (case_HOST_OK E L host_key readonly u s1)
    rw [h] at b
    exact (a.em_trans b).2.2
  | HOST_CHANGED =>
    rw [chk_changed E n _ _ _ _ _ _ _ _ hb L s1 hs hst] at h
    simp only [Option.some.injEq] at h
    obtain ⟨t, c1, _, c3, c4, _, _⟩ := case_HOST_CHANGED_spec E L host_key readonly u s1
    have b := leave_switch_emits P h4 h3 L (case_HOST_CHANGED E L host_key readonly u s1)
    rw [h, c1] at b
    exact (c4 P h4).tr_trans b.2.2
  | HOST_FOUND =>
    rw [chk_found E n _ _ _ _ _ _ _ _ hb L s1 hs hst] at h
    simp only [Option.some.injEq, Prod.mk.injEq] at h
    rw [← h.2]
    exact Trace.tr_refl P s1
  | HOST_NEW =>
    have hnew : ∀ t : St, Trace P s1 t →
        leave_switch L (case_HOST_NEW E L host_key readonly u t) = (o, s') →
        Trace P s1 s' := by
      intro t ht hl
      have a := case_HOST_NEW_emits P h4 h2 h3 readonly hadd E L host_key u t
      have b := leave_switch_emits P h4 h3 L (case_HOST_NEW E L host_key readonly u t)
      rw [hl] at b
      exact ht.tr_trans (a.em_trans b).2.2
    by_cases hr : retry_applies s1 port
    · cases hn : check_host_key_fuel E n hostname hostaddr 0 host_key ROQUIET u g
        (debug s1 "checking without port identifier") with
      | none =>
        rw [chk_new_retry_none E n _ _ _ _ _ _ _ _ hb L s1 hs hst hr hn] at h
        exact absurd h (by simp)
      | some q =>
        obtain ⟨o2, s2⟩ := q
        obtain ⟨n1, _⟩ := check_host_key_fuel_trace P h1 h2 h3 h4 E hostname hostaddr host_key
          u g n 0 ROQUIET _ o2 s2 (by simp [ROQUIET]) hn
        have ht : Trace P s1 s2 := (Quiet.debug P _ _ h4).2.2.2.tr_trans n1
        cases o2 with
        | fatal msg =>
          rw [chk_new_retry_fatal E n _ _ _ _ _ _ _ _ hb L s1 hs hst hr msg s2 hn] at h
          simp only [Option.some.injEq, Prod.mk.injEq] at h
          rw [← h.2]
          exact ht
        | ret r =>
          by_cases hr0 : r = 0
          · subst hr0
            rw [chk_new_retry_accept E n _ _ _ _ _ _ _ _ hb L s1 hs hst hr s2 hn] at h
            simp only [Option.some.injEq] at h
            have b := post_check_emits P h4 h3 L (debug s2 "found matching key w/out port")
            rw [h] at b
            exact (ht.tr_trans (Quiet.debug P _ _ h4).2.2.2).tr_trans b.2.2
          · rw [chk_new_retry_reject E n _ _ _ _ _ _ _ _ hb L s1 hs hst hr r s2 hr0 hn] at h
            simp only [Option.some.injEq] at h
            exact hnew s2 ht h
    · rw [chk_new_noretry E n _ _ _ _ _ _ _ _ hb L s1 hs hst hr] at h
      simp only [Option.some.injEq] at h
      exact hnew s1 (Trace.tr_refl P s1) h

/-- **C5.** When `no_host_authentication_for_localhost` is 1, no host-key alias
is configured and the address is loopback (IPv4 with first byte 127, or IPv6
`::1`), `check_host_key` returns 0 at once: options and terminal are untouched
and the log gains no lookup, no prompt and no insertion.  If one of the three
conditions fails the bypass is not taken: the call either stops with the
`getnameinfo` fatal error or looks the key up, starting with the user file. -/
theorem C5_localhost_bypass (E : Env) (hostname : String) (hostaddr : SockAddr) (port : Nat)
    (host_key : Key) (readonly : Int) (u g : String) (s : St) :
    (∀ a : Nat, is_local (.inet a) = true ↔
      (127 * 2 ^ 24 ≤ a % 2 ^ 32 ∧ a % 2 ^ 32 < 128 * 2 ^ 24)) ∧
    (∀ w0 w1 w2 w3 : Nat, is_local (.inet6 w0 w1 w2 w3) = true ↔
      (w0 = 0 ∧ w1 = 0 ∧ w2 = 0 ∧ w3 = 1)) ∧
    is_local .other = false ∧
    ∃ o s', check_host_key E hostname hostaddr port host_key readonly u g s = some (o, s') ∧
      ((s.options.no_host_authentication_for_localhost = 1 ∧ is_local hostaddr = true ∧
          s.options.host_key_alias = none) →
        o = .ret 0 ∧ s'.options = s.options ∧ s'.tty = s.tty ∧
        probes s'.trace = probes s.trace ∧ prompts s'.trace = prompts s.trace ∧
        adds s'.trace = adds s.trace) ∧
      (¬ (s.options.no_host_authentication_for_localhost = 1 ∧ is_local hostaddr = true ∧
          s.options.host_key_alias = none) →
        (switch_entry E hostname hostaddr port host_key u g s = none ∧
          o = .fatal "check_host_key: getnameinfo failed" ∧ s' = s) ∨
        ∃ L s1 more, switch_entry E hostname hostaddr port host_key u g s = some (L, s1) ∧
          probes s'.trace = probes s.trace ++ .probe u L.host :: more) := by
  refine ⟨?_, ?_, rfl, ?_⟩
  · intro a
    simp only [is_local, IN_LOOPBACKNET, decide_eq_true_eq]
    omega
  · intro w0 w1 w2 w3
    simp [is_local]
  obtain ⟨_, ⟨o, s'⟩, h⟩ := check_host_key_fuel_stable E 0 hostname hostaddr port host_key
    readonly u g s
  refine ⟨o, s', h, ?_, ?_⟩
  · intro hb
    have hb' : localhost_bypass s hostaddr := hb
    unfold check_host_key at h
    rw [chk_bypass E 1 _ _ _ _ _ _ _ _ hb'] at h
    simp only [Option.some.injEq, Prod.mk.injEq] at h
    rw [← h.1, ← h.2]
    refine ⟨rfl, rfl, rfl, ?_, ?_, ?_⟩ <;>
      simp [debug, St.emit, probes, prompts, adds, List.filter_append, Event.kind]
  · intro hb
    have hb' : ¬ localhost_bypass s hostaddr := hb
    cases hs : switch_entry E hostname hostaddr port host_key u g s with
    | none =>
      left
      unfold check_host_key at h
      rw [chk_fatal E 1 _ _ _ _ _ _ _ _ hb' hs] at h
      simp only [Option.some.injEq, Prod.mk.injEq] at h
      exact ⟨rfl, h.1.symm, h.2.symm⟩
    | some p =>
      right
      obtain ⟨L, s1⟩ := p
      obtain ⟨more, hm⟩ := switch_entry_first_probe E hostname hostaddr port host_key u g s L
        s1 hs
      obtain ⟨more2, hm2⟩ := (check_host_key_fuel_after (fun _ => True) trivial trivial trivial
        trivial E hostname hostaddr host_key u g 1 port readonly s o s' (fun _ => trivial) L s1
        hb' hs h).probes_ext
      exact ⟨L, s1, more ++ more2, rfl, by rw [hm2, hm]; simp⟩

end SshConnect

namespace SshConnect

/-- Witness for C5: with the option set, a loopback peer is accepted without
any lookup. -/
theorem C5_localhost_bypass_witness :
    Option.map (fun r => (r.1, probes r.2.trace)) (check_host_key (tableEnv tblEmpty 1) "h"
      addr_loop 22 key0 RDRW "u" "g" (st0 opts_nolocal [])) = some (.ret 0, []) := by
  obtain ⟨_, _, _, o, s', h, hyes, _⟩ := C5_localhost_bypass (tableEnv tblEmpty 1) "h"
    addr_loop 22 key0 RDRW "u" "g" (st0 opts_nolocal [])
  obtain ⟨h1, _, _, h4, _, _⟩ := hyes (by decide)
  rw [h]
  simp only [Option.map_some', h1, h4]
  rfl

/-- One lookup of lines 699-706 follows the rule of the spec. -/
theorem lookup_user_then_system_rule (E : Env) (s : St) (u g name : String) (k : Key) :
    (lookup_user_then_system E s u g name k (key_new k.type) 0).1.2.1 =
      spec_status E s.trace u g name k ∧
    (lookup_user_then_system E s u g name k (key_new k.type) 0).2.trace =
      s.trace ++ spec_probes E s.trace u g name k := by
  unfold spec_status spec_probes
  rcases lookup_user_then_system_spec E s u g name k (key_new k.type) 0 with
    ⟨h1, h2, _, h4⟩ | ⟨h1, h2, _, h4⟩
  · rw [if_neg h1, if_neg h1]; exact ⟨h2, h4⟩
  · rw [if_pos h1, if_pos h1]; exact ⟨h2, h4⟩

/-- The lookups of lines 695-730: the rule of the spec for the host name and,
when `check_host_ip` is on, after it for the address. -/
theorem probe_stores_rule (E : Env) (s : St) (host ip : String) (k : Key) (u g : String) :
    (probe_stores E s host ip k u g).1.host = host ∧
    (probe_stores E s host ip k u g).1.ip = ip ∧
    (probe_stores E s host ip k u g).1.host_status = spec_status E s.trace u g host k ∧
    (s.options.check_host_ip = 0 →
      (probe_stores E s host ip k u g).1.ip_status = spec_status E s.trace u g host k ∧
      (probe_stores E s host ip k u g).2.trace = s.trace ++ spec_probes E s.trace u g host k) ∧
    (s.options.check_host_ip ≠ 0 →
      (probe_stores E s host ip k u g).1.ip_status =
        spec_status E (s.trace ++ spec_probes E s.trace u g host k) u g ip k ∧
      (probe_stores E s host ip k u g).2.trace =
        s.trace ++ spec_probes E s.trace u g host k ++
          spec_probes E (s.trace ++ spec_probes E s.trace u g host k) u g ip k) := by
  obtain ⟨r1, r2⟩ := lookup_user_then_system_rule E s u g host k
  have hq := (lookup_user_then_system_quiet (fun _ => True) trivial E s u g host k
    (key_new k.type) 0).2.1
  obtain ⟨i1, i2⟩ := lookup_user_then_system_rule E
    (lookup_user_then_system E s u g host k (key_new k.type) 0).2 u g ip k
  rw [r2] at i1 i2
  unfold probe_stores
  dsimp only
  by_cases hc : (lookup_user_then_system E s u g host k (key_new k.type)
      0).2.options.check_host_ip ≠ 0
  · rw [if_pos hc]
    rw [hq] at hc
    exact ⟨rfl, rfl, r1, fun h0 => absurd h0 hc, fun _ => ⟨i1, i2⟩⟩
  · rw [if_neg hc]
    rw [hq] at hc
    exact ⟨rfl, rfl, r1, fun _ => ⟨r1, r2⟩, fun h1 => absurd h1 hc⟩

/-- **C6.** A call of `check_host_key` that is not settled by the loopback
test either ends in the `getnameinfo` fatal, or looks the host name up by the
rule of the spec, with the files it was handed as `user_hostfile` and
`system_hostfile`: the user file first and the system file only when the user
file answers `HOST_NEW`; `host_status` is the user file's status unless that
is `HOST_NEW`, in which case it is the system file's status, so an answer
`HOST_OK` or `HOST_CHANGED` of the user file is never overridden.  When
`check_host_ip` is on the same rule gives `ip_status`, looked up after the
host name; when it is off no more lookup is made.  Before the lookups the
call has written at most log lines, and it goes on from the log they leave. -/
theorem C6_user_file_first (E : Env) (hostname : String) (hostaddr : SockAddr) (port : Nat)
    (host_key : Key) (readonly : Int) (u g : String) (s : St)
    (hb : ¬ localhost_bypass s hostaddr) :
    (switch_entry E hostname hostaddr port host_key u g s = none ∧
      check_host_key E hostname hostaddr port host_key readonly u g s =
        some (.fatal "check_host_key: getnameinfo failed", s)) ∨
    ∃ L s1 pre, switch_entry E hostname hostaddr port host_key u g s = some (L, s1) ∧
      (∀ e ∈ pre, e.kind = .log) ∧
      L.host_status = spec_status E (s.trace ++ pre) u g L.host host_key ∧
      (s1.options.check_host_ip = 0 →
        L.ip_status = L.host_status ∧
        s1.trace = s.trace ++ pre ++ spec_probes E (s.trace ++ pre) u g L.host host_key) ∧
      (s1.options.check_host_ip ≠ 0 →
        L.ip_status = spec_status E
          (s.trace ++ pre ++ spec_probes E (s.trace ++ pre) u g L.host host_key)
          u g L.ip host_key ∧
        s1.trace = s.trace ++ pre ++ spec_probes E (s.trace ++ pre) u g L.host host_key ++
          spec_probes E (s.trace ++ pre ++ spec_probes E (s.trace ++ pre) u g L.host host_key)
            u g L.ip host_key) ∧
      ∃ o s' more, check_host_key E hostname hostaddr port host_key readonly u g s =
          some (o, s') ∧ s'.trace = s1.trace ++ more := by
  cases hs : switch_entry E hostname hostaddr port host_key u g s with
  | none => exact Or.inl ⟨rfl, chk_fatal E 1 _ _ _ _ _ _ _ _ hb hs⟩
  | some p =>
    obtain ⟨L, s1⟩ := p
    right
    obtain ⟨_, ⟨o, s'⟩, h⟩ := check_host_key_fuel_stable E 0 hostname hostaddr port host_key
      readonly u g s
    obtain ⟨more, hm, _⟩ := check_host_key_fuel_after (fun _ => True) trivial trivial trivial
      trivial E hostname hostaddr host_key u g 1 port readonly s o s' (fun _ => trivial) L s1
      hb hs h
    have hs1 := hs
    unfold switch_entry at hs1
    cases hip : host_ip E s hostaddr port with
    | none => simp [hip] at hs1
    | some ip =>
      simp only [hip, Option.some.injEq] at hs1
      obtain ⟨_, _, a3, _⟩ := adjust_check_host_ip_spec s (is_local hostaddr) hostname ip
      generalize adjust_check_host_ip s (is_local hostaddr) hostname ip = sa at hs1 a3
      obtain ⟨pre, hpre, hlog⟩ := (host_name_quiet (fun k => k = .log) rfl E sa hostname
        port).2.2.2
      generalize host_name E sa hostname port = hn at hs1 hpre
      rw [a3] at hpre
      have ho := (probe_stores_quiet (fun _ => True) trivial E hn.2 hn.1 ip host_key u
        g).2.1
      obtain ⟨R1, R2, R3, R4, R5⟩ := probe_stores_rule E hn.2 hn.1 ip host_key u g
      rw [hs1] at ho R1 R2 R3 R4 R5
      dsimp only at ho R1 R2 R3 R4 R5
      rw [hpre, ← R1] at R3 R4 R5
      rw [← R2] at R5
      rw [← ho] at R4 R5
      refine ⟨L, s1, pre, rfl, hlog, R3, ?_, R5, o, s', more, h, hm⟩
      intro h0
      exact ⟨(R4 h0).1.trans R3.symm, (R4 h0).2⟩

/-- Witness for C6: the user file of `tblChanged` answers `HOST_CHANGED` for
`h`, so the system file is not consulted for `h`; for the address the user
file answers `HOST_NEW` and the system file is consulted after it.  The log
of the call begins with these three lookups. -/
theorem C6_user_file_first_witness :
    ∃ o s' more, check_host_key (tableEnv tblChanged 1) "h" addr0 22 key0 RDRW "u" "g"
        (st0 opts0 []) = some (o, s') ∧
      s'.trace = [.probe "u" "h", .probe "u" "1.2.3.4", .probe "g" "1.2.3.4"] ++ more := by
  rcases C6_user_file_first (tableEnv tblChanged 1) "h" addr0 22 key0 RDRW "u" "g"
    (st0 opts0 []) (by decide) with ⟨h, _⟩ | ⟨L, s1, pre, hs, _, _, _, _, o, s', more, hc, hm⟩
  · exact absurd h (by decide)
  · have e : Option.map (fun p => p.2.trace) (switch_entry (tableEnv tblChanged 1) "h" addr0
        22 key0 "u" "g" (st0 opts0 [])) =
        some [.probe "u" "h", .probe "u" "1.2.3.4", .probe "g" "1.2.3.4"] := by decide
    rw [hs] at e
    simp only [Option.map_some', Option.some.injEq] at e
    exact ⟨o, s', more, hc, by rw [hm, e]⟩

end SshConnect

namespace SshConnect

/-- A read-only call with port 0 whose address status is not `HOST_CHANGED`
asks nothing and inserts nothing. -/
theorem check_host_key_port0_silent (E : Env) (hostname : String) (hostaddr : SockAddr)
    (host_key : Key) (readonly : Int) (u g : String) (s : St) (o : Outcome) (s' : St)
    (hro : readonly ≠ 0)
    (hip : ∀ Ln sn, switch_entry E hostname hostaddr 0 host_key u g s = some (Ln, sn) →
      Ln.ip_status ≠ .HOST_CHANGED)
    (h : check_host_key_fuel E 1 hostname hostaddr 0 host_key readonly u g s = some (o, s')) :
    Trace (fun k => k ≠ .prompt ∧ k ≠ .add) s s' := by
  by_cases hb : localhost_bypass s hostaddr
  · rw [chk_bypass E 0 _ _ _ _ _ _ _ _ hb] at h
    simp only [Option.some.injEq, Prod.mk.injEq] at h
    rw [← h.2]
    exact (Quiet.debug _ _ _ (by simp)).2.2.2
  cases hs : switch_entry E hostname hostaddr 0 host_key u g s with
  | none =>
    rw [chk_fatal E 0 _ _ _ _ _ _ _ _ hb hs] at h
    simp only [Option.some.injEq, Prod.mk.injEq] at h
    rw [← h.2]
    exact Trace.tr_refl _ s
  | some p =>
    obtain ⟨L, s1⟩ := p
    obtain ⟨_, _, e3, _, _⟩ := switch_entry_spec (fun k => k ≠ .prompt ∧ k ≠ .add) (by simp)
      (by simp) E hostname hostaddr 0 host_key u g s L s1 hs
    cases hst : L.host_status with
    | HOST_OK =>
      rw [chk_ok E 0 _ _ _ _ _ _ _ _ hb L s1 hs hst,
        post_check_skip L _ (fun hc => hip L s1 hs hc.2.2)] at h
      simp only [Option.some.injEq, Prod.mk.injEq] at h
      rw [← h.2]
      exact e3.tr_trans (case_HOST_OK_quiet _ (by simp) readonly (fun h0 => absurd h0 hro) E L
        host_key u s1).2.2.2
    | HOST_NEW =>
      rw [chk_new_noretry E 0 _ _ _ _ _ _ _ _ hb L s1 hs hst (retry_applies_zero s1)] at h
      unfold case_HOST_NEW at h
      rw [if_pos hro] at h
      simp only [leave_switch, Option.some.injEq, Prod.mk.injEq] at h
      rw [← h.2]
      exact e3
    | HOST_CHANGED =>
      rw [chk_changed E 0 _ _ _ _ _ _ _ _ hb L s1 hs hst] at h
      simp only [Option.some.injEq] at h
      obtain ⟨t, c1, _, _, c4, _, _⟩ := case_HOST_CHANGED_spec E L host_key readonly u s1
      have ht : Trace (fun k => k ≠ .prompt ∧ k ≠ .add) s t := e3.tr_trans (c4 _ (by simp))
      cases hc : case_HOST_CHANGED E L host_key readonly u s1 with
      | brk t' =>
        rw [hc] at h c1
        simp only [leave_switch] at h
        rw [post_check_skip L _ (by simp [hst])] at h
        simp only [Prod.mk.injEq] at h
        rw [← h.2]
        exact (show t' = t from c1) ▸ ht
      | fail t' =>
        rw [hc] at h c1
        simp only [leave_switch, Prod.mk.injEq] at h
        rw [← h.2]
        exact (show t' = t from c1) ▸ ht
      | fatal msg t' =>
        rw [hc] at h c1
        simp only [leave_switch, Prod.mk.injEq] at h
        rw [← h.2]
        exact (show t' = t from c1) ▸ ht
    | HOST_FOUND =>
      rw [chk_found E 0 _ _ _ _ _ _ _ _ hb L s1 hs hst] at h
      simp only [Option.some.injEq, Prod.mk.injEq] at h
      rw [← h.2]
      exact e3

/-- Counterexample to C7 as stated: the key is stored under the bare name `h`,
the connection goes to port 2222, the address variant `[1.2.3.4]:2222` has
another key and strict checking is on.  The lookup under `[h]:2222` is
`HOST_NEW`, the retry under the bare name returns 0, and yet the call
returns -1. -/
theorem C7_counterexample :
    opts_strict.host_key_alias = none ∧
    Option.map (fun p => p.1.host_status)
      (switch_entry (tableEnv tblBare 1) "h" addr0 2222 key0 "u" "g" (st0 opts_strict [])) =
        some .HOST_NEW ∧
    Option.bind (switch_entry (tableEnv tblBare 1) "h" addr0 2222 key0 "u" "g"
        (st0 opts_strict []))
      (fun p => Option.map Prod.fst (check_host_key_fuel (tableEnv tblBare 1) 1 "h" addr0 0 key0
        ROQUIET "u" "g" (debug p.2 "checking without port identifier"))) = some (.ret 0) ∧
    Option.map Prod.fst (check_host_key (tableEnv tblBare 1) "h" addr0 2222 key0 RDRW "u" "g"
      (st0 opts_strict [])) = some (.ret (-1)) := by
  refine ⟨rfl, ?_, ?_, ?_⟩ <;> decide

/-- **C7 (amended).** When no alias is set, the port is neither 0 nor 22 and
the lookup under the `[host]:port` name is `HOST_NEW`, `check_host_key` calls
itself exactly once with the bare host name (port 0, `ROQUIET`); that call
completes without a further retry (depth bound 1 suffices).  If it returns 0,
the outer call leaves the `switch` without the new-host question and inserts
nothing, and runs the host/IP check of lines 960-985 with the statuses of the
outer lookup.  It then accepts silently (returns 0, no prompt in the whole
call) provided neither the address status of the outer lookup nor that of the
retry is `HOST_CHANGED`. -/
theorem C7_bare_name_retry (E : Env) (hostname : String) (hostaddr : SockAddr) (port : Nat)
    (host_key : Key) (readonly : Int) (u g : String) (s : St) (L : Locals) (s1 : St)
    (hb : ¬ localhost_bypass s hostaddr)
    (hs : switch_entry E hostname hostaddr port host_key u g s = some (L, s1))
    (hst : L.host_status = .HOST_NEW)
    (halias : s.options.host_key_alias = none) (hp0 : port ≠ 0)
    (hp22 : port ≠ SSH_DEFAULT_PORT) :
    ∃ o2 s2,
      (∀ n, check_host_key_fuel E (n + 1) hostname hostaddr 0 host_key ROQUIET u g
        (debug s1 "checking without port identifier") = some (o2, s2)) ∧
      (o2 = .ret 0 →
        check_host_key E hostname hostaddr port host_key readonly u g s =
          some (post_check L (debug s2 "found matching key w/out port")) ∧
        adds (post_check L (debug s2 "found matching key w/out port")).2.trace =
          adds s.trace ∧
        (L.ip_status ≠ .HOST_CHANGED →
          (∀ Ln sn, switch_entry E hostname hostaddr 0 host_key u g
            (debug s1 "checking without port identifier") = some (Ln, sn) →
            Ln.ip_status ≠ .HOST_CHANGED) →
          (post_check L (debug s2 "found matching key w/out port")).1 = .ret 0 ∧
          prompts (post_check L (debug s2 "found matching key w/out port")).2.trace =
            prompts s.trace)) := by
  obtain ⟨_, _, e3, e4, _⟩ := switch_entry_spec (fun k => k ≠ .prompt ∧ k ≠ .add) (by simp)
    (by simp) E hostname hostaddr port host_key u g s L s1 hs
  have hr : retry_applies s1 port := ⟨by rw [e4.host_key_alias]; exact halias, hp0, hp22⟩
  obtain ⟨_, ⟨o2, s2⟩, hn⟩ := check_host_key_fuel_port0 E 0 hostname hostaddr host_key ROQUIET
    u g (debug s1 "checking without port identifier")
  refine ⟨o2, s2, ?_, ?_⟩
  · intro n
    rw [(check_host_key_fuel_port0 E n hostname hostaddr host_key ROQUIET u g _).1]
    exact hn
  · intro ho
    subst ho
    have hres := chk_new_retry_accept E 1 hostname hostaddr port host_key readonly u g s hb L s1
      hs hst hr s2 hn
    have hnest := (check_host_key_fuel_trace (fun k => k ≠ .add) (by simp) (by simp) (by simp)
      (by simp) E hostname hostaddr host_key u g 1 0 ROQUIET _ _ s2 (by simp [ROQUIET]) hn).1
    have hd1 : Trace (fun k => k ≠ .add) s1 (debug s1 "checking without port identifier") :=
      (Quiet.debug _ _ _ (by simp)).2.2.2
    have hd2 : Trace (fun k => k ≠ .add) s2 (debug s2 "found matching key w/out port") :=
      (Quiet.debug _ _ _ (by simp)).2.2.2
    have hpc := (post_check_emits (fun k => k ≠ .add) (by simp) (by simp) L
      (debug s2 "found matching key w/out port")).2.2
    refine ⟨hres, ?_, ?_⟩
    · exact ((((e3.tr_mono (fun _ hk => hk.2)).tr_trans hd1).tr_trans hnest).tr_trans
        hd2).tr_trans hpc |>.adds_eq (fun _ hk => hk)
    · intro hL hLn
      rw [post_check_skip L _ (fun hc => hL hc.2.2)]
      refine ⟨rfl, ?_⟩
      have hsil := check_host_key_port0_silent E hostname hostaddr host_key ROQUIET u g _ _ s2
        (by simp [ROQUIET]) hLn hn
      have q1 : Trace (fun k => k ≠ .prompt ∧ k ≠ .add) s1
          (debug s1 "checking without port identifier") := (Quiet.debug _ _ _ (by simp)).2.2.2
      have q2 : Trace (fun k => k ≠ .prompt ∧ k ≠ .add) s2
          (debug s2 "found matching key w/out port") := (Quiet.debug _ _ _ (by simp)).2.2.2
      exact (((e3.tr_trans q1).tr_trans hsil).tr_trans q2).prompts_eq (fun _ hk => hk.1)

/-- Witness for C7: the key is stored under the bare name `h` only, the
connection goes to port 2222 with strict checking: the call accepts via the
retry. -/
theorem C7_bare_name_retry_witness :
    Option.map Prod.fst (check_host_key (tableEnv tblBareOnly 1) "h" addr0 2222
      key0 RDRW "u" "g" (st0 opts_strict [])) = some (.ret 0) := by
  obtain ⟨o2, s2, hn, hacc⟩ := C7_bare_name_retry (tableEnv tblBareOnly 1) "h" addr0 2222
    key0 RDRW "u" "g" (st0 opts_strict []) _ _ (by decide) rfl rfl rfl (by decide) (by decide)
  have ho : o2 = .ret 0 := by
    have h2 : Option.map Prod.fst (some (o2, s2)) = some (Outcome.ret 0) := by
      rw [← hn 0]; decide
    simpa using h2
  obtain ⟨h1, _, h3⟩ := hacc ho
  rw [h1]
  refine congrArg some (h3 (by decide) ?_).1
  intro Ln sn h
  have h' : some HostStatus.HOST_NEW = some Ln.ip_status :=
    congrArg (Option.map (fun p : Locals × St => p.1.ip_status)) h
  simp only [Option.some.injEq] at h'
  rw [← h']
  decide

end SshConnect

namespace SshConnect

/-- Counterexample to C8 as stated: off mode, hashing on, IP checking on, host
and address both `HOST_NEW`, and the insertion into the user file fails
(`add_host_to_hostfile` returns 0).  The key is accepted, but only the host
form is inserted: there is no second insertion for the address. -/
theorem C8_counterexample :
    opts_hash.hash_known_hosts = 1 ∧
    Option.map (fun p => (p.1.host_status, p.1.ip_status, p.2.options.check_host_ip))
      (switch_entry (tableEnv tblEmpty 0) "h" addr0 22 key0 "u" "g" (st0 opts_hash [])) =
        some (.HOST_NEW, .HOST_NEW, 1) ∧
    Option.map (fun r => (r.1, adds r.2.trace))
      (check_host_key (tableEnv tblEmpty 0) "h" addr0 22 key0 RDRW "u" "g" (st0 opts_hash [])) =
        some (.ret 0, [.add "u" "h" key0 1]) := by
  refine ⟨rfl, ?_, ?_⟩ <;> decide

/-- **C8 (amended).** The insertion code of lines 822-854, run in any state `t`:
with IP checking on and the address status `HOST_NEW`, it inserts into the
user file the host name and then the address as two insertions when
`hash_known_hosts` is on, the second only if the first succeeded, and one
combined `host,ip` name when hashing is off; otherwise it inserts the host
name alone.  A new host accepted for insertion (off mode, or ask mode answered
yes) gets exactly the insertions of that code, run in a state `t` that has the
options of the state `s2` in which the `case` was entered and no insertion
more than `s2`. -/
theorem C8_new_host_insertions (E : Env) (hostname : String) (hostaddr : SockAddr)
    (port : Nat) (host_key : Key) (readonly : Int) (u g : String) (s : St) (L : Locals)
    (s1 s2 : St) (hb : ¬ localhost_bypass s hostaddr)
    (hs : switch_entry E hostname hostaddr port host_key u g s = some (L, s1))
    (hst : L.host_status = .HOST_NEW)
    (hretry : (¬ retry_applies s1 port ∧ s2 = s1) ∨
      (retry_applies s1 port ∧ ∃ r, r ≠ 0 ∧
        check_host_key_fuel E 1 hostname hostaddr 0 host_key ROQUIET u g
          (debug s1 "checking without port identifier") = some (.ret r, s2)))
    (hro : readonly = 0)
    (hacc : s.options.strict_host_key_checking = 0 ∨
      (s.options.strict_host_key_checking = 2 ∧ (confirm s2 "").1 ≠ 0)) :
    (∀ t : St,
      ((t.options.check_host_ip ≠ 0 ∧ L.ip_status = .HOST_NEW) →
        t.options.hash_known_hosts ≠ 0 →
        (E.add_host_to_hostfile t.trace u L.host host_key t.options.hash_known_hosts ≠ 0 →
          adds (new_host_insert E L host_key u t).trace = adds t.trace ++
            [.add u L.host host_key t.options.hash_known_hosts,
             .add u L.ip host_key t.options.hash_known_hosts]) ∧
        (E.add_host_to_hostfile t.trace u L.host host_key t.options.hash_known_hosts = 0 →
          adds (new_host_insert E L host_key u t).trace = adds t.trace ++
            [.add u L.host host_key t.options.hash_known_hosts])) ∧
      ((t.options.check_host_ip ≠ 0 ∧ L.ip_status = .HOST_NEW) →
        t.options.hash_known_hosts = 0 →
        adds (new_host_insert E L host_key u t).trace = adds t.trace ++
          [.add u (snprintf 1000 (L.host ++ "," ++ L.ip)) host_key 0]) ∧
      (¬ (t.options.check_host_ip ≠ 0 ∧ L.ip_status = .HOST_NEW) →
        adds (new_host_insert E L host_key u t).trace = adds t.trace ++
          [.add u L.host host_key t.options.hash_known_hosts])) ∧
    ∃ o s' t, check_host_key E hostname hostaddr port host_key readonly u g s = some (o, s') ∧
      t.options = s2.options ∧ adds t.trace = adds s2.trace ∧
      adds s'.trace = adds (new_host_insert E L host_key u t).trace := by
  constructor
  · intro t
    have h := new_host_insert_adds E L host_key u t
    unfold spec_new_host_entries at h
    dsimp only at h
    refine ⟨?_, ?_, ?_⟩
    · intro c1 c2
      rw [if_pos c1, if_pos c2] at h
      constructor
      · intro c3; rw [if_pos c3] at h; exact h
      · intro c3; rw [if_neg (by simp [c3])] at h; exact h
    · intro c1 c2
      rw [if_pos c1, if_neg (by simp [c2]), c2] at h
      exact h
    · intro c1
      rw [if_neg c1] at h
      exact h
  · obtain ⟨hres, hopt⟩ := check_host_key_new_reaches E hostname hostaddr port host_key readonly
      u g s L s1 s2 hb hs hst hretry
    have hstrict := hopt.strict_host_key_checking
    have hpc : ∀ t : St, adds (post_check L t).2.trace = adds t.trace := fun t =>
      (post_check_emits (fun k => k ≠ .add) (by simp) (by simp) L t).2.2.adds_eq (fun _ h => h)
    rcases hacc with h0 | ⟨h2, hyes⟩
    · have h0' : s2.options.strict_host_key_checking = 0 := by rw [hstrict]; exact h0
      have hc : case_HOST_NEW E L host_key readonly u s2 =
          .brk (new_host_insert E L host_key u s2) := by
        unfold case_HOST_NEW
        rw [if_neg (by simp [hro]), if_neg (by rw [h0']; decide), if_neg (by rw [h0']; decide)]
      rw [hc] at hres
      exact ⟨_, _, s2, hres, rfl, rfl, hpc _⟩
    · have h2' : s2.options.strict_host_key_checking = 2 := by rw [hstrict]; exact h2
      have hc : case_HOST_NEW E L host_key readonly u s2 =
          .brk (new_host_insert E L host_key u (new_host_prompt E L host_key s2).2) := by
        unfold case_HOST_NEW
        rw [if_neg (by simp [hro]), if_neg (by rw [h2']; decide), if_pos h2']
        dsimp only
        rw [if_neg (by rw [new_host_prompt_answer]; exact hyes)]
      rw [hc] at hres
      exact ⟨_, _, (new_host_prompt E L host_key s2).2, hres,
        (new_host_prompt_emits (fun _ => True) trivial trivial trivial E L host_key s2).1,
        new_host_prompt_adds E L host_key s2, hpc _⟩

/-- Witness for C8: off mode without hashing, host and address new: one
combined `h,1.2.3.4` line is inserted. -/
theorem C8_new_host_insertions_witness :
    Option.map (fun r => adds r.2.trace) (check_host_key (tableEnv tblEmpty 1) "h" addr0 22 key0
      RDRW "u" "g" (st0 opts_off [])) = some [.add "u" "h,1.2.3.4" key0 0] := by
  obtain ⟨hA, o, s', t, h, ht1, ht2, hadds⟩ := C8_new_host_insertions (tableEnv tblEmpty 1) "h"
    addr0 22 key0 RDRW "u" "g" (st0 opts_off []) _ _ _ (by decide) rfl rfl
    (Or.inl ⟨by decide, rfl⟩) rfl (Or.inl rfl)
  rw [h]
  simp only [Option.map_some']
  rw [hadds, ((hA t).2.1 ⟨by rw [ht1]; decide, by decide⟩ (by rw [ht1]; decide)), ht2]
  decide

/-- **C9.** When `host_status` is `HOST_OK` and `ip_status` is `HOST_CHANGED`
(so IP checking is on): in strict mode (1) `check_host_key` returns -1; in ask
mode (2) it puts the question through `confirm` (outside batch mode at least
one prompt is shown) and returns -1 on the answer no; in off mode (0) it logs
the mismatch warning, asks nothing, returns 0, and none of the authentication
or forwarding options (password, keyboard-interactive, challenge-response,
agent, X11, local and remote forwards, tunnel) is changed. -/
theorem C9_host_ok_ip_changed (E : Env) (hostname : String) (hostaddr : SockAddr)
    (port : Nat) (host_key : Key) (readonly : Int) (u g : String) (s : St) (L : Locals)
    (s1 : St) (hb : ¬ localhost_bypass s hostaddr)
    (hs : switch_entry E hostname hostaddr port host_key u g s = some (L, s1))
    (hok : L.host_status = .HOST_OK) (hip : L.ip_status = .HOST_CHANGED) :
    s1.options.check_host_ip ≠ 0 ∧
    ∃ o s', check_host_key E hostname hostaddr port host_key readonly u g s = some (o, s') ∧
      (s.options.strict_host_key_checking = 1 → o = .ret (-1)) ∧
      (s.options.strict_host_key_checking = 2 →
        (s.options.batch_mode = 0 → (prompts s.trace).length < (prompts s'.trace).length) ∧
        ((confirm s "").1 = 0 → o = .ret (-1))) ∧
      (s.options.strict_host_key_checking = 0 →
        o = .ret 0 ∧ prompts s'.trace = prompts s.trace ∧
        Event.logit (ip_mismatch_msg L) ∈ s'.trace ∧
        s'.options.password_authentication = s.options.password_authentication ∧
        s'.options.kbd_interactive_authentication = s.options.kbd_interactive_authentication ∧
        s'.options.challenge_response_authentication =
          s.options.challenge_response_authentication ∧
        s'.options.forward_agent = s.options.forward_agent ∧
        s'.options.forward_x11 = s.options.forward_x11 ∧
        s'.options.num_local_forwards = s.options.num_local_forwards ∧
        s'.options.num_remote_forwards = s.options.num_remote_forwards ∧
        s'.options.tun_open = s.options.tun_open) := by
  obtain ⟨e1, _, e3, e4, e5⟩ := switch_entry_spec (fun k => k ≠ .prompt) (by simp) (by simp) E
    hostname hostaddr port host_key u g s L s1 hs
  have hcip : s1.options.check_host_ip ≠ 0 := by
    intro h0
    have := e5 h0
    rw [hok, hip] at this
    exact absurd this (by decide)
  refine ⟨hcip, ?_⟩
  have hres : check_host_key E hostname hostaddr port host_key readonly u g s =
      some (post_check L (case_HOST_OK E L host_key readonly u s1)) :=
    chk_ok E 1 _ _ _ _ _ _ _ _ hb L s1 hs hok
  have hq := case_HOST_OK_quiet (fun k => k ≠ .prompt) (by simp) readonly (fun _ => by simp) E L
    host_key u s1
  generalize case_HOST_OK E L host_key readonly u s1 = tk at hres hq
  have hopt : SameButIp s.options tk.options := e4.sb_trans (SameButIp.of_eq hq.2.1)
  have hcond : tk.options.check_host_ip ≠ 0 ∧ L.host_status ≠ .HOST_CHANGED ∧
      L.ip_status = .HOST_CHANGED := ⟨by rw [hq.2.1]; exact hcip, by rw [hok]; decide, hip⟩
  have hpr : prompts tk.trace = prompts s.trace :=
    (e3.tr_trans hq.2.2.2).prompts_eq (fun _ h => h)
  cases hpo : post_check L tk with
  | mk o s' =>
  rw [hpo] at hres
  refine ⟨o, s', hres, ?_, ?_, ?_⟩
  · intro h1
    have hpc : post_check L tk = (.ret (-1), error (logit tk (ip_mismatch_msg L))
        "Exiting, you have requested strict checking.") := by
      unfold post_check
      rw [if_pos hcond, if_pos (by rw [hopt.strict_host_key_checking]; exact h1)]
    rw [hpc] at hpo
    simp only [Prod.mk.injEq] at hpo
    exact hpo.1.symm
  · intro h2
    have h2' : tk.options.strict_host_key_checking = 2 := by
      rw [hopt.strict_host_key_checking]; exact h2
    have hpc : post_check L tk =
        if (confirm tk (snprintf 1024 (ip_mismatch_msg L ++
          "\nAre you sure you want to continue connecting (yes/no)? "))).1 = 0 then
          (.ret (-1), (confirm tk (snprintf 1024 (ip_mismatch_msg L ++
            "\nAre you sure you want to continue connecting (yes/no)? "))).2)
        else (.ret 0, (confirm tk (snprintf 1024 (ip_mismatch_msg L ++
            "\nAre you sure you want to continue connecting (yes/no)? "))).2) := by
      unfold post_check
      rw [if_pos hcond, if_neg (by rw [h2']; decide), if_pos h2']
    rw [hpc] at hpo
    have hs' : s' = (confirm tk (snprintf 1024 (ip_mismatch_msg L ++
        "\nAre you sure you want to continue connecting (yes/no)? "))).2 := by
      split_ifs at hpo <;> simp only [Prod.mk.injEq] at hpo <;> exact hpo.2.symm
    constructor
    · intro hb0
      have := confirm_prompts tk (snprintf 1024 (ip_mismatch_msg L ++
        "\nAre you sure you want to continue connecting (yes/no)? "))
        (by rw [hopt.batch_mode]; exact hb0)
      rw [hpr] at this
      rw [hs']
      exact this
    · intro hno
      have := (confirm_answer_indep s tk "" (snprintf 1024 (ip_mismatch_msg L ++
        "\nAre you sure you want to continue connecting (yes/no)? ")) (hq.1.trans e1)
        hopt.batch_mode).1
      rw [if_pos (by rw [this]; exact hno)] at hpo
      simp only [Prod.mk.injEq] at hpo
      exact hpo.1.symm
  · intro h0
    have h0' : tk.options.strict_host_key_checking = 0 := by
      rw [hopt.strict_host_key_checking]; exact h0
    have hpc : post_check L tk = (.ret 0, logit tk (ip_mismatch_msg L)) := by
      unfold post_check
      rw [if_pos hcond, if_neg (by rw [h0']; decide), if_neg (by rw [h0']; decide)]
    rw [hpc] at hpo
    simp only [Prod.mk.injEq] at hpo
    obtain ⟨rfl, rfl⟩ := hpo
    refine ⟨rfl, ?_, ?_, hopt.password_authentication, hopt.kbd_interactive_authentication,
      hopt.challenge_response_authentication, hopt.forward_agent, hopt.forward_x11,
      hopt.num_local_forwards, hopt.num_remote_forwards, hopt.tun_open⟩
    · rw [← hpr]
      simp [logit, St.emit, prompts, List.filter_append, Event.kind]
    · simp [logit, St.emit]

/-- Witness for C9: host `h` known with the presented key, address `1.2.3.4`
known with another key, strict checking: the call returns -1. -/
theorem C9_host_ok_ip_changed_witness :
    Option.map Prod.fst (check_host_key (tableEnv tblIpChanged 1) "h" addr0 22 key0 RDRW "u" "g"
      (st0 opts_strict [])) = some (.ret (-1)) := by
  obtain ⟨_, o, s', h, h1, _⟩ := C9_host_ok_ip_changed (tableEnv tblIpChanged 1) "h" addr0 22
    key0 RDRW "u" "g" (st0 opts_strict []) _ _ (by decide) rfl rfl rfl
  rw [h, h1 rfl]
  rfl

end SshConnect

namespace SshConnect

/-- Counterexample to C10 as stated: two calls with the same host status
(`HOST_CHANGED`), address status, strictness (off), read-only mode, peer and
alias, differing only in `exit_on_forward_failure`: one accepts, the other
ends in `fatal`. -/
theorem C10_counterexample :
    Option.map (fun p => (p.1.host_status, p.1.ip_status))
      (switch_entry (tableEnv tblChanged 1) "h" addr0 22 key0 "u" "g" (st0 opts_off [])) =
    Option.map (fun p => (p.1.host_status, p.1.ip_status))
      (switch_entry (tableEnv tblChanged 1) "h" addr0 22 key0 "u" "g" (st0 opts_off_exit [])) ∧
    opts_off.strict_host_key_checking = opts_off_exit.strict_host_key_checking ∧
    opts_off.host_key_alias = opts_off_exit.host_key_alias ∧
    Option.map Prod.fst (check_host_key (tableEnv tblChanged 1) "h" addr0 22 key0 RDRW "u" "g"
      (st0 opts_off [])) = some (.ret 0) ∧
    Option.map Prod.fst (check_host_key (tableEnv tblChanged 1) "h" addr0 22 key0 RDRW "u" "g"
      (st0 opts_off_exit [])) =
        some (.fatal "Error: forwarding disabled due to host key check failure") := by
  refine ⟨?_, rfl, rfl, ?_, ?_⟩ <;> decide

theorem verdict_of_reject (s t : St) (o : Outcome) (hp : prompts t.trace = prompts s.trace)
    (ho : o ≠ .ret 0) : verdict_of s (o, t) = .reject := by
  simp [verdict_of, hp, ho]

theorem verdict_of_accept (s t : St) (hp : prompts t.trace = prompts s.trace) :
    verdict_of s (.ret 0, t) = .accept := by
  simp [verdict_of, hp]

theorem verdict_of_prompt (s : St) (r : Outcome × St)
    (hp : (prompts s.trace).length < (prompts r.2.trace).length) :
    verdict_of s r = .prompt := by
  simp [verdict_of, hp]

/-- The verdict of the check after the `switch`, entered in a state `t` that
has as many questions in its log as the start state `s`. -/
theorem post_check_verdict (L : Locals) (s t : St)
    (hp : prompts t.trace = prompts s.trace)
    (hip : t.options.check_host_ip = 0 → L.ip_status = L.host_status) :
    verdict_of s (post_check L t) =
      spec_post_table L.host_status L.ip_status t.options.strict_host_key_checking
        t.options.batch_mode := by
  unfold spec_post_table
  by_cases hc : L.host_status ≠ .HOST_CHANGED ∧ L.ip_status = .HOST_CHANGED
  · have hcip : t.options.check_host_ip ≠ 0 := by
      intro h0
      have := hip h0
      rw [hc.2] at this
      exact hc.1 this.symm
    rw [if_pos hc]
    unfold post_check
    rw [if_pos ⟨hcip, hc⟩]
    by_cases h1 : t.options.strict_host_key_checking = 1
    · rw [if_pos h1, if_pos h1]
      exact verdict_of_reject s _ _
        ((((Quiet.logit (fun k => k ≠ .prompt) t _ (by simp)).q_trans
          (Quiet.error (fun k => k ≠ .prompt) _ _ (by simp))).2.2.2.prompts_eq
            (fun _ h => h)).trans hp) (by simp)
    rw [if_neg h1, if_neg h1]
    by_cases h2 : t.options.strict_host_key_checking = 2
    · rw [if_pos h2, if_pos h2]
      dsimp only
      by_cases hb : t.options.batch_mode ≠ 0
      · rw [if_pos hb, confirm_batch t _ hb]
        simp [verdict_of, hp]
      · rw [if_neg hb]
        have hb0 : t.options.batch_mode = 0 := by simpa using hb
        have := confirm_prompts t (snprintf 1024 (ip_mismatch_msg L ++
          "\nAre you sure you want to continue connecting (yes/no)? ")) hb0
        rw [hp] at this
        split_ifs <;> simp [verdict_of, this]
    · rw [if_neg h2, if_neg h2]
      exact verdict_of_accept s _
        (((Quiet.logit (fun k => k ≠ .prompt) t _ (by simp)).2.2.2.prompts_eq
          (fun _ h => h)).trans hp)
  · rw [if_neg hc, post_check_skip L t (fun h => hc h.2)]
    simp [verdict_of, hp]

/-- A call without bare-name retry whose lookups succeed follows the decision
table. -/
theorem check_host_key_verdict (E : Env) (hostname : String) (hostaddr : SockAddr)
    (port : Nat) (host_key : Key) (readonly : Int) (u g : String) (s : St) (L : Locals)
    (s1 : St)
    (hs : switch_entry E hostname hostaddr port host_key u g s = some (L, s1))
    (hr : ¬ retry_applies s1 port) :
    ∃ r, check_host_key E hostname hostaddr port host_key readonly u g s = some r ∧
      verdict_of s r = spec_decision_table L.host_status L.ip_status
        s.options.strict_host_key_checking readonly (is_local hostaddr)
        s.options.host_key_alias.isSome s.options.no_host_authentication_for_localhost
        s.options.batch_mode
        (decide (s.options.exit_on_forward_failure ≠ 0 ∧ any_mitm_feature s.options)) := by
  unfold spec_decision_table check_host_key
  by_cases hb : localhost_bypass s hostaddr
  · rw [chk_bypass E 1 _ _ _ _ _ _ _ _ hb]
    refine ⟨_, rfl, ?_⟩
    have hb' := hb
    unfold localhost_bypass at hb'
    rw [if_pos ⟨hb'.1, hb'.2.1, by rw [hb'.2.2]; rfl⟩]
    exact verdict_of_accept s _ (by
      simp [debug, St.emit, prompts, List.filter_append, Event.kind])
  have hnb : ¬ (s.options.no_host_authentication_for_localhost = 1 ∧ is_local hostaddr = true ∧
      s.options.host_key_alias.isSome = false) := by
    intro h
    apply hb
    refine ⟨h.1, h.2.1, ?_⟩
    cases ha : s.options.host_key_alias with
    | none => rfl
    | some a => rw [ha] at h; simp at h
  rw [if_neg hnb]
  obtain ⟨e1, _, e3, e4, e5⟩ := switch_entry_spec (fun k => k ≠ .prompt) (by simp) (by simp) E
    hostname hostaddr port host_key u g s L s1 hs
  have hp1 : prompts s1.trace = prompts s.trace := e3.prompts_eq (fun _ h => h)
  cases hst : L.host_status with
  | HOST_OK =>
    rw [chk_ok E 1 _ _ _ _ _ _ _ _ hb L s1 hs hst]
    refine ⟨_, rfl, ?_⟩
    have hq := case_HOST_OK_quiet (fun k => k ≠ .prompt) (by simp) readonly (fun _ => by simp)
      E L host_key u s1
    have := post_check_verdict L s (case_HOST_OK E L host_key readonly u s1)
      ((hq.2.2.2.prompts_eq (fun _ h => h)).trans hp1) (by rw [hq.2.1]; exact e5)
    rw [this, hq.2.1, e4.strict_host_key_checking, e4.batch_mode, hst]
  | HOST_FOUND =>
    rw [chk_found E 1 _ _ _ _ _ _ _ _ hb L s1 hs hst]
    exact ⟨_, rfl, verdict_of_reject s s1 _ hp1 (by simp)⟩
  | HOST_CHANGED =>
    rw [chk_changed E 1 _ _ _ _ _ _ _ _ hb L s1 hs hst]
    refine ⟨_, rfl, ?_⟩
    obtain ⟨t, c1, _, _, c4, c5, c6⟩ := case_HOST_CHANGED_spec E L host_key readonly u s1
    have hpt : prompts t.trace = prompts s.trace :=
      ((c4 (fun k => k ≠ .prompt) (by simp)).prompts_eq (fun _ h => h)).trans hp1
    dsimp only
    by_cases hc : readonly = ROQUIET ∨ s.options.strict_host_key_checking ≠ 0
    · rw [if_pos hc, (c5 (by rw [e4.strict_host_key_checking]; exact hc)).1]
      exact verdict_of_reject s t _ hpt (by simp)
    · rw [if_neg hc]
      have hq : readonly ≠ ROQUIET := fun h => hc (Or.inl h)
      have h0 : s.options.strict_host_key_checking = 0 := by
        by_contra h; exact hc (Or.inr h)
      rw [(c6 hq (by rw [e4.strict_host_key_checking]; exact h0)).2,
        e4.exit_on_forward_failure]
      by_cases hf : s.options.exit_on_forward_failure ≠ 0 ∧ any_mitm_feature s.options
      · rw [if_pos ⟨hf.1, (any_mitm_feature_same_but_ip e4).mpr hf.2⟩,
          if_pos (by simpa using hf)]
        exact verdict_of_reject s t _ hpt (by simp)
      · rw [if_neg (fun h => hf ⟨h.1, (any_mitm_feature_same_but_ip e4).mp h.2⟩),
          if_neg (by simpa using hf)]
        show verdict_of s (post_check L t) = _
        rw [post_check_skip L t (by simp [hst])]
        exact verdict_of_accept s t hpt
  | HOST_NEW =>
    rw [chk_new_noretry E 1 _ _ _ _ _ _ _ _ hb L s1 hs hst hr]
    refine ⟨_, rfl, ?_⟩
    dsimp only
    unfold case_HOST_NEW
    by_cases hro : readonly ≠ 0
    · rw [if_pos hro, if_pos hro]
      exact verdict_of_reject s s1 _ hp1 (by simp)
    rw [if_neg hro, if_neg hro, e4.strict_host_key_checking]
    by_cases h1 : s.options.strict_host_key_checking = 1
    · rw [if_pos h1, if_pos h1]
      exact verdict_of_reject s _ _ (by
        rw [← hp1]; simp [error, St.emit, prompts, List.filter_append, Event.kind]) (by simp)
    rw [if_neg h1, if_neg h1]
    by_cases h2 : s.options.strict_host_key_checking = 2
    · rw [if_pos h2, if_pos h2]
      dsimp only
      by_cases hbm : s.options.batch_mode ≠ 0
      · rw [if_pos hbm]
        have hq := show_other_keys_quiet (fun k => k ≠ .prompt) (by simp) (by simp) E s1 L.host
          host_key
        have hcf : ∀ msg, confirm (show_other_keys E s1 L.host host_key).2 msg =
            (0, (show_other_keys E s1 L.host host_key).2) := fun msg =>
          confirm_batch _ msg (by rw [hq.2.1, e4.batch_mode]; exact hbm)
        have hnp : new_host_prompt E L host_key s1 =
            (0, (show_other_keys E s1 L.host host_key).2) := by
          unfold new_host_prompt
          dsimp only
          exact hcf _
        rw [hnp]
        simp only [if_true]
        exact verdict_of_reject s _ _
          ((hq.2.2.2.prompts_eq (fun _ h => h)).trans hp1) (by simp)
      · rw [if_neg hbm]
        have hb0 : s.options.batch_mode = 0 := by simpa using hbm
        have hpp := new_host_prompt_prompts E L host_key s1 (by rw [e4.batch_mode]; exact hb0)
        rw [hp1] at hpp
        apply verdict_of_prompt
        by_cases ha : (new_host_prompt E L host_key s1).1 = 0
        · rw [if_pos ha]; exact hpp
        · rw [if_neg ha]
          have hi := (new_host_insert_quiet (fun k => k ≠ .prompt) (by simp) (by simp) E L
            host_key u (new_host_prompt E L host_key s1).2).2.2.2.prompts_eq (fun _ h => h)
          have hpc := (post_check_emits (fun _ => True) trivial trivial L
            (new_host_insert E L host_key u (new_host_prompt E L host_key s1).2)).2.2.prompts_le
          show _ < (prompts (post_check L _).2.trace).length
          rw [hi] at hpc
          omega
    · rw [if_neg h2, if_neg h2]
      show verdict_of s (post_check L _) = _
      have hi := new_host_insert_quiet (fun k => k ≠ .prompt) (by simp) (by simp) E L host_key u
        s1
      rw [post_check_verdict L s _ ((hi.2.2.2.prompts_eq (fun _ h => h)).trans hp1)
        (by rw [hi.2.1]; exact e5)]
      unfold spec_post_table
      rw [hi.2.1, e4.strict_host_key_checking, if_neg h1, if_neg h2]
      split_ifs <;> rfl

/-- **C10 (amended).** For calls to which the bare-name retry does not apply
and whose lookups succeed, the outcome of `check_host_key` (accept, prompt the
user, or reject) is a function of (host_status, ip_status, strict mode,
readonly mode, is_local, alias_set) together with
`no_host_authentication_for_localhost`, `batch_mode` and whether
`exit_on_forward_failure` is set while a downgraded feature is enabled: two
such calls that agree on these values reach the same outcome, whatever the
environments, the names, the remaining options (`check_host_ip`,
`hash_known_hosts`, ...) and the rest of the states are. -/
theorem C10_outcome_function (E E' : Env) (hostname hostname' : String)
    (hostaddr hostaddr' : SockAddr) (port port' : Nat) (host_key host_key' : Key)
    (readonly : Int) (u g u' g' : String) (s s' : St) (L L' : Locals) (s1 s1' : St)
    (hs : switch_entry E hostname hostaddr port host_key u g s = some (L, s1))
    (hs' : switch_entry E' hostname' hostaddr' port' host_key' u' g' s' = some (L', s1'))
    (hr : ¬ retry_applies s1 port) (hr' : ¬ retry_applies s1' port')
    (h_host : L.host_status = L'.host_status) (h_ip : L.ip_status = L'.ip_status)
    (h_strict : s.options.strict_host_key_checking = s'.options.strict_host_key_checking)
    (h_local : is_local hostaddr = is_local hostaddr')
    (h_alias : s.options.host_key_alias.isSome = s'.options.host_key_alias.isSome)
    (h_nhal : s.options.no_host_authentication_for_localhost =
      s'.options.no_host_authentication_for_localhost)
    (h_batch : s.options.batch_mode = s'.options.batch_mode)
    (h_fwd : (s.options.exit_on_forward_failure ≠ 0 ∧ any_mitm_feature s.options) ↔
      (s'.options.exit_on_forward_failure ≠ 0 ∧ any_mitm_feature s'.options)) :
    ∃ r r', check_host_key E hostname hostaddr port host_key readonly u g s = some r ∧
      check_host_key E' hostname' hostaddr' port' host_key' readonly u' g' s' = some r' ∧
      verdict_of s r = verdict_of s' r' := by
  obtain ⟨r, h1, v1⟩ := check_host_key_verdict E hostname hostaddr port host_key readonly u g s L
    s1 hs hr
  obtain ⟨r', h2, v2⟩ := check_host_key_verdict E' hostname' hostaddr' port' host_key' readonly
    u' g' s' L' s1' hs' hr'
  refine ⟨r, r', h1, h2, ?_⟩
  rw [v1, v2, h_host, h_ip, h_strict, h_local, h_alias, h_nhal, h_batch]
  congr 1
  exact decide_eq_decide.mpr h_fwd

end SshConnect

namespace SshConnect

/-- Witness for C10: two calls on empty known-hosts files in off mode, one
without and one with hashing of names, reach the same outcome. -/
theorem C10_outcome_function_witness :
    Option.map (verdict_of (st0 opts_off []))
      (check_host_key (tableEnv tblEmpty 1) "h" addr0 22 key0 RDRW "u" "g" (st0 opts_off [])) =
    Option.map (verdict_of (st0 opts_hash []))
      (check_host_key (tableEnv tblEmpty 1) "h" addr0 22 key0 RDRW "u" "g"
        (st0 opts_hash [])) := by
  obtain ⟨r, r', h1, h2, hv⟩ := C10_outcome_function (tableEnv tblEmpty 1) (tableEnv tblEmpty 1)
    "h" "h" addr0 addr0 22 22 key0 key0 RDRW "u" "g" "u" "g" (st0 opts_off []) (st0 opts_hash [])
    _ _ _ _ rfl rfl (by decide) (by decide) rfl rfl rfl rfl rfl rfl rfl (by decide)
  rw [h1, h2]
  exact congrArg some hv

end SshConnect

namespace SshConnect

/-! ## `verify_host_key` and the frame of `check_host_key` -/

/-- Counterexample to C11 as stated: without any DNS verification
(`verify_host_key_dns = 0`) a loopback peer is accepted under
`no_host_authentication_for_localhost` and no known-hosts file is consulted:
acceptance without a lookup is not limited to the DNS short-circuit. -/
theorem C11_counterexample :
    opts_nolocal.verify_host_key_dns = 0 ∧
    Option.map (fun r => (r.1, probes r.2.trace))
      (verify_host_key (tableEnv tblEmpty 1) dns_none "h" addr_loop key0 (st0 opts_nolocal [])) =
        some (.ret 0, []) := by
  refine ⟨rfl, ?_⟩
  decide

/-- **C11 (amended).** The function `verify_host_key` returns 0 by
short-circuit, before any trust-store check and with the state untouched,
exactly when `verify_host_key_dns` is 1, the DNS call returns 0 and its flags
report a record that is found, matching and secure.  In every other case the
result is that of the trust-store checks: if a legacy file exists the legacy
files are checked read-only first (no insertion) and a 0 of that check is the
result, otherwise, and when no legacy file exists, the primary files are
checked read-write.  A found and matching record that does not short-circuit
only sets `matching_host_key_dns`. -/
theorem C11_dns_short_circuit (E : Env) (D : DnsEnv) (host : String) (hostaddr : SockAddr)
    (host_key : Key) (s : St) :
    (dns_short_circuit D host hostaddr host_key s ↔
      (s.options.verify_host_key_dns = 1 ∧
        (D.verify_host_key_dns host hostaddr host_key).1 = 0 ∧
        (D.verify_host_key_dns host hostaddr host_key).2 &&& DNS_VERIFY_FOUND ≠ 0 ∧
        (D.verify_host_key_dns host hostaddr host_key).2 &&& DNS_VERIFY_MATCH ≠ 0 ∧
        (D.verify_host_key_dns host hostaddr host_key).2 &&& DNS_VERIFY_SECURE ≠ 0)) ∧
    (dns_short_circuit D host hostaddr host_key s →
      verify_host_key E D host hostaddr host_key s = some (.ret 0, s)) ∧
    (¬ dns_short_circuit D host hostaddr host_key s →
      verify_host_key E D host hostaddr host_key s =
        trust_store_checks E D host hostaddr host_key
          (dns_stage E D host hostaddr host_key s) ∧
      (dns_stage E D host hostaddr host_key s).options = s.options ∧
      (dns_stage E D host hostaddr host_key s).tty = s.tty ∧
      ((s.options.verify_host_key_dns ≠ 0 ∧
          (D.verify_host_key_dns host hostaddr host_key).1 = 0 ∧
          (D.verify_host_key_dns host hostaddr host_key).2 &&& DNS_VERIFY_FOUND ≠ 0 ∧
          (D.verify_host_key_dns host hostaddr host_key).2 &&& DNS_VERIFY_MATCH ≠ 0) →
        dns_stage E D host hostaddr host_key s = { s with matching_host_key_dns := 1 })) ∧
    (∀ t : St,
      (∃ r, trust_store_checks E D host hostaddr host_key t = some r) ∧
      (¬ (D.stat_ok t.options.system_hostfile2 = true ∨
          D.stat_ok t.options.user_hostfile2 = true) →
        trust_store_checks E D host hostaddr host_key t =
          check_host_key E host hostaddr t.options.port host_key RDRW
            t.options.user_hostfile t.options.system_hostfile t) ∧
      ((D.stat_ok t.options.system_hostfile2 = true ∨
          D.stat_ok t.options.user_hostfile2 = true) →
        ∃ o1 t1, check_host_key E host hostaddr t.options.port host_key RDONLY
            t.options.user_hostfile2 t.options.system_hostfile2 t = some (o1, t1) ∧
          adds t1.trace = adds t.trace ∧
          (o1 = .ret 0 → trust_store_checks E D host hostaddr host_key t = some (.ret 0, t1)) ∧
          (∀ r, o1 = .ret r → r ≠ 0 → trust_store_checks E D host hostaddr host_key t =
            check_host_key E host hostaddr t1.options.port host_key RDRW
              t1.options.user_hostfile t1.options.system_hostfile t1) ∧
          (∀ msg, o1 = .fatal msg →
            trust_store_checks E D host hostaddr host_key t = some (.fatal msg, t1)))) := by
  refine ⟨?_, ?_, ?_, ?_⟩
  · unfold dns_short_circuit
    constructor
    · rintro ⟨⟨_, h1⟩, h2, h3, h4, h5⟩
      exact ⟨h3, h1, h2, h4, h5⟩
    · rintro ⟨h3, h1, h2, h4, h5⟩
      exact ⟨⟨by rw [h3]; decide, h1⟩, h2, h3, h4, h5⟩
  · intro h
    unfold verify_host_key
    rw [if_pos h]
  · intro h
    refine ⟨?_, ?_, ?_, ?_⟩
    · unfold verify_host_key
      rw [if_neg h]
    · unfold dns_stage
      split_ifs
      · rfl
      · exact ((warn_changed_key_quiet (fun _ => True) trivial E s host_key).q_trans
          (Quiet.error _ _ _ trivial)).2.1
      · rfl
      · rfl
    · unfold dns_stage
      split_ifs
      · rfl
      · exact ((warn_changed_key_quiet (fun _ => True) trivial E s host_key).q_trans
          (Quiet.error _ _ _ trivial)).1
      · rfl
      · rfl
    · rintro ⟨h1, h2, h3, h4⟩
      unfold dns_stage
      rw [if_pos ⟨h1, h2⟩, if_pos h3, if_pos h4]
  · intro t
    have hprim := (check_host_key_fuel_stable E 0 host hostaddr t.options.port host_key RDRW
      t.options.user_hostfile t.options.system_hostfile t).2
    by_cases hl : D.stat_ok t.options.system_hostfile2 = true ∨
        D.stat_ok t.options.user_hostfile2 = true
    · obtain ⟨_, ⟨o1, t1⟩, h1⟩ := check_host_key_fuel_stable E 0 host hostaddr t.options.port
        host_key RDONLY t.options.user_hostfile2 t.options.system_hostfile2 t
      have hadds : adds t1.trace = adds t.trace :=
        (check_host_key_fuel_trace (fun k => k ≠ .add) (by simp) (by simp) (by simp) (by simp) E
          host hostaddr host_key t.options.user_hostfile2 t.options.system_hostfile2 2
          t.options.port RDONLY t o1 t1 (by simp [RDONLY]) h1).1.adds_eq (fun _ hk => hk)
      have hcases : (o1 = .ret 0 → trust_store_checks E D host hostaddr host_key t =
            some (.ret 0, t1)) ∧
          (∀ r, o1 = .ret r → r ≠ 0 → trust_store_checks E D host hostaddr host_key t =
            check_host_key E host hostaddr t1.options.port host_key RDRW
              t1.options.user_hostfile t1.options.system_hostfile t1) ∧
          (∀ msg, o1 = .fatal msg →
            trust_store_checks E D host hostaddr host_key t = some (.fatal msg, t1)) := by
        refine ⟨?_, ?_, ?_⟩
        · intro ho
          subst ho
          unfold trust_store_checks
          rw [if_pos hl, h1]
          simp
        · intro r ho hr
          subst ho
          unfold trust_store_checks
          rw [if_pos hl, h1]
          simp [hr]
        · intro msg ho
          subst ho
          unfold trust_store_checks
          rw [if_pos hl, h1]
      refine ⟨?_, fun h => absurd hl h, fun _ => ⟨o1, t1, h1, hadds, hcases⟩⟩
      cases o1 with
      | fatal msg => exact ⟨_, hcases.2.2 msg rfl⟩
      | ret r =>
        by_cases hr : r = 0
        · subst hr; exact ⟨_, hcases.1 rfl⟩
        · rw [hcases.2.1 r rfl hr]
          exact (check_host_key_fuel_stable E 0 host hostaddr t1.options.port host_key RDRW
            t1.options.user_hostfile t1.options.system_hostfile t1).2
    · have he : trust_store_checks E D host hostaddr host_key t =
          check_host_key E host hostaddr t.options.port host_key RDRW
            t.options.user_hostfile t.options.system_hostfile t := by
        unfold trust_store_checks
        rw [if_neg hl]
      refine ⟨by rw [he]; exact hprim, fun _ => he, fun h => absurd h hl⟩

/-- Witness for C11: a found, matching and secure record with
`verify_host_key_dns = 1` is accepted at once, nothing is logged. -/
theorem C11_dns_short_circuit_witness :
    verify_host_key (tableEnv tblEmpty 1) dns_secure "h" addr0 key0 (st0 opts_dns []) =
      some (.ret 0, st0 opts_dns []) :=
  (C11_dns_short_circuit (tableEnv tblEmpty 1) dns_secure "h" addr0 key0 (st0 opts_dns [])).2.1
    (by decide)

end SshConnect

namespace SshConnect

theorem IpKeptOrOff.ko_refl (o : Options) : IpKeptOrOff o o := Or.inl rfl

theorem IpKeptOrOff.ko_of_eq {a b : Options} (h : b = a) : IpKeptOrOff a b := Or.inl h

theorem IpKeptOrOff.ko_trans {a b c : Options} (h1 : IpKeptOrOff a b) (h2 : IpKeptOrOff b c) :
    IpKeptOrOff a c := by
  unfold IpKeptOrOff at *
  rcases h1 with rfl | rfl <;> rcases h2 with rfl | rfl
  · exact Or.inl rfl
  · exact Or.inr rfl
  · exact Or.inr rfl
  · exact Or.inr rfl

theorem IpKeptOrOff.to_same {a b : Options} (h : IpKeptOrOff a b) : SameButIp a b := by
  unfold IpKeptOrOff at h
  unfold SameButIp
  rcases h with rfl | rfl <;> rfl

theorem IpKeptOrOff.ip {a b : Options} (h : IpKeptOrOff a b) :
    b.check_host_ip = a.check_host_ip ∨ b.check_host_ip = 0 := by
  unfold IpKeptOrOff at h
  rcases h with rfl | rfl
  · exact Or.inl rfl
  · exact Or.inr rfl

theorem adjust_check_host_ip_kept (s : St) (b : Bool) (hostname ip : String) :
    IpKeptOrOff s.options (adjust_check_host_ip s b hostname ip).options := by
  unfold adjust_check_host_ip
  split_ifs
  · exact Or.inr rfl
  · exact Or.inl rfl

theorem switch_entry_ip_kept (E : Env) (hostname : String) (hostaddr : SockAddr) (port : Nat)
    (host_key : Key) (u g : String) (s : St) (L : Locals) (s1 : St)
    (hs : switch_entry E hostname hostaddr port host_key u g s = some (L, s1)) :
    IpKeptOrOff s.options s1.options := by
  unfold switch_entry at hs
  cases hip : host_ip E s hostaddr port with
  | none => simp [hip] at hs
  | some ip =>
    simp only [hip, Option.some.injEq] at hs
    have a := adjust_check_host_ip_kept s (is_local hostaddr) hostname ip
    generalize adjust_check_host_ip s (is_local hostaddr) hostname ip = sa at hs a
    have hh := host_name_quiet (fun _ => True) trivial E sa hostname port
    generalize host_name E sa hostname port = hn at hs hh
    have hp := probe_stores_quiet (fun _ => True) trivial E hn.2 hn.1 ip host_key u g
    rw [hs] at hp
    exact a.ko_trans (IpKeptOrOff.ko_of_eq ((hh.q_trans hp).2.1))

/-- A call leaves `options` alone, except that it may set `check_host_ip` to
0, unless it runs the downgrade for a changed key. -/
theorem check_host_key_fuel_ip_kept (E : Env) (hostname : String) (hostaddr : SockAddr)
    (host_key : Key) (u g : String) :
    ∀ (n : Nat) (port : Nat) (readonly : Int) (s : St) (o : Outcome) (s' : St),
      (∀ L s1, switch_entry E hostname hostaddr port host_key u g s = some (L, s1) →
        L.host_status = .HOST_CHANGED →
        readonly = ROQUIET ∨ s.options.strict_host_key_checking ≠ 0) →
      check_host_key_fuel E n hostname hostaddr port host_key readonly u g s = some (o, s') →
      IpKeptOrOff s.options s'.options := by
  intro n
  induction n with
  | zero => intro port readonly s o s' _ h; simp [check_host_key_fuel] at h
  | succ n ih =>
    intro port readonly s o s' hch h
    by_cases hb : localhost_bypass s hostaddr
    · rw [chk_bypass E n _ _ _ _ _ _ _ _ hb] at h
      simp only [Option.some.injEq, Prod.mk.injEq] at h
      rw [← h.2]
      exact IpKeptOrOff.ko_refl _
    cases hs : switch_entry E hostname hostaddr port host_key u g s with
    | none =>
      rw [chk_fatal E n _ _ _ _ _ _ _ _ hb hs] at h
      simp only [Option.some.injEq, Prod.mk.injEq] at h
      rw [← h.2]
      exact IpKeptOrOff.ko_refl _
    | some p =>
      obtain ⟨L, s1⟩ := p
      have e4 := switch_entry_ip_kept E hostname hostaddr port host_key u g s L s1 hs
      cases hst : L.host_status with
      | HOST_OK =>
        rw [chk_ok E n _ _ _ _ _ _ _ _ hb L s1 hs hst] at h
        simp only [Option.some.injEq] at h
        have a := (case_HOST_OK_quiet (fun _ => True) trivial readonly (fun _ => trivial) E L
          host_key u s1).2
        have b := post_check_emits (fun _ => True) trivial trivial L
          (case_HOST_OK E L host_key readonly u s1)
        rw [h] at b
        exact e4.ko_trans (IpKeptOrOff.ko_of_eq (a.em_trans b).1)
      | HOST_CHANGED =>
        rw [chk_changed E n _ _ _ _ _ _ _ _ hb L s1 hs hst] at h
        simp only [Option.some.injEq] at h
        obtain ⟨t, c1, _, _, _, c5, _⟩ := case_HOST_CHANGED_spec E L host_key readonly u s1
        have hc : readonly = ROQUIET ∨ s1.options.strict_host_key_checking ≠ 0 := by
          rw [e4.to_same.strict_host_key_checking]
          exact hch L s1 hs hst
        obtain ⟨c6, c7⟩ := c5 hc
        rw [c6] at h
        simp only [leave_switch, Prod.mk.injEq] at h
        rw [← h.2]
        exact e4.ko_trans (IpKeptOrOff.ko_of_eq c7)
      | HOST_FOUND =>
        rw [chk_found E n _ _ _ _ _ _ _ _ hb L s1 hs hst] at h
        simp only [Option.some.injEq, Prod.mk.injEq] at h
        rw [← h.2]
        exact e4
      | HOST_NEW =>
        have hnew : ∀ t : St, IpKeptOrOff s.options t.options →
            leave_switch L (case_HOST_NEW E L host_key readonly u t) = (o, s') →
            IpKeptOrOff s.options s'.options := by
          intro t ht hl
          have a := case_HOST_NEW_options E L host_key readonly u t
          have b := leave_switch_options L (case_HOST_NEW E L host_key readonly u t)
          rw [hl] at b
          exact ht.ko_trans (IpKeptOrOff.ko_of_eq (b.trans a))
        by_cases hr : retry_applies s1 port
        · cases hn : check_host_key_fuel E n hostname hostaddr 0 host_key ROQUIET u g
            (debug s1 "checking without port identifier") with
          | none =>
            rw [chk_new_retry_none E n _ _ _ _ _ _ _ _ hb L s1 hs hst hr hn] at h
            exact absurd h (by simp)
          | some q =>
            obtain ⟨o2, s2⟩ := q
            have n1 := ih 0 ROQUIET _ o2 s2 (fun _ _ _ _ => Or.inl rfl) hn
            have ht : IpKeptOrOff s.options s2.options := e4.ko_trans n1
            cases o2 with
            | fatal msg =>
              rw [chk_new_retry_fatal E n _ _ _ _ _ _ _ _ hb L s1 hs hst hr msg s2 hn] at h
              simp only [Option.some.injEq, Prod.mk.injEq] at h
              rw [← h.2]
              exact ht
            | ret r =>
              by_cases hr0 : r = 0
              · subst hr0
                rw [chk_new_retry_accept E n _ _ _ _ _ _ _ _ hb L s1 hs hst hr s2 hn] at h
                simp only [Option.some.injEq] at h
                have b := post_check_emits (fun _ => True) trivial trivial L
                  (debug s2 "found matching key w/out port")
                rw [h] at b
                exact ht.ko_trans (IpKeptOrOff.ko_of_eq b.1)
              · rw [chk_new_retry_reject E n _ _ _ _ _ _ _ _ hb L s1 hs hst hr r s2 hr0 hn] at h
                simp only [Option.some.injEq] at h
                exact hnew s2 ht h
        · rw [chk_new_noretry E n _ _ _ _ _ _ _ _ hb L s1 hs hst hr] at h
          simp only [Option.some.injEq] at h
          exact hnew s1 e4 h



/-- Counterexample to C12 as stated: under a proxy command a call whose host
status is `HOST_NEW` turns `check_host_ip` off (lines 672-674): the options
after the call differ from those before in that field. -/
theorem C12_counterexample :
    Option.map (fun p => p.1.host_status)
      (switch_entry (tableEnv tblEmpty 1) "h" addr0 22 key0 "u" "g" (st0 opts_proxy [])) =
        some .HOST_NEW ∧
    opts_proxy.check_host_ip = 1 ∧
    Option.map (fun r => r.2.options.check_host_ip)
      (check_host_key (tableEnv tblEmpty 1) "h" addr0 22 key0 RDONLY "u" "g"
        (st0 opts_proxy [])) = some 0 := by
  refine ⟨?_, rfl, ?_⟩ <;> decide

/-- **C12 (amended).** For every call of `check_host_key` whose host lookup
status is not `HOST_CHANGED`, the options after the call equal the options
before the call in every field except `check_host_ip`, which is either
unchanged or has been set to 0 (lines 672-674). -/
theorem C12_options_frame (E : Env) (hostname : String) (hostaddr : SockAddr) (port : Nat)
    (host_key : Key) (readonly : Int) (u g : String) (s : St)
    (hnc : ∀ L s1, switch_entry E hostname hostaddr port host_key u g s = some (L, s1) →
      L.host_status ≠ .HOST_CHANGED) :
    ∃ o s', check_host_key E hostname hostaddr port host_key readonly u g s = some (o, s') ∧
      (s'.options = s.options ∨ s'.options = { s.options with check_host_ip := 0 }) ∧
      s'.options = { s.options with check_host_ip := s'.options.check_host_ip } ∧
      (s'.options.check_host_ip = s.options.check_host_ip ∨ s'.options.check_host_ip = 0) := by
  obtain ⟨_, ⟨o, s'⟩, h⟩ := check_host_key_fuel_stable E 0 hostname hostaddr port host_key
    readonly u g s
  have hk := check_host_key_fuel_ip_kept E hostname hostaddr host_key u g 2 port readonly s o s'
    (fun L s1 hs hst => absurd hst (hnc L s1 hs)) h
  exact ⟨o, s', h, hk, hk.to_same, hk.ip⟩

/-- Witness for C12: a read-only call on empty known-hosts files with the
default options leaves the options as they were. -/
theorem C12_options_frame_witness :
    Option.map (fun r => r.2.options)
      (check_host_key (tableEnv tblEmpty 1) "h" addr0 22 key0 RDONLY "u" "g" (st0 opts0 [])) =
        some opts0 := by
  obtain ⟨o, s', h, _, _, _⟩ := C12_options_frame (tableEnv tblEmpty 1) "h" addr0 22 key0 RDONLY
    "u" "g" (st0 opts0 []) (by
      intro L s1 hs
      have h' : some HostStatus.HOST_NEW = some L.host_status :=
        congrArg (Option.map (fun p : Locals × St => p.1.host_status)) hs
      simp only [Option.some.injEq] at h'
      rw [← h']
      decide)
  decide

/-- **C13.** In batch mode `confirm` answers no to every prompt: for every
prompt text and state with `batch_mode` set it returns 0, shows nothing and
reads nothing from the terminal (the state is returned unchanged). -/
theorem C13_confirm_batch_mode (s : St) (prompt : String) (hb : s.options.batch_mode ≠ 0) :
    (confirm s prompt).1 = 0 ∧ (confirm s prompt).2 = s := by
  rw [confirm_batch s prompt hb]
  exact ⟨rfl, rfl⟩

/-- Witness for C13: in batch mode a pending "yes" on the terminal is neither
read nor honoured. -/
theorem C13_confirm_batch_mode_witness :
    opts_batch.batch_mode ≠ 0 ∧
    (confirm (st0 opts_batch [some "yes"]) "continue (yes/no)? ").1 = 0 ∧
    (confirm (st0 opts_batch [some "yes"]) "continue (yes/no)? ").2 =
      st0 opts_batch [some "yes"] :=
  ⟨by decide, C13_confirm_batch_mode (st0 opts_batch [some "yes"]) "continue (yes/no)? "
    (by decide)⟩

end SshConnect

namespace SshConnect

/-! ## The answers `confirm` accepts -/

/-- Counterexample to C14 as stated: outside batch mode an empty answer does
not cause another prompt: `confirm` returns 0 after one question and the
"yes" typed next is never read.  The same holds for a bare newline and for a
failed read. -/
theorem C14_counterexample :
    opts0.batch_mode = 0 ∧
    confirm (st0 opts0 [some "", some "yes"]) "continue (yes/no)? " =
      (0, { st0 opts0 [some "yes"] with trace := [.prompt "continue (yes/no)? "] }) ∧
    (confirm (st0 opts0 [some "\n", some "yes"]) "continue (yes/no)? ").1 = 0 ∧
    (confirm (st0 opts0 [none, some "yes"]) "continue (yes/no)? ").1 = 0 := by
  refine ⟨rfl, ?_, ?_, ?_⟩ <;> decide

/-- The loop of `confirm` on answers that start with undecided ones. -/
theorem confirm_loop_junk (junk : List (Option String)) (a : Option String)
    (rest : List (Option String)) (hjunk : ∀ p ∈ junk, confirm_answer p = -1)
    (ha : confirm_answer a ≠ -1) :
    ∀ (msg again : String) (tr : List Event),
      confirm_loop msg again (junk ++ a :: rest) tr =
        (confirm_answer a, rest,
          tr ++ .prompt msg :: List.replicate junk.length (.prompt again)) := by
  induction junk with
  | nil =>
    intro msg again tr
    simp [confirm_loop, ha]
  | cons p junk ih =>
    intro msg again tr
    have hp : confirm_answer p = -1 := hjunk p (List.mem_cons_self _ _)
    have ih' := ih (fun q hq => hjunk q (List.mem_cons_of_mem _ hq)) again again
      (tr ++ [.prompt msg])
    have hc : (p :: junk) ++ a :: rest = p :: (junk ++ a :: rest) := rfl
    rw [hc, confirm_loop, if_neg (by simp [hp]), ih']
    simp [List.replicate_succ]

/-- **C14 (amended).** Outside batch mode `confirm` asks again after every
answer that is undecided, that is: read successfully, not empty, not starting
with a newline and beginning case-insensitively with neither "yes" nor "no".
It returns 1 for the first decided answer if that begins with "yes", and 0 if
it begins with "no", is empty, starts with a newline or is a failed read
(`NULL`); the answers after it are not read, and one prompt is shown per
answer read (the first with the prompt text, the others with "Please type
'yes' or 'no': "). -/
theorem C14_confirm_reasks (s : St) (prompt : String) (junk : List (Option String))
    (a : Option String) (rest : List (Option String))
    (hb : s.options.batch_mode = 0) (htty : s.tty = junk ++ a :: rest)
    (hjunk : ∀ p ∈ junk, ∃ t, p = some t ∧ t.toList.head? ≠ none ∧
      t.toList.head? ≠ some '\n' ∧ strncasecmp_eq0 t "no" 2 = false ∧
      strncasecmp_eq0 t "yes" 3 = false)
    (ha : a = none ∨ ∃ t, a = some t ∧ (strncasecmp_eq0 t "yes" 3 = true ∨
      t.toList.head? = none ∨ t.toList.head? = some '\n' ∨ strncasecmp_eq0 t "no" 2 = true)) :
    confirm s prompt =
      ((if a.map (fun t => strncasecmp_eq0 t "yes" 3) = some true then 1 else 0),
       { s with tty := rest,
                trace := s.trace ++ .prompt prompt ::
                  List.replicate junk.length (.prompt "Please type 'yes' or 'no': ") }) := by
  have hj : ∀ p ∈ junk, confirm_answer p = -1 := by
    intro p hp
    obtain ⟨t, rfl, h1, h2, h3, h4⟩ := hjunk p hp
    unfold confirm_answer
    dsimp only
    rw [if_neg (by simp [h4]), if_neg (by
      rintro (h | h | h)
      · exact h1 h
      · exact h2 h
      · simp [h3] at h)]
  have hav : confirm_answer a =
      (if a.map (fun t => strncasecmp_eq0 t "yes" 3) = some true then 1 else 0) := by
    rcases ha with rfl | ⟨t, rfl, h⟩
    · rfl
    · by_cases hy : strncasecmp_eq0 t "yes" 3 = true
      · simp [confirm_answer, hy]
      · have h' := h.resolve_left hy
        unfold confirm_answer
        dsimp only
        rw [if_neg hy, if_pos h', if_neg (by simp [hy])]
  have hne : confirm_answer a ≠ -1 := by
    rw [hav]
    by_cases hc : a.map (fun t => strncasecmp_eq0 t "yes" 3) = some true
    · rw [if_pos hc]; decide
    · rw [if_neg hc]; decide
  unfold confirm
  rw [if_neg (by simp [hb]), htty, confirm_loop_junk junk a rest hj hne, hav]

/-- Witness for C14: "maybe" is asked again, "YES" is accepted, the rest of
the terminal input is left. -/
theorem C14_confirm_reasks_witness :
    confirm (st0 opts0 [some "maybe", some "YES", some "no"]) "continue (yes/no)? " =
      (1, { st0 opts0 [some "no"] with
              trace := [.prompt "continue (yes/no)? ", .prompt "Please type 'yes' or 'no': "] }) :=
  C14_confirm_reasks (st0 opts0 [some "maybe", some "YES", some "no"]) "continue (yes/no)? "
    [some "maybe"] (some "YES") [some "no"] rfl rfl
    (by
      intro p hp
      simp only [List.mem_singleton] at hp
      subst hp
      exact ⟨"maybe", rfl, by decide, by decide, by decide, by decide⟩)
    (Or.inr ⟨"YES", rfl, Or.inl (by decide)⟩)

end SshConnect

namespace SshConnect

/-! ## Version negotiation -/

/-- **C15.** Once the server's version is parsed, protocol v2 is selected
(`compat20` is enabled, starting from a client with `compat20` off) if and
only if either `remote_major` is 2 and the mask includes v2, or `remote_major`
is 1 with `remote_minor` 99, the mask includes v2 and the prefer-v1 flag is
not set, whatever the remote minor is in the first case; the v2 banner is
then what is written.  A 1.99 server with prefer-v1 set and v1 accepted
yields v1: `compat20` stays off and the v1 banner with the default minor is
written. -/
theorem C15_v2_selection (X : XEnv) (timeout_ms : Int) (s s1 : XSt)
    (remote_major remote_minor : Int) (remote_version : String)
    (hread : exchange_read timeout_ms s =
      (.version remote_major remote_minor remote_version, s1))
    (h0 : s.compat20 = 0) :
    ((ssh_exchange_identification X timeout_ms s).2.compat20 ≠ 0 ↔
      (remote_major = 2 ∧ proto_has s X.SSH_PROTO_2 = true) ∨
      (remote_major = 1 ∧ remote_minor = 99 ∧ proto_has s X.SSH_PROTO_2 = true ∧
        proto_has s X.SSH_PROTO_1_PREFERRED = false)) ∧
    ((ssh_exchange_identification X timeout_ms s).2.compat20 ≠ 0 →
      (ssh_exchange_identification X timeout_ms s).2.compat20 = 1 ∧
      (X.vwrite (banner_v2 X).toList = none →
        (ssh_exchange_identification X timeout_ms s).1 = .returned ∧
        (ssh_exchange_identification X timeout_ms s).2.output =
          s.output ++ (banner_v2 X).toList)) ∧
    (remote_major = 1 → remote_minor = 99 →
      proto_has s X.SSH_PROTO_1_PREFERRED = true → proto_has s X.SSH_PROTO_1 = true →
      (ssh_exchange_identification X timeout_ms s).2.compat20 = 0 ∧
      (X.vwrite (banner_v1 X X.PROTOCOL_MINOR_1).toList = none →
        (ssh_exchange_identification X timeout_ms s).1 = .returned ∧
        (ssh_exchange_identification X timeout_ms s).2.output =
          s.output ++ (banner_v1 X X.PROTOCOL_MINOR_1).toList)) := by
  obtain ⟨hx, -, h20, -, hout, -, hp⟩ :=
    exchange_of_read X timeout_ms s s1 remote_major remote_minor remote_version hread
  rw [hx]
  have hc := exchange_versions_compat20 X remote_major remote_minor remote_version s1
  simp only [hp, h20, h0] at hc
  refine ⟨?_, ?_, ?_⟩
  · rw [hc]
    by_cases hv : (remote_major = 2 ∧ proto_has s X.SSH_PROTO_2 = true) ∨
      (remote_major = 1 ∧ remote_minor = 99 ∧ proto_has s X.SSH_PROTO_2 = true ∧
        proto_has s X.SSH_PROTO_1_PREFERRED = false)
    · rw [if_pos hv]
      exact ⟨fun _ => hv, fun _ => by decide⟩
    · rw [if_neg hv]
      exact ⟨fun h => absurd rfl h, fun h => absurd h hv⟩
  · intro hne
    by_cases hv : (remote_major = 2 ∧ proto_has s X.SSH_PROTO_2 = true) ∨
      (remote_major = 1 ∧ remote_minor = 99 ∧ proto_has s X.SSH_PROTO_2 = true ∧
        proto_has s X.SSH_PROTO_1_PREFERRED = false)
    · refine ⟨by rw [hc, if_pos hv], ?_⟩
      have hv1 : (remote_major = 2 ∧ proto_has s1 X.SSH_PROTO_2 = true) ∨
          (remote_major = 1 ∧ remote_minor = 99 ∧ proto_has s1 X.SSH_PROTO_2 = true ∧
            proto_has s1 X.SSH_PROTO_1_PREFERRED = false) := by
        simpa only [hp] using hv
      rw [exchange_versions_v2 X remote_major remote_minor remote_version s1 hv1]
      have hb := client_banner_v2 X X.PROTOCOL_MINOR_1
        (enable_compat20 { s1 with datafellows := X.compat_datafellows remote_version })
        (by simp [enable_compat20])
      have hs := (exchange_send_spec X X.PROTOCOL_MINOR_1
        (enable_compat20 { s1 with datafellows := X.compat_datafellows remote_version })).2.2.2.2.2
      rw [hb] at hs
      intro hw
      obtain ⟨e1, e2, -⟩ := hs hw
      exact ⟨e1, by rw [e2]; simp [enable_compat20, hout]⟩
    · rw [hc, if_neg hv] at hne
      exact absurd rfl hne
  · intro hma hmi hpref h1
    subst hma
    subst hmi
    have hr : ¬ ((99 : Int) = 99 ∧ proto_has s1 X.SSH_PROTO_2 = true ∧
        proto_has s1 X.SSH_PROTO_1_PREFERRED = false) := by
      rintro ⟨-, -, h⟩
      rw [hp, hpref] at h
      exact Bool.noConfusion h
    have hv : ¬ (((1 : Int) = 2 ∧ proto_has s X.SSH_PROTO_2 = true) ∨
        ((1 : Int) = 1 ∧ (99 : Int) = 99 ∧ proto_has s X.SSH_PROTO_2 = true ∧
          proto_has s X.SSH_PROTO_1_PREFERRED = false)) := by
      rintro (⟨h, -⟩ | ⟨-, -, -, h⟩)
      · omega
      · rw [hpref] at h
        exact Bool.noConfusion h
    refine ⟨by rw [hc, if_neg hv], ?_⟩
    rw [exchange_versions_v1 X 99 remote_version s1 hr (by rw [hp]; exact h1) (by decide)
      (by decide)]
    have hb := client_banner_v1 X X.PROTOCOL_MINOR_1
      { s1 with datafellows := X.compat_datafellows remote_version } (by simp [h20, h0])
    have hs := (exchange_send_spec X X.PROTOCOL_MINOR_1
      { s1 with datafellows := X.compat_datafellows remote_version }).2.2.2.2.2
    rw [hb] at hs
    intro hw
    obtain ⟨e1, e2, -⟩ := hs hw
    exact ⟨e1, by rw [e2]; simp [hout]⟩

/-- Witness for C15: a 2.0 server met by a client that accepts both
protocols gets the v2 banner. -/
theorem C15_v2_selection_witness :
    (ssh_exchange_identification xenv0 0 (xst0 opts0 "SSH-2.0-Srv\r\n")).2.compat20 = 1 ∧
    (ssh_exchange_identification xenv0 0 (xst0 opts_v1_preferred "SSH-1.99-Srv\n")).2.compat20
      = 0 :=
  ⟨((C15_v2_selection xenv0 0 (xst0 opts0 "SSH-2.0-Srv\r\n") _ 2 0 "Srv" rfl rfl).2.1
      (by decide)).1,
   ((C15_v2_selection xenv0 0 (xst0 opts_v1_preferred "SSH-1.99-Srv\n") _ 1 99 "Srv" rfl
      rfl).2.2 rfl rfl (by decide) (by decide)).1⟩

/-- Counterexample to C16 as stated: a client whose mask includes v1 (and
only v1) meets a 2.0 server, neither v2 rule applies, and the exchange ends in
the version-mismatch fatal; and a 1.2 server makes a client that accepts v1
abort with the too-old fatal.  Nothing is written in either run. -/
theorem C16_counterexample :
    proto_has (xst0 opts_v1 "SSH-2.0-x\n") xenv0.SSH_PROTO_1 = true ∧
    proto_has (xst0 opts_v1 "SSH-2.0-x\n") xenv0.SSH_PROTO_2 = false ∧
    (ssh_exchange_identification xenv0 0 (xst0 opts_v1 "SSH-2.0-x\n")).1 =
      .fatal "Protocol major versions differ: 1 vs. 2" ∧
    (ssh_exchange_identification xenv0 0 (xst0 opts_v1 "SSH-2.0-x\n")).2.output = [] ∧
    proto_has (xst0 opts0 "SSH-1.2-x\n") xenv0.SSH_PROTO_1 = true ∧
    (ssh_exchange_identification xenv0 0 (xst0 opts0 "SSH-1.2-x\n")).1 =
      .fatal "Remote machine has too old SSH software version." ∧
    (ssh_exchange_identification xenv0 0 (xst0 opts0 "SSH-1.2-x\n")).2.output = [] := by
  refine ⟨?_, ?_, ?_, ?_, ?_, ?_, ?_⟩ <;> decide

/-- **C16 (amended).** When `remote_major` is 1, the 1.99 rule does not apply
and the mask includes v1, negotiation selects protocol v1 for every remote
minor from 3 on: `compat20` stays off and the v1 banner is sent (minor 3 for a
1.3 or 1.4 server, the default minor otherwise), the only abort left being a
failed write; for a remote minor below 3 it aborts with the too-old fatal.
The version-mismatch fatal occurs exactly when `remote_major` is 1, the 1.99
rule does not apply and the mask does not include v1, or `remote_major` is 2
and the mask does not include v2, or `remote_major` is neither 1 nor 2. -/
theorem C16_v1_selection (X : XEnv) (timeout_ms : Int) (s s1 : XSt)
    (remote_major remote_minor : Int) (remote_version : String)
    (hread : exchange_read timeout_ms s =
      (.version remote_major remote_minor remote_version, s1))
    (h0 : s.compat20 = 0) :
    (remote_major = 1 →
      ¬ (remote_minor = 99 ∧ proto_has s X.SSH_PROTO_2 = true ∧
          proto_has s X.SSH_PROTO_1_PREFERRED = false) →
      proto_has s X.SSH_PROTO_1 = true →
      (3 ≤ remote_minor →
        (ssh_exchange_identification X timeout_ms s).2.compat20 = 0 ∧
        (X.vwrite (banner_v1 X (if remote_minor = 3 ∨ remote_minor = 4 then 3
            else X.PROTOCOL_MINOR_1)).toList = none →
          (ssh_exchange_identification X timeout_ms s).1 = .returned ∧
          (ssh_exchange_identification X timeout_ms s).2.output =
            s.output ++ (banner_v1 X (if remote_minor = 3 ∨ remote_minor = 4 then 3
              else X.PROTOCOL_MINOR_1)).toList) ∧
        (∀ err, X.vwrite (banner_v1 X (if remote_minor = 3 ∨ remote_minor = 4 then 3
            else X.PROTOCOL_MINOR_1)).toList = some err →
          (ssh_exchange_identification X timeout_ms s).1 =
            .fatal ("write: " ++ prec 100 err))) ∧
      (remote_minor < 3 →
        (ssh_exchange_identification X timeout_ms s).1 =
          .fatal "Remote machine has too old SSH software version." ∧
        (ssh_exchange_identification X timeout_ms s).2.output = s.output)) ∧
    ((ssh_exchange_identification X timeout_ms s).1 = .fatal (mismatch_msg X remote_major s) ↔
      (remote_major = 1 ∧
        ¬ (remote_minor = 99 ∧ proto_has s X.SSH_PROTO_2 = true ∧
          proto_has s X.SSH_PROTO_1_PREFERRED = false) ∧
        proto_has s X.SSH_PROTO_1 = false) ∨
      (remote_major = 2 ∧ proto_has s X.SSH_PROTO_2 = false) ∨
      (remote_major ≠ 1 ∧ remote_major ≠ 2)) := by
  obtain ⟨hx, -, h20, -, hout, -, hp⟩ :=
    exchange_of_read X timeout_ms s s1 remote_major remote_minor remote_version hread
  rw [hx]
  have h20' : s1.compat20 = 0 := by rw [h20, h0]
  have hmm : mismatch_msg X remote_major s1 = mismatch_msg X remote_major s := by
    unfold mismatch_msg
    rw [hp]
  have hsend : ∀ (m : Int) (t : XSt), t.compat20 = 0 → t.output = s.output →
      (X.vwrite (banner_v1 X m).toList = none →
        (exchange_send X m t).1 = .returned ∧
        (exchange_send X m t).2.output = s.output ++ (banner_v1 X m).toList) ∧
      (∀ err, X.vwrite (banner_v1 X m).toList = some err →
        (exchange_send X m t).1 = .fatal ("write: " ++ prec 100 err)) := by
    intro m t ht hto
    have hs := exchange_send_spec X m t
    rw [client_banner_v1 X m t ht] at hs
    refine ⟨fun hw => ?_, fun err hw => (hs.2.2.2.2.1 err hw).1⟩
    obtain ⟨e1, e2, -⟩ := hs.2.2.2.2.2 hw
    exact ⟨e1, by rw [e2, hto]⟩
  have hsend_ne : ∀ (m : Int) (t : XSt),
      (exchange_send X m t).1 ≠ .fatal (mismatch_msg X remote_major s) := by
    intro m t hEq
    have hs := exchange_send_spec X m t
    cases hw : X.vwrite (client_banner X m t).toList with
    | none =>
      rw [(hs.2.2.2.2.2 hw).1] at hEq
      exact Exit.noConfusion hEq
    | some err =>
      rw [(hs.2.2.2.2.1 err hw).1] at hEq
      injection hEq with hEq
      exact ne_of_head_ne _ _ (by rw [mismatch_msg_head]; exact fun h => by cases h) hEq.symm
  have h13 : (compat13_state X remote_version s1).compat20 = 0 ∧
      (compat13_state X remote_version s1).output = s.output := by
    unfold compat13_state
    by_cases hf : s1.options.forward_agent ≠ 0
    · rw [if_pos hf]; exact ⟨h20', hout⟩
    · rw [if_neg hf]; exact ⟨h20', hout⟩
  refine ⟨?_, ?_⟩
  · intro hma hr h1
    subst hma
    have hr1 : ¬ (remote_minor = 99 ∧ proto_has s1 X.SSH_PROTO_2 = true ∧
        proto_has s1 X.SSH_PROTO_1_PREFERRED = false) := by simpa only [hp] using hr
    have h11 : proto_has s1 X.SSH_PROTO_1 = true := by rw [hp]; exact h1
    refine ⟨fun h3 => ?_, fun hlt => ?_⟩
    · by_cases h34 : remote_minor = 3 ∨ remote_minor = 4
      · rw [if_pos h34, exchange_versions_13 X remote_minor remote_version s1 h11 h34]
        refine ⟨?_, hsend 3 _ h13.1 h13.2⟩
        rw [(exchange_send_spec X _ _).2.1]
        exact h13.1
      · rw [if_neg h34, exchange_versions_v1 X remote_minor remote_version s1 hr1 h11 h3 h34]
        refine ⟨?_, hsend _ _ h20' hout⟩
        rw [(exchange_send_spec X _ _).2.1]
        exact h20'
    · rw [exchange_versions_too_old X remote_minor remote_version s1 hr1 h11 hlt]
      exact ⟨rfl, hout⟩
  · rcases exchange_versions_cases X remote_major remote_minor remote_version s1 with
      ⟨h, e⟩ | ⟨h, e⟩ | ⟨h, e⟩ | ⟨h, e⟩ | ⟨h, e⟩
    · rw [e]
      constructor
      · intro hEq
        exact absurd hEq (hsend_ne _ _)
      · simp only [hp] at h
        rintro (⟨hma, hr, -⟩ | ⟨hma, h2⟩ | ⟨hm1, hm2⟩)
        · rcases h with ⟨h, -⟩ | ⟨-, h⟩
          · omega
          · exact absurd h hr
        · rcases h with ⟨-, h⟩ | ⟨h, -⟩
          · rw [h2] at h; exact Bool.noConfusion h
          · omega
        · rcases h with ⟨h, -⟩ | ⟨h, -⟩
          · exact absurd h hm2
          · exact absurd h hm1
    · rw [e, hmm]
      simp only [hp] at h
      exact ⟨fun _ => h, fun _ => rfl⟩
    · rw [e]
      simp only [hp] at h
      obtain ⟨hma, hr, h1, -⟩ := h
      constructor
      · intro hEq
        injection hEq with hEq
        exact absurd hEq.symm
          (ne_of_head_ne _ _ (by rw [mismatch_msg_head]; exact fun h => by cases h))
      · rintro (⟨-, -, h1f⟩ | ⟨hm2, -⟩ | ⟨hm1, -⟩)
        · rw [h1] at h1f; exact Bool.noConfusion h1f
        · omega
        · exact absurd hma hm1
    · rw [e]
      simp only [hp] at h
      obtain ⟨hma, h1, -⟩ := h
      constructor
      · intro hEq
        exact absurd hEq (hsend_ne _ _)
      · rintro (⟨-, -, h1f⟩ | ⟨hm2, -⟩ | ⟨hm1, -⟩)
        · rw [h1] at h1f; exact Bool.noConfusion h1f
        · omega
        · exact absurd hma hm1
    · rw [e]
      simp only [hp] at h
      obtain ⟨hma, -, h1, -, -⟩ := h
      constructor
      · intro hEq
        exact absurd hEq (hsend_ne _ _)
      · rintro (⟨-, -, h1f⟩ | ⟨hm2, -⟩ | ⟨hm1, -⟩)
        · rw [h1] at h1f; exact Bool.noConfusion h1f
        · omega
        · exact absurd hma hm1

/-- Witness for C16: a 1.5 server and a client that accepts both protocols
settle on protocol 1 and the client announces 1.5. -/
theorem C16_v1_selection_witness :
    (ssh_exchange_identification xenv0 0 (xst0 opts0 "SSH-1.5-Srv\n")).2.compat20 = 0 ∧
    (ssh_exchange_identification xenv0 0 (xst0 opts0 "SSH-1.5-Srv\n")).1 = .returned ∧
    (ssh_exchange_identification xenv0 0 (xst0 opts0 "SSH-1.5-Srv\n")).2.output =
      "SSH-1.5-OpenSSH_5.3\n".toList :=
  have h := ((C16_v1_selection xenv0 0 (xst0 opts0 "SSH-1.5-Srv\n") _ 1 5 "Srv" rfl rfl).1
    rfl (by decide) (by decide)).1 (by decide)
  ⟨h.1, (h.2.1 rfl).1, (h.2.1 rfl).2⟩

/-- **C17.** When v1 is selected (`remote_major` 1, the mask includes v1,
`compat20` off) and `remote_minor` is 3 or 4, legacy-1.3 compatibility is
enabled, `options.forward_agent` is 0 after the exchange whatever it was
before (no other option changes), and the client banner announces minor
version 3.  When v1 is selected with any other accepted remote minor (3 or
more, the 1.99 rule not applying), `compat13` is as before, the options,
`forward_agent` included, are unchanged, and the banner announces the default
v1 minor. -/
theorem C17_compat13 (X : XEnv) (timeout_ms : Int) (s s1 : XSt)
    (remote_minor : Int) (remote_version : String)
    (hread : exchange_read timeout_ms s = (.version 1 remote_minor remote_version, s1))
    (h0 : s.compat20 = 0) (h1 : proto_has s X.SSH_PROTO_1 = true) :
    ((remote_minor = 3 ∨ remote_minor = 4) →
      (ssh_exchange_identification X timeout_ms s).2.compat13 = 1 ∧
      (ssh_exchange_identification X timeout_ms s).2.options.forward_agent = 0 ∧
      (ssh_exchange_identification X timeout_ms s).2.options =
        { s.options with forward_agent := 0 } ∧
      (ssh_exchange_identification X timeout_ms s).2.compat20 = 0 ∧
      (X.vwrite (banner_v1 X 3).toList = none →
        (ssh_exchange_identification X timeout_ms s).1 = .returned ∧
        (ssh_exchange_identification X timeout_ms s).2.output =
          s.output ++ (banner_v1 X 3).toList ∧
        (ssh_exchange_identification X timeout_ms s).2.client_version_string =
          some (X.chop (banner_v1 X 3)))) ∧
    (3 ≤ remote_minor → ¬ (remote_minor = 3 ∨ remote_minor = 4) →
      ¬ (remote_minor = 99 ∧ proto_has s X.SSH_PROTO_2 = true ∧
          proto_has s X.SSH_PROTO_1_PREFERRED = false) →
      (ssh_exchange_identification X timeout_ms s).2.compat13 = s.compat13 ∧
      (ssh_exchange_identification X timeout_ms s).2.options = s.options ∧
      (ssh_exchange_identification X timeout_ms s).2.compat20 = 0 ∧
      (X.vwrite (banner_v1 X X.PROTOCOL_MINOR_1).toList = none →
        (ssh_exchange_identification X timeout_ms s).1 = .returned ∧
        (ssh_exchange_identification X timeout_ms s).2.output =
          s.output ++ (banner_v1 X X.PROTOCOL_MINOR_1).toList ∧
        (ssh_exchange_identification X timeout_ms s).2.client_version_string =
          some (X.chop (banner_v1 X X.PROTOCOL_MINOR_1)))) := by
  obtain ⟨hx, ho, h20, h13, hout, -, hp⟩ :=
    exchange_of_read X timeout_ms s s1 1 remote_minor remote_version hread
  rw [hx]
  have h20' : s1.compat20 = 0 := by rw [h20, h0]
  have h11 : proto_has s1 X.SSH_PROTO_1 = true := by rw [hp]; exact h1
  have hsend : ∀ (m : Int) (t : XSt), t.compat20 = 0 → t.output = s.output →
      (X.vwrite (banner_v1 X m).toList = none →
        (exchange_send X m t).1 = .returned ∧
        (exchange_send X m t).2.output = s.output ++ (banner_v1 X m).toList ∧
        (exchange_send X m t).2.client_version_string = some (X.chop (banner_v1 X m))) := by
    intro m t ht hto hw
    have hs := exchange_send_spec X m t
    rw [client_banner_v1 X m t ht] at hs
    obtain ⟨e1, e2, e3⟩ := hs.2.2.2.2.2 hw
    exact ⟨e1, by rw [e2, hto], e3⟩
  refine ⟨fun h34 => ?_, fun h3 h34 hr => ?_⟩
  · rw [exchange_versions_13 X remote_minor remote_version s1 h11 h34]
    have hs := exchange_send_spec X 3 (compat13_state X remote_version s1)
    have hst : (compat13_state X remote_version s1).compat13 = 1 ∧
        (compat13_state X remote_version s1).options = { s.options with forward_agent := 0 } ∧
        (compat13_state X remote_version s1).compat20 = 0 ∧
        (compat13_state X remote_version s1).output = s.output := by
      unfold compat13_state
      by_cases hf : s1.options.forward_agent ≠ 0
      · rw [if_pos hf]
        exact ⟨rfl, by rw [← ho], h20', hout⟩
      · rw [if_neg hf]
        refine ⟨rfl, ?_, h20', hout⟩
        have hf0 : s1.options.forward_agent = 0 := by simpa using hf
        show s1.options = _
        rw [← ho, ← hf0]
    rw [hs.1, hs.2.1, hs.2.2.1, hst.1, hst.2.1, hst.2.2.1]
    exact ⟨rfl, rfl, rfl, rfl, hsend 3 _ hst.2.2.1 hst.2.2.2⟩
  · have hr1 : ¬ (remote_minor = 99 ∧ proto_has s1 X.SSH_PROTO_2 = true ∧
        proto_has s1 X.SSH_PROTO_1_PREFERRED = false) := by simpa only [hp] using hr
    rw [exchange_versions_v1 X remote_minor remote_version s1 hr1 h11 h3 h34]
    have hs := exchange_send_spec X X.PROTOCOL_MINOR_1
      { s1 with datafellows := X.compat_datafellows remote_version }
    rw [hs.1, hs.2.1, hs.2.2.1]
    exact ⟨h13, ho, h20', hsend _ _ h20' hout⟩

/-- Witness for C17: against a 1.3 server the client that asked for agent
forwarding loses it, enables the 1.3 compatibility and announces 1.3. -/
theorem C17_compat13_witness :
    (ssh_exchange_identification xenv0 0 (xst0 opts_agent "SSH-1.3-Srv\n")).2.compat13 = 1 ∧
    (ssh_exchange_identification xenv0 0
      (xst0 opts_agent "SSH-1.3-Srv\n")).2.options.forward_agent = 0 ∧
    (ssh_exchange_identification xenv0 0 (xst0 opts_agent "SSH-1.3-Srv\n")).2.output =
      "SSH-1.3-OpenSSH_5.3\n".toList :=
  have h := (C17_compat13 xenv0 0 (xst0 opts_agent "SSH-1.3-Srv\n") _ 3 "Srv" rfl rfl
    (by decide)).1 (Or.inl rfl)
  ⟨h.1, h.2.1, (h.2.2.2.2 rfl).2.1⟩

/-- **C18.** When the mask does not include v2 (the user accepts only v1) and
the server banner has major version 2, the exchange ends in the fatal error
"Protocol major versions differ: 1 vs. 2" (1 being `PROTOCOL_MAJOR_1`) and no
client banner is written.  In general, on a mismatch the first number
reported is `PROTOCOL_MAJOR_2` if the mask includes v2 and `PROTOCOL_MAJOR_1`
otherwise, the second is the remote major, and nothing is written. -/
theorem C18_mismatch_text (X : XEnv) (timeout_ms : Int) (s s1 : XSt)
    (remote_major remote_minor : Int) (remote_version : String)
    (hread : exchange_read timeout_ms s =
      (.version remote_major remote_minor remote_version, s1)) :
    (remote_major = 2 → proto_has s X.SSH_PROTO_2 = false → X.PROTOCOL_MAJOR_1 = 1 →
      (ssh_exchange_identification X timeout_ms s).1 =
        .fatal "Protocol major versions differ: 1 vs. 2" ∧
      (ssh_exchange_identification X timeout_ms s).2.output = s.output ∧
      (ssh_exchange_identification X timeout_ms s).2.client_version_string =
        s.client_version_string) ∧
    (((remote_major = 1 ∧
        ¬ (remote_minor = 99 ∧ proto_has s X.SSH_PROTO_2 = true ∧
          proto_has s X.SSH_PROTO_1_PREFERRED = false) ∧
        proto_has s X.SSH_PROTO_1 = false) ∨
      (remote_major = 2 ∧ proto_has s X.SSH_PROTO_2 = false) ∨
      (remote_major ≠ 1 ∧ remote_major ≠ 2)) →
      (ssh_exchange_identification X timeout_ms s).1 =
        .fatal ("Protocol major versions differ: " ++
          toString (if proto_has s X.SSH_PROTO_2 = true then X.PROTOCOL_MAJOR_2
                    else X.PROTOCOL_MAJOR_1) ++
          " vs. " ++ toString remote_major) ∧
      (ssh_exchange_identification X timeout_ms s).2.output = s.output ∧
      (ssh_exchange_identification X timeout_ms s).2.client_version_string =
        s.client_version_string) := by
  obtain ⟨hx, -, -, -, hout, hcl, hp⟩ :=
    exchange_of_read X timeout_ms s s1 remote_major remote_minor remote_version hread
  rw [hx]
  have hgen : ((remote_major = 1 ∧
        ¬ (remote_minor = 99 ∧ proto_has s X.SSH_PROTO_2 = true ∧
          proto_has s X.SSH_PROTO_1_PREFERRED = false) ∧
        proto_has s X.SSH_PROTO_1 = false) ∨
      (remote_major = 2 ∧ proto_has s X.SSH_PROTO_2 = false) ∨
      (remote_major ≠ 1 ∧ remote_major ≠ 2)) →
      exchange_versions X remote_major remote_minor remote_version s1 =
        (.fatal (mismatch_msg X remote_major s),
          { s1 with datafellows := X.compat_datafellows remote_version }) := by
    intro h
    have h' := h
    simp only [← hp] at h'
    rw [exchange_versions_mismatch X remote_major remote_minor remote_version s1 h']
    unfold mismatch_msg
    rw [hp]
  refine ⟨fun hma h2 hM => ?_, fun h => ?_⟩
  · rw [hgen (Or.inr (Or.inl ⟨hma, h2⟩))]
    refine ⟨?_, hout, hcl⟩
    unfold mismatch_msg
    rw [h2, hma, if_neg (by decide), hM]
    rfl
  · rw [hgen h]
    exact ⟨rfl, hout, hcl⟩

/-- Witness for C18: the client started with `-1` meets a 2.0 server. -/
theorem C18_mismatch_text_witness :
    (ssh_exchange_identification xenv0 0 (xst0 opts_v1 "SSH-2.0-Srv\r\n")).1 =
      .fatal "Protocol major versions differ: 1 vs. 2" ∧
    (ssh_exchange_identification xenv0 0 (xst0 opts_v1 "SSH-2.0-Srv\r\n")).2.output = [] :=
  have h := (C18_mismatch_text xenv0 0 (xst0 opts_v1 "SSH-2.0-Srv\r\n") _ 2 0 "Srv" rfl).1
    rfl (by decide) rfl
  ⟨h.1, h.2.1⟩

end SshConnect

namespace SshConnect

/-! ## The banner reader -/

/-- Line feeds read into an empty buffer are discarded one by one and leave
the counter of the cap where it was. -/
theorem read_loop_newlines (t : Int) (k : Nat) :
    ∀ (rest : List ReadEv) (n : Nat) (tr : List Event),
      read_loop t (List.replicate k (ReadEv.ok '\n') ++ rest) [] n tr =
        read_loop t rest [] n (tr ++ List.replicate k (discarded ['\n'])) := by
  induction k with
  | zero =>
    intro rest n tr
    simp
  | succ k ih =>
    intro rest n tr
    have e : List.replicate (k + 1) (ReadEv.ok '\n') ++ rest =
        ReadEv.ok '\n' :: (List.replicate k (ReadEv.ok '\n') ++ rest) := rfl
    rw [e, read_loop_ok, if_neg (by decide), if_pos rfl, if_neg (by decide), ih]
    simp [discarded, List.replicate_succ]

/-- **C20.** The cap does not cover CR and LF: a peer that sends 70 000 line
feeds and closes the connection has all of them read, each discarded as an
empty preamble line, and the exchange ends with the closed-connection fatal,
not with "No banner received".  The same holds for any number of line feeds,
and whatever follows them is read with the counter still at its start. -/
theorem C20_newlines_uncounted (X : XEnv) (timeout_ms : Int) (s : XSt) :
    ssh_exchange_identification X timeout_ms
        { s with input := List.replicate 70000 (ReadEv.ok '\n') } =
      (.fatal "ssh_exchange_identification: Connection closed by remote host",
        { s with input := [],
                 trace := s.trace ++ List.replicate 70000 (discarded ['\n']) }) ∧
    (∀ (k : Nat) (rest : List ReadEv),
      read_loop timeout_ms (List.replicate k (ReadEv.ok '\n') ++ rest) [] 0 s.trace =
        read_loop timeout_ms rest [] 0 (s.trace ++ List.replicate k (discarded ['\n']))) := by
  refine ⟨?_, fun k rest => read_loop_newlines timeout_ms k rest 0 s.trace⟩
  have h := read_loop_newlines timeout_ms 70000 [] 0 s.trace
  rw [List.append_nil] at h
  unfold ssh_exchange_identification exchange_read
  dsimp only
  rw [h]
  rfl

end SshConnect

namespace SshConnect

/-! ## The padded password -/

theorem cstr_take_replicate (p : List Char) (k : Nat) (hz : ∀ c ∈ p, c ≠ NUL) :
    strlcpy (xcalloc (p.length + 1 + k)) p (p.length + 1 + k) =
      p ++ List.replicate (k + 1) NUL := by
  unfold strlcpy xcalloc strlen
  rw [cstr_of_no_nul p hz, if_neg (by omega)]
  have h1 : p.length + 1 + k - 1 = p.length + k := by omega
  rw [h1, List.take_of_length_le (by omega), Nat.min_eq_left (by omega),
    List.drop_replicate]
  have h2 : p.length + 1 + k - (p.length + 1) = k := by omega
  rw [h2, List.append_assoc]
  rfl

/-- **C30.** For every password of length L (a C string, so without NUL):
when the peer does not have `SSH_BUG_PASSWORDPAD`, `ssh_put_password` sends a
string of length S = 32 * ceil((L + 1) / 32), which is the least multiple of
32 above L, so L < S <= L + 32; its first L bytes are the password and its
remaining S - L bytes are all zero.  With the flag set it sends the password
itself, of length L. -/
theorem C30_password_padding (datafellows SSH_BUG_PASSWORDPAD : Nat) (password : List Char)
    (hz : ∀ c ∈ password, c ≠ NUL) :
    (datafellows &&& SSH_BUG_PASSWORDPAD = 0 →
      (ssh_put_password datafellows SSH_BUG_PASSWORDPAD password).length =
        32 * ((password.length + 1 + 31) / 32) ∧
      (ssh_put_password datafellows SSH_BUG_PASSWORDPAD password).length % 32 = 0 ∧
      password.length < (ssh_put_password datafellows SSH_BUG_PASSWORDPAD password).length ∧
      (ssh_put_password datafellows SSH_BUG_PASSWORDPAD password).length ≤
        password.length + 32 ∧
      (∀ k, k % 32 = 0 → password.length < k →
        (ssh_put_password datafellows SSH_BUG_PASSWORDPAD password).length ≤ k) ∧
      (ssh_put_password datafellows SSH_BUG_PASSWORDPAD password).take password.length =
        password ∧
      (ssh_put_password datafellows SSH_BUG_PASSWORDPAD password).drop password.length =
        List.replicate
          ((ssh_put_password datafellows SSH_BUG_PASSWORDPAD password).length - password.length)
          NUL) ∧
    (datafellows &&& SSH_BUG_PASSWORDPAD ≠ 0 →
      ssh_put_password datafellows SSH_BUG_PASSWORDPAD password = password ∧
      (ssh_put_password datafellows SSH_BUG_PASSWORDPAD password).length = password.length) := by
  constructor
  · intro hf
    obtain ⟨k, hk⟩ : ∃ k, roundup (password.length + 1) 32 = password.length + 1 + k := by
      refine ⟨roundup (password.length + 1) 32 - (password.length + 1), ?_⟩
      unfold roundup
      omega
    have hval : ssh_put_password datafellows SSH_BUG_PASSWORDPAD password =
        password ++ List.replicate (k + 1) NUL := by
      unfold ssh_put_password
      rw [if_neg (by simp [hf])]
      dsimp only
      unfold strlen
      rw [cstr_of_no_nul password hz, hk, cstr_take_replicate password k hz,
        List.take_of_length_le (by simp; omega)]
    have hlen : (ssh_put_password datafellows SSH_BUG_PASSWORDPAD password).length =
        roundup (password.length + 1) 32 := by
      rw [hval, hk]
      simp
      omega
    have hr : roundup (password.length + 1) 32 = 32 * ((password.length + 1 + 31) / 32) := by
      unfold roundup
      omega
    refine ⟨by rw [hlen, hr], by rw [hlen, hr]; omega, by rw [hlen, hr]; omega,
      by rw [hlen, hr]; omega, ?_, ?_, ?_⟩
    · intro j hj hlt
      rw [hlen, hr]
      omega
    · rw [hval, List.take_left]
    · rw [hval, List.drop_left]
      simp
  · intro hf
    have hval : ssh_put_password datafellows SSH_BUG_PASSWORDPAD password = password := by
      unfold ssh_put_password
      rw [if_pos hf, cstr_of_no_nul password hz]
    exact ⟨hval, by rw [hval]⟩

/-- Witness for C30: the six bytes of "secret" go out in a string of 32,
26 of them zero; a password of 32 bytes takes 64. -/
theorem C30_password_padding_witness :
    (ssh_put_password 0 1 "secret".toList).length = 32 ∧
    (ssh_put_password 0 1 "secret".toList).take 6 = "secret".toList ∧
    (ssh_put_password 0 1 "secret".toList).drop 6 = List.replicate 26 NUL ∧
    ssh_put_password 1 1 "secret".toList = "secret".toList :=
  have h := C30_password_padding 0 1 "secret".toList (by decide)
  have g := C30_password_padding 1 1 "secret".toList (by decide)
  ⟨(h.1 rfl).1, (h.1 rfl).2.2.2.2.2.1, by decide, (g.2 (by decide)).1⟩

end SshConnect

namespace SshConnect

/-! ## The timeout of a connect attempt -/

/-- Counterexample to C26 as stated: a connect that is refused five seconds
into a timeout of ten returns -1 and leaves the timeout at ten seconds, not
at five; so does an attempt on which `select` has used up the ten seconds. -/
theorem C26_counterexample :
    timeout_connect conn_refused 10000 0 = some (.ret (-1) 10000 111 []) ∧
    conn_refused.elapsed = 5000 ∧
    timeout_connect conn_timeout 10000 0 = some (.ret (-1) 10000 110 []) ∧
    conn_timeout.elapsed = 10000 := by
  refine ⟨?_, rfl, ?_, rfl⟩ <;> decide

/-- What `timeout_connect` returns after the label `done`. -/
theorem timeout_done_ok (C : ConnEnv) (timeout errno : Int) (log : List Event)
    (h : 0 < timeout) :
    timeout_done C 0 timeout errno log =
      if timeout - C.elapsed ≤ 0 then .ret (-1) (timeout - C.elapsed) C.ETIMEDOUT log
      else .ret 0 (timeout - C.elapsed) errno log := by
  unfold timeout_done ms_subtract_diff
  rw [if_pos ⟨rfl, h⟩]

theorem timeout_done_failed (C : ConnEnv) (timeout errno : Int) (log : List Event) :
    timeout_done C (-1) timeout errno log = .ret (-1) timeout errno log := by
  unfold timeout_done
  rw [if_neg (by rintro ⟨h, -⟩; exact absurd h (by decide))]

/-- **C26 (amended).** For every connect attempt started with a positive
remaining timeout: when the attempt succeeds, `timeout_connect` takes the
elapsed time off the in/out timeout, so on return `*timeoutp` equals its
initial value minus the time elapsed, and a remainder that is not positive
turns the success into a failure with `ETIMEDOUT`; when the attempt fails
(refused, timed out in `select`, `select` or `getsockopt` error, `SO_ERROR`
set) it returns -1 and leaves `*timeoutp` as it was.  The call returns as
soon as `select` gives a return that is not an interruption. -/
theorem C26_timeout_update (C : ConnEnv) (timeout errno : Int) (h : 0 < timeout) :
    (connected C →
      ∃ e log, timeout_connect C timeout errno =
        some (if timeout - C.elapsed ≤ 0 then .ret (-1) (timeout - C.elapsed) C.ETIMEDOUT log
              else .ret 0 (timeout - C.elapsed) e log)) ∧
    (¬ connected C → ∀ out, timeout_connect C timeout errno = some out →
      (∃ e log, out = .ret (-1) timeout e log) ∨
      (∃ rc e, select_loop C C.selects = some (rc, e) ∧ rc ≠ 0 ∧ rc ≠ -1 ∧ rc ≠ 1 ∧
        out = .fatal ("Bogus return (" ++ toString rc ++ ") from select()"))) ∧
    ((C.connect_rc = 0 ∨ C.connect_errno ≠ C.EINPROGRESS ∨ select_loop C C.selects ≠ none) →
      ∃ out, timeout_connect C timeout errno = some out) := by
  have hpos : ¬ timeout ≤ 0 := by omega
  refine ⟨?_, ?_, ?_⟩
  · rintro (h0 | ⟨hp, e, hsel, hg, hov⟩)
    · refine ⟨errno, [], ?_⟩
      unfold timeout_connect
      rw [if_neg hpos, if_pos h0, timeout_done_ok C timeout errno [] h]
    · by_cases h0 : C.connect_rc = 0
      · refine ⟨errno, [], ?_⟩
        unfold timeout_connect
        rw [if_neg hpos, if_pos h0, timeout_done_ok C timeout errno [] h]
      · refine ⟨e, [], ?_⟩
        unfold timeout_connect
        rw [if_neg hpos, if_neg h0, if_neg (by simpa using hp), hsel]
        dsimp only
        rw [if_neg (by decide), if_neg (by decide), if_pos rfl, if_neg hg,
          if_neg (by simpa using hov), timeout_done_ok C timeout e [] h]
  · intro hnc out hout
    have h0 : ¬ C.connect_rc = 0 := fun h0 => hnc (Or.inl h0)
    unfold timeout_connect at hout
    rw [if_neg hpos, if_neg h0] at hout
    by_cases hp : C.connect_errno ≠ C.EINPROGRESS
    · rw [if_pos hp, timeout_done_failed] at hout
      exact Or.inl ⟨_, _, (Option.some.inj hout).symm⟩
    · rw [if_neg hp] at hout
      cases hsel : select_loop C C.selects with
      | none =>
        rw [hsel] at hout
        exact Option.noConfusion hout
      | some r =>
        obtain ⟨rc, e⟩ := r
        rw [hsel] at hout
        dsimp only at hout
        by_cases hr0 : rc = 0
        · rw [if_pos hr0, timeout_done_failed] at hout
          exact Or.inl ⟨_, _, (Option.some.inj hout).symm⟩
        · rw [if_neg hr0] at hout
          by_cases hr1 : rc = -1
          · rw [if_pos hr1, timeout_done_failed] at hout
            exact Or.inl ⟨_, _, (Option.some.inj hout).symm⟩
          · rw [if_neg hr1] at hout
            by_cases hr2 : rc = 1
            · rw [if_pos hr2] at hout
              by_cases hg : C.getsockopt_rc = -1
              · rw [if_pos hg, timeout_done_failed] at hout
                exact Or.inl ⟨_, _, (Option.some.inj hout).symm⟩
              · rw [if_neg hg] at hout
                by_cases hov : C.optval ≠ 0
                · rw [if_pos hov, timeout_done_failed] at hout
                  exact Or.inl ⟨_, _, (Option.some.inj hout).symm⟩
                · exfalso
                  apply hnc
                  refine Or.inr ⟨by simpa using hp, e, ?_, hg, by simpa using hov⟩
                  rw [hsel, hr2]
            · rw [if_neg hr2] at hout
              exact Or.inr ⟨rc, e, rfl, hr0, hr1, hr2, (Option.some.inj hout).symm⟩
  · intro hterm
    unfold timeout_connect
    rw [if_neg hpos]
    by_cases h0 : C.connect_rc = 0
    · rw [if_pos h0]; exact ⟨_, rfl⟩
    · rw [if_neg h0]
      by_cases hp : C.connect_errno ≠ C.EINPROGRESS
      · rw [if_pos hp]; exact ⟨_, rfl⟩
      · rw [if_neg hp]
        have hs : select_loop C C.selects ≠ none := by
          rcases hterm with h | h | h
          · exact absurd h h0
          · exact absurd h hp
          · exact h
        cases hsel : select_loop C C.selects with
        | none => exact absurd hsel hs
        | some r =>
          obtain ⟨rc, e⟩ := r
          dsimp only
          split_ifs <;> exact ⟨_, rfl⟩

/-- Witness for C26: a connect that completes three seconds into a timeout
of ten (after one interrupted `select`) leaves seven seconds. -/
theorem C26_timeout_update_witness :
    connected conn_slow ∧
    ∃ e log, timeout_connect conn_slow 10000 0 =
      some (if (10000 : Int) - conn_slow.elapsed ≤ 0 then
              .ret (-1) (10000 - conn_slow.elapsed) conn_slow.ETIMEDOUT log
            else .ret 0 (10000 - conn_slow.elapsed) e log) :=
  ⟨Or.inr ⟨rfl, 115, by decide, by decide, rfl⟩,
   (C26_timeout_update conn_slow 10000 0 (by decide)).1
     (Or.inr ⟨rfl, 115, by decide, by decide, rfl⟩)⟩

end SshConnect

namespace SshMain

open SshConnect (NUL)

/-! ## The escape character of `-e` -/

theorem char_at_lt (s : List Char) (beyond : Nat → Char) (i : Nat) (h : i < s.length) :
    char_at s beyond i = s.get ⟨i, h⟩ := by
  unfold char_at
  rw [dif_pos h]

theorem char_at_end (s : List Char) (beyond : Nat → Char) :
    char_at s beyond s.length = NUL := by
  unfold char_at
  rw [dif_neg (Nat.lt_irrefl _), if_pos rfl]

/-- In a C string the only NUL up to its end is the one that ends it. -/
theorem char_at_nul (s : List Char) (beyond : Nat → Char) (hz : ∀ c ∈ s, c ≠ NUL) (i : Nat)
    (hi : i ≤ s.length) : char_at s beyond i = NUL ↔ i = s.length := by
  constructor
  · intro h
    by_contra hne
    have hlt : i < s.length := by omega
    rw [char_at_lt s beyond i hlt] at h
    exact hz _ (List.get_mem s i hlt) h
  · rintro rfl
    exact char_at_end s beyond

/-- The first test of the `case 'e'` holds exactly for `^c` with a `c` from
64 to 127. -/
theorem caret_test (optarg : List Char) (beyond : Nat → Char) (hz : ∀ c ∈ optarg, c ≠ NUL) :
    (char_at optarg beyond 0 = '^' ∧ char_at optarg beyond 2 = NUL ∧
      u_char (char_at optarg beyond 1) ≥ 64 ∧ u_char (char_at optarg beyond 1) < 128) ↔
    ∃ c, optarg = ['^', c] ∧ 64 ≤ u_char c ∧ u_char c < 128 := by
  constructor
  · rintro ⟨h0, h2, h64, h128⟩
    rcases optarg with _ | ⟨a, _ | ⟨b, _ | ⟨c, r⟩⟩⟩
    · rw [show char_at [] beyond 0 = NUL from char_at_end [] beyond] at h0
      exact absurd h0 (by decide)
    · have h1 : char_at [a] beyond 1 = NUL := char_at_end [a] beyond
      rw [h1] at h64
      exact absurd h64 (by decide)
    · have ha : a = '^' := by simpa [char_at] using h0
      subst ha
      exact ⟨b, rfl, by simpa [char_at] using h64, by simpa [char_at] using h128⟩
    · have hc : c = NUL := by simpa [char_at] using h2
      exact absurd hc (hz c (by simp))
  · rintro ⟨c, rfl, h64, h128⟩
    refine ⟨by simp [char_at], char_at_end ['^', c] beyond, ?_, ?_⟩
    · simpa [char_at] using h64
    · simpa [char_at] using h128

/-- **C25.** The argument of `-e` (a C string) is accepted in exactly three
shapes: `^` followed by exactly one character `c` with 64 <= c < 128 gives
the escape character `c AND 31`, a value in 0..31 (so `^A` and `^a` both give
1); any one-character argument gives that character, a lone `^` included;
the word `none` gives the no-escape sentinel `SSH_ESCAPECHAR_NONE`; every
other argument is rejected with "Bad escape character" on `stderr` and exit
status 255.  The byte read past the end of a lone `^` has no influence. -/
theorem C25_escape_char (SSH_ESCAPECHAR_NONE : Int) (optarg : List Char) (beyond : Nat → Char)
    (hz : ∀ c ∈ optarg, c ≠ NUL) :
    (∀ c, optarg = ['^', c] → 64 ≤ u_char c → u_char c < 128 →
      parse_escape SSH_ESCAPECHAR_NONE optarg beyond = .set ((u_char c &&& 31 : Nat) : Int) ∧
      u_char c &&& 31 < 32) ∧
    (∀ c, optarg = [c] →
      parse_escape SSH_ESCAPECHAR_NONE optarg beyond = .set (u_char c : Int)) ∧
    (optarg = "none".toList →
      parse_escape SSH_ESCAPECHAR_NONE optarg beyond = .set SSH_ESCAPECHAR_NONE) ∧
    (¬ (∃ c, optarg = ['^', c] ∧ 64 ≤ u_char c ∧ u_char c < 128) → optarg.length ≠ 1 →
      optarg ≠ "none".toList →
      parse_escape SSH_ESCAPECHAR_NONE optarg beyond =
        .exit ("Bad escape character '" ++ String.mk optarg ++ "'.\n") 255) ∧
    parse_escape SSH_ESCAPECHAR_NONE "^A".toList beyond = .set 1 ∧
    parse_escape SSH_ESCAPECHAR_NONE "^a".toList beyond = .set 1 := by
  have ht := caret_test optarg beyond hz
  refine ⟨?_, ?_, ?_, ?_, ?_, ?_⟩
  · intro c hc h64 h128
    have hcar : char_at optarg beyond 0 = '^' ∧ char_at optarg beyond 2 = NUL ∧
        u_char (char_at optarg beyond 1) ≥ 64 ∧ u_char (char_at optarg beyond 1) < 128 :=
      ht.mpr ⟨c, hc, h64, h128⟩
    refine ⟨?_, ?_⟩
    · unfold parse_escape
      rw [if_pos hcar]
      subst hc
      simp [char_at]
    · exact Nat.lt_of_le_of_lt Nat.and_le_right (by decide)
  · intro c hc
    have hnc : ¬ (char_at optarg beyond 0 = '^' ∧ char_at optarg beyond 2 = NUL ∧
        u_char (char_at optarg beyond 1) ≥ 64 ∧ u_char (char_at optarg beyond 1) < 128) := by
      rw [ht]
      rintro ⟨d, hd, -⟩
      rw [hc] at hd
      exact absurd (congrArg List.length hd) (by simp)
    unfold parse_escape
    rw [if_neg hnc, if_pos (by rw [hc]; rfl)]
    subst hc
    simp [char_at]
  · intro hn
    subst hn
    unfold parse_escape
    rw [if_neg (by
      rintro ⟨h, -⟩
      rw [char_at_lt _ _ 0 (by decide)] at h
      exact absurd h (by decide)), if_neg (by decide), if_pos rfl]
  · intro h1 h2 h3
    unfold parse_escape
    rw [if_neg (by rw [ht]; exact h1), if_neg h2, if_neg h3]
  · have h := (caret_test "^A".toList beyond (by decide)).mpr ⟨'A', rfl, by decide, by decide⟩
    unfold parse_escape
    rw [if_pos h, char_at_lt _ _ 1 (by decide)]
    rfl
  · have h := (caret_test "^a".toList beyond (by decide)).mpr ⟨'a', rfl, by decide, by decide⟩
    unfold parse_escape
    rw [if_pos h, char_at_lt _ _ 1 (by decide)]
    rfl

/-- Witness for C25: `^C` gives 3, a lone `^` gives `^` itself (94), `none`
the sentinel, and `^1` is refused. -/
theorem C25_escape_char_witness :
    parse_escape (-2) "^C".toList (fun _ => 'x') = .set 3 ∧
    parse_escape (-2) "^".toList (fun _ => 'x') = .set 94 ∧
    parse_escape (-2) "none".toList (fun _ => 'x') = .set (-2) ∧
    parse_escape (-2) "^1".toList (fun _ => 'x') =
      .exit "Bad escape character '^1'.\n" 255 :=
  have h := C25_escape_char (-2) "^C".toList (fun _ => 'x') (by decide)
  have g := C25_escape_char (-2) "^".toList (fun _ => 'x') (by decide)
  have n := C25_escape_char (-2) "none".toList (fun _ => 'x') (by decide)
  have b := C25_escape_char (-2) "^1".toList (fun _ => 'x') (by decide)
  ⟨(h.1 'C' rfl (by decide) (by decide)).1, g.2.1 '^' rfl, n.2.2.1 rfl,
   b.2.2.2.1 (by
      rintro ⟨c, hc, h64, -⟩
      have hc1 : c = '1' := by
        have := congrArg (fun l => l.getD 1 'x') hc
        simpa using this.symm
      subst hc1
      exact absurd h64 (by decide)) (by decide) (by decide)⟩

/-! ## The argument `[user@]host` -/

theorem strrchr_none (s : List Char) (c : Char) (h : c ∉ s) : strrchr s c = none := by
  induction s with
  | nil => rfl
  | cons x xs ih =>
    have hx : ¬ x = c := fun e => h (by rw [e]; exact List.mem_cons_self _ _)
    rw [strrchr, ih (fun hm => h (List.mem_cons_of_mem _ hm))]
    dsimp only
    rw [if_neg hx]

/-- The last `c` of a text is found where the text after it holds no `c`. -/
theorem strrchr_last (u h : List Char) (c : Char) (hc : c ∉ h) :
    strrchr (u ++ c :: h) c = some u.length := by
  induction u with
  | nil =>
    rw [List.nil_append, strrchr, strrchr_none h c hc]
    dsimp only
    rw [if_pos rfl]
    rfl
  | cons x u ih =>
    rw [List.cons_append, strrchr, ih]
    rfl

/-- **C23.** For every first positional argument (no host known yet, not
starting with `-`) that contains `@` with at least one character before its
last `@`, parsing sets the user to the text before the last `@` and the host
to the text after it: user, `@` and host concatenate back to the argument and
the host contains no `@`.  For an argument without `@` the host is the
argument unchanged and the user option is not touched.  An argument whose only
`@` is its first character is rejected with the usage error.  When more
arguments follow, the option loop is entered again with the arguments as they
are; otherwise the argument is consumed. -/
theorem C23_user_host_split (arg : List Char) (rest : List (List Char))
    (user : Option (List Char)) (hpos : char_at arg (fun _ => NUL) 0 ≠ '-') :
    (∀ u h, arg = u ++ '@' :: h → '@' ∉ h → u ≠ [] →
      host_argument (arg :: rest) none user =
        (if rest.length + 1 > 1 then .go (some u) (some h) (arg :: rest) true
         else .go (some u) (some h) rest false)) ∧
    ('@' ∉ arg →
      host_argument (arg :: rest) none user =
        (if rest.length + 1 > 1 then .go user (some arg) (arg :: rest) true
         else .go user (some arg) rest false)) ∧
    (∀ h, arg = '@' :: h → '@' ∉ h → host_argument (arg :: rest) none user = .usage) := by
  have hcons : host_argument (arg :: rest) none user =
      match strrchr arg '@' with
      | some cp =>
        if cp = 0 then .usage
        else if rest.length + 1 > 1 then
          .go (some (arg.take cp)) (some (arg.drop (cp + 1))) (arg :: rest) true
        else .go (some (arg.take cp)) (some (arg.drop (cp + 1))) rest false
      | none =>
        if rest.length + 1 > 1 then .go user (some arg) (arg :: rest) true
        else .go user (some arg) rest false := by
    unfold host_argument
    dsimp only
    rw [if_pos (show (none : Option (List Char)) = none ∧
      char_at arg (fun _ => NUL) 0 ≠ '-' from ⟨rfl, hpos⟩)]
  rw [hcons]
  refine ⟨?_, ?_, ?_⟩
  · intro u h harg hh hu
    have hl := strrchr_last u h '@' hh
    have hlen : u.length ≠ 0 := fun e => hu (List.length_eq_zero.mp e)
    rw [harg, hl]
    dsimp only
    have hd : List.drop (u.length + 1) (u ++ '@' :: h) = h := by
      have e : u ++ '@' :: h = (u ++ ['@']) ++ h := by simp
      rw [e]
      exact List.drop_left' (by simp)
    rw [if_neg hlen, List.take_left, hd]
  · intro hno
    rw [strrchr_none arg '@' hno]
  · intro h harg hh
    have hl := strrchr_last [] h '@' hh
    rw [List.nil_append] at hl
    rw [harg, hl]
    rfl

/-- Witness for C23: `bob@a@example.org` is split at its last `@`. -/
theorem C23_user_host_split_witness :
    host_argument ["bob@a@example.org".toList] none none =
      .go (some "bob@a".toList) (some "example.org".toList) [] false :=
  (C23_user_host_split "bob@a@example.org".toList [] none (by decide)).1
    "bob@a".toList "example.org".toList rfl (by decide) (by decide)

/-! ## The command buffer -/

theorem command_loop_next (av : List (List Char)) :
    ∀ (i : Nat) (buf : List Char), i ≠ 0 →
      command_loop av i buf = buf ++ (av.map (fun t => ' ' :: t)).flatten := by
  induction av with
  | nil =>
    intro i buf _
    simp [command_loop]
  | cons a av ih =>
    intro i buf hi
    rw [command_loop, if_pos hi, ih (i + 1) _ (by omega)]
    simp

theorem command_loop_first (a : List Char) (av : List (List Char)) :
    command_loop (a :: av) 0 [] = a ++ (av.map (fun t => ' ' :: t)).flatten := by
  rw [command_loop, if_neg (by decide), command_loop_next av 1 _ (by decide)]
  simp

theorem intercalate_space (a : List Char) (av : List (List Char)) :
    List.intercalate [' '] (a :: av) = a ++ (av.map (fun t => ' ' :: t)).flatten := by
  induction av generalizing a with
  | nil => simp [List.intercalate, List.intersperse]
  | cons b av ih =>
    have h := ih b
    simp only [List.intercalate, List.intersperse, List.flatten_cons, List.map_cons] at h ⊢
    rw [h]
    simp

theorem flatten_space_length (av : List (List Char)) :
    ((av.map (fun t => ' ' :: t)).flatten).length = (av.map List.length).sum + av.length := by
  induction av with
  | nil => rfl
  | cons a av ih =>
    simp only [List.map_cons, List.flatten_cons, List.length_append, List.length_cons,
      List.sum_cons, ih]
    omega

/-- **C24.** For every non-empty list of command tokens following the host,
the remote command buffer equals the tokens concatenated in order with
exactly one space between consecutive tokens and none at either end (the
tokens joined by a single space), so its length is the sum of the token
lengths plus the number of tokens minus one; with no tokens the buffer is
empty. -/
theorem C24_command_join (av : List (List Char)) :
    (av ≠ [] →
      command_loop av 0 [] = List.intercalate [' '] av ∧
      (∀ a rest, av = a :: rest →
        command_loop av 0 [] = a ++ (rest.map (fun t => ' ' :: t)).flatten) ∧
      (command_loop av 0 []).length = (av.map List.length).sum + (av.length - 1)) ∧
    (av = [] → command_loop av 0 [] = []) ∧
    (∀ f host isatty_stdin g command log,
      command_and_tty f host av isatty_stdin = .go g command log →
      command = command_loop av 0 []) := by
  refine ⟨?_, ?_, ?_⟩
  · intro hne
    obtain ⟨a, rest, rfl⟩ := List.exists_cons_of_ne_nil hne
    refine ⟨?_, ?_, ?_⟩
    · rw [command_loop_first, intercalate_space]
    · intro b rest' hb
      obtain ⟨rfl, rfl⟩ := List.cons.inj hb
      exact command_loop_first a rest
    · rw [command_loop_first, List.length_append, flatten_space_length]
      simp only [List.map_cons, List.sum_cons, List.length_cons]
      omega
  · rintro rfl
    rfl
  · intro f host isatty_stdin g command log h
    unfold command_and_tty at h
    by_cases hh : host = none
    · rw [if_pos hh] at h
      exact TtyOut.noConfusion h
    · rw [if_neg hh] at h
      by_cases hav : av.length = 0
      · rw [if_pos hav] at h
        have hnil : av = [] := List.length_eq_zero.mp hav
        subst hnil
        by_cases hs : f.subsystem_flag ≠ 0
        · rw [if_pos hs] at h
          exact TtyOut.noConfusion h
        · rw [if_neg hs] at h
          unfold tty_decision at h
          dsimp only at h
          split_ifs at h <;> first | exact TtyOut.noConfusion h | (injection h with _ h2 _; exact h2.symm)
      · rw [if_neg hav] at h
        unfold tty_decision at h
        dsimp only at h
        split_ifs at h <;> first | exact TtyOut.noConfusion h | (injection h with _ h2 _; exact h2.symm)

/-- Witness for C24: `ls -l /tmp` from its three tokens, ten bytes. -/
theorem C24_command_join_witness :
    command_loop ["ls".toList, "-l".toList, "/tmp".toList] 0 [] = "ls -l /tmp".toList ∧
    (command_loop ["ls".toList, "-l".toList, "/tmp".toList] 0 []).length = 2 + 2 + 4 + (3 - 1) :=
  have h := (C24_command_join ["ls".toList, "-l".toList, "/tmp".toList]).1 (by decide)
  ⟨h.1.trans (by decide), h.2.2⟩

end SshMain

namespace SshMain

/-! ## The pseudo-terminal decision -/

/-- What one option does to the flags. -/
theorem option_case_spec (o : Char) (f : Flags) :
    ((option_case o f).tty_flag ≠ 0 ↔ f.tty_flag ≠ 0 ∨ o = 't') ∧
    ((option_case o f).force_tty_flag ≠ 0 ↔ f.force_tty_flag ≠ 0 ∨ (o = 't' ∧ f.tty_flag ≠ 0)) ∧
    ((option_case o f).no_tty_flag ≠ 0 ↔ f.no_tty_flag ≠ 0 ∨ o = 'T' ∨ o = 'N') ∧
    ((option_case o f).stdin_null_flag ≠ 0 ↔ f.stdin_null_flag ≠ 0 ∨ o = 'n' ∨ o = 'f') ∧
    ((option_case o f).no_shell_flag ≠ 0 ↔ f.no_shell_flag ≠ 0 ∨ o = 'N') ∧
    ((option_case o f).fork_after_authentication_flag ≠ 0 ↔
      f.fork_after_authentication_flag ≠ 0 ∨ o = 'f') ∧
    ((option_case o f).subsystem_flag ≠ 0 ↔ f.subsystem_flag ≠ 0 ∨ o = 's') := by
  unfold option_case
  by_cases h1 : o = 'n'
  · subst h1; simp
  rw [if_neg h1]
  by_cases h2 : o = 'f'
  · subst h2; simp
  rw [if_neg h2]
  by_cases h3 : o = 't'
  · subst h3
    rw [if_pos rfl]
    by_cases ht : f.tty_flag ≠ 0
    · rw [if_pos ht]; simp [ht]
    · rw [if_neg ht]; simp [ht]
  rw [if_neg h3]
  by_cases h4 : o = 'N'
  · subst h4; simp
  rw [if_neg h4]
  by_cases h5 : o = 'T'
  · subst h5; simp
  rw [if_neg h5]
  by_cases h6 : o = 's'
  · subst h6; simp
  rw [if_neg h6]
  simp [h1, h2, h3, h4, h5, h6]

/-- The flags after the option loop, from any flags before it. -/
theorem option_loop_spec (opts : List Char) :
    ∀ f : Flags,
      ((option_loop opts f).tty_flag ≠ 0 ↔ f.tty_flag ≠ 0 ∨ 1 ≤ opts.count 't') ∧
      ((option_loop opts f).force_tty_flag ≠ 0 ↔
        f.force_tty_flag ≠ 0 ∨ (f.tty_flag ≠ 0 ∧ 1 ≤ opts.count 't') ∨ 2 ≤ opts.count 't') ∧
      ((option_loop opts f).no_tty_flag ≠ 0 ↔ f.no_tty_flag ≠ 0 ∨ 'T' ∈ opts ∨ 'N' ∈ opts) ∧
      ((option_loop opts f).stdin_null_flag ≠ 0 ↔
        f.stdin_null_flag ≠ 0 ∨ 'n' ∈ opts ∨ 'f' ∈ opts) ∧
      ((option_loop opts f).no_shell_flag ≠ 0 ↔ f.no_shell_flag ≠ 0 ∨ 'N' ∈ opts) ∧
      ((option_loop opts f).fork_after_authentication_flag ≠ 0 ↔
        f.fork_after_authentication_flag ≠ 0 ∨ 'f' ∈ opts) ∧
      ((option_loop opts f).subsystem_flag ≠ 0 ↔ f.subsystem_flag ≠ 0 ∨ 's' ∈ opts) := by
  induction opts with
  | nil =>
    intro f
    simp [option_loop]
  | cons o opts ih =>
    intro f
    have hstep : option_loop (o :: opts) f = option_loop opts (option_case o f) := rfl
    obtain ⟨c1, c2, c3, c4, c5, c6, c7⟩ := option_case_spec o f
    obtain ⟨i1, i2, i3, i4, i5, i6, i7⟩ := ih (option_case o f)
    rw [hstep]
    have hcount : (o :: opts).count 't' = opts.count 't' + (if o = 't' then 1 else 0) := by
      rw [List.count_cons]
      by_cases ho : o = 't'
      · simp [ho]
      · simp [ho]
    refine ⟨?_, ?_, ?_, ?_, ?_, ?_, ?_⟩
    · rw [i1, c1, hcount]
      by_cases ho : o = 't'
      · simp [ho]
      · simp [ho]
    · rw [i2, c2, c1, hcount]
      by_cases ho : o = 't'
      · simp only [ho, if_true, true_and, or_true]
        omega
      · simp only [ho, if_false, false_and, or_false, Nat.add_zero]
    · rw [i3, c3]
      simp only [List.mem_cons]
      constructor
      · rintro ((h | h | h) | h | h)
        · exact Or.inl h
        · exact Or.inr (Or.inl (Or.inl h.symm))
        · exact Or.inr (Or.inr (Or.inl h.symm))
        · exact Or.inr (Or.inl (Or.inr h))
        · exact Or.inr (Or.inr (Or.inr h))
      · rintro (h | (h | h) | (h | h))
        · exact Or.inl (Or.inl h)
        · exact Or.inl (Or.inr (Or.inl h.symm))
        · exact Or.inr (Or.inl h)
        · exact Or.inl (Or.inr (Or.inr h.symm))
        · exact Or.inr (Or.inr h)
    · rw [i4, c4]
      simp only [List.mem_cons]
      constructor
      · rintro ((h | h | h) | h | h)
        · exact Or.inl h
        · exact Or.inr (Or.inl (Or.inl h.symm))
        · exact Or.inr (Or.inr (Or.inl h.symm))
        · exact Or.inr (Or.inl (Or.inr h))
        · exact Or.inr (Or.inr (Or.inr h))
      · rintro (h | (h | h) | (h | h))
        · exact Or.inl (Or.inl h)
        · exact Or.inl (Or.inr (Or.inl h.symm))
        · exact Or.inr (Or.inl h)
        · exact Or.inl (Or.inr (Or.inr h.symm))
        · exact Or.inr (Or.inr h)
    · rw [i5, c5]
      simp only [List.mem_cons]
      constructor
      · rintro ((h | h) | h)
        · exact Or.inl h
        · exact Or.inr (Or.inl h.symm)
        · exact Or.inr (Or.inr h)
      · rintro (h | h | h)
        · exact Or.inl (Or.inl h)
        · exact Or.inl (Or.inr h.symm)
        · exact Or.inr h
    · rw [i6, c6]
      simp only [List.mem_cons]
      constructor
      · rintro ((h | h) | h)
        · exact Or.inl h
        · exact Or.inr (Or.inl h.symm)
        · exact Or.inr (Or.inr h)
      · rintro (h | h | h)
        · exact Or.inl (Or.inl h)
        · exact Or.inl (Or.inr h.symm)
        · exact Or.inr h
    · rw [i7, c7]
      simp only [List.mem_cons]
      constructor
      · rintro ((h | h) | h)
        · exact Or.inl h
        · exact Or.inr (Or.inl h.symm)
        · exact Or.inr (Or.inr h)
      · rintro (h | h | h)
        · exact Or.inl (Or.inl h)
        · exact Or.inl (Or.inr h.symm)
        · exact Or.inr h

/-- The flag `tty_flag` after lines 594-607. -/
theorem tty_decision_spec (f : Flags) (command : List Char) (isatty_stdin : Bool) (g : Flags)
    (c : List Char) (log : List String)
    (h : tty_decision f command isatty_stdin = .go g c log) :
    c = command ∧
    (g.tty_flag ≠ 0 ↔
      (f.tty_flag ≠ 0 ∨ command = []) ∧ ¬ f.no_tty_flag ≠ 0 ∧
        (f.force_tty_flag ≠ 0 ∨ (isatty_stdin = true ∧ ¬ f.stdin_null_flag ≠ 0))) ∧
    (g.tty_flag = 0 ∨ g.tty_flag = f.tty_flag ∨ g.tty_flag = 1) ∧
    g.force_tty_flag = f.force_tty_flag ∧ g.no_tty_flag = f.no_tty_flag ∧
    g.stdin_null_flag = f.stdin_null_flag := by
  have hc0 : command.length = 0 ↔ command = [] := List.length_eq_zero
  unfold tty_decision at h
  by_cases hf : f.fork_after_authentication_flag ≠ 0 ∧ command.length = 0 ∧ f.no_shell_flag = 0
  · rw [if_pos hf] at h
    exact TtyOut.noConfusion h
  rw [if_neg hf] at h
  dsimp only at h
  by_cases hi : isatty_stdin = true
  · by_cases hc : command.length = 0 <;> by_cases hn : f.no_tty_flag ≠ 0 <;>
      by_cases hs : f.stdin_null_flag ≠ 0 <;> by_cases hfo : f.force_tty_flag = 0 <;>
      by_cases ht : f.tty_flag ≠ 0 <;>
      simp only [hc, hn, hs, hfo, hi, ht, if_true, if_false, ne_eq, not_true_eq_false,
        not_false_eq_true, and_true, and_false, or_true, or_false, true_and, false_and,
        true_or, false_or, Bool.true_eq_false, one_ne_zero] at h <;>
      injection h with h1 h2 _ <;> subst h1 <;> simp_all
  · have hi' : isatty_stdin = false := by simpa using hi
    by_cases hc : command.length = 0 <;> by_cases hn : f.no_tty_flag ≠ 0 <;>
      by_cases hs : f.stdin_null_flag ≠ 0 <;> by_cases hfo : f.force_tty_flag = 0 <;>
      by_cases ht : f.tty_flag ≠ 0 <;>
      simp only [hc, hn, hs, hfo, hi', ht, if_true, if_false, ne_eq, not_true_eq_false,
        not_false_eq_true, and_true, and_false, or_true, or_false, true_and, false_and,
        true_or, false_or, Bool.false_eq_true, one_ne_zero] at h <;>
      injection h with h1 h2 _ <;> subst h1 <;> simp_all

theorem option_case_tty01 (o : Char) (f : Flags) (h : f.tty_flag = 0 ∨ f.tty_flag = 1) :
    (option_case o f).tty_flag = 0 ∨ (option_case o f).tty_flag = 1 := by
  unfold option_case
  split_ifs <;> first | exact h | exact Or.inr rfl

theorem option_loop_tty01 (opts : List Char) :
    ∀ f : Flags, (f.tty_flag = 0 ∨ f.tty_flag = 1) →
      (option_loop opts f).tty_flag = 0 ∨ (option_loop opts f).tty_flag = 1 := by
  induction opts with
  | nil => intro f h; exact h
  | cons o opts ih =>
    intro f h
    exact ih (option_case o f) (option_case_tty01 o f h)

/-- **C29.** Whenever `main` gets past the pseudo-terminal decision of lines
571-607 (no usage error, no fatal error), the flag `tty_flag` it leaves is the
boolean function
`(t_given OR command_empty) AND NOT no_tty AND (force_tty OR (stdin_is_tty AND NOT stdin_null))`
of the options given, where `t_given` is one or more `-t`, `force_tty` two or
more `-t`, `no_tty` is `-T` or `-N` and `stdin_null` is `-n` or `-f`.  In
particular `-T` or `-N` wins over any number of `-t`, and a single `-t` never
yields a tty when stdin is not a terminal. -/
theorem C29_tty_decision (opts : List Char) (host : Option (List Char))
    (av : List (List Char)) (isatty_stdin : Bool) (g : Flags) (command : List Char)
    (log : List String)
    (h : command_and_tty (option_loop opts flags0) host av isatty_stdin = .go g command log) :
    (g.tty_flag ≠ 0 ↔
      (1 ≤ opts.count 't' ∨ command = []) ∧ ¬ ('T' ∈ opts ∨ 'N' ∈ opts) ∧
      (2 ≤ opts.count 't' ∨ (isatty_stdin = true ∧ ¬ ('n' ∈ opts ∨ 'f' ∈ opts)))) ∧
    (g.tty_flag = 0 ∨ g.tty_flag = 1) ∧
    (('T' ∈ opts ∨ 'N' ∈ opts) → g.tty_flag = 0) ∧
    (opts.count 't' = 1 → isatty_stdin = false → g.tty_flag = 0) := by
  obtain ⟨o1, o2, o3, o4, -, -, -⟩ := option_loop_spec opts flags0
  have z1 : ¬ flags0.tty_flag ≠ 0 := by decide
  have z2 : ¬ flags0.force_tty_flag ≠ 0 := by decide
  have z3 : ¬ flags0.no_tty_flag ≠ 0 := by decide
  have z4 : ¬ flags0.stdin_null_flag ≠ 0 := by decide
  simp only [z1, z2, z3, z4, false_or, false_and] at o1 o2 o3 o4
  have h01 := option_loop_tty01 opts flags0 (Or.inl rfl)
  have key : (g.tty_flag ≠ 0 ↔
      (1 ≤ opts.count 't' ∨ command = []) ∧ ¬ ('T' ∈ opts ∨ 'N' ∈ opts) ∧
      (2 ≤ opts.count 't' ∨ (isatty_stdin = true ∧ ¬ ('n' ∈ opts ∨ 'f' ∈ opts)))) ∧
      (g.tty_flag = 0 ∨ g.tty_flag = 1) := by
    unfold command_and_tty at h
    by_cases hh : host = none
    · rw [if_pos hh] at h
      exact TtyOut.noConfusion h
    rw [if_neg hh] at h
    by_cases hav : av.length = 0
    · rw [if_pos hav] at h
      by_cases hs : (option_loop opts flags0).subsystem_flag ≠ 0
      · rw [if_pos hs] at h
        exact TtyOut.noConfusion h
      rw [if_neg hs] at h
      obtain ⟨hc, hiff, h3, -⟩ := tty_decision_spec _ _ _ _ _ _ h
      dsimp only at hiff h3
      rw [o2, o3, o4] at hiff
      refine ⟨?_, ?_⟩
      · rw [hiff, hc]
        simp
      · rcases h3 with h3 | h3 | h3
        · exact Or.inl h3
        · exact Or.inr h3
        · exact Or.inr h3
    · rw [if_neg hav] at h
      obtain ⟨hc, hiff, h3, -⟩ := tty_decision_spec _ _ _ _ _ _ h
      rw [o1, o2, o3, o4, ← hc] at hiff
      refine ⟨hiff, ?_⟩
      rcases h3 with h3 | h3 | h3
      · exact Or.inl h3
      · rw [h3]; exact h01
      · exact Or.inr h3
  refine ⟨key.1, key.2, ?_, ?_⟩
  · intro hT
    by_contra hne
    exact (key.1.mp hne).2.1 hT
  · intro h1 hi
    by_contra hne
    rcases (key.1.mp hne).2.2 with h2 | ⟨h2, -⟩
    · omega
    · rw [hi] at h2
      exact absurd h2 (by decide)

/-- Witness for C29: `-t -T` with a terminal on stdin and no command leaves
no tty. -/
theorem C29_tty_decision_witness :
    command_and_tty (option_loop "tT".toList flags0) (some "h".toList) [] true =
      .go ⟨0, 1, 0, 0, 0, 0, 0⟩ [] [] ∧
    (⟨0, 1, 0, 0, 0, 0, 0⟩ : Flags).tty_flag = 0 :=
  ⟨rfl, (C29_tty_decision "tT".toList (some "h".toList) [] true ⟨0, 1, 0, 0, 0, 0, 0⟩ [] [] rfl).2.2.1
    (Or.inl (by decide))⟩

end SshMain

namespace SshMain

/-! ## The session of protocol 2 -/

/-- Counterexample to C22 as stated: with a tty, X11 forwarding and agent
forwarding asked for, `ssh_session2_setup` emits the X11 request and the
agent request first and the pty request, issued inside
`client_session2_setup`, after both. -/
theorem C22_counterexample :
    (ssh_session2_setup menv0 0 mst_tXA).trace =
      [.x11_get_proto ":0",
       .debug "Requesting X11 forwarding with authentication spoofing.",
       .x11_request 0 ":0" "MIT-MAGIC-COOKIE-1" "00",
       .debug "Requesting authentication agent forwarding.",
       .channel_request 0 "auth-agent-req@openssh.com",
       .channel_request 0 "pty-req",
       .channel_request 0 "shell",
       .set_interactive 1] := by
  decide

/-- **C22 (amended).** On the v2 session path `ssh_session2_setup` emits,
in this order: the X11 request (when X11 forwarding is on and `DISPLAY` is
set), the agent-forwarding request (when agent forwarding is on and an agent
is present), and then whatever `client_session2_setup` emits for the channel
(the pty request, the environment items, then exec/subsystem/shell).  So the
pty request is never emitted before the X11 or the agent-forwarding request.
`client_session2_setup` is called with the flags `tty_flag` and
`subsystem_flag`, `TERM`, the command and the environment. -/
theorem C22_setup_order (E : MEnv) (id : Int) (s : MSt) :
    (ssh_session2_setup E id s).trace =
      s.trace ++
      (match E.DISPLAY with
        | some display =>
          if s.options.forward_x11 ≠ 0 then
            [.x11_get_proto display,
             .debug "Requesting X11 forwarding with authentication spoofing.",
             .x11_request id display
               (E.client_x11_get_proto display s.options.xauth_location
                 s.options.forward_x11_trusted).1
               (E.client_x11_get_proto display s.options.xauth_location
                 s.options.forward_x11_trusted).2]
          else []
        | none => []) ++
      (if s.options.forward_agent ≠ 0 ∧ E.ssh_agent_present = true then
        [.debug "Requesting authentication agent forwarding.",
         .channel_request id "auth-agent-req@openssh.com"]
       else []) ++
      E.client_session2_setup id s.flags.tty_flag s.flags.subsystem_flag E.TERM s.command
        E.environ ++
      [.set_interactive
        (if E.DISPLAY.isSome = true ∧ s.options.forward_x11 ≠ 0 then 1 else s.flags.tty_flag)] := by
  unfold ssh_session2_setup check_agent_present
  cases hd : E.DISPLAY with
  | none =>
    dsimp only
    by_cases ha : s.options.forward_agent ≠ 0
    · by_cases hp : E.ssh_agent_present = true
      · have hp' : ¬ (E.ssh_agent_present = false) := by simp [hp]
        simp [MSt.emit, ha, hp]
      · have hp' : E.ssh_agent_present = false := by simpa using hp
        simp [MSt.emit, ha, hp']
    · simp [MSt.emit, ha]
  | some display =>
    dsimp only
    by_cases hx : s.options.forward_x11 ≠ 0
    · by_cases ha : s.options.forward_agent ≠ 0
      · by_cases hp : E.ssh_agent_present = true
        · simp [MSt.emit, ha, hp, hx]
        · have hp' : E.ssh_agent_present = false := by simpa using hp
          simp [MSt.emit, ha, hp', hx]
      · simp [MSt.emit, ha, hx]
    · by_cases ha : s.options.forward_agent ≠ 0
      · by_cases hp : E.ssh_agent_present = true
        · simp [MSt.emit, ha, hp, hx]
        · have hp' : E.ssh_agent_present = false := by simpa using hp
          simp [MSt.emit, ha, hp', hx]
      · simp [MSt.emit, ha, hx]

theorem ssh_session2_mid_frame (E : MEnv) (s : MSt) :
    (ssh_session2_mid E s).flags = s.flags ∧
    (ssh_session2_mid E s).remote_forward_confirms_received =
      s.remote_forward_confirms_received := by
  unfold ssh_session2_mid
  dsimp only [MSt.emit]
  cases hl : s.options.local_command <;>
    by_cases h1 : s.options.control_master = E.SSHCTL_MASTER_NO ∧
      s.datafellows &&& E.SSH_NEW_OPENSSH ≠ 0 <;>
    by_cases h2 : s.options.permit_local_command ≠ 0 <;>
    simp [hl, h1, h2]

/-- The call of `daemon` in `ssh_session2` is guarded by the flag alone. -/
theorem ssh_session2_rest_daemon (E : MEnv) (id : Int) (s : MSt)
    (hf : s.flags.fork_after_authentication_flag ≠ 0) :
    Act.daemon ∈ (ssh_session2_rest E id s).2.trace ∧
    (ssh_session2_rest E id s).2.remote_forward_confirms_received =
      s.remote_forward_confirms_received ∧
    (ssh_session2_rest E id s).2.flags.fork_after_authentication_flag = 0 := by
  obtain ⟨m1, m2⟩ := ssh_session2_mid_frame E s
  unfold ssh_session2_rest ssh_session2_fork
  generalize ssh_session2_mid E s = t at m1 m2
  rw [if_pos (by rw [m1]; exact hf)]
  dsimp only
  by_cases hd : E.daemon < 0
  · rw [if_pos hd]
    exact ⟨by simp [MSt.emit], m2, rfl⟩
  · rw [if_neg hd]
    exact ⟨by simp [MSt.emit], m2, rfl⟩

/-- **C21.** On the v2 path the daemonization is not deferred: for
`ssh -f -R 0:localhost:22 -o ExitOnForwardFailure=yes host sleep 60`,
`ssh_session2` calls `daemon` before it enters `client_loop`, when no confirm
for the remote forward has been received (the counter is 0 and the callback is
only registered); the failure reply that arrives afterwards is fatal in the
process already in the background, and a success reply finds the flag cleared
and calls nothing.  The call is made whenever the flag is set, whatever
`exit_on_forward_failure` and the remote forwards are. -/
theorem C21_daemon_before_confirms :
    ssh_session2 menv0 mst_fR =
      (.returned,
        { mst_fR with
          flags := { mst_fR.flags with fork_after_authentication_flag := 0 }
          trace :=
            [.debug "Remote connections from LOCALHOST:0 forwarded to local address localhost:22",
             .remote_fwd_request fwd0,
             .register_global_confirm fwd0,
             .channel_new 0 2097152 32768,
             .debug "ssh_session2_open: channel_new: 0",
             .register_open_confirm 0,
             .muxserver_listen,
             .daemon,
             .client_loop 0 (-2) 0] }) ∧
    (ssh_session2 menv0 mst_fR).2.remote_forward_confirms_received = 0 ∧
    (ssh_confirm_remote_forward menv0 menv0.SSH2_MSG_REQUEST_FAILURE fwd0
      (ssh_session2 menv0 mst_fR).2).1 =
        .fatal "Error: remote port forwarding failed for listen port 0" ∧
    Act.daemon ∉ ((ssh_confirm_remote_forward menv0 menv0.SSH2_MSG_REQUEST_SUCCESS fwd0
      (ssh_session2 menv0 mst_fR).2).2.trace.drop (ssh_session2 menv0 mst_fR).2.trace.length) ∧
    (∀ (E : MEnv) (id : Int) (s : MSt), s.flags.fork_after_authentication_flag ≠ 0 →
      Act.daemon ∈ (ssh_session2_rest E id s).2.trace ∧
      (ssh_session2_rest E id s).2.remote_forward_confirms_received =
        s.remote_forward_confirms_received) := by
  refine ⟨by decide, by decide, by decide, by decide, fun E id s hf => ?_⟩
  exact ⟨(ssh_session2_rest_daemon E id s hf).1, (ssh_session2_rest_daemon E id s hf).2.1⟩

end SshMain

namespace SshConnect

/-! ## The segments of the banner reader -/

theorem counted_cons (c : Char) (l : List Char) :
    counted (c :: l) = counted l + (if c ≠ '\r' ∧ c ≠ '\n' then 1 else 0) := by
  unfold counted
  by_cases h : c ≠ '\r' ∧ c ≠ '\n'
  · rw [List.filter_cons_of_pos (by simpa using h), if_pos h]
    rfl
  · rw [List.filter_cons_of_neg (by simpa using h), if_neg h]
    rfl

theorem counted_append (a b : List Char) : counted (a ++ b) = counted a + counted b := by
  unfold counted
  rw [List.filter_append, List.length_append]

theorem counted_le (l : List Char) : counted l ≤ l.length := by
  unfold counted
  exact List.length_filter_le _ _

/-- A pass that gets a byte goes on as if the byte had come without trouble. -/
theorem read_loop_delivered (t : Int) (e : ReadEv) (c : Char) (rest : List ReadEv)
    (buf : List Char) (n : Nat) (tr : List Event) (h : delivered t e = some c) :
    read_loop t (e :: rest) buf n tr = read_loop t (ReadEv.ok c :: rest) buf n tr := by
  obtain ⟨sel, rd⟩ := e
  unfold delivered at h
  by_cases ht : t > 0
  · by_cases hs : sel = .ready
    · subst hs
      cases rd with
      | byte d =>
        simp at h
        subst h
        rfl
      | closed => simp at h
      | failed err => simp at h
    · rw [if_pos ⟨ht, hs⟩] at h
      exact Option.noConfusion h
  · rw [if_neg (fun hc => ht hc.1)] at h
    cases rd with
    | byte d =>
      simp at h
      subst h
      rw [read_loop, read_loop]
      simp [ht, ReadEv.ok]
    | closed => simp at h
    | failed err => simp at h

/-- A pass that gets no byte ends the read loop with a fatal error. -/
theorem read_loop_undelivered (t : Int) (e : ReadEv) (rest : List ReadEv)
    (buf : List Char) (n : Nat) (tr : List Event) (h : delivered t e = none) :
    ∃ msg, (read_loop t (e :: rest) buf n tr).res = .fatal msg := by
  obtain ⟨sel, rd⟩ := e
  unfold delivered at h
  rw [read_loop]
  by_cases ht : t > 0
  · cases sel with
    | ready =>
      cases rd with
      | byte d => simp [ht] at h
      | closed => simp [ht]
      | failed err => simp [ht]
    | timed_out => simp [ht]
    | failed err => simp [ht]
  · cases rd with
    | byte d => simp [ht] at h
    | closed => simp [ht]
    | failed err => simp [ht]

/-- Bytes other than LF are stored one after the other, CR as LF, while the
buffer has room. -/
theorem read_loop_run (t : Int) (l : List Char) (hl : '\n' ∉ l) :
    ∀ (rest : List ReadEv) (buf : List Char) (n : Nat) (tr : List Event),
      buf.length + l.length < 255 → n + counted l ≤ 65536 →
      read_loop t (bytes l ++ rest) buf n tr =
        read_loop t rest (buf ++ l.map store) (n + counted l) tr := by
  induction l with
  | nil =>
    intro rest buf n tr _ _
    simp [bytes, counted]
  | cons c l ih =>
    intro rest buf n tr hb hn
    have hc : c ≠ '\n' := fun e => hl (by rw [e]; exact List.mem_cons_self _ _)
    have hl' : '\n' ∉ l := fun hm => hl (List.mem_cons_of_mem _ hm)
    have hstep : bytes (c :: l) ++ rest = ReadEv.ok c :: (bytes l ++ rest) := rfl
    simp only [List.length_cons] at hb
    rw [counted_cons] at hn
    rw [hstep, read_loop_ok, counted_cons]
    by_cases hr : c = '\r'
    · rw [if_pos hr, if_pos (by simp only [List.length_append, List.length_singleton]; omega),
        ih hl' rest (buf ++ ['\n']) n tr
          (by simp only [List.length_append, List.length_singleton]; omega)
          (by rw [if_neg (fun h => h.1 hr)] at hn; omega),
        if_neg (fun h => h.1 hr)]
      have e1 : buf ++ ['\n'] ++ l.map store = buf ++ (c :: l).map store := by
        simp [store, hr]
      rw [e1, Nat.add_zero]
    · rw [if_pos ⟨hr, hc⟩] at hn
      rw [if_neg hr, if_neg hc, if_neg (by omega),
        if_pos (by simp only [List.length_append, List.length_singleton]; omega),
        ih hl' rest (buf ++ [c]) (n + 1) tr
          (by simp only [List.length_append, List.length_singleton]; omega) (by omega),
        if_pos ⟨hr, hc⟩]
      have e1 : buf ++ [c] ++ l.map store = buf ++ (c :: l).map store := by
        simp [store, hr]
      have e2 : n + 1 + counted l = n + (counted l + 1) := by omega
      rw [e1, e2]

/-- One segment read from an empty buffer: it is accepted when what is stored
of it begins with `SSH-`, and discarded otherwise. -/
theorem read_loop_segment (t : Int) (p : List Char) (hp : IsSegment p) (rest : List ReadEv)
    (n : Nat) (tr : List Event) (hn : n + counted p ≤ 65536) :
    read_loop t (bytes p ++ rest) [] n tr =
      if (p.map store).take 4 = ['S', 'S', 'H', '-'] then
        ⟨.line (p.map store), n + counted p, rest, tr⟩
      else read_loop t rest [] (n + counted p) (tr ++ [discarded (p.map store)]) := by
  have hsplit : ∃ q c, p = q ++ [c] ∧ '\n' ∉ q ∧ q.length < 255 ∧
      (c = '\n' ∨ (c ≠ '\n' ∧ q.length = 254)) := by
    rcases hp with ⟨h1, h2, h3⟩ | ⟨h1, h2⟩
    · have hne : p ≠ [] := by
        rintro rfl
        simp at h1
      have hd := List.dropLast_append_getLast? '\n' (by simpa using h1)
      refine ⟨p.dropLast, '\n', hd.symm, h2, ?_, Or.inl rfl⟩
      have := congrArg List.length hd
      simp only [List.length_append, List.length_singleton] at this
      omega
    · have hne : p ≠ [] := by
        rintro rfl
        simp at h1
      have hd := List.dropLast_append_getLast hne
      refine ⟨p.dropLast, p.getLast hne, hd.symm, ?_, ?_, Or.inr ⟨?_, ?_⟩⟩
      · exact fun hm => h2 (List.mem_of_mem_dropLast hm)
      · simp only [List.length_dropLast]; omega
      · exact fun e => h2 (by rw [← e]; exact List.getLast_mem hne)
      · simp only [List.length_dropLast]; omega
  obtain ⟨q, c, rfl, hq, hqlen, hc⟩ := hsplit
  have e : bytes (q ++ [c]) ++ rest = bytes q ++ (ReadEv.ok c :: rest) := by
    simp [bytes]
  rw [counted_append] at hn
  have hcc : counted [c] = if c ≠ '\r' ∧ c ≠ '\n' then 1 else 0 := by
    rw [counted_cons]
    simp [counted]
  rw [e, read_loop_run t q hq _ [] n tr (by simpa using hqlen) (by omega), read_loop_ok,
    List.nil_append, List.map_append, List.map_singleton, counted_append]
  have hlen : (q.map store ++ ['\n']).length = q.length + 1 := by simp
  rcases hc with rfl | ⟨hcn, h254⟩
  · have h0 : counted ['\n'] = 0 := by decide
    have hs : store '\n' = '\n' := by decide
    rw [h0, hs, if_neg (show ¬ ('\n' = '\r') by decide), if_pos (rfl : '\n' = '\n')]
    simp only [strncmp_ssh, discarded, Nat.add_zero]
  · by_cases hr : c = '\r'
    · subst hr
      have h0 : counted ['\r'] = 0 := by decide
      have hs : store '\r' = '\n' := by decide
      rw [h0, hs, if_pos (rfl : '\r' = '\r'),
        if_neg (show ¬ (q.map store ++ ['\n']).length < 255 by rw [hlen]; omega)]
      simp only [strncmp_ssh, discarded, Nat.add_zero]
    · have h1 : counted [c] = 1 := by rw [hcc, if_pos ⟨hr, hcn⟩]
      have hs : store c = c := by simp [store, hr]
      have hlen' : (q.map store ++ [c]).length = q.length + 1 := by simp
      rw [h1] at hn
      rw [h1, hs, if_neg hr, if_neg hcn,
        if_neg (show ¬ (n + counted q + 1 > 65536) by omega),
        if_neg (show ¬ (q.map store ++ [c]).length < 255 by rw [hlen']; omega),
        show n + (counted q + 1) = n + counted q + 1 by omega]
      simp only [strncmp_ssh, discarded]

/-- Segments that do not begin with `SSH-` are discarded one after the
other. -/
theorem read_loop_segments (t : Int) (segs : List (List Char))
    (h : ∀ q ∈ segs, IsSegment q ∧ (q.map store).take 4 ≠ ['S', 'S', 'H', '-']) :
    ∀ (rest : List ReadEv) (n : Nat) (tr : List Event),
      n + counted segs.flatten ≤ 65536 →
      read_loop t (bytes segs.flatten ++ rest) [] n tr =
        read_loop t rest [] (n + counted segs.flatten)
          (tr ++ segs.map (fun q => discarded (q.map store))) := by
  induction segs with
  | nil =>
    intro rest n tr _
    simp [bytes, counted]
  | cons q segs ih =>
    intro rest n tr hn
    obtain ⟨hq, hs⟩ := h q (List.mem_cons_self _ _)
    rw [List.flatten_cons, counted_append] at hn
    have e : bytes (List.flatten (q :: segs)) ++ rest =
        bytes q ++ (bytes segs.flatten ++ rest) := by
      simp [bytes]
    rw [e, read_loop_segment t q hq _ n tr (by omega), if_neg hs,
      ih (fun r hr => h r (List.mem_cons_of_mem _ hr)) rest (n + counted q) _ (by omega),
      List.flatten_cons, counted_append]
    simp [Nat.add_assoc]

/-- A buffer is accepted only when it begins with `SSH-` and either is full
or was ended by a line feed read from the connection. -/
theorem read_loop_accepts (t : Int) (inp : List ReadEv) :
    ∀ (buf : List Char) (n : Nat) (tr : List Event) (b : List Char), buf.length < 255 →
      (read_loop t inp buf n tr).res = .line b →
      ∃ consumed e, inp = consumed ++ e :: (read_loop t inp buf n tr).rest ∧
        (b.length = 255 ∨ delivered t e = some '\n') ∧ b.length ≤ 255 ∧
        b.take 4 = ['S', 'S', 'H', '-'] := by
  induction inp with
  | nil =>
    intro buf n tr b _ h
    rw [read_loop] at h
    exact ReadEnd.noConfusion h
  | cons e rest ih =>
    intro buf n tr b hbuf h
    have hcons : ∀ (buf' : List Char) (n' : Nat) (tr' : List Event), buf'.length < 255 →
        (read_loop t rest buf' n' tr').res = .line b →
        ∃ consumed e', e :: rest = consumed ++ e' :: (read_loop t rest buf' n' tr').rest ∧
          (b.length = 255 ∨ delivered t e' = some '\n') ∧ b.length ≤ 255 ∧
          b.take 4 = ['S', 'S', 'H', '-'] := by
      intro buf' n' tr' hb' h'
      obtain ⟨consumed, e', h1, h2⟩ := ih buf' n' tr' b hb' h'
      exact ⟨e :: consumed, e', by rw [List.cons_append, ← h1], h2⟩
    cases hd : delivered t e with
    | none =>
      obtain ⟨msg, hm⟩ := read_loop_undelivered t e rest buf n tr hd
      rw [hm] at h
      exact ReadEnd.noConfusion h
    | some c =>
      rw [read_loop_delivered t e c rest buf n tr hd, read_loop_ok] at h ⊢
      have hl1 : ∀ x : Char, (buf ++ [x]).length = buf.length + 1 := by
        intro x
        simp
      by_cases hr : c = '\r'
      · rw [if_pos hr] at h ⊢
        by_cases hlen : (buf ++ ['\n']).length < 255
        · rw [if_pos hlen] at h ⊢
          exact hcons _ _ _ hlen h
        · rw [if_neg hlen] at h ⊢
          by_cases hs : strncmp_eq0 (buf ++ ['\n']) "SSH-".toList 4 = true
          · rw [if_pos hs] at h ⊢
            have hb : buf ++ ['\n'] = b := by injection h
            refine ⟨[], e, rfl, Or.inl ?_, ?_, ?_⟩
            · rw [← hb, hl1] at *; omega
            · rw [← hb, hl1]; omega
            · rw [← hb]; exact (strncmp_ssh _).mp hs
          · rw [if_neg hs] at h ⊢
            exact hcons _ _ _ (by decide) h
      · rw [if_neg hr] at h ⊢
        by_cases hn : c = '\n'
        · rw [if_pos hn] at h ⊢
          by_cases hs : strncmp_eq0 (buf ++ ['\n']) "SSH-".toList 4 = true
          · rw [if_pos hs] at h ⊢
            have hb : buf ++ ['\n'] = b := by injection h
            refine ⟨[], e, rfl, Or.inr (by rw [hd, hn]), ?_, ?_⟩
            · rw [← hb, hl1]; omega
            · rw [← hb]; exact (strncmp_ssh _).mp hs
          · rw [if_neg hs] at h ⊢
            exact hcons _ _ _ (by decide) h
        · rw [if_neg hn] at h ⊢
          by_cases hcap : n + 1 > 65536
          · rw [if_pos hcap] at h
            exact ReadEnd.noConfusion h
          · rw [if_neg hcap] at h ⊢
            by_cases hlen : (buf ++ [c]).length < 255
            · rw [if_pos hlen] at h ⊢
              exact hcons _ _ _ hlen h
            · rw [if_neg hlen] at h ⊢
              by_cases hs : strncmp_eq0 (buf ++ [c]) "SSH-".toList 4 = true
              · rw [if_pos hs] at h ⊢
                have hb : buf ++ [c] = b := by injection h
                refine ⟨[], e, rfl, Or.inl ?_, ?_, ?_⟩
                · rw [← hb, hl1] at *; omega
                · rw [← hb, hl1]; omega
                · rw [← hb]; exact (strncmp_ssh _).mp hs
              · rw [if_neg hs] at h ⊢
                exact hcons _ _ _ (by decide) h

/-- **C28.** The banner reader examines the input in segments, a segment
ending at the first LF or after 255 buffered bytes, whichever comes first,
with every CR stored as LF without ending the segment; it accepts the first
segment that begins with "SSH-" (as long as the bytes arrive and the counter
of the cap is not used up), having discarded those before it with one `debug`
line each.  Consequently a buffer is accepted only once a real LF has been
read or the buffer is full, and an "SSH-" that falls exactly on a 255-byte
boundary inside an over-long preamble line is taken as the banner although it
does not start a line. -/
theorem C28_segments (timeout_ms : Int) (segs : List (List Char)) (p : List Char)
    (rest : List ReadEv) (tr : List Event)
    (hsegs : ∀ q ∈ segs, IsSegment q ∧ (q.map store).take 4 ≠ ['S', 'S', 'H', '-'])
    (hp : IsSegment p) (hssh : (p.map store).take 4 = ['S', 'S', 'H', '-'])
    (hcap : counted (segs.flatten ++ p) ≤ 65536) :
    read_loop timeout_ms (bytes (segs.flatten ++ p) ++ rest) [] 0 tr =
      ⟨.line (p.map store), counted (segs.flatten ++ p), rest,
        tr ++ segs.map (fun q => discarded (q.map store))⟩ ∧
    (∀ (inp : List ReadEv) (b : List Char),
      (read_loop timeout_ms inp [] 0 tr).res = .line b →
      ∃ consumed e, inp = consumed ++ e :: (read_loop timeout_ms inp [] 0 tr).rest ∧
        (b.length = 255 ∨ delivered timeout_ms e = some '\n') ∧ b.length ≤ 255 ∧
        b.take 4 = ['S', 'S', 'H', '-']) ∧
    (∀ a b : List Char, a.length = 255 → '\n' ∉ a →
      (a.map store).take 4 ≠ ['S', 'S', 'H', '-'] → IsSegment b →
      (b.map store).take 4 = ['S', 'S', 'H', '-'] → counted (a ++ b) ≤ 65536 →
      (read_loop timeout_ms (bytes (a ++ b) ++ rest) [] 0 tr).res = .line (b.map store) ∧
      (read_loop timeout_ms (bytes (a ++ b) ++ rest) [] 0 tr).rest = rest) := by
  have main : ∀ (segs : List (List Char)) (p : List Char),
      (∀ q ∈ segs, IsSegment q ∧ (q.map store).take 4 ≠ ['S', 'S', 'H', '-']) →
      IsSegment p → (p.map store).take 4 = ['S', 'S', 'H', '-'] →
      counted (segs.flatten ++ p) ≤ 65536 →
      read_loop timeout_ms (bytes (segs.flatten ++ p) ++ rest) [] 0 tr =
        ⟨.line (p.map store), counted (segs.flatten ++ p), rest,
          tr ++ segs.map (fun q => discarded (q.map store))⟩ := by
    intro segs p hsegs hp hssh hcap
    have hc := hcap
    rw [counted_append] at hc
    have e : bytes (segs.flatten ++ p) ++ rest = bytes segs.flatten ++ (bytes p ++ rest) := by
      simp [bytes]
    rw [e, read_loop_segments timeout_ms segs hsegs _ 0 tr (by omega),
      read_loop_segment timeout_ms p hp rest _ _ (by omega), if_pos hssh, counted_append]
    simp
  refine ⟨main segs p hsegs hp hssh hcap, ?_, ?_⟩
  · intro inp b h
    exact read_loop_accepts timeout_ms inp [] 0 tr b (by decide) h
  · intro a b ha hnl hna hb hsb hc
    have hm := main [a] b (by
      intro q hq
      rw [List.mem_singleton] at hq
      subst hq
      exact ⟨Or.inr ⟨ha, hnl⟩, hna⟩) hb hsb (by simpa using hc)
    simp only [List.flatten_cons, List.flatten_nil, List.append_nil] at hm
    rw [hm]
    exact ⟨rfl, rfl⟩

/-- Witness for C28: in the line of 255 bytes `a` followed by `SSH-2.0-Srv`
the first 255 bytes are discarded and `SSH-2.0-Srv` is accepted. -/
theorem C28_segments_witness :
    (read_loop 0 (bytes long_line) [] 0 []).res = .line "SSH-2.0-Srv\n".toList ∧
    (read_loop 0 (bytes long_line) [] 0 []).trace = [discarded (List.replicate 255 'a')] :=
  have h := (C28_segments 0 [List.replicate 255 'a'] "SSH-2.0-Srv\n".toList [] []
    (by
      intro q hq
      rw [List.mem_singleton] at hq
      subst hq
      exact ⟨Or.inr ⟨List.length_replicate _ _,
        fun hm => absurd (List.eq_of_mem_replicate hm) (by decide)⟩, by decide⟩)
    (by decide) (by decide)
    (Nat.le_trans (counted_le _) (by
      simp only [List.flatten_cons, List.flatten_nil, List.append_nil, List.length_append,
        List.length_replicate]
      decide))).1
  have e : bytes long_line = bytes ([List.replicate 255 'a'].flatten ++ "SSH-2.0-Srv\n".toList)
      ++ [] := by
    simp only [long_line, List.flatten_cons, List.flatten_nil, List.append_nil]
  ⟨by rw [e, h]; rfl, by
    rw [e, h]
    simp only [List.map_cons, List.map_nil, List.nil_append, List.map_replicate]
    rfl⟩

end SshConnect

namespace SshConnect

/-! ## Rejection and the trust store -/

/-- The post-check inserts nothing. -/
theorem post_check_adds (L : Locals) (s : St) :
    adds (post_check L s).2.trace = adds s.trace :=
  (post_check_emits (fun k => k ≠ .add) (by simp) (by simp) L s).2.2.adds_eq (fun _ h => h)

/-- The post-check returns -1 only for a mismatch between the host and the
address (IP checking on, host status not `HOST_CHANGED`, address status
`HOST_CHANGED`), in strict mode or in ask mode on an answer that is not yes. -/
theorem post_check_reject (L : Locals) (s s' : St) (h : post_check L s = (.ret (-1), s')) :
    s.options.check_host_ip ≠ 0 ∧ L.host_status ≠ .HOST_CHANGED ∧
    L.ip_status = .HOST_CHANGED ∧
    (s.options.strict_host_key_checking = 1 ∨
      (s.options.strict_host_key_checking = 2 ∧
        (confirm s (snprintf 1024 (ip_mismatch_msg L ++
          "\nAre you sure you want to continue connecting (yes/no)? "))).1 = 0)) := by
  unfold post_check at h
  dsimp only at h
  by_cases c1 : s.options.check_host_ip ≠ 0 ∧ L.host_status ≠ .HOST_CHANGED ∧
      L.ip_status = .HOST_CHANGED
  · rw [if_pos c1] at h
    refine ⟨c1.1, c1.2.1, c1.2.2, ?_⟩
    by_cases c2 : s.options.strict_host_key_checking = 1
    · exact Or.inl c2
    · rw [if_neg c2] at h
      by_cases c3 : s.options.strict_host_key_checking = 2
      · rw [if_pos c3] at h
        refine Or.inr ⟨c3, ?_⟩
        by_contra c4
        rw [if_neg c4] at h
        simp only [Prod.mk.injEq, Outcome.ret.injEq] at h
        exact absurd h.1 (by decide)
      · rw [if_neg c3] at h
        simp only [Prod.mk.injEq, Outcome.ret.injEq] at h
        exact absurd h.1 (by decide)
  · rw [if_neg c1] at h
    simp only [Prod.mk.injEq, Outcome.ret.injEq] at h
    exact absurd h.1 (by decide)

/-- The `case HOST_OK` inserts nothing unless the address status is
`HOST_NEW`. -/
theorem case_HOST_OK_adds (E : Env) (L : Locals) (k : Key) (readonly : Int) (u : String)
    (s : St) (h : L.ip_status ≠ .HOST_NEW) :
    adds (case_HOST_OK E L k readonly u s).trace = adds s.trace := by
  unfold case_HOST_OK
  dsimp only
  rw [if_neg (fun c => h c.2)]
  split_ifs <;> simp [logit, debug, St.emit, adds, List.filter_append, Event.kind]

/-- A `case HOST_NEW` that ends in the return value -1 has inserted nothing,
unless the question for the new host was answered yes, the host was inserted,
and the question about the host/IP mismatch after the `switch` was not. -/
theorem case_HOST_NEW_reject (E : Env) (L : Locals) (k : Key) (readonly : Int) (u : String)
    (s s' : St)
    (h : leave_switch L (case_HOST_NEW E L k readonly u s) = (.ret (-1), s')) :
    adds s'.trace = adds s.trace ∨
    (readonly = 0 ∧ L.ip_status = .HOST_CHANGED ∧ s.options.strict_host_key_checking = 2 ∧
      (new_host_prompt E L k s).1 ≠ 0 ∧
      (confirm (new_host_insert E L k u (new_host_prompt E L k s).2)
        (snprintf 1024 (ip_mismatch_msg L ++
          "\nAre you sure you want to continue connecting (yes/no)? "))).1 = 0 ∧
      adds s'.trace = adds s.trace ++ [.add u L.host k s.options.hash_known_hosts]) := by
  unfold case_HOST_NEW at h
  dsimp only at h
  by_cases c1 : readonly ≠ 0
  · rw [if_pos c1] at h
    simp only [leave_switch, Prod.mk.injEq] at h
    rw [← h.2]
    exact Or.inl rfl
  rw [if_neg c1] at h
  have hro : readonly = 0 := by simpa using c1
  by_cases c2 : s.options.strict_host_key_checking = 1
  · rw [if_pos c2] at h
    simp only [leave_switch, Prod.mk.injEq] at h
    rw [← h.2]
    exact Or.inl ((Quiet.error (fun x => x ≠ .add) _ _ (by simp)).2.2.2.adds_eq (fun _ x => x))
  rw [if_neg c2] at h
  have hins : ∀ t : St, t.options = s.options →
      post_check L (new_host_insert E L k u t) = (.ret (-1), s') →
      L.ip_status = .HOST_CHANGED ∧ s.options.strict_host_key_checking = 2 ∧
      (confirm (new_host_insert E L k u t) (snprintf 1024 (ip_mismatch_msg L ++
        "\nAre you sure you want to continue connecting (yes/no)? "))).1 = 0 ∧
      adds s'.trace = adds t.trace ++ [.add u L.host k s.options.hash_known_hosts] := by
    intro t ht hp
    have ho : (new_host_insert E L k u t).options = s.options :=
      (new_host_insert_quiet (fun _ => True) trivial trivial E L k u t).2.1.trans ht
    obtain ⟨_, _, p3, p4⟩ := post_check_reject L _ s' hp
    rw [ho] at p4
    have p5 := p4.resolve_left c2
    have ha := post_check_adds L (new_host_insert E L k u t)
    rw [hp] at ha
    refine ⟨p3, p5.1, p5.2, ?_⟩
    rw [ha, new_host_insert_adds]
    unfold spec_new_host_entries
    dsimp only
    rw [if_neg (fun c => by rw [p3] at c; exact absurd c.2 (by decide)), ht]
  by_cases c3 : s.options.strict_host_key_checking = 2
  · rw [if_pos c3] at h
    by_cases c4 : (new_host_prompt E L k s).1 = 0
    · rw [if_pos c4] at h
      simp only [leave_switch, Prod.mk.injEq] at h
      rw [← h.2]
      exact Or.inl (new_host_prompt_adds E L k s)
    · rw [if_neg c4] at h
      obtain ⟨q1, q2, q3, q4⟩ := hins _
        (new_host_prompt_emits (fun _ => True) trivial trivial trivial E L k s).1 h
      rw [new_host_prompt_adds] at q4
      exact Or.inr ⟨hro, q1, q2, c4, q3, q4⟩
  · rw [if_neg c3] at h
    exact absurd (hins s rfl h).2.1 c3

/-- The input of the counterexample to C27: the host `h` is unknown, the user
file holds another key for its address `1.2.3.4`, ask mode, read-write; the
user answers yes to the question for the new host and no to the question
about the host/IP mismatch.  The call returns -1 and has inserted the host. -/
theorem C27_counterexample :
    Option.map (fun r => (r.1, adds r.2.trace))
      (check_host_key (tableEnv tblNewIpChanged 1) "h" addr0 22 key0 0 "u" "g"
        (st0 opts0 [some "yes", some "no"])) =
      some (.ret (-1), [.add "u" "h" key0 0]) := by
  decide

/-- **C27 (amended).** Every call of `check_host_key` returns, and if it
returns -1 then no entry was added to a known-hosts file during the call,
unless the call was read-write in ask mode, the host status was `HOST_NEW`
and the address status `HOST_CHANGED`, the question for the new host was
answered yes and the question about the host/IP mismatch after it was not:
then exactly the entry for the host was added to the user file.  The
question for the new host is put in the state `s2` reached after the lookups
or, when the retry without port applies, after that retry was rejected. -/
theorem C27_rejection_adds (E : Env) (hostname : String) (hostaddr : SockAddr) (port : Nat)
    (host_key : Key) (readonly : Int) (u g : String) (s : St) :
    (∃ r, check_host_key E hostname hostaddr port host_key readonly u g s = some r) ∧
    ∀ s', check_host_key E hostname hostaddr port host_key readonly u g s =
        some (.ret (-1), s') →
      adds s'.trace = adds s.trace ∨
      (readonly = 0 ∧ s.options.strict_host_key_checking = 2 ∧
        ∃ L s1 s2, switch_entry E hostname hostaddr port host_key u g s = some (L, s1) ∧
          L.host_status = .HOST_NEW ∧ L.ip_status = .HOST_CHANGED ∧
          ((¬ retry_applies s1 port ∧ s2 = s1) ∨
            (retry_applies s1 port ∧ ∃ r, r ≠ 0 ∧
              check_host_key E hostname hostaddr 0 host_key ROQUIET u g
                (debug s1 "checking without port identifier") = some (.ret r, s2))) ∧
          (new_host_prompt E L host_key s2).1 ≠ 0 ∧
          (confirm (new_host_insert E L host_key u (new_host_prompt E L host_key s2).2)
            (snprintf 1024 (ip_mismatch_msg L ++
              "\nAre you sure you want to continue connecting (yes/no)? "))).1 = 0 ∧
          adds s'.trace =
            adds s.trace ++ [.add u L.host host_key s.options.hash_known_hosts]) := by
  refine ⟨(check_host_key_fuel_stable E 0 hostname hostaddr port host_key readonly u g s).2, ?_⟩
  intro s' h
  unfold check_host_key at h
  by_cases hb : localhost_bypass s hostaddr
  · rw [chk_bypass E 1 _ _ _ _ _ _ _ _ hb] at h
    simp only [Option.some.injEq, Prod.mk.injEq, Outcome.ret.injEq] at h
    exact absurd h.1 (by decide)
  cases hs : switch_entry E hostname hostaddr port host_key u g s with
  | none =>
    rw [chk_fatal E 1 _ _ _ _ _ _ _ _ hb hs] at h
    simp at h
  | some p =>
    obtain ⟨L, s1⟩ := p
    obtain ⟨_, _, e3, e4, _⟩ := switch_entry_spec (fun k => k ≠ .add) (by simp) (by simp) E
      hostname hostaddr port host_key u g s L s1 hs
    have a1 : adds s1.trace = adds s.trace := e3.adds_eq (fun _ x => x)
    have hnew : ∀ t : St, adds t.trace = adds s.trace → SameButIp s.options t.options →
        L.host_status = .HOST_NEW →
        ((¬ retry_applies s1 port ∧ t = s1) ∨
          (retry_applies s1 port ∧ ∃ r, r ≠ 0 ∧
            check_host_key E hostname hostaddr 0 host_key ROQUIET u g
              (debug s1 "checking without port identifier") = some (.ret r, t))) →
        leave_switch L (case_HOST_NEW E L host_key readonly u t) = (.ret (-1), s') →
        adds s'.trace = adds s.trace ∨
        (readonly = 0 ∧ s.options.strict_host_key_checking = 2 ∧
          ∃ L' s1' s2, some (L, s1) = some (L', s1') ∧
            L'.host_status = .HOST_NEW ∧ L'.ip_status = .HOST_CHANGED ∧
            ((¬ retry_applies s1' port ∧ s2 = s1') ∨
              (retry_applies s1' port ∧ ∃ r, r ≠ 0 ∧
                check_host_key E hostname hostaddr 0 host_key ROQUIET u g
                  (debug s1' "checking without port identifier") = some (.ret r, s2))) ∧
            (new_host_prompt E L' host_key s2).1 ≠ 0 ∧
            (confirm (new_host_insert E L' host_key u (new_host_prompt E L' host_key s2).2)
              (snprintf 1024 (ip_mismatch_msg L' ++
                "\nAre you sure you want to continue connecting (yes/no)? "))).1 = 0 ∧
            adds s'.trace =
              adds s.trace ++ [.add u L'.host host_key s.options.hash_known_hosts]) := by
      intro t ht hopt hst hwhere hl
      rcases case_HOST_NEW_reject E L host_key readonly u t s' hl with r | r
      · exact Or.inl (r.trans ht)
      · obtain ⟨r1, r2, r3, r4, r5, r6⟩ := r
        rw [ht, hopt.hash_known_hosts] at r6
        rw [hopt.strict_host_key_checking] at r3
        exact Or.inr ⟨r1, r3, L, s1, t, rfl, hst, r2, hwhere, r4, r5, r6⟩
    cases hst : L.host_status with
    | HOST_OK =>
      rw [chk_ok E 1 _ _ _ _ _ _ _ _ hb L s1 hs hst] at h
      simp only [Option.some.injEq] at h
      obtain ⟨_, _, p3, _⟩ := post_check_reject L _ s' h
      have a2 := post_check_adds L (case_HOST_OK E L host_key readonly u s1)
      rw [h] at a2
      left
      rw [a2, case_HOST_OK_adds E L host_key readonly u s1 (by rw [p3]; decide), a1]
    | HOST_CHANGED =>
      rw [chk_changed E 1 _ _ _ _ _ _ _ _ hb L s1 hs hst] at h
      simp only [Option.some.injEq] at h
      obtain ⟨t, c1, _, _, c4, _, _⟩ := case_HOST_CHANGED_spec E L host_key readonly u s1
      have b := leave_switch_emits (fun k => k ≠ .add) (by simp) (by simp) L
        (case_HOST_CHANGED E L host_key readonly u s1)
      rw [h, c1] at b
      left
      exact ((c4 (fun k => k ≠ .add) (by simp)).tr_trans b.2.2).adds_eq (fun _ x => x) |>.trans a1
    | HOST_FOUND =>
      rw [chk_found E 1 _ _ _ _ _ _ _ _ hb L s1 hs hst] at h
      simp at h
    | HOST_NEW =>
      by_cases hr : retry_applies s1 port
      · obtain ⟨⟨o2, s2⟩, hn⟩ := (check_host_key_fuel_port0 E 0 hostname hostaddr host_key
          ROQUIET u g (debug s1 "checking without port identifier")).2
        have n1 := (check_host_key_fuel_trace (fun k => k ≠ .add) (by simp) (by simp) (by simp)
          (by simp) E hostname hostaddr host_key u g 1 0 ROQUIET _ o2 s2
          (fun h0 => absurd h0 (by decide)) hn).1
        have n2 := check_host_key_fuel_options E hostname hostaddr host_key u g 1 0 ROQUIET _ o2
          s2 (fun _ _ _ _ => Or.inl rfl) hn
        have a3 : adds s2.trace = adds s.trace :=
          (((Quiet.debug (fun k => k ≠ .add) s1 _ (by simp)).2.2.2.tr_trans n1).adds_eq
            (fun _ x => x)).trans a1
        have o3 : SameButIp s.options s2.options := e4.sb_trans n2
        cases o2 with
        | fatal msg =>
          rw [chk_new_retry_fatal E 1 _ _ _ _ _ _ _ _ hb L s1 hs hst hr msg s2 hn] at h
          simp at h
        | ret r =>
          by_cases hr0 : r = 0
          · rw [hr0] at hn
            rw [chk_new_retry_accept E 1 _ _ _ _ _ _ _ _ hb L s1 hs hst hr s2 hn] at h
            simp only [Option.some.injEq] at h
            have a2 := post_check_adds L (debug s2 "found matching key w/out port")
            rw [h] at a2
            left
            rw [a2]
            exact ((Quiet.debug (fun k => k ≠ .add) s2 _ (by simp)).2.2.2.adds_eq
              (fun _ x => x)).trans a3
          · rw [chk_new_retry_reject E 1 _ _ _ _ _ _ _ _ hb L s1 hs hst hr r s2 hr0 hn] at h
            simp only [Option.some.injEq] at h
            have hn2 : check_host_key E hostname hostaddr 0 host_key ROQUIET u g
                (debug s1 "checking without port identifier") = some (.ret r, s2) :=
              ((check_host_key_fuel_port0 E 1 hostname hostaddr host_key ROQUIET u g
                (debug s1 "checking without port identifier")).1).trans hn
            exact hnew s2 a3 o3 hst (Or.inr ⟨hr, r, hr0, hn2⟩) h
      · rw [chk_new_noretry E 1 _ _ _ _ _ _ _ _ hb L s1 hs hst hr] at h
        simp only [Option.some.injEq] at h
        exact hnew s1 a1 e4 hst (Or.inl ⟨hr, rfl⟩) h

/-- Witness for C27: on empty known-hosts files in strict mode a read-write
call for an unknown host returns -1, and nothing was inserted. -/
theorem C27_rejection_adds_witness :
    ∃ s', check_host_key (tableEnv tblEmpty 1) "h" addr0 22 key0 0 "u" "g"
        (st0 opts_strict []) = some (.ret (-1), s') ∧
      adds s'.trace = adds (st0 opts_strict []).trace := by
  have h1 : Option.map Prod.fst (check_host_key (tableEnv tblEmpty 1) "h" addr0 22 key0 0
      "u" "g" (st0 opts_strict [])) = some (.ret (-1)) := by decide
  obtain ⟨⟨o, s'⟩, hr⟩ := (C27_rejection_adds (tableEnv tblEmpty 1) "h" addr0 22 key0 0
    "u" "g" (st0 opts_strict [])).1
  rw [hr] at h1
  simp only [Option.map_some', Option.some.injEq] at h1
  subst h1
  refine ⟨s', hr, ?_⟩
  rcases (C27_rejection_adds (tableEnv tblEmpty 1) "h" addr0 22 key0 0 "u" "g"
    (st0 opts_strict [])).2 s' hr with a | a
  · exact a
  · exact absurd a.2.1 (by decide)

end SshConnect
